import Mathlib

/-! # Frame-sink protocol of `demo_viz_layer.cc`

A shallow embedding of the two client sinks (`InkClient`, `LayerTreeFrameSink`)
and of the host (`Compositor`) of `src/demo_viz/demo_viz_layer.cc`.

* Every C++ member function becomes a Lean function on an explicit state
  record whose fields carry the names of the C++ members.
* Calls made through a mojo remote, calls into the GPU shared-image interface
  and tasks posted to a thread are collected, in program order, in a list of
  `Effect`s returned next to the new state.
* A member function that dereferences a pointer which may still be null
  (the resource provider, the bitmap, an unbound remote) returns `Option`;
  `none` stands for that undefined dereference.
* Library types that the file only uses (`viz::ClientResourceProvider`,
  `viz::FrameTokenGenerator`, `viz::ParentLocalSurfaceIdAllocator`,
  `viz::HostFrameSinkManager`, ...) are modelled from the specification, each
  under a doc comment that says so.
-/

namespace demo

/-! ## Colours, geometry, identifiers -/

abbrev SkColor := Nat

def SK_ColorRED : SkColor := 0xFFFF0000
def SK_ColorGREEN : SkColor := 0xFF00FF00
def SK_ColorYELLOW : SkColor := 0xFFFFFF00
def SK_ColorWHITE : SkColor := 0xFFFFFFFF
def SK_ColorGRAY : SkColor := 0xFF888888
def SK_ColorDKGRAY : SkColor := 0xFF444444
def SK_ColorMAGENTA : SkColor := 0xFFFF00FF

/-- The table `constexpr SkColor colors[]` (line 130). -/
def colors : List SkColor := [SK_ColorRED, SK_ColorGREEN, SK_ColorYELLOW]

/-- The expression `colors[i % base::size(colors)]`. -/
def colorAt (i : Nat) : SkColor := colors.getD (i % colors.length) 0

/-- The type `gfx::Size`. -/
structure Size where
  width : Int
  height : Int
  deriving DecidableEq, Repr

/-- The type `gfx::Point`. -/
structure Point where
  x : Int
  y : Int
  deriving DecidableEq, Repr

/-- The type `gfx::Rect`: origin and size. -/
structure Rect where
  x : Int
  y : Int
  width : Int
  height : Int
  deriving DecidableEq, Repr

/-- The default `gfx::Rect()`. -/
def Rect.empty : Rect := ⟨0, 0, 0, 0⟩

/-- The constructor `gfx::Rect(const gfx::Size&)`. -/
def Rect.ofSize (s : Size) : Rect := ⟨0, 0, s.width, s.height⟩

def Rect.size (r : Rect) : Size := ⟨r.width, r.height⟩

/-- A `gfx::Transform` as far as the file builds one: the identity, moved by
`Translate(x, y)`. -/
structure Transform where
  tx : Int
  ty : Int
  deriving DecidableEq, Repr

def Transform.identity : Transform := ⟨0, 0⟩

def Transform.Translate (t : Transform) (x y : Int) : Transform := ⟨t.tx + x, t.ty + y⟩

/-- The type `viz::FrameSinkId`, the pair `(client_id, sink_id)`. -/
structure FrameSinkId where
  client_id : Nat
  sink_id : Nat
  deriving DecidableEq, Repr

/-- The default `viz::FrameSinkId()`, which is not valid. -/
def FrameSinkId.default : FrameSinkId := ⟨0, 0⟩

def FrameSinkId.is_valid (f : FrameSinkId) : Bool := f.client_id != 0 || f.sink_id != 0

/-- The type `viz::LocalSurfaceId`. The parent sequence number is the
generation the parent-side allocator advances. -/
structure LocalSurfaceId where
  parent_sequence_number : Nat
  child_sequence_number : Nat
  embed_token : Nat
  deriving DecidableEq, Repr

/-- The type `viz::LocalSurfaceIdAllocation`: a `LocalSurfaceId` with the
wall-clock time of its allocation. -/
structure LocalSurfaceIdAllocation where
  local_surface_id_ : LocalSurfaceId
  allocation_time_ : Nat
  deriving DecidableEq, Repr

def LocalSurfaceIdAllocation.local_surface_id (a : LocalSurfaceIdAllocation) : LocalSurfaceId :=
  a.local_surface_id_

def LocalSurfaceIdAllocation.allocation_time (a : LocalSurfaceIdAllocation) : Nat :=
  a.allocation_time_

/-- The type `viz::SurfaceId = (FrameSinkId, LocalSurfaceId)`. -/
structure SurfaceId where
  frame_sink_id : FrameSinkId
  local_surface_id : LocalSurfaceId
  deriving DecidableEq, Repr

/-- The type `viz::SurfaceRange(start, end)`; `start` may be `base::nullopt`. -/
structure SurfaceRange where
  start : Option SurfaceId
  end_ : SurfaceId
  deriving DecidableEq, Repr

/-- Modelled from the spec: `viz::ParentLocalSurfaceIdAllocator` is a library
class the file only uses. The spec has it mint a `LocalSurfaceId` paired with
a generation and a wall-clock allocation timestamp, "monotonically advancing
the allocator's generation". -/
structure ParentLocalSurfaceIdAllocator where
  current_local_surface_id_allocation_ : LocalSurfaceIdAllocation
  deriving DecidableEq, Repr

/-- A newly constructed allocator: generation 0 (no id generated yet), with the
embed token it was created with. -/
def ParentLocalSurfaceIdAllocator.new (embed_token : Nat) : ParentLocalSurfaceIdAllocator :=
  ⟨⟨⟨0, 1, embed_token⟩, 0⟩⟩

/-- Modelled from the spec: `GenerateId()` advances the generation by one and
stamps the clock reading `now`. -/
def ParentLocalSurfaceIdAllocator.GenerateId (a : ParentLocalSurfaceIdAllocator) (now : Nat) :
    ParentLocalSurfaceIdAllocator :=
  let cur := a.current_local_surface_id_allocation_
  ⟨⟨{ cur.local_surface_id_ with
        parent_sequence_number := cur.local_surface_id_.parent_sequence_number + 1 }, now⟩⟩

def ParentLocalSurfaceIdAllocator.GetCurrentLocalSurfaceIdAllocation
    (a : ParentLocalSurfaceIdAllocator) : LocalSurfaceIdAllocation :=
  a.current_local_surface_id_allocation_

/-! ## Begin-frame ticks -/

/-- The type `viz::BeginFrameArgs`, the tick descriptor. -/
structure BeginFrameArgs where
  source_id : Nat
  sequence_number : Nat
  frame_time : Nat
  deadline : Nat
  interval : Nat
  deriving DecidableEq, Repr

/-- The type `viz::BeginFrameAck`: the tick it answers and whether a frame was
produced for it. -/
structure BeginFrameAck where
  source_id : Nat
  sequence_number : Nat
  has_damage : Bool
  deriving DecidableEq, Repr

/-- The constructor `viz::BeginFrameAck(args, has_damage)`. -/
def BeginFrameAck.ofArgs (args : BeginFrameArgs) (has_damage : Bool) : BeginFrameAck :=
  ⟨args.source_id, args.sequence_number, has_damage⟩

/-- Modelled from the spec: `viz::FrameTokenGenerator` is a library class the
file only uses. Frame tokens are `uint32_t` (`OnFrameTokenChanged(uint32_t)`,
line 1041); the generator starts at 0, the value reserved for "no token". -/
structure FrameTokenGenerator where
  frame_token_ : Nat
  deriving DecidableEq, Repr

def FrameTokenGenerator.new : FrameTokenGenerator := ⟨0⟩

/-- The pre-increment `++frame_token_generator_`: a 32-bit increment that steps
over the reserved value 0. -/
def FrameTokenGenerator.incr (g : FrameTokenGenerator) : FrameTokenGenerator :=
  let t := (g.frame_token_ + 1) % 2 ^ 32
  if t = 0 then ⟨1⟩ else ⟨t⟩

/-- The dereference `*frame_token_generator_`. -/
def FrameTokenGenerator.value (g : FrameTokenGenerator) : Nat := g.frame_token_

/-! ## Resources and the resource ledger -/

abbrev ResourceId := Nat

/-- The type `gpu::SyncToken`; release count 0 is the empty token. -/
structure SyncToken where
  release_count : Nat
  deriving DecidableEq, Repr

def SyncToken.empty : SyncToken := ⟨0⟩

/-- The type `viz::TransferableResource`: a software resource names a shared
bitmap, a GPU resource names a shared-image mailbox and carries a sync token. -/
structure TransferableResource where
  id : ResourceId
  is_software : Bool
  mailbox : Nat
  sync_token : SyncToken
  size : Size
  deriving DecidableEq, Repr

/-- The factory `viz::TransferableResource::MakeSoftware(id, size, format)`. -/
def TransferableResource.MakeSoftware (shared_bitmap_id : Nat) (size : Size) :
    TransferableResource :=
  { id := 0, is_software := true, mailbox := shared_bitmap_id, sync_token := SyncToken.empty,
    size := size }

/-- The factory `viz::TransferableResource::MakeGL(mailbox, ..., sync_token, size, ...)`. -/
def TransferableResource.MakeGL (mailbox : Nat) (sync_token : SyncToken) (size : Size) :
    TransferableResource :=
  { id := 0, is_software := false, mailbox := mailbox, sync_token := sync_token, size := size }

/-- Two descriptors are logically the same content when they name the same
backing store. -/
def TransferableResource.sameContent (a b : TransferableResource) : Bool :=
  a.is_software == b.is_software && a.mailbox == b.mailbox

/-- The release callbacks the sinks create: `base::DoNothing()` for a software
resource, `DeleteSharedImage` bound to a context provider and a mailbox for a
GPU resource. -/
inductive ReleaseCallback where
  | DoNothing
  | DeleteSharedImage (context_provider : Nat) (mailbox : Nat)
  deriving DecidableEq, Repr

/-- One element of the list the host returns: `(id, sync_token, lost)`. -/
structure ReturnedResource where
  id : ResourceId
  sync_token : SyncToken
  lost : Bool
  deriving DecidableEq, Repr

/-- A ledger entry. -/
structure ImportedResource where
  resource : TransferableResource
  release_callback : ReleaseCallback
  exported_count : Nat
  returned_sync_token : SyncToken
  returned_lost : Bool
  deriving DecidableEq, Repr

inductive ResourceError where
  | DuplicateResource
  | UnknownResource
  deriving DecidableEq, Repr

/-- One run of a release callback: the callback with the arguments
`(sync_token, is_lost)` it was run with. -/
structure ReleaseRun where
  id : ResourceId
  callback : ReleaseCallback
  sync_token : SyncToken
  is_lost : Bool
  deriving DecidableEq, Repr

/-- Modelled from the spec: `viz::ClientResourceProvider`, the Resource Ledger
of section 4.1, is a library class the file only uses. It maps the ids it hands
out to the imported resources and counts the outstanding sends of each. -/
structure ClientResourceProvider where
  imported_resources_ : List (ResourceId × ImportedResource)
  next_id_ : ResourceId
  deriving DecidableEq, Repr

namespace ClientResourceProvider

def new : ClientResourceProvider := ⟨[], 1⟩

def find (p : ClientResourceProvider) (id : ResourceId) : Option ImportedResource :=
  (p.imported_resources_.find? (fun e => e.1 == id)).map Prod.snd

def ids (p : ClientResourceProvider) : List ResourceId := p.imported_resources_.map Prod.fst

/-- Modelled from the spec: `import(resource) -> resource_id` registers the
resource with its release callback and fails with `DuplicateResource` when the
same content is already registered. -/
def ImportResource (p : ClientResourceProvider) (resource : TransferableResource)
    (release_callback : ReleaseCallback) :
    Except ResourceError (ClientResourceProvider × ResourceId) :=
  if p.imported_resources_.any (fun e => e.2.resource.sameContent resource) then
    .error .DuplicateResource
  else
    let id := p.next_id_
    .ok ({ imported_resources_ := p.imported_resources_ ++
              [(id, { resource := { resource with id := id },
                      release_callback := release_callback,
                      exported_count := 0,
                      returned_sync_token := SyncToken.empty,
                      returned_lost := false })],
           next_id_ := id + 1 }, id)

/-- Add one outstanding send to the entry of `id`. -/
def addExport (entries : List (ResourceId × ImportedResource)) (id : ResourceId) :
    List (ResourceId × ImportedResource) :=
  entries.map (fun e => if e.1 == id then (e.1, { e.2 with exported_count := e.2.exported_count + 1 })
                        else e)

/-- Modelled from the spec: `prepare_send(resource_ids) -> resource_refs`
increments the outstanding-send count of each id and returns the descriptors
to attach to the outgoing frame; it fails with `UnknownResource` when an id is
not in the ledger. -/
def PrepareSendToParent (p : ClientResourceProvider) (export_ids : List ResourceId) :
    Except ResourceError (ClientResourceProvider × List TransferableResource) :=
  if export_ids.all (fun id => (p.find id).isSome) then
    .ok ({ p with imported_resources_ := export_ids.foldl addExport p.imported_resources_ },
         export_ids.filterMap (fun id => (p.find id).map (fun e => e.resource)))
  else
    .error .UnknownResource

/-- Record one return on the entry of `r.id`. -/
def receiveOne (entries : List (ResourceId × ImportedResource)) (r : ReturnedResource) :
    List (ResourceId × ImportedResource) :=
  entries.map (fun e =>
    if e.1 == r.id then
      (e.1, { e.2 with exported_count := e.2.exported_count - 1,
                       returned_sync_token := r.sync_token,
                       returned_lost := e.2.returned_lost || r.lost })
    else e)

/-- Modelled from the spec: `receive_returns(returned_list)` decrements the
outstanding count of each returned id and keeps the returned sync token and
lost flag; an id the ledger does not hold is skipped. -/
def ReceiveReturnsFromParent (p : ClientResourceProvider) (resources : List ReturnedResource) :
    ClientResourceProvider :=
  { p with imported_resources_ := resources.foldl receiveOne p.imported_resources_ }

/-- Modelled from the spec: `remove_imported(id)` runs the release callback of
the entry with the latest sync token and erases the entry; an unknown id is a
silent no-op. -/
def RemoveImportedResource (p : ClientResourceProvider) (id : ResourceId) :
    ClientResourceProvider × List ReleaseRun :=
  match p.find id with
  | none => (p, [])
  | some e =>
    ({ p with imported_resources_ := p.imported_resources_.filter (fun x => !(x.1 == id)) },
     [{ id := id, callback := e.release_callback, sync_token := e.returned_sync_token,
        is_lost := e.returned_lost }])

end ClientResourceProvider

/-! ## Quads, render passes, compositor frames -/

/-- The type `viz::SharedQuadState` with the fields `SetAll` assigns. -/
structure SharedQuadState where
  quad_to_target_transform : Transform
  quad_layer_rect : Rect
  visible_quad_layer_rect : Rect
  clip_rect : Rect
  is_clipped : Bool
  are_contents_opaque : Bool
  opacity : Int
  sorting_context_id : Int
  deriving DecidableEq, Repr

/-- The kind of a draw quad with its kind-specific payload. -/
inductive Material where
  | DebugBorder (color : SkColor) (width : Int)
  | Picture
  | SolidColor (color : SkColor) (force_anti_aliasing_off : Bool)
  | Surface (surface_range : SurfaceRange) (default_background_color : SkColor)
      (stretch_content_to_fill_bounds : Bool)
  | Texture (resource_id : ResourceId) (premultiplied_alpha : Bool) (background_color : SkColor)
  | Tile (resource_id : ResourceId) (tex_coord_rect : Rect) (texture_size : Size)
  | VideoHole (overlay_plane_id : Nat)
  deriving DecidableEq, Repr

/-- A `viz::DrawQuad`. `shared_quad_state` is the pointer the quad holds, as the
position of the referenced state in the pass's `shared_quad_state_list`. -/
structure DrawQuad where
  shared_quad_state : Nat
  rect : Rect
  visible_rect : Rect
  needs_blending : Bool
  material : Material
  deriving DecidableEq, Repr

/-- The resource a quad references: Texture and Tile quads carry one. -/
def DrawQuad.resource (q : DrawQuad) : Option ResourceId :=
  match q.material with
  | .Texture r _ _ => some r
  | .Tile r _ _ => some r
  | _ => none

/-- What was appended to a render pass, in the order of the appends. -/
inductive PassItem where
  | state (s : SharedQuadState)
  | quad (q : DrawQuad)
  deriving DecidableEq, Repr

/-- The request `viz::CopyOutputRequest(RGBA_BITMAP, OnGetOutputResult)`. -/
inductive CopyOutputRequest where
  | RGBA_BITMAP
  deriving DecidableEq, Repr

/-- A `viz::RenderPass`. `items` keeps the shared quad states and the quads in
the order they were appended; the two lists of the C++ class are its
projections. -/
structure RenderPass where
  id : Nat
  output_rect : Rect
  damage_rect : Rect
  transform_to_root_target : Transform
  items : List PassItem
  copy_requests : List CopyOutputRequest
  deriving DecidableEq, Repr

namespace RenderPass

/-- The calls `RenderPass::Create()` and `SetNew(id, output, damage, transform)`. -/
def SetNew (id : Nat) (output_rect damage_rect : Rect) (t : Transform) : RenderPass :=
  { id := id, output_rect := output_rect, damage_rect := damage_rect,
    transform_to_root_target := t, items := [], copy_requests := [] }

def shared_quad_state_list (p : RenderPass) : List SharedQuadState :=
  p.items.filterMap (fun i => match i with | .state s => some s | .quad _ => none)

def quad_list (p : RenderPass) : List DrawQuad :=
  p.items.filterMap (fun i => match i with | .quad q => some q | .state _ => none)

/-- The call `CreateAndAppendSharedQuadState()` followed by `SetAll(...)` on the
state just created: appends the state and returns the pointer to it. -/
def CreateAndAppendSharedQuadState (p : RenderPass) (s : SharedQuadState) : RenderPass × Nat :=
  ({ p with items := p.items ++ [.state s] }, p.shared_quad_state_list.length)

/-- The call `CreateAndAppendDrawQuad<T>()` followed by `SetNew(...)` on the quad
just created. -/
def CreateAndAppendDrawQuad (p : RenderPass) (q : DrawQuad) : RenderPass :=
  { p with items := p.items ++ [.quad q] }

/-- Walks the appends in order with the number of states seen so far: every
quad points at a state appended before it. -/
def statesPrecedeQuads : List PassItem → Nat → Bool
  | [], _ => true
  | .state _ :: rest, n => statesPrecedeQuads rest (n + 1)
  | .quad q :: rest, n => decide (q.shared_quad_state < n) && statesPrecedeQuads rest n

/-- Every quad of the pass references a shared quad state that was appended to
this pass before the quad. -/
def quadsReferenceEarlierStates (p : RenderPass) : Bool := statesPrecedeQuads p.items 0

end RenderPass

/-- The type `viz::CompositorFrameMetadata`, the fields `CreateFrame` sets. -/
structure CompositorFrameMetadata where
  begin_frame_ack : BeginFrameAck
  device_scale_factor : Int
  local_surface_id_allocation_time : Nat
  frame_token : Nat
  send_frame_token_to_embedder : Bool
  deriving DecidableEq, Repr

/-- The type `viz::CompositorFrame`. -/
structure CompositorFrame where
  metadata : CompositorFrameMetadata
  resource_list : List TransferableResource
  render_pass_list : List RenderPass
  deriving DecidableEq, Repr

/-- All quads of a frame. -/
def CompositorFrame.quads (f : CompositorFrame) : List DrawQuad :=
  f.render_pass_list.flatMap RenderPass.quad_list

/-! ## What a sink does to the outside -/

/-- A raster operation on an `SkCanvas`. -/
inductive DrawOp where
  | clear (color : SkColor)
  | drawCircle (cx cy radius : Int) (color : SkColor)
  | drawPath (points : List Point) (color : SkColor) (stroke_width : Int)
  deriving DecidableEq, Repr

/-- An `SkBitmap` of the given size, with what was drawn on it since it was
last cleared. -/
structure SkBitmap where
  width : Int
  height : Int
  ops : List DrawOp
  deriving DecidableEq, Repr

/-- The call `allocPixels(SkImageInfo::Make(width, height, ...))`. -/
def SkBitmap.allocPixels (width height : Int) : SkBitmap := ⟨width, height, []⟩

def SkBitmap.clear (b : SkBitmap) (color : SkColor) : SkBitmap := { b with ops := [.clear color] }

def SkBitmap.draw (b : SkBitmap) (op : DrawOp) : SkBitmap := { b with ops := b.ops ++ [op] }

/-- A `viz::ContextProvider`, known by its identity. -/
structure ContextProvider where
  id : Nat
  deriving DecidableEq, Repr

/-- The methods of `viz::mojom::CompositorFrameSink` the sinks call through
their remote. -/
inductive SinkCall where
  | SetNeedsBeginFrame (needs_begin_frame : Bool)
  | SubmitCompositorFrame (local_surface_id : LocalSurfaceId) (frame : CompositorFrame)
  | DidNotProduceFrame (ack : BeginFrameAck)
  | DidAllocateSharedBitmap (pixels : SkBitmap) (id : Nat)
  deriving DecidableEq, Repr

/-- A call a sink makes on something outside itself. `remote` is a call through
the `CompositorFrameSink` remote (`associated` tells which of the two remotes
of `LayerTreeFrameSink`); `ReleaseCallbackRun` is the ledger running the
release callback of a resource. -/
inductive Effect where
  | remote (associated : Bool) (call : SinkCall)
  | CreateSharedImage (context_provider : Nat) (mailbox : Nat) (size : Size) (pixels : SkBitmap)
  | DestroySharedImage (context_provider : Nat) (sync_token : SyncToken) (mailbox : Nat)
  | AddPlatformEventObserver
  | ReleaseCallbackRun (run : ReleaseRun)
  deriving DecidableEq, Repr

/-- The answer to a begin-frame tick: a submitted frame or a "did not produce". -/
def Effect.isResponse : Effect → Bool
  | .remote _ (.SubmitCompositorFrame _ _) => true
  | .remote _ (.DidNotProduceFrame _) => true
  | _ => false

def Effect.isSubmit : Effect → Bool
  | .remote _ (.SubmitCompositorFrame _ _) => true
  | _ => false

def Effect.isDidNotProduce : Effect → Bool
  | .remote _ (.DidNotProduceFrame _) => true
  | _ => false

/-- The frame of a `SubmitCompositorFrame` call. -/
def Effect.frame : Effect → Option CompositorFrame
  | .remote _ (.SubmitCompositorFrame _ f) => some f
  | _ => none

/-- The ack a response carries: the frame's `begin_frame_ack`, or the argument
of `DidNotProduceFrame`. -/
def Effect.ack : Effect → Option BeginFrameAck
  | .remote _ (.SubmitCompositorFrame _ f) => some f.metadata.begin_frame_ack
  | .remote _ (.DidNotProduceFrame a) => some a
  | _ => none

/-- The frames submitted in a run of effects, in submission order. -/
def submittedFrames (es : List Effect) : List CompositorFrame := es.filterMap Effect.frame

/-- Running a release callback with `(sync_token, is_lost)`: `base::DoNothing()`
does nothing, `DeleteSharedImage` (lines 379 and 922) calls
`sii->DestroySharedImage(sync_token, mailbox)`. -/
def DeleteSharedImage (run : ReleaseRun) : List Effect :=
  match run.callback with
  | .DoNothing => []
  | .DeleteSharedImage cp mailbox => [.DestroySharedImage cp run.sync_token mailbox]

/-- What the ledger's release runs do, in order: each run, then the body of its
callback. -/
def runReleases (runs : List ReleaseRun) : List Effect :=
  runs.flatMap (fun r => .ReleaseCallbackRun r :: DeleteSharedImage r)

/-- The loop `for (auto resource : resources) RemoveImportedResource(resource.id)`. -/
def removeReturned (p : ClientResourceProvider) :
    List ReturnedResource → ClientResourceProvider × List ReleaseRun
  | [] => (p, [])
  | r :: rest =>
    let (p1, runs1) := p.RemoveImportedResource r.id
    let (p2, runs2) := removeReturned p1 rest
    (p2, runs1 ++ runs2)

/-- The call `client_resource_provider_->PrepareSendToParent({resource},
&frame.resource_list, nullptr)`: dereferences the provider; the descriptors are
pushed onto `list`. The call returns nothing, so a failure of the ledger leaves
ledger and list as they were. -/
def prepareSendToParent (provider : Option ClientResourceProvider) (export_ids : List ResourceId)
    (list : List TransferableResource) :
    Option (ClientResourceProvider × List TransferableResource) :=
  match provider with
  | none => none
  | some p =>
    match p.PrepareSendToParent export_ids with
    | .ok (p1, refs) => some (p1, list ++ refs)
    | .error _ => some (p, list)

/-- The body shared by `DidReceiveCompositorFrameAck` and `ReclaimResources` of
both sinks: forward the list to the ledger, then remove every returned id. -/
def receiveAndRemove (provider : Option ClientResourceProvider) (resources : List ReturnedResource) :
    Option (ClientResourceProvider × List Effect) :=
  match provider with
  | none => none
  | some p =>
    let (p1, runs) := removeReturned (p.ReceiveReturnsFromParent resources) resources
    some (p1, runReleases runs)

/-! ## InkClient (lines 135-451) -/

/-- The `SkPaint` of the ink stroke. -/
structure SkPaint where
  color : SkColor
  stroke_width : Int
  deriving DecidableEq, Repr

/-- The closures posted to the thread of an `InkClient`. -/
inductive InkTask where
  | Bind
  | SetContextProvider (context_provider : Option ContextProvider)
  | Draw (location : Point)
  deriving DecidableEq, Repr

/-- The members of `InkClient`. `thread_` is the task queue of the sink's
thread; `receiver_` and `frame_sink_remote_` say whether the mojo endpoint is
bound; `canvas_` draws into `bitmap_` and is kept with it;
`generated_names_` counts the names drawn so far from
`SharedBitmap::GenerateId()` and `CreateSharedImage`, which return a new name
on every call. -/
structure InkClient where
  frame_sink_id_ : FrameSinkId
  local_surface_id_ : LocalSurfaceIdAllocation
  bounds_ : Rect
  thread_ : List InkTask
  receiver_ : Bool
  frame_sink_remote_ : Bool
  local_surface_id_allocator_ : ParentLocalSurfaceIdAllocator
  frame_token_generator_ : FrameTokenGenerator
  context_provider_ : Option ContextProvider
  bitmap_ : Option SkBitmap
  path_ : List Point
  paint_ : SkPaint
  need_redraw_ : Bool
  client_resource_provider_ : Option ClientResourceProvider
  generated_names_ : Nat
  deriving DecidableEq, Repr

namespace InkClient

/-- The constructor (lines 138-146). `need_redraw_` has no initialiser; its
value until `Bind` is whatever `indeterminate` is. -/
def new (frame_sink_id : FrameSinkId) (local_surface_id : LocalSurfaceIdAllocation)
    (bounds : Rect) (embed_token : Nat) (indeterminate : Bool) : InkClient :=
  { frame_sink_id_ := frame_sink_id
    local_surface_id_ := local_surface_id
    bounds_ := bounds
    thread_ := []
    receiver_ := false
    frame_sink_remote_ := false
    local_surface_id_allocator_ := ParentLocalSurfaceIdAllocator.new embed_token
    frame_token_generator_ := FrameTokenGenerator.new
    context_provider_ := none
    bitmap_ := none
    path_ := []
    paint_ := ⟨0, 0⟩
    need_redraw_ := indeterminate
    client_resource_provider_ := none
    generated_names_ := 0 }

/-- `InkClient::Bind` (lines 148-177); `on_thread` is
`thread_.task_runner()->BelongsToCurrentThread()`. -/
def Bind (s : InkClient) (on_thread : Bool) : InkClient × List Effect :=
  if on_thread then
    ({ s with
        receiver_ := true
        frame_sink_remote_ := true
        client_resource_provider_ := some ClientResourceProvider.new
        bitmap_ := some ((SkBitmap.allocPixels s.bounds_.width s.bounds_.height).clear
                          SK_ColorWHITE)
        path_ := s.path_ ++ [⟨0, 0⟩]
        paint_ := ⟨SK_ColorRED, 5⟩
        need_redraw_ := true },
     [.remote false (.SetNeedsBeginFrame true)])
  else
    ({ s with thread_ := s.thread_ ++ [.Bind] }, [.AddPlatformEventObserver])

/-- `InkClient::SetContextProvider` (lines 179-191). -/
def SetContextProvider (s : InkClient) (on_thread : Bool)
    (context_provider : Option ContextProvider) : InkClient :=
  if on_thread then
    { s with context_provider_ := context_provider }
  else
    { s with thread_ := s.thread_ ++ [.SetContextProvider context_provider] }

/-- `InkClient::DidProcessEvent` (lines 198-211): a mouse or touch move posts
`Draw(location)` to the sink's thread. -/
def DidProcessEvent (s : InkClient) (is_move : Bool) (location : Point) : InkClient :=
  if is_move then { s with thread_ := s.thread_ ++ [.Draw location] } else s

/-- `InkClient::Draw` (lines 213-222). -/
def Draw (s : InkClient) (location : Point) : Option (InkClient × List Effect) :=
  match s.bitmap_ with
  | none => none
  | some bitmap =>
    let path := s.path_ ++ [location]
    let bitmap := (bitmap.clear SK_ColorWHITE).draw
      (.drawPath path s.paint_.color s.paint_.stroke_width)
    if s.frame_sink_remote_ then
      some ({ s with bitmap_ := some bitmap, path_ := path, need_redraw_ := true },
            [.remote false (.SetNeedsBeginFrame true)])
    else none

/-- `InkClient::CreateSoftwareResource` (lines 325-349). -/
def CreateSoftwareResource (s : InkClient) (size : Size) (source : SkBitmap) :
    Option (InkClient × ResourceId × List Effect) :=
  let shared_bitmap_id := s.generated_names_
  if s.frame_sink_remote_ then
    match s.client_resource_provider_ with
    | none => none
    | some provider =>
      match provider.ImportResource (TransferableResource.MakeSoftware shared_bitmap_id size)
              .DoNothing with
      | .error _ => none
      | .ok (provider1, id) =>
        some ({ s with generated_names_ := shared_bitmap_id + 1
                       client_resource_provider_ := some provider1 },
              id, [.remote false (.DidAllocateSharedBitmap source shared_bitmap_id)])
  else none

/-- `InkClient::CreateGpuResource` (lines 350-377). -/
def CreateGpuResource (s : InkClient) (size : Size) (source : SkBitmap) :
    Option (InkClient × ResourceId × List Effect) :=
  match s.context_provider_ with
  | none => none
  | some cp =>
    let mailbox := s.generated_names_
    let sync_token : SyncToken := ⟨mailbox + 1⟩
    let gl_resource := TransferableResource.MakeGL mailbox sync_token size
    let release_callback := ReleaseCallback.DeleteSharedImage cp.id mailbox
    match s.client_resource_provider_ with
    | none => none
    | some provider =>
      match provider.ImportResource gl_resource release_callback with
      | .error _ => none
      | .ok (provider1, id) =>
        some ({ s with generated_names_ := mailbox + 1
                       client_resource_provider_ := some provider1 },
              id, [.CreateSharedImage cp.id mailbox size source])

/-- `InkClient::CreateResource` (lines 316-322). -/
def CreateResource (s : InkClient) (g_use_gpu : Bool) (size : Size) (source : SkBitmap) :
    Option (InkClient × ResourceId × List Effect) :=
  if s.context_provider_.isSome && g_use_gpu then
    s.CreateGpuResource size source
  else
    s.CreateSoftwareResource size source

/-- `InkClient::AppendTextureDrawQuad` (lines 253-289). -/
def AppendTextureDrawQuad (s : InkClient) (g_use_gpu : Bool) (frame : CompositorFrame)
    (render_pass : RenderPass) :
    Option (InkClient × CompositorFrame × RenderPass × List Effect) :=
  let tile_size : Size := ⟨s.bounds_.width, s.bounds_.height⟩
  match s.bitmap_ with
  | none => none
  | some bitmap =>
    match s.CreateResource g_use_gpu tile_size bitmap with
    | none => none
    | some (s1, resource, effects) =>
      let output_rect := s1.bounds_
      let transform := Transform.identity
      let (pass1, quad_state) := render_pass.CreateAndAppendSharedQuadState
        { quad_to_target_transform := transform
          quad_layer_rect := output_rect
          visible_quad_layer_rect := output_rect
          clip_rect := output_rect
          is_clipped := false
          are_contents_opaque := false
          opacity := 1
          sorting_context_id := 0 }
      let pass2 := pass1.CreateAndAppendDrawQuad
        { shared_quad_state := quad_state
          rect := output_rect
          visible_rect := output_rect
          needs_blending := false
          material := .Texture resource true SK_ColorGRAY }
      match prepareSendToParent s1.client_resource_provider_ [resource] frame.resource_list with
      | none => none
      | some (provider, list) =>
        some ({ s1 with client_resource_provider_ := some provider },
              { frame with resource_list := list }, pass2, effects)

/-- `InkClient::AppendSolidColorDrawQuad` (lines 291-315). -/
def AppendSolidColorDrawQuad (s : InkClient) (render_pass : RenderPass) : RenderPass :=
  let color := colorAt (s.frame_token_generator_.value / 60 + 1)
  let output_rect := s.bounds_
  let (pass1, quad_state) := render_pass.CreateAndAppendSharedQuadState
    { quad_to_target_transform := Transform.identity
      quad_layer_rect := output_rect
      visible_quad_layer_rect := output_rect
      clip_rect := Rect.empty
      is_clipped := false
      are_contents_opaque := false
      opacity := 1
      sorting_context_id := 0 }
  pass1.CreateAndAppendDrawQuad
    { shared_quad_state := quad_state
      rect := output_rect
      visible_rect := output_rect
      needs_blending := false
      material := .SolidColor color false }

/-- `InkClient::CreateFrame` (lines 224-250). -/
def CreateFrame (s : InkClient) (g_use_gpu : Bool) (args : BeginFrameArgs) :
    Option (InkClient × CompositorFrame × List Effect) :=
  let generator := s.frame_token_generator_.incr
  let s0 := { s with frame_token_generator_ := generator }
  let frame : CompositorFrame :=
    { metadata :=
        { begin_frame_ack := BeginFrameAck.ofArgs args true
          device_scale_factor := 1
          local_surface_id_allocation_time := s.local_surface_id_.allocation_time
          frame_token := generator.value
          send_frame_token_to_embedder := true }
      resource_list := []
      render_pass_list := [] }
  let output_rect := s0.bounds_
  let damage_rect := output_rect
  let render_pass := RenderPass.SetNew 1 output_rect damage_rect Transform.identity
  match s0.AppendTextureDrawQuad g_use_gpu frame render_pass with
  | none => none
  | some (s1, frame1, pass1, effects) =>
    let pass2 := s1.AppendSolidColorDrawQuad pass1
    some (s1, { frame1 with render_pass_list := frame1.render_pass_list ++ [pass2] }, effects)

/-- `InkClient::OnBeginFrame` (lines 390-405). -/
def OnBeginFrame (s : InkClient) (g_use_gpu : Bool) (args : BeginFrameArgs) :
    Option (InkClient × List Effect) :=
  if s.need_redraw_ then
    match s.CreateFrame g_use_gpu args with
    | none => none
    | some (s1, frame, effects) =>
      if s1.frame_sink_remote_ then
        some ({ s1 with need_redraw_ := false },
              effects ++ [.remote false
                (.SubmitCompositorFrame s.local_surface_id_.local_surface_id frame)])
      else none
  else if s.frame_sink_remote_ then
    some ({ s with need_redraw_ := false },
          [.remote false (.DidNotProduceFrame (BeginFrameAck.ofArgs args false))])
  else none

/-- `InkClient::DidReceiveCompositorFrameAck` (lines 407-416). -/
def DidReceiveCompositorFrameAck (s : InkClient) (resources : List ReturnedResource) :
    Option (InkClient × List Effect) :=
  match receiveAndRemove s.client_resource_provider_ resources with
  | none => none
  | some (provider, effects) => some ({ s with client_resource_provider_ := some provider }, effects)

/-- `InkClient::ReclaimResources` (lines 422-431). -/
def ReclaimResources (s : InkClient) (resources : List ReturnedResource) :
    Option (InkClient × List Effect) :=
  match receiveAndRemove s.client_resource_provider_ resources with
  | none => none
  | some (provider, effects) => some ({ s with client_resource_provider_ := some provider }, effects)

/-- `InkClient::OnBeginFramePausedChanged` (lines 418-420): empty body. -/
def OnBeginFramePausedChanged (s : InkClient) (_paused : Bool) : InkClient := s

end InkClient

/-! ## LayerTreeFrameSink (lines 455-998) -/

/-- The closures posted to the thread of a `LayerTreeFrameSink`. -/
inductive LayerTask where
  | BindOnThread (associated_remote : Bool)
  | SetContextProvider (context_provider : Option ContextProvider)
  deriving DecidableEq, Repr

/-- The members of `LayerTreeFrameSink`. `thread_` is the task queue of the
sink's thread; `receiver_` and the two remotes say whether the mojo endpoint is
bound; `generated_names_` counts the names drawn so far from
`SharedBitmap::GenerateId()` and `CreateSharedImage`. The mutex `lock_` makes
`EmbedChild` and `OnBeginFrame` atomic with respect to each other, which is what
a function on the whole state is. -/
structure LayerTreeFrameSink where
  receiver_ : Bool
  frame_sink_associated_remote_ : Bool
  frame_sink_remote_ : Bool
  frame_sink_id_ : FrameSinkId
  local_surface_id_ : LocalSurfaceIdAllocation
  bounds_ : Rect
  local_surface_id_allocator_ : ParentLocalSurfaceIdAllocator
  child_frame_sink_id_ : FrameSinkId
  thread_ : List LayerTask
  frame_token_generator_ : FrameTokenGenerator
  context_provider_ : Option ContextProvider
  client_resource_provider_ : Option ClientResourceProvider
  generated_names_ : Nat
  deriving DecidableEq, Repr

/-- The value of the function-local
`static const base::UnguessableToken overlay_plane_id` (line 789). -/
def overlay_plane_id : Nat := 0

namespace LayerTreeFrameSink

/-- The constructor (lines 457-465). -/
def new (frame_sink_id : FrameSinkId) (local_surface_id : LocalSurfaceIdAllocation)
    (bounds : Rect) (embed_token : Nat) : LayerTreeFrameSink :=
  { receiver_ := false
    frame_sink_associated_remote_ := false
    frame_sink_remote_ := false
    frame_sink_id_ := frame_sink_id
    local_surface_id_ := local_surface_id
    bounds_ := bounds
    local_surface_id_allocator_ := ParentLocalSurfaceIdAllocator.new embed_token
    child_frame_sink_id_ := FrameSinkId.default
    thread_ := []
    frame_token_generator_ := FrameTokenGenerator.new
    context_provider_ := none
    client_resource_provider_ := none
    generated_names_ := 0 }

/-- `LayerTreeFrameSink::Bind` (lines 473-492), both overloads: `associated`
tells whether the associated remote (root client) or the plain remote was
passed. -/
def Bind (s : LayerTreeFrameSink) (associated : Bool) : LayerTreeFrameSink :=
  { s with thread_ := s.thread_ ++ [.BindOnThread associated] }

/-- `LayerTreeFrameSink::SetContextProvider` (lines 494-506). -/
def SetContextProvider (s : LayerTreeFrameSink) (on_thread : Bool)
    (context_provider : Option ContextProvider) : LayerTreeFrameSink :=
  if on_thread then
    { s with context_provider_ := context_provider }
  else
    { s with thread_ := s.thread_ ++ [.SetContextProvider context_provider] }

def frame_sink_id (s : LayerTreeFrameSink) : FrameSinkId := s.frame_sink_id_

/-- `LayerTreeFrameSink::EmbedChild` (lines 510-516); `now` is the clock reading
`GenerateId` stamps. -/
def EmbedChild (s : LayerTreeFrameSink) (child_frame_sink_id : FrameSinkId) (now : Nat) :
    LayerTreeFrameSink × LocalSurfaceIdAllocation :=
  let allocator := s.local_surface_id_allocator_.GenerateId now
  ({ s with child_frame_sink_id_ := child_frame_sink_id
            local_surface_id_allocator_ := allocator },
   allocator.GetCurrentLocalSurfaceIdAllocation)

/-- `LayerTreeFrameSink::GetCompositorFrameSinkPtr` (lines 976-980): which
remote the calls go through, `none` when neither is bound. -/
def GetCompositorFrameSinkPtr (s : LayerTreeFrameSink) : Option Bool :=
  if s.frame_sink_associated_remote_ then some true
  else if s.frame_sink_remote_ then some false
  else none

/-- `LayerTreeFrameSink::BindOnThread` (lines 519-534). -/
def BindOnThread (s : LayerTreeFrameSink) (associated_remote : Bool) :
    LayerTreeFrameSink × List Effect :=
  let s1 := if associated_remote then { s with receiver_ := true, frame_sink_associated_remote_ := true }
            else { s with receiver_ := true, frame_sink_remote_ := true }
  ({ s1 with client_resource_provider_ := some ClientResourceProvider.new },
   [.remote s1.frame_sink_associated_remote_ (.SetNeedsBeginFrame true)])

/-- `LayerTreeFrameSink::AppendDebugBorderDrawQuad` (lines 603-623). -/
def AppendDebugBorderDrawQuad (s : LayerTreeFrameSink) (render_pass : RenderPass) : RenderPass :=
  let output_rect := s.bounds_
  let (pass1, quad_state) := render_pass.CreateAndAppendSharedQuadState
    { quad_to_target_transform := Transform.identity
      quad_layer_rect := output_rect
      visible_quad_layer_rect := output_rect
      clip_rect := output_rect
      is_clipped := false
      are_contents_opaque := false
      opacity := 1
      sorting_context_id := 0 }
  pass1.CreateAndAppendDrawQuad
    { shared_quad_state := quad_state
      rect := output_rect
      visible_rect := output_rect
      needs_blending := false
      material := .DebugBorder SK_ColorMAGENTA 20 }

/-- `LayerTreeFrameSink::CreateSoftwareResource` (lines 864-888). -/
def CreateSoftwareResource (s : LayerTreeFrameSink) (size : Size) (source : SkBitmap) :
    Option (LayerTreeFrameSink × ResourceId × List Effect) :=
  let shared_bitmap_id := s.generated_names_
  match s.GetCompositorFrameSinkPtr with
  | none => none
  | some sink =>
    match s.client_resource_provider_ with
    | none => none
    | some provider =>
      match provider.ImportResource (TransferableResource.MakeSoftware shared_bitmap_id size)
              .DoNothing with
      | .error _ => none
      | .ok (provider1, id) =>
        some ({ s with generated_names_ := shared_bitmap_id + 1
                       client_resource_provider_ := some provider1 },
              id, [.remote sink (.DidAllocateSharedBitmap source shared_bitmap_id)])

/-- `LayerTreeFrameSink::CreateGpuResource` (lines 890-920). -/
def CreateGpuResource (s : LayerTreeFrameSink) (size : Size) (source : SkBitmap) :
    Option (LayerTreeFrameSink × ResourceId × List Effect) :=
  match s.context_provider_ with
  | none => none
  | some cp =>
    let mailbox := s.generated_names_
    let sync_token : SyncToken := ⟨mailbox + 1⟩
    let gl_resource := TransferableResource.MakeGL mailbox sync_token size
    let release_callback := ReleaseCallback.DeleteSharedImage cp.id mailbox
    match s.client_resource_provider_ with
    | none => none
    | some provider =>
      match provider.ImportResource gl_resource release_callback with
      | .error _ => none
      | .ok (provider1, id) =>
        some ({ s with generated_names_ := mailbox + 1
                       client_resource_provider_ := some provider1 },
              id, [.CreateSharedImage cp.id mailbox size source])

/-- `LayerTreeFrameSink::CreateResource` (lines 855-861). -/
def CreateResource (s : LayerTreeFrameSink) (g_use_gpu : Bool) (size : Size) (source : SkBitmap) :
    Option (LayerTreeFrameSink × ResourceId × List Effect) :=
  if s.context_provider_.isSome && g_use_gpu then
    s.CreateGpuResource size source
  else
    s.CreateSoftwareResource size source

/-- The 200x200 bitmap of three circles that `AppendTileDrawQuad` and
`AppendTextureDrawQuad` paint; `k1 k2 k3` are the offsets added to
`*frame_token_generator_ / 60` for the three colours. -/
def circles (s : LayerTreeFrameSink) (k1 k2 k3 : Nat) : SkBitmap :=
  let t := s.frame_token_generator_.value / 60
  ((((SkBitmap.allocPixels 200 200).clear SK_ColorWHITE).draw
      (.drawCircle 30 100 150 (colorAt (t + k1)))).draw
      (.drawCircle 10 50 60 (colorAt (t + k2)))).draw
      (.drawCircle 180 180 50 (colorAt (t + k3)))

/-- `LayerTreeFrameSink::AppendTileDrawQuad` (lines 626-678). -/
def AppendTileDrawQuad (s : LayerTreeFrameSink) (g_use_gpu : Bool) (frame : CompositorFrame)
    (render_pass : RenderPass) :
    Option (LayerTreeFrameSink × CompositorFrame × RenderPass × List Effect) :=
  let bitmap := s.circles 1 2 3
  let tile_size : Size := ⟨200, 200⟩
  match s.CreateResource g_use_gpu tile_size bitmap with
  | none => none
  | some (s1, resource, effects) =>
    let output_rect : Rect := ⟨0, 0, 200, 200⟩
    let transform := Transform.identity.Translate 50 50
    let (pass1, quad_state) := render_pass.CreateAndAppendSharedQuadState
      { quad_to_target_transform := transform
        quad_layer_rect := output_rect
        visible_quad_layer_rect := output_rect
        clip_rect := output_rect
        is_clipped := false
        are_contents_opaque := false
        opacity := 1
        sorting_context_id := 0 }
    let pass2 := pass1.CreateAndAppendDrawQuad
      { shared_quad_state := quad_state
        rect := output_rect
        visible_rect := output_rect
        needs_blending := false
        material := .Tile resource output_rect output_rect.size }
    match prepareSendToParent s1.client_resource_provider_ [resource] frame.resource_list with
    | none => none
    | some (provider, list) =>
      some ({ s1 with client_resource_provider_ := some provider },
            { frame with resource_list := list }, pass2, effects)

/-- `LayerTreeFrameSink::AppendTextureDrawQuad` (lines 681-735). -/
def AppendTextureDrawQuad (s : LayerTreeFrameSink) (g_use_gpu : Bool) (frame : CompositorFrame)
    (render_pass : RenderPass) :
    Option (LayerTreeFrameSink × CompositorFrame × RenderPass × List Effect) :=
  let bitmap := s.circles 2 3 1
  let tile_size : Size := ⟨200, 200⟩
  match s.CreateResource g_use_gpu tile_size bitmap with
  | none => none
  | some (s1, resource, effects) =>
    let output_rect : Rect := ⟨0, 0, 200, 200⟩
    let transform := Transform.identity.Translate 350 50
    let (pass1, quad_state) := render_pass.CreateAndAppendSharedQuadState
      { quad_to_target_transform := transform
        quad_layer_rect := output_rect
        visible_quad_layer_rect := output_rect
        clip_rect := output_rect
        is_clipped := false
        are_contents_opaque := false
        opacity := 1
        sorting_context_id := 0 }
    let pass2 := pass1.CreateAndAppendDrawQuad
      { shared_quad_state := quad_state
        rect := output_rect
        visible_rect := output_rect
        needs_blending := false
        material := .Texture resource true SK_ColorGRAY }
    match prepareSendToParent s1.client_resource_provider_ [resource] frame.resource_list with
    | none => none
    | some (provider, list) =>
      some ({ s1 with client_resource_provider_ := some provider },
            { frame with resource_list := list }, pass2, effects)

/-- `LayerTreeFrameSink::AppendSurfaceDrawQuad` (lines 737-763). -/
def AppendSurfaceDrawQuad (s : LayerTreeFrameSink) (render_pass : RenderPass) : RenderPass :=
  let output_rect : Rect := ⟨0, 0, 200, 200⟩
  let transform := Transform.identity.Translate 350 350
  let (pass1, quad_state) := render_pass.CreateAndAppendSharedQuadState
    { quad_to_target_transform := transform
      quad_layer_rect := output_rect
      visible_quad_layer_rect := output_rect
      clip_rect := output_rect
      is_clipped := false
      are_contents_opaque := false
      opacity := 1
      sorting_context_id := 0 }
  let child_surface_id : SurfaceId :=
    ⟨s.child_frame_sink_id_,
     s.local_surface_id_allocator_.GetCurrentLocalSurfaceIdAllocation.local_surface_id⟩
  pass1.CreateAndAppendDrawQuad
    { shared_quad_state := quad_state
      rect := output_rect
      visible_rect := output_rect
      needs_blending := false
      material := .Surface ⟨none, child_surface_id⟩ SK_ColorDKGRAY true }

/-- `LayerTreeFrameSink::AppendVideoHoleDrawQuad` (lines 769-793). -/
def AppendVideoHoleDrawQuad (_s : LayerTreeFrameSink) (render_pass : RenderPass) : RenderPass :=
  let output_rect : Rect := ⟨0, 0, 200, 200⟩
  let transform := Transform.identity.Translate 50 350
  let (pass1, quad_state) := render_pass.CreateAndAppendSharedQuadState
    { quad_to_target_transform := transform
      quad_layer_rect := output_rect
      visible_quad_layer_rect := output_rect
      clip_rect := output_rect
      is_clipped := false
      are_contents_opaque := false
      opacity := 1
      sorting_context_id := 0 }
  pass1.CreateAndAppendDrawQuad
    { shared_quad_state := quad_state
      rect := output_rect
      visible_rect := output_rect
      needs_blending := false
      material := .VideoHole overlay_plane_id }

/-- `LayerTreeFrameSink::AppendPictureDrawQuad` (lines 797-825): the body
starts with `return;`, nothing is appended. -/
def AppendPictureDrawQuad (_s : LayerTreeFrameSink) (render_pass : RenderPass) : RenderPass :=
  render_pass

/-- `LayerTreeFrameSink::AppendSolidColorDrawQuad` (lines 828-853). -/
def AppendSolidColorDrawQuad (s : LayerTreeFrameSink) (render_pass : RenderPass) : RenderPass :=
  let output_rect := s.bounds_
  let (pass1, quad_state) := render_pass.CreateAndAppendSharedQuadState
    { quad_to_target_transform := Transform.identity
      quad_layer_rect := output_rect
      visible_quad_layer_rect := output_rect
      clip_rect := Rect.empty
      is_clipped := false
      are_contents_opaque := false
      opacity := 1
      sorting_context_id := 0 }
  pass1.CreateAndAppendDrawQuad
    { shared_quad_state := quad_state
      rect := output_rect
      visible_rect := output_rect
      needs_blending := false
      material := .SolidColor (colorAt (s.frame_token_generator_.value / 60)) false }

/-- The block `if (context_provider_) { ... }` of `CreateFrame` (lines 561-566). -/
def appendResourceQuads (s : LayerTreeFrameSink) (g_use_gpu : Bool) (frame : CompositorFrame)
    (render_pass : RenderPass) :
    Option (LayerTreeFrameSink × CompositorFrame × RenderPass × List Effect) :=
  if s.context_provider_.isSome then
    match s.AppendTileDrawQuad g_use_gpu frame render_pass with
    | none => none
    | some (s1, frame1, pass1, effects1) =>
      match s1.AppendTextureDrawQuad g_use_gpu frame1 pass1 with
      | none => none
      | some (s2, frame2, pass2, effects2) =>
        some (s2, frame2, s2.AppendVideoHoleDrawQuad (s2.AppendPictureDrawQuad pass2),
              effects1 ++ effects2)
  else some (s, frame, render_pass, [])

/-- `LayerTreeFrameSink::CreateFrame` (lines 536-585). -/
def CreateFrame (s : LayerTreeFrameSink) (g_use_gpu : Bool) (args : BeginFrameArgs) :
    Option (LayerTreeFrameSink × CompositorFrame × List Effect) :=
  let frame : CompositorFrame :=
    { metadata :=
        { begin_frame_ack := BeginFrameAck.ofArgs args true
          device_scale_factor := 1
          local_surface_id_allocation_time := s.local_surface_id_.allocation_time
          frame_token := s.frame_token_generator_.value
          send_frame_token_to_embedder := true }
      resource_list := []
      render_pass_list := [] }
  let output_rect := s.bounds_
  let damage_rect := output_rect
  let pass0 := RenderPass.SetNew 1 output_rect damage_rect Transform.identity
  let pass1 := s.AppendDebugBorderDrawQuad pass0
  let pass2 := if s.child_frame_sink_id_.is_valid then s.AppendSurfaceDrawQuad pass1 else pass1
  match s.appendResourceQuads g_use_gpu frame pass2 with
  | none => none
  | some (s1, frame1, pass3, effects) =>
    let pass4 := s1.AppendSolidColorDrawQuad pass3
    let pass5 := if g_use_gpu then
        { pass4 with copy_requests := pass4.copy_requests ++ [.RGBA_BITMAP] }
      else pass4
    some (s1, { frame1 with render_pass_list := frame1.render_pass_list ++ [pass5] }, effects)

/-- `LayerTreeFrameSink::OnBeginFrame` (lines 944-959). -/
def OnBeginFrame (s : LayerTreeFrameSink) (g_use_gpu : Bool) (args : BeginFrameArgs) :
    Option (LayerTreeFrameSink × List Effect) :=
  let generator := s.frame_token_generator_.incr
  let s0 := { s with frame_token_generator_ := generator }
  if generator.value % 60 == 1 then
    match s0.CreateFrame g_use_gpu args with
    | none => none
    | some (s1, frame, effects) =>
      match s1.GetCompositorFrameSinkPtr with
      | none => none
      | some sink =>
        some (s1, effects ++ [.remote sink
          (.SubmitCompositorFrame s.local_surface_id_.local_surface_id frame)])
  else
    match s0.GetCompositorFrameSinkPtr with
    | none => none
    | some sink => some (s0, [.remote sink (.DidNotProduceFrame (BeginFrameAck.ofArgs args false))])

/-- `LayerTreeFrameSink::DidReceiveCompositorFrameAck` (lines 933-942). -/
def DidReceiveCompositorFrameAck (s : LayerTreeFrameSink) (resources : List ReturnedResource) :
    Option (LayerTreeFrameSink × List Effect) :=
  match receiveAndRemove s.client_resource_provider_ resources with
  | none => none
  | some (provider, effects) => some ({ s with client_resource_provider_ := some provider }, effects)

/-- `LayerTreeFrameSink::ReclaimResources` (lines 965-974). -/
def ReclaimResources (s : LayerTreeFrameSink) (resources : List ReturnedResource) :
    Option (LayerTreeFrameSink × List Effect) :=
  match receiveAndRemove s.client_resource_provider_ resources with
  | none => none
  | some (provider, effects) => some ({ s with client_resource_provider_ := some provider }, effects)

/-- `LayerTreeFrameSink::OnBeginFramePausedChanged` (lines 961-963): logs only. -/
def OnBeginFramePausedChanged (s : LayerTreeFrameSink) (_paused : Bool) : LayerTreeFrameSink := s

end LayerTreeFrameSink

/-! ## The host: frame sink manager and Compositor (lines 1003-1144) -/

/-- Modelled from the spec: `viz::FrameSinkIdAllocator` is a library class the
file only uses. It hands out `(client_id, sink_id)` with sink ids 1, 2, 3, ...;
the sink id is a 32-bit number (line 1107 builds one from the low 32 bits of a
64-bit value). -/
structure FrameSinkIdAllocator where
  client_id_ : Nat
  next_sink_id_ : Nat
  deriving DecidableEq, Repr

/-- The constructor `viz::FrameSinkIdAllocator(client_id)`. -/
def FrameSinkIdAllocator.new (client_id : Nat) : FrameSinkIdAllocator := ⟨client_id, 1⟩

/-- The call `NextFrameSinkId()`: returns `FrameSinkId(client_id_, next_sink_id_++)`. -/
def FrameSinkIdAllocator.NextFrameSinkId (a : FrameSinkIdAllocator) :
    FrameSinkIdAllocator × FrameSinkId :=
  ({ a with next_sink_id_ := (a.next_sink_id_ + 1) % 2 ^ 32 }, ⟨a.client_id_, a.next_sink_id_⟩)

inductive HierarchyError where
  | AlreadyRegistered
  | CyclicEmbedding
  deriving DecidableEq, Repr

/-- The fields of `viz::mojom::RootCompositorFrameSinkParams` that
`InitializeOnThread` sets to something the model knows. -/
structure RootCompositorFrameSinkParams where
  widget : Nat
  frame_sink_id : FrameSinkId
  disable_frame_rate_limit : Bool
  gpu_compositing : Bool
  deriving DecidableEq, Repr

/-- Modelled from the spec: `viz::HostFrameSinkManager`, the Frame Sink Manager
of section 4.5, is a library class the file only uses. It keeps the registered
frame sink ids, the parent-to-child hierarchy edges and the sinks created. -/
structure HostFrameSinkManager where
  registered_ : List FrameSinkId
  hierarchy_ : List (FrameSinkId × FrameSinkId)
  root_sinks_ : List RootCompositorFrameSinkParams
  sinks_ : List FrameSinkId
  deriving DecidableEq, Repr

namespace HostFrameSinkManager

def new : HostFrameSinkManager := ⟨[], [], [], []⟩

/-- Whether `b` can be reached from `a` along at most `fuel` edges. -/
def reaches (edges : List (FrameSinkId × FrameSinkId)) : Nat → FrameSinkId → FrameSinkId → Bool
  | 0, a, b => a == b
  | fuel + 1, a, b => a == b || edges.any (fun e => e.1 == a && reaches edges fuel e.2 b)

/-- Modelled from the spec: `register_frame_sink_id(id)` fails with
`AlreadyRegistered` if the id is live. -/
def RegisterFrameSinkId (m : HostFrameSinkManager) (id : FrameSinkId) :
    Except HierarchyError HostFrameSinkManager :=
  if m.registered_.contains id then .error .AlreadyRegistered
  else .ok { m with registered_ := m.registered_ ++ [id] }

/-- Modelled from the spec: `register_hierarchy(parent_id, child_id)` records a
directed edge; a child may have several parents, but an edge that closes a
cycle (the child embeds an ancestor) is rejected with `CyclicEmbedding`. -/
def RegisterFrameSinkHierarchy (m : HostFrameSinkManager) (parent child : FrameSinkId) :
    Except HierarchyError HostFrameSinkManager :=
  if reaches m.hierarchy_ m.hierarchy_.length child parent then .error .CyclicEmbedding
  else .ok { m with hierarchy_ := m.hierarchy_ ++ [(parent, child)] }

/-- Modelled from the spec: `create_root_frame_sink(id, widget)`. -/
def CreateRootCompositorFrameSink (m : HostFrameSinkManager)
    (params : RootCompositorFrameSinkParams) : HostFrameSinkManager :=
  { m with root_sinks_ := m.root_sinks_ ++ [params] }

/-- Modelled from the spec: `create_frame_sink(id)`. -/
def CreateCompositorFrameSink (m : HostFrameSinkManager) (id : FrameSinkId) :
    HostFrameSinkManager :=
  { m with sinks_ := m.sinks_ ++ [id] }

/-- The host calls the registration methods as statements and drops what they
return: a rejected call leaves the manager as it was. -/
def kept (m : HostFrameSinkManager) (r : Except HierarchyError HostFrameSinkManager) :
    HostFrameSinkManager :=
  match r with
  | .ok m1 => m1
  | .error _ => m

end HostFrameSinkManager

/-- The calls the host makes on the frame sink manager, on the display and on
its two sinks, as they appear in `InitializeOnThread` and `EmbedChildClient`. -/
inductive HostCall where
  | RegisterFrameSinkId (id : FrameSinkId)
  | CreateRootCompositorFrameSink (params : RootCompositorFrameSinkParams)
  | Resize (size : Size)
  | SetDisplayVisible (visible : Bool)
  | BindRoot
  | RegisterFrameSinkHierarchy (parent child : FrameSinkId)
  | CreateCompositorFrameSink (id : FrameSinkId)
  | EmbedChild (child : FrameSinkId)
  | BindChild
  deriving DecidableEq, Repr

/-- What the host reads from outside while it initialises: the clock at the two
`GenerateId` calls, the unguessable tokens of the three surface id allocators,
the `kDisableFrameRateLimit` switch, and the indeterminate initial value of the
child's `need_redraw_`. -/
structure HostEnv where
  root_time : Nat
  embed_time : Nat
  host_token : Nat
  root_token : Nat
  child_token : Nat
  disable_frame_rate_limit : Bool
  indeterminate : Bool
  deriving DecidableEq, Repr

/-- The members of `Compositor`. -/
structure Compositor where
  widget_ : Nat
  size_ : Size
  host_frame_sink_manager_ : HostFrameSinkManager
  frame_sink_id_allocator_ : FrameSinkIdAllocator
  local_surface_id_allocator_ : ParentLocalSurfaceIdAllocator
  display_client_ : Option Nat
  root_client_ : Option LayerTreeFrameSink
  child_client_ : Option InkClient
  deriving DecidableEq, Repr

namespace Compositor

/-- `Compositor::EmbedChildClient` (lines 1103-1131). -/
def EmbedChildClient (c : Compositor) (parent_frame_sink_id : FrameSinkId) (env : HostEnv) :
    Option (Compositor × List HostCall × List Effect) :=
  let (allocator, frame_sink_id) := c.frame_sink_id_allocator_.NextFrameSinkId
  let m1 := c.host_frame_sink_manager_.kept
    (c.host_frame_sink_manager_.RegisterFrameSinkId frame_sink_id)
  let m2 := m1.kept (m1.RegisterFrameSinkHierarchy parent_frame_sink_id frame_sink_id)
  let m3 := m2.CreateCompositorFrameSink frame_sink_id
  match c.root_client_ with
  | none => none
  | some root =>
    let (root1, child_local_surface_id) := root.EmbedChild frame_sink_id env.embed_time
    let child := InkClient.new frame_sink_id child_local_surface_id (Rect.ofSize c.size_)
      env.child_token env.indeterminate
    let (child1, effects) := child.Bind false
    some ({ c with
            frame_sink_id_allocator_ := allocator
            host_frame_sink_manager_ := m3
            root_client_ := some root1
            child_client_ := some child1 },
          [.RegisterFrameSinkId frame_sink_id,
           .RegisterFrameSinkHierarchy parent_frame_sink_id frame_sink_id,
           .CreateCompositorFrameSink frame_sink_id,
           .EmbedChild frame_sink_id,
           .BindChild],
          effects)

/-- `Compositor::InitializeOnThread` (lines 1047-1101). -/
def InitializeOnThread (c : Compositor) (g_use_gpu : Bool) (env : HostEnv) :
    Option (Compositor × List HostCall × List Effect) :=
  let (allocator, root_frame_sink_id) := c.frame_sink_id_allocator_.NextFrameSinkId
  let m1 := c.host_frame_sink_manager_.kept
    (c.host_frame_sink_manager_.RegisterFrameSinkId root_frame_sink_id)
  let params : RootCompositorFrameSinkParams :=
    { widget := c.widget_
      frame_sink_id := root_frame_sink_id
      disable_frame_rate_limit := env.disable_frame_rate_limit
      gpu_compositing := g_use_gpu }
  let m2 := m1.CreateRootCompositorFrameSink params
  let surface_allocator := c.local_surface_id_allocator_.GenerateId env.root_time
  let root := LayerTreeFrameSink.new root_frame_sink_id
    surface_allocator.GetCurrentLocalSurfaceIdAllocation (Rect.ofSize c.size_) env.root_token
  let root1 := root.Bind true
  let c1 : Compositor :=
    { c with
      display_client_ := some c.widget_
      frame_sink_id_allocator_ := allocator
      host_frame_sink_manager_ := m2
      local_surface_id_allocator_ := surface_allocator
      root_client_ := some root1 }
  match c1.EmbedChildClient root_frame_sink_id env with
  | none => none
  | some (c2, calls, effects) =>
    some (c2,
          [.RegisterFrameSinkId root_frame_sink_id,
           .CreateRootCompositorFrameSink params,
           .Resize c.size_,
           .SetDisplayVisible true,
           .BindRoot] ++ calls,
          effects)

/-- The constructor (lines 1005-1018), which runs `InitializeOnThread`. -/
def new (widget : Nat) (size : Size) (g_use_gpu : Bool) (env : HostEnv) :
    Option (Compositor × List HostCall × List Effect) :=
  InitializeOnThread
    { widget_ := widget
      size_ := size
      host_frame_sink_manager_ := HostFrameSinkManager.new
      frame_sink_id_allocator_ := FrameSinkIdAllocator.new 0
      local_surface_id_allocator_ := ParentLocalSurfaceIdAllocator.new env.host_token
      display_client_ := none
      root_client_ := none
      child_client_ := none }
    g_use_gpu env

/-- `Compositor::SetContextProvider` (lines 1020-1025), called from the GPU
service on another thread than the sinks' own. -/
def SetContextProvider (c : Compositor) (root_context_provider : Option ContextProvider)
    (child_context_provider : Option ContextProvider) : Option Compositor :=
  match c.root_client_, c.child_client_ with
  | some root, some child =>
    some { c with
           root_client_ := some (root.SetContextProvider false root_context_provider)
           child_client_ := some (child.SetContextProvider false child_context_provider) }
  | _, _ => none

/-- `Compositor::Resize` (lines 1027-1029): the body is `// TODO:`. -/
def Resize (c : Compositor) (_size : Size) : Compositor := c

end Compositor

/-- An environment for the demo's host. -/
def env0 : HostEnv :=
  { root_time := 20, embed_time := 40, host_token := 3, root_token := 4, child_token := 6,
    disable_frame_rate_limit := false, indeterminate := false }

/-! ## Definitions used to state the facts below -/

namespace ClientResourceProvider

/-- The ledger invariant the sinks maintain: every id in the ledger was handed
out by the ledger's own counter, and every backing store named in it was drawn
from the sink's name source (`names` is the number of names drawn so far). -/
def wellFormed (p : ClientResourceProvider) (names : Nat) : Bool :=
  p.imported_resources_.all
    (fun e => decide (e.1 < p.next_id_) && decide (e.2.resource.mailbox < names))

/-- The entry `ImportResource` creates for `resource` under the id `id`, with
`count` outstanding sends. -/
def entryOf (id : ResourceId) (resource : TransferableResource) (cb : ReleaseCallback)
    (count : Nat) : ResourceId × ImportedResource :=
  (id, { resource := { resource with id := id }, release_callback := cb,
         exported_count := count, returned_sync_token := SyncToken.empty,
         returned_lost := false })

/-- The ledger after `resource` has been imported and prepared for sending once. -/
def importedAndSent (p : ClientResourceProvider) (resource : TransferableResource)
    (cb : ReleaseCallback) : ClientResourceProvider :=
  { imported_resources_ := p.imported_resources_ ++ [entryOf p.next_id_ resource cb 1],
    next_id_ := p.next_id_ + 1 }

end ClientResourceProvider

/-- The descriptor and the release callback `CreateResource` of either sink
registers, given the sink's context provider and the next name. -/
def newResource (cp : Option ContextProvider) (g_use_gpu : Bool) (names : Nat) (size : Size) :
    TransferableResource × ReleaseCallback :=
  match cp with
  | some c =>
    if g_use_gpu then
      (TransferableResource.MakeGL names ⟨names + 1⟩ size, .DeleteSharedImage c.id names)
    else (TransferableResource.MakeSoftware names size, .DoNothing)
  | none => (TransferableResource.MakeSoftware names size, .DoNothing)

/-- An `InkClient` after its on-thread `Bind`: the remote is bound, the bitmap
is allocated, the ledger exists and is well formed. -/
def InkClient.Bound (s : InkClient) : Bool :=
  s.frame_sink_remote_ && s.bitmap_.isSome &&
    (match s.client_resource_provider_ with
     | some p => p.wellFormed s.generated_names_
     | none => false)

/-- A `LayerTreeFrameSink` after `BindOnThread`: one of the remotes is bound,
the ledger exists and is well formed. -/
def LayerTreeFrameSink.Bound (s : LayerTreeFrameSink) : Bool :=
  s.GetCompositorFrameSinkPtr.isSome &&
    (match s.client_resource_provider_ with
     | some p => p.wellFormed s.generated_names_
     | none => false)

/-- The render pass an `InkClient` with bounds `bounds` builds around the
resource `resource`, when its token generator stands at `token`. -/
def InkClient.passOf (bounds : Rect) (resource : ResourceId) (token : Nat) : RenderPass :=
  { id := 1
    output_rect := bounds
    damage_rect := bounds
    transform_to_root_target := Transform.identity
    items :=
      [.state { quad_to_target_transform := Transform.identity
                quad_layer_rect := bounds
                visible_quad_layer_rect := bounds
                clip_rect := bounds
                is_clipped := false
                are_contents_opaque := false
                opacity := 1
                sorting_context_id := 0 },
       .quad { shared_quad_state := 0
               rect := bounds
               visible_rect := bounds
               needs_blending := false
               material := .Texture resource true SK_ColorGRAY },
       .state { quad_to_target_transform := Transform.identity
                quad_layer_rect := bounds
                visible_quad_layer_rect := bounds
                clip_rect := Rect.empty
                is_clipped := false
                are_contents_opaque := false
                opacity := 1
                sorting_context_id := 0 },
       .quad { shared_quad_state := 1
               rect := bounds
               visible_rect := bounds
               needs_blending := false
               material := .SolidColor (colorAt (token / 60 + 1)) false }]
    copy_requests := [] }

/-- The state and the frame `InkClient::CreateFrame` produces on a bound sink
whose ledger is `p`. -/
def InkClient.afterFrame (s : InkClient) (g : Bool) (p : ClientResourceProvider) : InkClient :=
  { s with
    frame_token_generator_ := s.frame_token_generator_.incr
    generated_names_ := s.generated_names_ + 1
    client_resource_provider_ := some (p.importedAndSent
      (newResource s.context_provider_ g s.generated_names_ ⟨s.bounds_.width, s.bounds_.height⟩).1
      (newResource s.context_provider_ g s.generated_names_
        ⟨s.bounds_.width, s.bounds_.height⟩).2) }

def InkClient.frameOf (s : InkClient) (g : Bool) (p : ClientResourceProvider)
    (args : BeginFrameArgs) : CompositorFrame :=
  { metadata :=
      { begin_frame_ack := BeginFrameAck.ofArgs args true
        device_scale_factor := 1
        local_surface_id_allocation_time := s.local_surface_id_.allocation_time
        frame_token := s.frame_token_generator_.incr.value
        send_frame_token_to_embedder := true }
    resource_list :=
      [{ (newResource s.context_provider_ g s.generated_names_
            ⟨s.bounds_.width, s.bounds_.height⟩).1 with id := p.next_id_ }]
    render_pass_list := [InkClient.passOf s.bounds_ p.next_id_ s.frame_token_generator_.incr.value] }

/-- The number of shared quad states among the appended items. -/
def stateCount (items : List PassItem) : Nat :=
  (items.filterMap (fun i => match i with | .state s => some s | .quad _ => none)).length

/-- The items of a pass after one `Append...DrawQuad` call: a new shared quad
state, then a quad that points at it. -/
def appendPair (items : List PassItem) (st : SharedQuadState) (rect : Rect) (m : Material) :
    List PassItem :=
  items ++ [.state st,
            .quad { shared_quad_state := stateCount items
                    rect := rect
                    visible_rect := rect
                    needs_blending := false
                    material := m }]

/-- The quads among the appended items. -/
def quadsOf (items : List PassItem) : List DrawQuad :=
  items.filterMap (fun i => match i with | .quad q => some q | .state _ => none)

namespace LayerTreeFrameSink

/-- The 200x200 square the fixed-size quads use. -/
def square : Rect := ⟨0, 0, 200, 200⟩

/-- The shared quad state of a fixed-size quad moved to `(tx, ty)`. -/
def squareState (tx ty : Int) : SharedQuadState :=
  { quad_to_target_transform := Transform.identity.Translate tx ty
    quad_layer_rect := square
    visible_quad_layer_rect := square
    clip_rect := square
    is_clipped := false
    are_contents_opaque := false
    opacity := 1
    sorting_context_id := 0 }

/-- The shared quad state of a quad that covers the sink's bounds. -/
def boundsState (bounds clip : Rect) : SharedQuadState :=
  { quad_to_target_transform := Transform.identity
    quad_layer_rect := bounds
    visible_quad_layer_rect := bounds
    clip_rect := clip
    is_clipped := false
    are_contents_opaque := false
    opacity := 1
    sorting_context_id := 0 }

/-- The items of the pass after the debug border quad and, when a valid child
is embedded, the surface quad. -/
def headItems (s : LayerTreeFrameSink) : List PassItem :=
  let border := appendPair [] (boundsState s.bounds_ s.bounds_) s.bounds_
    (.DebugBorder SK_ColorMAGENTA 20)
  if s.child_frame_sink_id_.is_valid then
    appendPair border (squareState 350 350) square
      (.Surface ⟨none, ⟨s.child_frame_sink_id_,
         s.local_surface_id_allocator_.GetCurrentLocalSurfaceIdAllocation.local_surface_id⟩⟩
        SK_ColorDKGRAY true)
  else border

/-- The tile, texture and video-hole quads appended to `items`, around the
resources `first` and `second`. -/
def resourceItems (items : List PassItem) (first second : ResourceId) : List PassItem :=
  appendPair
    (appendPair
      (appendPair items (squareState 50 50) square (.Tile first square square.size))
      (squareState 350 50) square (.Texture second true SK_ColorGRAY))
    (squareState 50 350) square (.VideoHole overlay_plane_id)

/-- All items of the pass `CreateFrame` builds on a sink whose ledger is `p`. -/
def itemsOf (s : LayerTreeFrameSink) (p : ClientResourceProvider) : List PassItem :=
  appendPair
    (if s.context_provider_.isSome then resourceItems s.headItems p.next_id_ (p.next_id_ + 1)
     else s.headItems)
    (boundsState s.bounds_ Rect.empty) s.bounds_
    (.SolidColor (colorAt (s.frame_token_generator_.value / 60)) false)

/-- The ledger after the tile and the texture resource were imported and sent. -/
def ledgerAfterFrame (s : LayerTreeFrameSink) (g : Bool) (p : ClientResourceProvider) :
    ClientResourceProvider :=
  (p.importedAndSent
      (newResource s.context_provider_ g s.generated_names_ ⟨200, 200⟩).1
      (newResource s.context_provider_ g s.generated_names_ ⟨200, 200⟩).2).importedAndSent
    (newResource s.context_provider_ g (s.generated_names_ + 1) ⟨200, 200⟩).1
    (newResource s.context_provider_ g (s.generated_names_ + 1) ⟨200, 200⟩).2

/-- The sink after `CreateFrame`, for a bound sink whose ledger is `p`. -/
def afterFrame (s : LayerTreeFrameSink) (g : Bool) (p : ClientResourceProvider) :
    LayerTreeFrameSink :=
  if s.context_provider_.isSome then
    { s with generated_names_ := s.generated_names_ + 2
             client_resource_provider_ := some (s.ledgerAfterFrame g p) }
  else s

/-- The resource list of the frame. -/
def resourcesOf (s : LayerTreeFrameSink) (g : Bool) (p : ClientResourceProvider) :
    List TransferableResource :=
  if s.context_provider_.isSome then
    [{ (newResource s.context_provider_ g s.generated_names_ ⟨200, 200⟩).1 with
        id := p.next_id_ },
     { (newResource s.context_provider_ g (s.generated_names_ + 1) ⟨200, 200⟩).1 with
        id := p.next_id_ + 1 }]
  else []

/-- The frame `CreateFrame` builds, for a bound sink whose ledger is `p`. -/
def frameOf (s : LayerTreeFrameSink) (g : Bool) (p : ClientResourceProvider)
    (args : BeginFrameArgs) : CompositorFrame :=
  { metadata :=
      { begin_frame_ack := BeginFrameAck.ofArgs args true
        device_scale_factor := 1
        local_surface_id_allocation_time := s.local_surface_id_.allocation_time
        frame_token := s.frame_token_generator_.value
        send_frame_token_to_embedder := true }
    resource_list := s.resourcesOf g p
    render_pass_list :=
      [{ id := 1
         output_rect := s.bounds_
         damage_rect := s.bounds_
         transform_to_root_target := Transform.identity
         items := s.itemsOf p
         copy_requests := if g then [.RGBA_BITMAP] else [] }] }

/-- The sink with its token generator advanced: the first statement of
`OnBeginFrame`. -/
def tick (s : LayerTreeFrameSink) : LayerTreeFrameSink :=
  { s with frame_token_generator_ := s.frame_token_generator_.incr }

end LayerTreeFrameSink

/-- A tick descriptor. -/
def args0 : BeginFrameArgs :=
  { source_id := 1, sequence_number := 7, frame_time := 1000, deadline := 1016, interval := 16 }

/-- The child sink of the demo right after its on-thread `Bind`: frame sink id
`(0, 2)`, an 800x600 area. -/
def inkBound : InkClient :=
  ((InkClient.new ⟨0, 2⟩ ⟨⟨1, 1, 5⟩, 40⟩ ⟨0, 0, 800, 600⟩ 6 false).Bind true).1

/-- The root sink of the demo after `BindOnThread` with the associated remote. -/
def layerBound : LayerTreeFrameSink :=
  ((LayerTreeFrameSink.new ⟨0, 1⟩ ⟨⟨1, 1, 3⟩, 20⟩ ⟨0, 0, 800, 600⟩ 4).BindOnThread true).1

/-- The root sink with a child embedded and a context provider set. -/
def layerFull : LayerTreeFrameSink :=
  ((layerBound.EmbedChild ⟨0, 2⟩ 40).1.SetContextProvider true (some ⟨11⟩))

/-! ## Runs of a sink -/

/-- What can happen to an `InkClient`: its thread runs the next posted task, a
message arrives on its mojo receiver, or another thread calls one of its public
or observer methods. -/
inductive InkEvent where
  | RunTask
  | OnBeginFrame (args : BeginFrameArgs)
  | DidReceiveCompositorFrameAck (resources : List ReturnedResource)
  | ReclaimResources (resources : List ReturnedResource)
  | OnBeginFramePausedChanged (paused : Bool)
  | DidProcessEvent (is_move : Bool) (location : Point)
  | SetContextProvider (context_provider : Option ContextProvider)
  | Bind
  deriving DecidableEq, Repr

/-- The sink's thread takes the first task off its queue and runs it; with an
empty queue nothing happens. -/
def InkClient.runTask (s : InkClient) : Option (InkClient × List Effect) :=
  match s.thread_ with
  | [] => some (s, [])
  | task :: rest =>
    let s0 := { s with thread_ := rest }
    match task with
    | .Bind => some (s0.Bind true)
    | .SetContextProvider cp => some (s0.SetContextProvider true cp, [])
    | .Draw location => s0.Draw location

/-- One event on an `InkClient`. -/
def InkClient.step (g_use_gpu : Bool) (s : InkClient) : InkEvent → Option (InkClient × List Effect)
  | .RunTask => s.runTask
  | .OnBeginFrame args => s.OnBeginFrame g_use_gpu args
  | .DidReceiveCompositorFrameAck resources => s.DidReceiveCompositorFrameAck resources
  | .ReclaimResources resources => s.ReclaimResources resources
  | .OnBeginFramePausedChanged paused => some (s.OnBeginFramePausedChanged paused, [])
  | .DidProcessEvent is_move location => some (s.DidProcessEvent is_move location, [])
  | .SetContextProvider cp => some (s.SetContextProvider false cp, [])
  | .Bind => some (s.Bind false)

/-- A sequence of events on an `InkClient`, with everything it did, in order. -/
def InkClient.run (g_use_gpu : Bool) : InkClient → List InkEvent → Option (InkClient × List Effect)
  | s, [] => some (s, [])
  | s, ev :: rest =>
    match s.step g_use_gpu ev with
    | none => none
    | some (s1, e1) =>
      match InkClient.run g_use_gpu s1 rest with
      | none => none
      | some (s2, e2) => some (s2, e1 ++ e2)

/-- What can happen to a `LayerTreeFrameSink`: its thread runs the next posted
task, a message arrives on its mojo receiver, or the host calls one of its
public methods. -/
inductive LayerEvent where
  | RunTask
  | OnBeginFrame (args : BeginFrameArgs)
  | DidReceiveCompositorFrameAck (resources : List ReturnedResource)
  | ReclaimResources (resources : List ReturnedResource)
  | OnBeginFramePausedChanged (paused : Bool)
  | SetContextProvider (context_provider : Option ContextProvider)
  | Bind (associated : Bool)
  | EmbedChild (child_frame_sink_id : FrameSinkId) (now : Nat)
  deriving DecidableEq, Repr

/-- The sink's thread takes the first task off its queue and runs it; with an
empty queue nothing happens. -/
def LayerTreeFrameSink.runTask (s : LayerTreeFrameSink) : LayerTreeFrameSink × List Effect :=
  match s.thread_ with
  | [] => (s, [])
  | task :: rest =>
    let s0 := { s with thread_ := rest }
    match task with
    | .BindOnThread associated => s0.BindOnThread associated
    | .SetContextProvider cp => (s0.SetContextProvider true cp, [])

/-- One event on a `LayerTreeFrameSink`. -/
def LayerTreeFrameSink.step (g_use_gpu : Bool) (s : LayerTreeFrameSink) :
    LayerEvent → Option (LayerTreeFrameSink × List Effect)
  | .RunTask => some s.runTask
  | .OnBeginFrame args => s.OnBeginFrame g_use_gpu args
  | .DidReceiveCompositorFrameAck resources => s.DidReceiveCompositorFrameAck resources
  | .ReclaimResources resources => s.ReclaimResources resources
  | .OnBeginFramePausedChanged paused => some (s.OnBeginFramePausedChanged paused, [])
  | .SetContextProvider cp => some (s.SetContextProvider false cp, [])
  | .Bind associated => some (s.Bind associated, [])
  | .EmbedChild child now => some ((s.EmbedChild child now).1, [])

/-- A sequence of events on a `LayerTreeFrameSink`, with everything it did, in
order. -/
def LayerTreeFrameSink.run (g_use_gpu : Bool) :
    LayerTreeFrameSink → List LayerEvent → Option (LayerTreeFrameSink × List Effect)
  | s, [] => some (s, [])
  | s, ev :: rest =>
    match s.step g_use_gpu ev with
    | none => none
    | some (s1, e1) =>
      match LayerTreeFrameSink.run g_use_gpu s1 rest with
      | none => none
      | some (s2, e2) => some (s2, e1 ++ e2)

/-- The frame tokens of the frames submitted in a run, in submission order. -/
def tokensOf (effects : List Effect) : List Nat :=
  (submittedFrames effects).map (fun f => f.metadata.frame_token)

/-- The number of begin-frame ticks among the events of an `InkClient`. -/
def InkEvent.ticks (evs : List InkEvent) : Nat :=
  evs.countP (fun ev => match ev with | .OnBeginFrame _ => true | _ => false)

/-- The number of begin-frame ticks among the events of a `LayerTreeFrameSink`. -/
def LayerEvent.ticks (evs : List LayerEvent) : Nat :=
  evs.countP (fun ev => match ev with | .OnBeginFrame _ => true | _ => false)

/-- One round of the ink sink: a mouse move posts `Draw`, the sink's thread runs
it, the next begin-frame tick arrives. -/
def inkRound : List InkEvent := [.DidProcessEvent true ⟨1, 1⟩, .RunTask, .OnBeginFrame args0]

/-- The events of `k` rounds in a row. -/
def inkRounds : Nat → List InkEvent
  | 0 => []
  | k + 1 => inkRound ++ inkRounds k

/-- The resources of `frame` are accounted for by the ledger: every resource id
a quad of the frame references is not in the ledger `before` the frame was
built, is held by the ledger `after` it with one outstanding send, and the
ledger's descriptor of it is in the frame's `resource_list`; and every
descriptor in `resource_list` is referenced by a quad of the frame. -/
def resourcesAccounted (before after : ClientResourceProvider) (frame : CompositorFrame) : Prop :=
  (∀ q ∈ frame.quads, ∀ r, q.resource = some r →
      r ∉ before.ids ∧
      ∃ e, after.find r = some e ∧ e.exported_count = 1 ∧ e.resource.id = r ∧
        e.resource ∈ frame.resource_list) ∧
  (∀ tr ∈ frame.resource_list, ∃ q ∈ frame.quads, q.resource = some tr.id)

/-- The release-callback runs among the effects, in order. -/
def releaseRuns (effects : List Effect) : List ReleaseRun :=
  effects.filterMap (fun e => match e with | .ReleaseCallbackRun r => some r | _ => none)

/-- The round trip of the resource `id`: handing the return `(id, token, lost)`
to a sink whose ledger was `held` made the release callback of `id` run exactly
once, with the returned sync token and lost flag; the ledger `left` no longer
holds `id` and holds every other id as before. -/
def roundTrip (held left : ClientResourceProvider) (id : ResourceId) (token : SyncToken)
    (lost : Bool) (effects : List Effect) : Prop :=
  (∃ cb, releaseRuns effects = [⟨id, cb, token, lost⟩]) ∧
  id ∉ left.ids ∧
  ∀ other, other ≠ id → left.find other = held.find other

/-- The update `receiveOne` applies to each entry. -/
def ClientResourceProvider.received (r : ReturnedResource) (e : ResourceId × ImportedResource) :
    ResourceId × ImportedResource :=
  if e.1 == r.id then
    (e.1, { e.2 with exported_count := e.2.exported_count - 1,
                     returned_sync_token := r.sync_token,
                     returned_lost := e.2.returned_lost || r.lost })
  else e

/-- The members of a `LayerTreeFrameSink` that say what it embeds and where:
only `EmbedChild` and the constructor write them. -/
def LayerTreeFrameSink.sameEmbedding (a b : LayerTreeFrameSink) : Prop :=
  a.frame_sink_id_ = b.frame_sink_id_ ∧ a.local_surface_id_ = b.local_surface_id_ ∧
  a.bounds_ = b.bounds_ ∧ a.child_frame_sink_id_ = b.child_frame_sink_id_ ∧
  a.local_surface_id_allocator_ = b.local_surface_id_allocator_

/-- The members of an `InkClient` that only the constructor writes. -/
def InkClient.sameIdentity (a b : InkClient) : Prop :=
  a.frame_sink_id_ = b.frame_sink_id_ ∧ a.local_surface_id_ = b.local_surface_id_ ∧
  a.bounds_ = b.bounds_

/-- The events of a `LayerTreeFrameSink` other than a call of `EmbedChild`. -/
def LayerEvent.isEmbedChild : LayerEvent → Bool
  | .EmbedChild _ _ => true
  | _ => false

/-- The generation of the sink's surface id allocator. -/
def LayerTreeFrameSink.generation (s : LayerTreeFrameSink) : Nat :=
  s.local_surface_id_allocator_.GetCurrentLocalSurfaceIdAllocation.local_surface_id.parent_sequence_number

/-- Consecutive calls of `InkClient::Draw`, one for each location, with nothing
in between. -/
def InkClient.draws (s : InkClient) : List Point → Option (InkClient × List Effect)
  | [] => some (s, [])
  | location :: rest =>
    match s.Draw location with
    | none => none
    | some (s1, e1) =>
      match InkClient.draws s1 rest with
      | none => none
      | some (s2, e2) => some (s2, e1 ++ e2)

/-- The surface ranges of the Surface quads among the appended items, in order. -/
def surfacesOf (items : List PassItem) : List SurfaceRange :=
  items.filterMap (fun i =>
    match i with
    | .quad q =>
      match q.material with
      | .Surface range _ _ => some range
      | _ => none
    | .state _ => none)

/-- The surface ranges of the Surface quads of a frame. -/
def CompositorFrame.surfaceRanges (f : CompositorFrame) : List SurfaceRange :=
  f.render_pass_list.flatMap (fun pass => surfacesOf pass.items)

/-- The `LocalSurfaceId` a `SubmitCompositorFrame` call names. -/
def Effect.submittedUnder : Effect → Option LocalSurfaceId
  | .remote _ (.SubmitCompositorFrame local_surface_id _) => some local_surface_id
  | _ => none

/-- The `LocalSurfaceId`s under which frames were submitted in a run, in order. -/
def submittedUnder (effects : List Effect) : List LocalSurfaceId :=
  effects.filterMap Effect.submittedUnder

/-- The root sink of the demo as the host leaves it before it embeds the child:
constructed with frame sink id `(0, 1)` and with `Bind` called (the bind task
is posted). -/
def rootBeforeEmbed (size : Size) (env : HostEnv) : LayerTreeFrameSink :=
  (LayerTreeFrameSink.new ⟨0, 1⟩
    ((ParentLocalSurfaceIdAllocator.new env.host_token).GenerateId
      env.root_time).GetCurrentLocalSurfaceIdAllocation
    (Rect.ofSize size) env.root_token).Bind true

/-- The child sink of the demo as the host leaves it: constructed with frame
sink id `(0, 2)` and the allocation `EmbedChild` returned, with `Bind` called
from the host's thread. -/
def childAfterEmbed (size : Size) (env : HostEnv) : InkClient :=
  ((InkClient.new ⟨0, 2⟩ ((rootBeforeEmbed size env).EmbedChild ⟨0, 2⟩ env.embed_time).2
    (Rect.ofSize size) env.child_token env.indeterminate).Bind false).1

/-- The root sink of the demo after the host's constructor, in `env0`. -/
def demoRoot : LayerTreeFrameSink :=
  ((rootBeforeEmbed ⟨800, 600⟩ env0).EmbedChild ⟨0, 2⟩ env0.embed_time).1

/-- The surface range a parent uses to embed the child `child` at the
`LocalSurfaceId` `id`: no start, the end at `SurfaceId(child, id)`. -/
def embedRange (child : FrameSinkId) (id : LocalSurfaceId) : SurfaceRange :=
  ⟨none, ⟨child, id⟩⟩

/-- The bound `wellFormed` puts on every entry. -/
def ClientResourceProvider.entriesBelow (entries : List (ResourceId × ImportedResource))
    (next names : Nat) : Prop :=
  ∀ e ∈ entries, e.1 < next ∧ e.2.resource.mailbox < names

/-! ## Placement of quads -/

/-- `gfx::Rect::Contains(const Rect&)`: `inner` lies within `r`. -/
def Rect.Contains (r inner : Rect) : Bool :=
  decide (r.x ≤ inner.x) && decide (r.y ≤ inner.y) &&
    decide (inner.x + inner.width ≤ r.x + r.width) &&
    decide (inner.y + inner.height ≤ r.y + r.height)

/-- A rect moved by a translation: where a quad's rect lands in the space of
the render pass. -/
def Transform.MapRect (t : Transform) (r : Rect) : Rect :=
  ⟨r.x + t.tx, r.y + t.ty, r.width, r.height⟩

/-- Every quad of the pass with the shared quad state it points at. -/
def RenderPass.quadsWithStates (p : RenderPass) : List (DrawQuad × Option SharedQuadState) :=
  p.quad_list.map (fun q => (q, p.shared_quad_state_list[q.shared_quad_state]?))

/-- Whether the quad's rect, moved by the transform of its shared quad state,
lies within `output`. -/
def quadWithin (output : Rect) (qs : DrawQuad × Option SharedQuadState) : Bool :=
  match qs.2 with
  | some st => output.Contains (st.quad_to_target_transform.MapRect qs.1.rect)
  | none => false

/-- Every quad of the pass lies within the output rect of the pass. -/
def RenderPass.quadsWithinOutput (p : RenderPass) : Bool :=
  p.quadsWithStates.all (quadWithin p.output_rect)

/-- Every quad of the pass has its own untransformed rect within the output
rect of the pass. -/
def RenderPass.rectsWithinOutput (p : RenderPass) : Bool :=
  p.quad_list.all (fun q => p.output_rect.Contains q.rect)

/-- The root sink of the demo with a child and a context provider, in a
100x100 window. -/
def layerSmall : LayerTreeFrameSink := { layerFull with bounds_ := ⟨0, 0, 100, 100⟩ }

/-- The places the fixed-size quads of `LayerTreeFrameSink` are moved to:
tile, texture, surface, video hole. -/
def LayerTreeFrameSink.squarePlaces : List Transform :=
  [⟨50, 50⟩, ⟨350, 50⟩, ⟨350, 350⟩, ⟨50, 350⟩]

/-- How `LayerTreeFrameSink` places a quad, by its kind: a DebugBorder or a
SolidColor quad covers the output rect of the pass, untransformed; a Tile, a
Texture, a Surface and a VideoHole quad are the 200x200 square moved to
(50,50), (350,50), (350,350) and (50,350); there is no Picture quad; the shared
quad state never asks for clipping. -/
def placedAsIs (output : Rect) (qs : DrawQuad × Option SharedQuadState) : Prop :=
  ∃ st, qs.2 = some st ∧ st.is_clipped = false ∧
    match qs.1.material with
    | .DebugBorder _ _ =>
      qs.1.rect = output ∧ st.quad_to_target_transform = Transform.identity
    | .SolidColor _ _ =>
      qs.1.rect = output ∧ st.quad_to_target_transform = Transform.identity
    | .Tile _ _ _ =>
      qs.1.rect = LayerTreeFrameSink.square ∧ st.quad_to_target_transform = ⟨50, 50⟩
    | .Texture _ _ _ =>
      qs.1.rect = LayerTreeFrameSink.square ∧ st.quad_to_target_transform = ⟨350, 50⟩
    | .Surface _ _ _ =>
      qs.1.rect = LayerTreeFrameSink.square ∧ st.quad_to_target_transform = ⟨350, 350⟩
    | .VideoHole _ =>
      qs.1.rect = LayerTreeFrameSink.square ∧ st.quad_to_target_transform = ⟨50, 350⟩
    | .Picture => False

/-! ## Frame sink ids the host allocates -/

/-- The frame sink ids the host allocated, read off its calls: it registers
every id with `RegisterFrameSinkId` right after `NextFrameSinkId()` returned it
(lines 1055-1060 and 1105-1111). -/
def HostCall.allocated (calls : List HostCall) : List FrameSinkId :=
  calls.filterMap (fun call => match call with | .RegisterFrameSinkId id => some id | _ => none)

/-- The host embedding `n` more children under `parent`: `n` calls of
`EmbedChildClient(parent)` in a row, with the calls they make. -/
def Compositor.embedMore (c : Compositor) (parent : FrameSinkId) (env : HostEnv) :
    Nat → Option (Compositor × List HostCall)
  | 0 => some (c, [])
  | n + 1 =>
    match c.EmbedChildClient parent env with
    | none => none
    | some (c1, calls1, _) =>
      match Compositor.embedMore c1 parent env n with
      | none => none
      | some (c2, calls2) => some (c2, calls1 ++ calls2)

/-! ## Resource ids over a run -/

/-- The bind task among the closures posted to a `LayerTreeFrameSink`. -/
def LayerTask.isBind : LayerTask → Bool
  | .BindOnThread _ => true
  | _ => false

/-- The call of `Bind` among the events of a `LayerTreeFrameSink`. -/
def LayerEvent.isBind : LayerEvent → Bool
  | .Bind _ => true
  | _ => false

/-- The resource ids the quads of a frame reference. -/
def CompositorFrame.resourceIds (f : CompositorFrame) : List ResourceId :=
  f.quads.filterMap DrawQuad.resource

/-- The id the sink's ledger hands out next. -/
def LayerTreeFrameSink.nextId (s : LayerTreeFrameSink) : ResourceId :=
  match s.client_resource_provider_ with
  | some p => p.next_id_
  | none => 0

/-! ## Returns the ledger does not expect -/

/-- What it means that a sink whose ledger was `held` tolerated the returned
list `rs`: every id that `rs` does not name is held as before; no id that `rs`
names is held any more; every release callback that ran belongs to an id that
was held and that `rs` names; no id had its release callback run twice; and
when `rs` names only ids the ledger did not hold, nothing happened at all. -/
def returnsTolerated (held left : ClientResourceProvider) (rs : List ReturnedResource)
    (effects : List Effect) : Prop :=
  (∀ other, (∀ r ∈ rs, r.id ≠ other) → left.find other = held.find other) ∧
  (∀ r ∈ rs, r.id ∉ left.ids) ∧
  (∀ run ∈ releaseRuns effects, run.id ∈ held.ids ∧ ∃ r ∈ rs, r.id = run.id) ∧
  (∀ id, (releaseRuns effects).countP (fun run => run.id == id) ≤ 1) ∧
  ((∀ r ∈ rs, held.find r.id = none) → left = held ∧ effects = [])

/-- The child sink of the demo after its first frame: the ledger holds the
resource with id 1, sent once. -/
def inkSent : InkClient :=
  ((inkBound.CreateFrame false args0).map (fun r => r.1)).getD inkBound

/-- The root sink of the demo, with child and context provider, after a frame:
the ledger holds the resources with ids 1 and 2, each sent once. -/
def layerSent : LayerTreeFrameSink :=
  ((layerFull.CreateFrame true args0).map (fun r => r.1)).getD layerFull

/-! ## DemoVizWindow (lines 1546-1642) -/

/-- The value `gfx::kNullAcceleratedWidget`. -/
def kNullAcceleratedWidget : Nat := 0

/-- A `ui::PlatformWindow`, known by the bounds it was created with and by
whether `Show()` was called on it. -/
structure PlatformWindow where
  bounds : Rect
  shown : Bool
  deriving DecidableEq, Repr

/-- What a `DemoVizWindow` does to the outside: it shows its platform window,
and `InitializeDemo` builds a `Compositor` (for a widget and a size, with the
calls the constructor makes on the frame sink manager, the display and the
sinks) and then a `GpuService`. -/
inductive WindowEffect where
  | Show
  | CompositorBuilt (widget : Nat) (size : Size) (calls : List HostCall)
  | GpuServiceBuilt
  deriving DecidableEq, Repr

/-- The members of `DemoVizWindow`; `service_` says whether the `GpuService`
exists. -/
structure DemoVizWindow where
  host_ : Option Compositor
  service_ : Bool
  platform_window_ : Option PlatformWindow
  widget_ : Nat
  deriving DecidableEq, Repr

namespace DemoVizWindow

/-- The constructor (lines 1548-1549). It initialises `close_closure_` only:
`widget_` has no initialiser, its value until `OnAcceleratedWidgetAvailable` is
whatever `indeterminate` is. -/
def new (indeterminate : Nat) : DemoVizWindow :=
  { host_ := none, service_ := false, platform_window_ := none, widget_ := indeterminate }

/-- `DemoVizWindow::InitializeDemo` (lines 1578-1603). The size of the new
`Compositor` is read from the platform window. The `DCHECK_NE` on `widget_` at
its top is a debug-only assertion and is left out. -/
def InitializeDemo (s : DemoVizWindow) (g_use_gpu : Bool) (env : HostEnv) :
    Option (DemoVizWindow × List WindowEffect) :=
  match s.platform_window_ with
  | none => none
  | some window =>
    match Compositor.new s.widget_ window.bounds.size g_use_gpu env with
    | none => none
    | some (host, calls, _) =>
      some ({ s with host_ := some host, service_ := true },
            [.CompositorBuilt s.widget_ window.bounds.size calls, .GpuServiceBuilt])

/-- `DemoVizWindow::OnAcceleratedWidgetAvailable` (lines 1610-1614). -/
def OnAcceleratedWidgetAvailable (s : DemoVizWindow) (widget : Nat) (g_use_gpu : Bool)
    (env : HostEnv) : Option (DemoVizWindow × List WindowEffect) :=
  let s1 := { s with widget_ := widget }
  if s1.platform_window_.isSome then s1.InitializeDemo g_use_gpu env else some (s1, [])

/-- `DemoVizWindow::Create` (lines 1552-1557). `CreatePlatformWindow` hands
`this` to the platform as the window's delegate; `reported` is the widget the
platform reports through `OnAcceleratedWidgetAvailable` from inside that call,
before `platform_window_` is assigned, if it reports one then. -/
def Create (s : DemoVizWindow) (bounds : Rect) (reported : Option Nat) (g_use_gpu : Bool)
    (env : HostEnv) : Option (DemoVizWindow × List WindowEffect) :=
  let during := match reported with
    | some widget => s.OnAcceleratedWidgetAvailable widget g_use_gpu env
    | none => some (s, [])
  match during with
  | none => none
  | some (s1, e1) =>
    let s2 := { s1 with platform_window_ := some ⟨bounds, true⟩ }
    if s2.widget_ != kNullAcceleratedWidget then
      match s2.InitializeDemo g_use_gpu env with
      | none => none
      | some (s3, e3) => some (s3, e1 ++ [.Show] ++ e3)
    else some (s2, e1 ++ [.Show])

/-- `DemoVizWindow::OnBoundsChanged` (lines 1606-1608). -/
def OnBoundsChanged (s : DemoVizWindow) (new_bounds : Rect) : Option DemoVizWindow :=
  match s.host_ with
  | none => none
  | some host => some { s with host_ := some (host.Resize new_bounds.size) }

end DemoVizWindow

/-- What can happen to a `DemoVizWindow`: `main` calls `Create`, or the platform
calls one of the delegate methods. -/
inductive WindowEvent where
  | Create (bounds : Rect) (reported : Option Nat)
  | OnAcceleratedWidgetAvailable (widget : Nat)
  | OnBoundsChanged (new_bounds : Rect)
  deriving DecidableEq, Repr

/-- One event on a `DemoVizWindow`. -/
def DemoVizWindow.step (g_use_gpu : Bool) (env : HostEnv) (s : DemoVizWindow) :
    WindowEvent → Option (DemoVizWindow × List WindowEffect)
  | .Create bounds reported => s.Create bounds reported g_use_gpu env
  | .OnAcceleratedWidgetAvailable widget => s.OnAcceleratedWidgetAvailable widget g_use_gpu env
  | .OnBoundsChanged new_bounds => (s.OnBoundsChanged new_bounds).map (fun s1 => (s1, []))

/-- A sequence of events on a `DemoVizWindow`, with everything it did. -/
def DemoVizWindow.run (g_use_gpu : Bool) (env : HostEnv) :
    DemoVizWindow → List WindowEvent → Option (DemoVizWindow × List WindowEffect)
  | s, [] => some (s, [])
  | s, ev :: rest =>
    match s.step g_use_gpu env ev with
    | none => none
    | some (s1, e1) =>
      match DemoVizWindow.run g_use_gpu env s1 rest with
      | none => none
      | some (s2, e2) => some (s2, e1 ++ e2)

/-- The widgets of the `Compositor`s built, in order: one for every run of
`InitializeDemo`. -/
def compositorsBuilt (effects : List WindowEffect) : List Nat :=
  effects.filterMap (fun e => match e with | .CompositorBuilt widget _ _ => some widget | _ => none)

/-- The widgets for which `CreateRootCompositorFrameSink` was called, in order. -/
def rootSinksCreated (effects : List WindowEffect) : List Nat :=
  (effects.flatMap (fun e => match e with | .CompositorBuilt _ _ calls => calls | _ => [])).filterMap
    (fun call => match call with
      | .CreateRootCompositorFrameSink params => some params.widget
      | _ => none)

/-- The `LocalSurfaceId` of the root sink of the window's host. -/
def DemoVizWindow.rootLocalSurfaceId (s : DemoVizWindow) : Option LocalSurfaceId :=
  (s.host_.bind (fun host => host.root_client_)).map
    (fun root => root.local_surface_id_.local_surface_id)

/-- The bounds of the root sink of the window's host. -/
def DemoVizWindow.rootBounds (s : DemoVizWindow) : Option Rect :=
  (s.host_.bind (fun host => host.root_client_)).map (fun root => root.bounds_)

/-! ## Cadence -/

/-- How many of the `n` numbers `v + 1, ..., v + n` leave the remainder 1 when
divided by 60. -/
def producing : Nat → Nat → Nat
  | _, 0 => 0
  | v, n + 1 => (if (v + 1) % 60 = 1 then 1 else 0) + producing (v + 1) n

/-! ## What has happened since the last tick -/

/-- Whether the task at the head of the sink's queue is one that changes the
content: the bind or a `Draw`. -/
def InkClient.nextTaskRedraws (s : InkClient) : Bool :=
  match s.thread_ with
  | .Bind :: _ => true
  | .Draw _ :: _ => true
  | _ => false

/-- Whether, after the events `evs` on the sink `s`, the on-thread `Bind` or a
`Draw` has run since the last begin-frame tick; `before` is the answer before
the events. It is read off what ran on the sink's thread, not off
`need_redraw_`. -/
def InkClient.changedSince (g_use_gpu : Bool) : InkClient → Bool → List InkEvent → Bool
  | _, before, [] => before
  | s, before, ev :: rest =>
    match s.step g_use_gpu ev with
    | none => before
    | some (s1, _) =>
      InkClient.changedSince g_use_gpu s1
        (match ev with
         | .OnBeginFrame _ => false
         | .RunTask => before || s.nextTaskRedraws
         | _ => before)
        rest

/-! ## The host's calls on the frame sink manager -/

/-- The host embedding further children: one call of `EmbedChildClient(parent)`
for each element of `parents`, in order, with the calls they make. -/
def Compositor.embedChildren (c : Compositor) (env : HostEnv) :
    List FrameSinkId → Option (Compositor × List HostCall)
  | [] => some (c, [])
  | parent :: rest =>
    match c.EmbedChildClient parent env with
    | none => none
    | some (c1, calls1, _) =>
      match Compositor.embedChildren c1 env rest with
      | none => none
      | some (c2, calls2) => some (c2, calls1 ++ calls2)

/-- Whether the allocator handed out `id` before: an id of its client with a
sink id below the next one (as long as the sink id has not wrapped). -/
def FrameSinkIdAllocator.allocatedBefore (a : FrameSinkIdAllocator) (id : FrameSinkId) : Bool :=
  id.client_id == a.client_id_ && decide (1 ≤ id.sink_id) && decide (id.sink_id < a.next_sink_id_)

/-- Every parent passed to `EmbedChildClient` is an id allocated before that
call: `next` is the sink id the allocator hands out at the first call. -/
def parentsAllocated (client next : Nat) : List FrameSinkId → Bool
  | [] => true
  | parent :: rest =>
    FrameSinkIdAllocator.allocatedBefore ⟨client, next⟩ parent &&
      parentsAllocated client (next + 1) rest

/-- Walks the host's calls in order with the ids registered so far: every
`RegisterFrameSinkId` names an id not registered before, and every other call
on the frame sink manager names only ids registered before it. -/
def callsInOrder : List FrameSinkId → List HostCall → Bool
  | _, [] => true
  | reg, .RegisterFrameSinkId id :: rest => !reg.contains id && callsInOrder (reg ++ [id]) rest
  | reg, .CreateRootCompositorFrameSink params :: rest =>
    reg.contains params.frame_sink_id && callsInOrder reg rest
  | reg, .CreateCompositorFrameSink id :: rest => reg.contains id && callsInOrder reg rest
  | reg, .RegisterFrameSinkHierarchy parent child :: rest =>
    reg.contains parent && reg.contains child && callsInOrder reg rest
  | reg, _ :: rest => callsInOrder reg rest

/-- The edges named by the `RegisterFrameSinkHierarchy` calls, in order. -/
def HostCall.edges (calls : List HostCall) : List (FrameSinkId × FrameSinkId) :=
  calls.filterMap (fun call =>
    match call with
    | .RegisterFrameSinkHierarchy parent child => some (parent, child)
    | _ => none)

/-- No edge closes a cycle: from the child of an edge its parent cannot be
reached along the edges, in any number of steps. -/
def acyclic (edges : List (FrameSinkId × FrameSinkId)) : Prop :=
  ∀ fuel, ∀ e ∈ edges, HostFrameSinkManager.reaches edges fuel e.2 e.1 = false

/-! ## The kinds of the quads of a pass -/

/-- The kind of a draw quad, without its payload: the value of
`DrawQuad::material`. -/
inductive QuadKind where
  | DebugBorder
  | Picture
  | SolidColor
  | Surface
  | Texture
  | Tile
  | VideoHole
  deriving DecidableEq, Repr

/-- The kind of a quad's material. -/
def Material.kind : Material → QuadKind
  | .DebugBorder _ _ => .DebugBorder
  | .Picture => .Picture
  | .SolidColor _ _ => .SolidColor
  | .Surface _ _ _ => .Surface
  | .Texture _ _ _ => .Texture
  | .Tile _ _ _ => .Tile
  | .VideoHole _ => .VideoHole

/-- The kinds of the quads of a pass, in the order of its quad list. -/
def RenderPass.kinds (p : RenderPass) : List QuadKind :=
  p.quad_list.map (fun q => q.material.kind)

/-! ## The compositing mode (lines 1701-1704) -/

/-- The value `main` assigns to `g_use_gpu` (lines 1701-1704) from the value
`use_gl` of the `--use-gl` switch. The two names it compares with are the
constants `gl::kGLImplementationSwiftShaderForWebGLName` and
`gl::kGLImplementationSwiftShaderName`; the file only uses them, so they are
arguments here. -/
def main_g_use_gpu (kGLImplementationSwiftShaderForWebGLName
    kGLImplementationSwiftShaderName use_gl : String) : Bool :=
  use_gl != kGLImplementationSwiftShaderForWebGLName &&
    use_gl != kGLImplementationSwiftShaderName

/-! ## The solid colour of the submitted frames -/

/-- The colours of the SolidColor quads of a frame, in quad order. -/
def CompositorFrame.solidColors (f : CompositorFrame) : List SkColor :=
  f.quads.filterMap (fun q =>
    match q.material with
    | .SolidColor color _ => some color
    | _ => none)

/-- The frame token and the solid colours of every frame submitted in a run, in
submission order. -/
def tokenColors (effects : List Effect) : List (Nat × List SkColor) :=
  (submittedFrames effects).map (fun f => (f.metadata.frame_token, f.solidColors))

/-- The tokens congruent to 1 modulo 60 among the `n` values after `v`, each with
the colour `colors[(token / 60) % 3]`. -/
def producedFrom (v n : Nat) : List (Nat × List SkColor) :=
  ((List.range' (v + 1) n).filter (fun t => t % 60 == 1)).map
    (fun t => (t, [colorAt (t / 60)]))

/-! ## Ledger facts -/

namespace ClientResourceProvider

theorem wellFormed_iff (p : ClientResourceProvider) (names : Nat) :
    p.wellFormed names = true ↔
      ∀ e ∈ p.imported_resources_, e.1 < p.next_id_ ∧ e.2.resource.mailbox < names := by
  simp [wellFormed, List.all_eq_true]

theorem wellFormed_new (names : Nat) : ClientResourceProvider.new.wellFormed names = true := by
  simp [wellFormed, ClientResourceProvider.new]

theorem wellFormed_mono {p : ClientResourceProvider} {m n : Nat} (h : p.wellFormed m = true)
    (hmn : m ≤ n) : p.wellFormed n = true := by
  rw [wellFormed_iff] at h ⊢
  intro e he
  exact ⟨(h e he).1, lt_of_lt_of_le (h e he).2 hmn⟩

theorem find_eq_none_of_wellFormed {p : ClientResourceProvider} {names : Nat}
    (h : p.wellFormed names = true) : p.find p.next_id_ = none := by
  rw [wellFormed_iff] at h
  simp only [find, Option.map_eq_none', List.find?_eq_none]
  intro e he
  have hlt : e.1 < p.next_id_ := (h e he).1
  simpa using Nat.ne_of_lt hlt

theorem ImportResource_fresh (p : ClientResourceProvider) (names : Nat)
    (h : p.wellFormed names = true) (r : TransferableResource) (hr : r.mailbox = names)
    (cb : ReleaseCallback) :
    p.ImportResource r cb =
      .ok (⟨p.imported_resources_ ++ [entryOf p.next_id_ r cb 0], p.next_id_ + 1⟩, p.next_id_) := by
  rw [wellFormed_iff] at h
  have hany : p.imported_resources_.any (fun e => e.2.resource.sameContent r) = false := by
    rw [List.any_eq_false]
    intro e he
    have hlt : e.2.resource.mailbox < names := (h e he).2
    have hne : ¬ e.2.resource.mailbox = r.mailbox := by rw [hr]; exact Nat.ne_of_lt hlt
    simp [TransferableResource.sameContent, hne]
  simp [ImportResource, hany, entryOf]

theorem addExport_of_lt {entries : List (ResourceId × ImportedResource)} {id : ResourceId}
    (h : ∀ e ∈ entries, e.1 < id) : addExport entries id = entries := by
  unfold addExport
  conv => rhs; rw [← List.map_id entries]
  apply List.map_congr_left
  intro e he
  have hne : ¬ e.1 = id := Nat.ne_of_lt (h e he)
  simp [hne]

theorem find_append_new {entries : List (ResourceId × ImportedResource)} {id : ResourceId}
    (h : ∀ e ∈ entries, e.1 < id) (x : ImportedResource) (next : ResourceId) :
    find ⟨entries ++ [(id, x)], next⟩ id = some x := by
  have hnone : entries.find? (fun e => e.1 == id) = none := by
    rw [List.find?_eq_none]
    intro e he
    simpa using Nat.ne_of_lt (h e he)
  simp [find, List.find?_append, hnone]

/-- Preparing a just imported resource for sending succeeds and leaves the
ledger `importedAndSent`. -/
theorem PrepareSendToParent_new (p : ClientResourceProvider) (names : Nat)
    (h : p.wellFormed names = true) (r : TransferableResource) (cb : ReleaseCallback) :
    PrepareSendToParent ⟨p.imported_resources_ ++ [entryOf p.next_id_ r cb 0], p.next_id_ + 1⟩
        [p.next_id_] =
      .ok (p.importedAndSent r cb, [{ r with id := p.next_id_ }]) := by
  rw [wellFormed_iff] at h
  have hlt : ∀ e ∈ p.imported_resources_, e.1 < p.next_id_ := fun e he => (h e he).1
  have hfind := find_append_new hlt (entryOf p.next_id_ r cb 0).2 (p.next_id_ + 1)
  simp only [entryOf] at hfind
  simp only [PrepareSendToParent, entryOf, List.all_cons, List.all_nil, hfind, Option.isSome_some,
    Bool.and_self, if_true, List.foldl_cons, List.foldl_nil, List.filterMap_cons,
    List.filterMap_nil, Option.map_some', importedAndSent]
  congr 2
  simp only [addExport, List.map_append, List.map_cons, List.map_nil, beq_self_eq_true, if_true]
  have := addExport_of_lt hlt
  simp only [addExport] at this
  rw [this]

theorem importedAndSent_wellFormed (p : ClientResourceProvider) (names : Nat)
    (h : p.wellFormed names = true) (r : TransferableResource) (hr : r.mailbox = names)
    (cb : ReleaseCallback) : (p.importedAndSent r cb).wellFormed (names + 1) = true := by
  rw [wellFormed_iff] at h ⊢
  intro e he
  simp only [importedAndSent, List.mem_append, List.mem_singleton] at he
  rcases he with he | he
  · exact ⟨Nat.lt_succ_of_lt (h e he).1, Nat.lt_succ_of_lt (h e he).2⟩
  · subst he
    simp [importedAndSent, entryOf, hr]

end ClientResourceProvider

/-! ## Bound sinks -/

theorem newResource_mailbox (cp : Option ContextProvider) (g : Bool) (names : Nat) (size : Size) :
    (newResource cp g names size).1.mailbox = names := by
  unfold newResource
  cases cp <;> cases g <;> rfl

theorem InkClient.Bound_iff (s : InkClient) :
    s.Bound = true ↔ s.frame_sink_remote_ = true ∧ (∃ b, s.bitmap_ = some b) ∧
      ∃ p, s.client_resource_provider_ = some p ∧ p.wellFormed s.generated_names_ = true := by
  unfold InkClient.Bound
  cases h1 : s.client_resource_provider_ <;> cases h2 : s.bitmap_ <;> simp

theorem InkClient.Bound_Bind (s : InkClient) : (s.Bind true).1.Bound = true := by
  simp [InkClient.Bind, InkClient.Bound, ClientResourceProvider.wellFormed_new]

theorem InkClient.CreateResource_bound (s : InkClient) (g : Bool) (size : Size) (src : SkBitmap)
    (p : ClientResourceProvider) (hr : s.frame_sink_remote_ = true)
    (hp : s.client_resource_provider_ = some p) (hwf : p.wellFormed s.generated_names_ = true) :
    ∃ effects, (∀ e ∈ effects, e.isResponse = false) ∧
      s.CreateResource g size src =
        some ({ s with
                generated_names_ := s.generated_names_ + 1
                client_resource_provider_ := some
                  ⟨p.imported_resources_ ++
                    [ClientResourceProvider.entryOf p.next_id_
                      (newResource s.context_provider_ g s.generated_names_ size).1
                      (newResource s.context_provider_ g s.generated_names_ size).2 0],
                   p.next_id_ + 1⟩ },
              p.next_id_, effects) := by
  unfold InkClient.CreateResource
  cases hcp : s.context_provider_ with
  | none =>
    refine ⟨[.remote false (.DidAllocateSharedBitmap src s.generated_names_)], by simp [Effect.isResponse], ?_⟩
    have himp := ClientResourceProvider.ImportResource_fresh p _ hwf
      (TransferableResource.MakeSoftware s.generated_names_ size) rfl .DoNothing
    simp [InkClient.CreateSoftwareResource, hr, hp, himp, newResource, hcp]
  | some cp =>
    cases g with
    | false =>
      refine ⟨[.remote false (.DidAllocateSharedBitmap src s.generated_names_)], by simp [Effect.isResponse], ?_⟩
      have himp := ClientResourceProvider.ImportResource_fresh p _ hwf
        (TransferableResource.MakeSoftware s.generated_names_ size) rfl .DoNothing
      simp [InkClient.CreateSoftwareResource, hr, hp, himp, newResource, hcp]
    | true =>
      refine ⟨[.CreateSharedImage cp.id s.generated_names_ size src], by simp [Effect.isResponse], ?_⟩
      have himp := ClientResourceProvider.ImportResource_fresh p _ hwf
        (TransferableResource.MakeGL s.generated_names_ ⟨s.generated_names_ + 1⟩ size) rfl
        (.DeleteSharedImage cp.id s.generated_names_)
      simp [InkClient.CreateGpuResource, hcp, hp, himp, newResource]

theorem InkClient.AppendTextureDrawQuad_bound (s : InkClient) (g : Bool) (frame : CompositorFrame)
    (pass : RenderPass) (p : ClientResourceProvider) (b : SkBitmap)
    (hr : s.frame_sink_remote_ = true) (hb : s.bitmap_ = some b)
    (hp : s.client_resource_provider_ = some p) (hwf : p.wellFormed s.generated_names_ = true) :
    ∃ effects, (∀ e ∈ effects, e.isResponse = false) ∧
      s.AppendTextureDrawQuad g frame pass =
        some ({ s with
                generated_names_ := s.generated_names_ + 1
                client_resource_provider_ := some (p.importedAndSent
                  (newResource s.context_provider_ g s.generated_names_
                    ⟨s.bounds_.width, s.bounds_.height⟩).1
                  (newResource s.context_provider_ g s.generated_names_
                    ⟨s.bounds_.width, s.bounds_.height⟩).2) },
              { frame with
                resource_list := frame.resource_list ++
                  [{ (newResource s.context_provider_ g s.generated_names_
                        ⟨s.bounds_.width, s.bounds_.height⟩).1 with id := p.next_id_ }] },
              { pass with
                items := pass.items ++
                  [.state { quad_to_target_transform := Transform.identity
                            quad_layer_rect := s.bounds_
                            visible_quad_layer_rect := s.bounds_
                            clip_rect := s.bounds_
                            is_clipped := false
                            are_contents_opaque := false
                            opacity := 1
                            sorting_context_id := 0 },
                   .quad { shared_quad_state := pass.shared_quad_state_list.length
                           rect := s.bounds_
                           visible_rect := s.bounds_
                           needs_blending := false
                           material := .Texture p.next_id_ true SK_ColorGRAY }] },
              effects) := by
  obtain ⟨effects, heff, hcr⟩ := s.CreateResource_bound g ⟨s.bounds_.width, s.bounds_.height⟩ b p
    hr hp hwf
  refine ⟨effects, heff, ?_⟩
  have hsend := ClientResourceProvider.PrepareSendToParent_new p _ hwf
    (newResource s.context_provider_ g s.generated_names_ ⟨s.bounds_.width, s.bounds_.height⟩).1
    (newResource s.context_provider_ g s.generated_names_ ⟨s.bounds_.width, s.bounds_.height⟩).2
  simp [InkClient.AppendTextureDrawQuad, hb, hcr, prepareSendToParent, hsend,
    RenderPass.CreateAndAppendSharedQuadState, RenderPass.CreateAndAppendDrawQuad]

theorem InkClient.CreateFrame_bound (s : InkClient) (g : Bool) (args : BeginFrameArgs)
    (p : ClientResourceProvider) (b : SkBitmap)
    (hr : s.frame_sink_remote_ = true) (hb : s.bitmap_ = some b)
    (hp : s.client_resource_provider_ = some p) (hwf : p.wellFormed s.generated_names_ = true) :
    ∃ effects, (∀ e ∈ effects, e.isResponse = false) ∧
      s.CreateFrame g args = some (s.afterFrame g p, s.frameOf g p args, effects) := by
  obtain ⟨effects, heff, happ⟩ :=
    InkClient.AppendTextureDrawQuad_bound
      { s with frame_token_generator_ := s.frame_token_generator_.incr } g
      { metadata :=
          { begin_frame_ack := BeginFrameAck.ofArgs args true
            device_scale_factor := 1
            local_surface_id_allocation_time := s.local_surface_id_.allocation_time
            frame_token := s.frame_token_generator_.incr.value
            send_frame_token_to_embedder := true }
        resource_list := []
        render_pass_list := [] }
      (RenderPass.SetNew 1 s.bounds_ s.bounds_ Transform.identity) p b hr hb hp hwf
  refine ⟨effects, heff, ?_⟩
  simp only [InkClient.CreateFrame, happ]
  simp [InkClient.afterFrame, InkClient.frameOf, InkClient.passOf,
    InkClient.AppendSolidColorDrawQuad, RenderPass.SetNew,
    RenderPass.CreateAndAppendSharedQuadState, RenderPass.CreateAndAppendDrawQuad,
    RenderPass.shared_quad_state_list]

theorem InkClient.afterFrame_Bound (s : InkClient) (g : Bool) (p : ClientResourceProvider)
    (hs : s.Bound = true) (hp : s.client_resource_provider_ = some p) :
    (s.afterFrame g p).Bound = true := by
  rw [InkClient.Bound_iff] at hs ⊢
  obtain ⟨hr, hb, q, hq, hwf⟩ := hs
  rw [hp] at hq
  cases hq
  refine ⟨hr, hb, _, rfl, ?_⟩
  exact ClientResourceProvider.importedAndSent_wellFormed p _ hwf _ (newResource_mailbox _ _ _ _) _

/-- What `InkClient::OnBeginFrame` does on a bound sink. -/
theorem InkClient.OnBeginFrame_bound (s : InkClient) (g : Bool) (args : BeginFrameArgs)
    (p : ClientResourceProvider) (hs : s.Bound = true)
    (hp : s.client_resource_provider_ = some p) :
    (s.need_redraw_ = true ∧ ∃ effects, (∀ e ∈ effects, e.isResponse = false) ∧
        s.OnBeginFrame g args =
          some ({ s.afterFrame g p with need_redraw_ := false },
                effects ++ [.remote false (.SubmitCompositorFrame
                  s.local_surface_id_.local_surface_id (s.frameOf g p args))])) ∨
    (s.need_redraw_ = false ∧
        s.OnBeginFrame g args =
          some (s, [.remote false (.DidNotProduceFrame (BeginFrameAck.ofArgs args false))])) := by
  have hs2 := (InkClient.Bound_iff s).1 hs
  obtain ⟨hr, ⟨b, hb⟩, q, hq, hwf⟩ := hs2
  rw [hp] at hq
  cases hq
  cases hn : s.need_redraw_ with
  | true =>
    left
    obtain ⟨effects, heff, hcf⟩ := s.CreateFrame_bound g args p b hr hb hp hwf
    refine ⟨rfl, effects, heff, ?_⟩
    simp [InkClient.OnBeginFrame, hn, hcf, InkClient.afterFrame, hr]
  | false =>
    right
    refine ⟨rfl, ?_⟩
    have hsame : { s with need_redraw_ := false } = s := by
      cases s
      simp_all
    unfold InkClient.OnBeginFrame
    rw [hsame]
    simp [hn, hr]

/-! ## Appending a shared quad state and its quad -/

theorem RenderPass.append_pair (pass : RenderPass) (st : SharedQuadState) (rect : Rect)
    (m : Material) :
    (pass.CreateAndAppendSharedQuadState st).1.CreateAndAppendDrawQuad
        { shared_quad_state := (pass.CreateAndAppendSharedQuadState st).2
          rect := rect
          visible_rect := rect
          needs_blending := false
          material := m } =
      { pass with items := appendPair pass.items st rect m } := by
  simp [RenderPass.CreateAndAppendSharedQuadState, RenderPass.CreateAndAppendDrawQuad,
    appendPair, stateCount, RenderPass.shared_quad_state_list]

theorem stateCount_append (xs ys : List PassItem) :
    stateCount (xs ++ ys) = stateCount xs + stateCount ys := by
  simp [stateCount, List.filterMap_append]

theorem stateCount_appendPair (items : List PassItem) (st : SharedQuadState) (rect : Rect)
    (m : Material) : stateCount (appendPair items st rect m) = stateCount items + 1 := by
  simp [appendPair, stateCount, List.filterMap_append]

theorem statesPrecedeQuads_append (xs ys : List PassItem) (n : Nat) :
    RenderPass.statesPrecedeQuads (xs ++ ys) n =
      (RenderPass.statesPrecedeQuads xs n &&
        RenderPass.statesPrecedeQuads ys (n + stateCount xs)) := by
  induction xs generalizing n with
  | nil => simp [RenderPass.statesPrecedeQuads, stateCount]
  | cons x rest ih =>
    cases x with
    | state st =>
      have hc : stateCount (PassItem.state st :: rest) = stateCount rest + 1 := by
        simp [stateCount]
      have hn : n + 1 + stateCount rest = n + (stateCount rest + 1) := by omega
      show RenderPass.statesPrecedeQuads (rest ++ ys) (n + 1) = _
      rw [ih, hc, hn]
      rfl
    | quad q =>
      have hc : stateCount (PassItem.quad q :: rest) = stateCount rest := by
        simp [stateCount]
      show (decide (q.shared_quad_state < n) && RenderPass.statesPrecedeQuads (rest ++ ys) n) = _
      rw [ih, hc, ← Bool.and_assoc]
      rfl

/-- One `Append...DrawQuad` call keeps the order "state first, quad after". -/
theorem statesPrecedeQuads_appendPair (items : List PassItem) (st : SharedQuadState)
    (rect : Rect) (m : Material) (h : RenderPass.statesPrecedeQuads items 0 = true) :
    RenderPass.statesPrecedeQuads (appendPair items st rect m) 0 = true := by
  unfold appendPair
  rw [statesPrecedeQuads_append, h]
  simp [RenderPass.statesPrecedeQuads]

theorem quadsOf_appendPair (items : List PassItem) (st : SharedQuadState) (rect : Rect)
    (m : Material) :
    quadsOf (appendPair items st rect m) =
      quadsOf items ++ [{ shared_quad_state := stateCount items
                          rect := rect
                          visible_rect := rect
                          needs_blending := false
                          material := m }] := by
  simp [appendPair, quadsOf, List.filterMap_append]

/-! ## Frames of a bound LayerTreeFrameSink -/

namespace LayerTreeFrameSink

theorem layer_Bound_iff (s : LayerTreeFrameSink) :
    s.Bound = true ↔ (∃ sink, s.GetCompositorFrameSinkPtr = some sink) ∧
      ∃ p, s.client_resource_provider_ = some p ∧ p.wellFormed s.generated_names_ = true := by
  unfold LayerTreeFrameSink.Bound
  cases h1 : s.client_resource_provider_ <;> cases h2 : s.GetCompositorFrameSinkPtr <;> simp

theorem Bound_BindOnThread (s : LayerTreeFrameSink) (associated : Bool) :
    (s.BindOnThread associated).1.Bound = true := by
  cases associated <;> cases h : s.frame_sink_associated_remote_ <;>
    simp [BindOnThread, LayerTreeFrameSink.Bound, GetCompositorFrameSinkPtr,
      ClientResourceProvider.wellFormed_new, h]

theorem AppendDebugBorderDrawQuad_eq (s : LayerTreeFrameSink) (pass : RenderPass) :
    s.AppendDebugBorderDrawQuad pass =
      { pass with items := appendPair pass.items (boundsState s.bounds_ s.bounds_) s.bounds_
                    (.DebugBorder SK_ColorMAGENTA 20) } := by
  simp [AppendDebugBorderDrawQuad, RenderPass.CreateAndAppendSharedQuadState,
    RenderPass.CreateAndAppendDrawQuad, appendPair, stateCount,
    RenderPass.shared_quad_state_list, boundsState]

theorem AppendSurfaceDrawQuad_eq (s : LayerTreeFrameSink) (pass : RenderPass) :
    s.AppendSurfaceDrawQuad pass =
      { pass with items := appendPair pass.items (squareState 350 350) square
                    (.Surface ⟨none, ⟨s.child_frame_sink_id_,
                       s.local_surface_id_allocator_.GetCurrentLocalSurfaceIdAllocation.local_surface_id⟩⟩
                      SK_ColorDKGRAY true) } := by
  simp [AppendSurfaceDrawQuad, RenderPass.CreateAndAppendSharedQuadState,
    RenderPass.CreateAndAppendDrawQuad, appendPair, stateCount,
    RenderPass.shared_quad_state_list, squareState, square]

theorem AppendVideoHoleDrawQuad_eq (s : LayerTreeFrameSink) (pass : RenderPass) :
    s.AppendVideoHoleDrawQuad pass =
      { pass with items := appendPair pass.items (squareState 50 350) square
                    (.VideoHole overlay_plane_id) } := by
  simp [AppendVideoHoleDrawQuad, RenderPass.CreateAndAppendSharedQuadState,
    RenderPass.CreateAndAppendDrawQuad, appendPair, stateCount,
    RenderPass.shared_quad_state_list, squareState, square]

theorem AppendSolidColorDrawQuad_eq (s : LayerTreeFrameSink) (pass : RenderPass) :
    s.AppendSolidColorDrawQuad pass =
      { pass with items := appendPair pass.items (boundsState s.bounds_ Rect.empty) s.bounds_
                    (.SolidColor (colorAt (s.frame_token_generator_.value / 60)) false) } := by
  simp [AppendSolidColorDrawQuad, RenderPass.CreateAndAppendSharedQuadState,
    RenderPass.CreateAndAppendDrawQuad, appendPair, stateCount,
    RenderPass.shared_quad_state_list, boundsState]

theorem layer_CreateResource_bound (s : LayerTreeFrameSink) (g : Bool) (size : Size) (src : SkBitmap)
    (p : ClientResourceProvider) (sink : Bool) (hr : s.GetCompositorFrameSinkPtr = some sink)
    (hp : s.client_resource_provider_ = some p) (hwf : p.wellFormed s.generated_names_ = true) :
    ∃ effects, (∀ e ∈ effects, e.isResponse = false) ∧
      s.CreateResource g size src =
        some ({ s with
                generated_names_ := s.generated_names_ + 1
                client_resource_provider_ := some
                  ⟨p.imported_resources_ ++
                    [ClientResourceProvider.entryOf p.next_id_
                      (newResource s.context_provider_ g s.generated_names_ size).1
                      (newResource s.context_provider_ g s.generated_names_ size).2 0],
                   p.next_id_ + 1⟩ },
              p.next_id_, effects) := by
  unfold LayerTreeFrameSink.CreateResource
  cases hcp : s.context_provider_ with
  | none =>
    refine ⟨[.remote sink (.DidAllocateSharedBitmap src s.generated_names_)],
      by simp [Effect.isResponse], ?_⟩
    have himp := ClientResourceProvider.ImportResource_fresh p _ hwf
      (TransferableResource.MakeSoftware s.generated_names_ size) rfl .DoNothing
    simp [CreateSoftwareResource, hr, hp, himp, newResource, hcp]
  | some cp =>
    cases g with
    | false =>
      refine ⟨[.remote sink (.DidAllocateSharedBitmap src s.generated_names_)],
        by simp [Effect.isResponse], ?_⟩
      have himp := ClientResourceProvider.ImportResource_fresh p _ hwf
        (TransferableResource.MakeSoftware s.generated_names_ size) rfl .DoNothing
      simp [CreateSoftwareResource, hr, hp, himp, newResource, hcp]
    | true =>
      refine ⟨[.CreateSharedImage cp.id s.generated_names_ size src],
        by simp [Effect.isResponse], ?_⟩
      have himp := ClientResourceProvider.ImportResource_fresh p _ hwf
        (TransferableResource.MakeGL s.generated_names_ ⟨s.generated_names_ + 1⟩ size) rfl
        (.DeleteSharedImage cp.id s.generated_names_)
      simp [CreateGpuResource, hcp, hp, himp, newResource]

theorem AppendTileDrawQuad_bound (s : LayerTreeFrameSink) (g : Bool) (frame : CompositorFrame)
    (pass : RenderPass) (p : ClientResourceProvider) (sink : Bool)
    (hr : s.GetCompositorFrameSinkPtr = some sink)
    (hp : s.client_resource_provider_ = some p) (hwf : p.wellFormed s.generated_names_ = true) :
    ∃ effects, (∀ e ∈ effects, e.isResponse = false) ∧
      s.AppendTileDrawQuad g frame pass =
        some ({ s with
                generated_names_ := s.generated_names_ + 1
                client_resource_provider_ := some (p.importedAndSent
                  (newResource s.context_provider_ g s.generated_names_ ⟨200, 200⟩).1
                  (newResource s.context_provider_ g s.generated_names_ ⟨200, 200⟩).2) },
              { frame with
                resource_list := frame.resource_list ++
                  [{ (newResource s.context_provider_ g s.generated_names_ ⟨200, 200⟩).1 with
                     id := p.next_id_ }] },
              { pass with items := appendPair pass.items (squareState 50 50) square
                            (.Tile p.next_id_ square square.size) },
              effects) := by
  obtain ⟨effects, heff, hcr⟩ := s.layer_CreateResource_bound g ⟨200, 200⟩ (s.circles 1 2 3) p sink
    hr hp hwf
  refine ⟨effects, heff, ?_⟩
  have hsend := ClientResourceProvider.PrepareSendToParent_new p _ hwf
    (newResource s.context_provider_ g s.generated_names_ ⟨200, 200⟩).1
    (newResource s.context_provider_ g s.generated_names_ ⟨200, 200⟩).2
  simp [AppendTileDrawQuad, hcr, prepareSendToParent, hsend,
    RenderPass.CreateAndAppendSharedQuadState, RenderPass.CreateAndAppendDrawQuad,
    appendPair, stateCount, RenderPass.shared_quad_state_list, squareState, square, Rect.size]

theorem layer_AppendTextureDrawQuad_bound (s : LayerTreeFrameSink) (g : Bool) (frame : CompositorFrame)
    (pass : RenderPass) (p : ClientResourceProvider) (sink : Bool)
    (hr : s.GetCompositorFrameSinkPtr = some sink)
    (hp : s.client_resource_provider_ = some p) (hwf : p.wellFormed s.generated_names_ = true) :
    ∃ effects, (∀ e ∈ effects, e.isResponse = false) ∧
      s.AppendTextureDrawQuad g frame pass =
        some ({ s with
                generated_names_ := s.generated_names_ + 1
                client_resource_provider_ := some (p.importedAndSent
                  (newResource s.context_provider_ g s.generated_names_ ⟨200, 200⟩).1
                  (newResource s.context_provider_ g s.generated_names_ ⟨200, 200⟩).2) },
              { frame with
                resource_list := frame.resource_list ++
                  [{ (newResource s.context_provider_ g s.generated_names_ ⟨200, 200⟩).1 with
                     id := p.next_id_ }] },
              { pass with items := appendPair pass.items (squareState 350 50) square
                            (.Texture p.next_id_ true SK_ColorGRAY) },
              effects) := by
  obtain ⟨effects, heff, hcr⟩ := s.layer_CreateResource_bound g ⟨200, 200⟩ (s.circles 2 3 1) p sink
    hr hp hwf
  refine ⟨effects, heff, ?_⟩
  have hsend := ClientResourceProvider.PrepareSendToParent_new p _ hwf
    (newResource s.context_provider_ g s.generated_names_ ⟨200, 200⟩).1
    (newResource s.context_provider_ g s.generated_names_ ⟨200, 200⟩).2
  simp [AppendTextureDrawQuad, hcr, prepareSendToParent, hsend,
    RenderPass.CreateAndAppendSharedQuadState, RenderPass.CreateAndAppendDrawQuad,
    appendPair, stateCount, RenderPass.shared_quad_state_list, squareState, square]

theorem layer_CreateFrame_bound (s : LayerTreeFrameSink) (g : Bool) (args : BeginFrameArgs)
    (p : ClientResourceProvider) (sink : Bool) (hr : s.GetCompositorFrameSinkPtr = some sink)
    (hp : s.client_resource_provider_ = some p) (hwf : p.wellFormed s.generated_names_ = true) :
    ∃ effects, (∀ e ∈ effects, e.isResponse = false) ∧
      s.CreateFrame g args = some (s.afterFrame g p, s.frameOf g p args, effects) := by
  cases hcp : s.context_provider_ with
  | none =>
    refine ⟨[], by simp, ?_⟩
    cases g <;> cases hv : s.child_frame_sink_id_.is_valid <;>
      simp [CreateFrame, appendResourceQuads, hcp, hv, AppendDebugBorderDrawQuad_eq,
        AppendSurfaceDrawQuad_eq, AppendSolidColorDrawQuad_eq, RenderPass.SetNew, afterFrame,
        frameOf, resourcesOf, itemsOf, headItems]
  | some cp =>
    let frame0 : CompositorFrame :=
      { metadata :=
          { begin_frame_ack := BeginFrameAck.ofArgs args true
            device_scale_factor := 1
            local_surface_id_allocation_time := s.local_surface_id_.allocation_time
            frame_token := s.frame_token_generator_.value
            send_frame_token_to_embedder := true }
        resource_list := []
        render_pass_list := [] }
    let pass2 : RenderPass :=
      { id := 1
        output_rect := s.bounds_
        damage_rect := s.bounds_
        transform_to_root_target := Transform.identity
        items := s.headItems
        copy_requests := [] }
    obtain ⟨e1, he1, h1⟩ := s.AppendTileDrawQuad_bound g frame0 pass2 p sink hr hp hwf
    have hwf1 := ClientResourceProvider.importedAndSent_wellFormed p _ hwf
      (newResource s.context_provider_ g s.generated_names_ ⟨200, 200⟩).1
      (newResource_mailbox _ _ _ _)
      (newResource s.context_provider_ g s.generated_names_ ⟨200, 200⟩).2
    obtain ⟨e2, he2, h2⟩ := layer_AppendTextureDrawQuad_bound
      { s with
        generated_names_ := s.generated_names_ + 1
        client_resource_provider_ := some (p.importedAndSent
          (newResource s.context_provider_ g s.generated_names_ ⟨200, 200⟩).1
          (newResource s.context_provider_ g s.generated_names_ ⟨200, 200⟩).2) } g
      { frame0 with
        resource_list := frame0.resource_list ++
          [{ (newResource s.context_provider_ g s.generated_names_ ⟨200, 200⟩).1 with
             id := p.next_id_ }] }
      { pass2 with items := appendPair pass2.items (squareState 50 50) square
                    (.Tile p.next_id_ square square.size) }
      _ sink hr rfl hwf1
    refine ⟨e1 ++ e2, ?_, ?_⟩
    · intro e he
      rcases List.mem_append.1 he with h | h
      · exact he1 e h
      · exact he2 e h
    · have hpass : (if s.child_frame_sink_id_.is_valid = true then
            s.AppendSurfaceDrawQuad
              (s.AppendDebugBorderDrawQuad
                (RenderPass.SetNew 1 s.bounds_ s.bounds_ Transform.identity))
          else s.AppendDebugBorderDrawQuad
                (RenderPass.SetNew 1 s.bounds_ s.bounds_ Transform.identity)) = pass2 := by
        cases hv : s.child_frame_sink_id_.is_valid <;>
          simp [pass2, hv, AppendDebugBorderDrawQuad_eq, AppendSurfaceDrawQuad_eq,
            RenderPass.SetNew, headItems]
      simp only [CreateFrame, hpass, appendResourceQuads, hcp, Option.isSome_some, if_true]
      simp only [hcp] at h1 h2
      simp only [frame0, pass2] at h1 h2
      simp only [h1, h2]
      cases g <;>
        simp [afterFrame, frameOf, resourcesOf, itemsOf, resourceItems, hcp, ledgerAfterFrame,
          AppendVideoHoleDrawQuad_eq, AppendPictureDrawQuad, AppendSolidColorDrawQuad_eq,
          ClientResourceProvider.importedAndSent]

theorem afterFrame_sink (s : LayerTreeFrameSink) (g : Bool) (p : ClientResourceProvider) :
    (s.afterFrame g p).GetCompositorFrameSinkPtr = s.GetCompositorFrameSinkPtr := by
  unfold afterFrame
  split <;> rfl

theorem ledgerAfterFrame_wellFormed (s : LayerTreeFrameSink) (g : Bool)
    (p : ClientResourceProvider) (hwf : p.wellFormed s.generated_names_ = true) :
    (s.ledgerAfterFrame g p).wellFormed (s.generated_names_ + 2) = true := by
  unfold ledgerAfterFrame
  have h1 := ClientResourceProvider.importedAndSent_wellFormed p _ hwf
    (newResource s.context_provider_ g s.generated_names_ ⟨200, 200⟩).1
    (newResource_mailbox _ _ _ _)
    (newResource s.context_provider_ g s.generated_names_ ⟨200, 200⟩).2
  exact ClientResourceProvider.importedAndSent_wellFormed _ _ h1 _ (newResource_mailbox _ _ _ _) _

theorem layer_afterFrame_Bound (s : LayerTreeFrameSink) (g : Bool) (p : ClientResourceProvider)
    (hs : s.Bound = true) (hp : s.client_resource_provider_ = some p) :
    (s.afterFrame g p).Bound = true := by
  rw [layer_Bound_iff] at hs ⊢
  obtain ⟨hr, q, hq, hwf⟩ := hs
  rw [hp] at hq
  cases hq
  refine ⟨by rw [afterFrame_sink]; exact hr, ?_⟩
  unfold afterFrame
  split
  · exact ⟨_, rfl, ledgerAfterFrame_wellFormed s g p hwf⟩
  · exact ⟨p, hp, hwf⟩

/-- What `LayerTreeFrameSink::OnBeginFrame` does on a bound sink. -/
theorem layer_OnBeginFrame_bound (s : LayerTreeFrameSink) (g : Bool) (args : BeginFrameArgs)
    (p : ClientResourceProvider) (sink : Bool) (hr : s.GetCompositorFrameSinkPtr = some sink)
    (hp : s.client_resource_provider_ = some p) (hwf : p.wellFormed s.generated_names_ = true) :
    (s.frame_token_generator_.incr.value % 60 = 1 ∧
      ∃ effects, (∀ e ∈ effects, e.isResponse = false) ∧
        s.OnBeginFrame g args =
          some (s.tick.afterFrame g p,
                effects ++ [.remote sink (.SubmitCompositorFrame
                  s.local_surface_id_.local_surface_id (s.tick.frameOf g p args))])) ∨
    (s.frame_token_generator_.incr.value % 60 ≠ 1 ∧
      s.OnBeginFrame g args =
        some (s.tick, [.remote sink (.DidNotProduceFrame (BeginFrameAck.ofArgs args false))])) := by
  have hr0 : s.tick.GetCompositorFrameSinkPtr = some sink := hr
  by_cases hm : s.frame_token_generator_.incr.value % 60 = 1
  · left
    obtain ⟨effects, heff, hcf⟩ := s.tick.layer_CreateFrame_bound g args p sink hr0 hp hwf
    refine ⟨hm, effects, heff, ?_⟩
    have hr1 : (s.tick.afterFrame g p).GetCompositorFrameSinkPtr = some sink := by
      rw [afterFrame_sink]; exact hr0
    unfold tick at hcf hr1
    simp [OnBeginFrame, hm, hcf, hr1, tick]
  · right
    refine ⟨hm, ?_⟩
    unfold tick at hr0
    simp [OnBeginFrame, hm, hr0, tick]

end LayerTreeFrameSink

/-! ## Concrete sinks -/

theorem Effect.isSubmit_false_of_not_response (e : Effect) (h : e.isResponse = false) :
    e.isSubmit = false := by
  cases e with
  | remote a call => cases call <;> simp_all [Effect.isResponse, Effect.isSubmit]
  | _ => rfl

theorem Effect.isDidNotProduce_false_of_not_response (e : Effect) (h : e.isResponse = false) :
    e.isDidNotProduce = false := by
  cases e with
  | remote a call => cases call <;> simp_all [Effect.isResponse, Effect.isDidNotProduce]
  | _ => rfl

theorem countP_eq_zero_of_no_response {effects : List Effect}
    (h : ∀ e ∈ effects, e.isResponse = false) :
    effects.countP Effect.isSubmit = 0 ∧ effects.countP Effect.isDidNotProduce = 0 := by
  constructor
  · rw [List.countP_eq_zero]
    intro e he
    simp [Effect.isSubmit_false_of_not_response e (h e he)]
  · rw [List.countP_eq_zero]
    intro e he
    simp [Effect.isDidNotProduce_false_of_not_response e (h e he)]

/-! ## Claims -/

/-- C1: on a bound sink, one call of `OnBeginFrame` (of `InkClient` and of
`LayerTreeFrameSink` alike) returns and sends exactly one response to the host:
either one `SubmitCompositorFrame` and no `DidNotProduceFrame`, or one
`DidNotProduceFrame` and no `SubmitCompositorFrame`. -/
theorem OnBeginFrame_one_response (g : Bool) (args : BeginFrameArgs) (ink : InkClient)
    (layer : LayerTreeFrameSink) (hi : ink.Bound = true) (hl : layer.Bound = true) :
    (∃ s1 effects, ink.OnBeginFrame g args = some (s1, effects) ∧
      ((effects.countP Effect.isSubmit = 1 ∧ effects.countP Effect.isDidNotProduce = 0) ∨
       (effects.countP Effect.isSubmit = 0 ∧ effects.countP Effect.isDidNotProduce = 1))) ∧
    (∃ s1 effects, layer.OnBeginFrame g args = some (s1, effects) ∧
      ((effects.countP Effect.isSubmit = 1 ∧ effects.countP Effect.isDidNotProduce = 0) ∨
       (effects.countP Effect.isSubmit = 0 ∧ effects.countP Effect.isDidNotProduce = 1))) := by
  constructor
  · obtain ⟨-, -, p, hp, -⟩ := (InkClient.Bound_iff ink).1 hi
    rcases InkClient.OnBeginFrame_bound ink g args p hi hp with
      ⟨-, effects, heff, h⟩ | ⟨-, h⟩
    · refine ⟨_, _, h, Or.inl ?_⟩
      obtain ⟨h1, h2⟩ := countP_eq_zero_of_no_response heff
      simp [List.countP_append, h1, h2, Effect.isSubmit, Effect.isDidNotProduce]
    · refine ⟨_, _, h, Or.inr ?_⟩
      simp [Effect.isSubmit, Effect.isDidNotProduce]
  · obtain ⟨⟨sink, hr⟩, p, hp, hwf⟩ := (LayerTreeFrameSink.layer_Bound_iff layer).1 hl
    rcases LayerTreeFrameSink.layer_OnBeginFrame_bound layer g args p sink hr hp hwf with
      ⟨-, effects, heff, h⟩ | ⟨-, h⟩
    · refine ⟨_, _, h, Or.inl ?_⟩
      obtain ⟨h1, h2⟩ := countP_eq_zero_of_no_response heff
      simp [List.countP_append, h1, h2, Effect.isSubmit, Effect.isDidNotProduce]
    · refine ⟨_, _, h, Or.inr ?_⟩
      simp [Effect.isSubmit, Effect.isDidNotProduce]

theorem OnBeginFrame_one_response_witness :
    (inkBound.Bound = true ∧ layerFull.Bound = true) ∧
    (∃ s1 effects, inkBound.OnBeginFrame true args0 = some (s1, effects) ∧
      ((effects.countP Effect.isSubmit = 1 ∧ effects.countP Effect.isDidNotProduce = 0) ∨
       (effects.countP Effect.isSubmit = 0 ∧ effects.countP Effect.isDidNotProduce = 1))) ∧
    (∃ s1 effects, layerFull.OnBeginFrame true args0 = some (s1, effects) ∧
      ((effects.countP Effect.isSubmit = 1 ∧ effects.countP Effect.isDidNotProduce = 0) ∨
       (effects.countP Effect.isSubmit = 0 ∧ effects.countP Effect.isDidNotProduce = 1))) :=
  ⟨⟨by decide, by decide⟩,
   OnBeginFrame_one_response true args0 inkBound layerFull (by decide) (by decide)⟩

/-- C2: the response `OnBeginFrame` sends on a bound sink answers the tick it
was called with: the ack it carries has the source id and the sequence number
of `args`, and its flag is `true` on a submitted frame and `false` on
`DidNotProduceFrame`. -/
theorem OnBeginFrame_ack_answers_tick (g : Bool) (args : BeginFrameArgs) (ink : InkClient)
    (layer : LayerTreeFrameSink) (hi : ink.Bound = true) (hl : layer.Bound = true) :
    (∃ s1 effects, ink.OnBeginFrame g args = some (s1, effects) ∧
      ∀ e ∈ effects, e.isResponse = true →
        e.ack = some ⟨args.source_id, args.sequence_number, e.isSubmit⟩) ∧
    (∃ s1 effects, layer.OnBeginFrame g args = some (s1, effects) ∧
      ∀ e ∈ effects, e.isResponse = true →
        e.ack = some ⟨args.source_id, args.sequence_number, e.isSubmit⟩) := by
  constructor
  · obtain ⟨-, -, p, hp, -⟩ := (InkClient.Bound_iff ink).1 hi
    rcases InkClient.OnBeginFrame_bound ink g args p hi hp with
      ⟨-, effects, heff, h⟩ | ⟨-, h⟩
    · refine ⟨_, _, h, ?_⟩
      intro e he hresp
      rcases List.mem_append.1 he with he | he
      · rw [heff e he] at hresp
        cases hresp
      · rw [List.mem_singleton] at he
        subst he
        simp [Effect.ack, Effect.isSubmit, InkClient.frameOf, BeginFrameAck.ofArgs]
    · refine ⟨_, _, h, ?_⟩
      intro e he _
      rw [List.mem_singleton] at he
      subst he
      simp [Effect.ack, Effect.isSubmit, BeginFrameAck.ofArgs]
  · obtain ⟨⟨sink, hr⟩, p, hp, hwf⟩ := (LayerTreeFrameSink.layer_Bound_iff layer).1 hl
    rcases LayerTreeFrameSink.layer_OnBeginFrame_bound layer g args p sink hr hp hwf with
      ⟨-, effects, heff, h⟩ | ⟨-, h⟩
    · refine ⟨_, _, h, ?_⟩
      intro e he hresp
      rcases List.mem_append.1 he with he | he
      · rw [heff e he] at hresp
        cases hresp
      · rw [List.mem_singleton] at he
        subst he
        simp [Effect.ack, Effect.isSubmit, LayerTreeFrameSink.frameOf, BeginFrameAck.ofArgs]
    · refine ⟨_, _, h, ?_⟩
      intro e he _
      rw [List.mem_singleton] at he
      subst he
      simp [Effect.ack, Effect.isSubmit, BeginFrameAck.ofArgs]

theorem OnBeginFrame_ack_answers_tick_witness :
    (inkBound.Bound = true ∧ layerBound.Bound = true) ∧
    (∃ s1 effects, inkBound.OnBeginFrame false args0 = some (s1, effects) ∧
      ∀ e ∈ effects, e.isResponse = true →
        e.ack = some ⟨args0.source_id, args0.sequence_number, e.isSubmit⟩) ∧
    (∃ s1 effects, layerBound.OnBeginFrame false args0 = some (s1, effects) ∧
      ∀ e ∈ effects, e.isResponse = true →
        e.ack = some ⟨args0.source_id, args0.sequence_number, e.isSubmit⟩) :=
  ⟨⟨by decide, by decide⟩,
   OnBeginFrame_ack_answers_tick false args0 inkBound layerBound (by decide) (by decide)⟩

theorem LayerTreeFrameSink.headItems_ordered (s : LayerTreeFrameSink) :
    RenderPass.statesPrecedeQuads s.headItems 0 = true := by
  unfold LayerTreeFrameSink.headItems
  have h0 : RenderPass.statesPrecedeQuads [] 0 = true := rfl
  split
  · exact statesPrecedeQuads_appendPair _ _ _ _ (statesPrecedeQuads_appendPair _ _ _ _ h0)
  · exact statesPrecedeQuads_appendPair _ _ _ _ h0

theorem LayerTreeFrameSink.itemsOf_ordered (s : LayerTreeFrameSink) (p : ClientResourceProvider) :
    RenderPass.statesPrecedeQuads (s.itemsOf p) 0 = true := by
  unfold LayerTreeFrameSink.itemsOf
  apply statesPrecedeQuads_appendPair
  split
  · unfold LayerTreeFrameSink.resourceItems
    exact statesPrecedeQuads_appendPair _ _ _ _
      (statesPrecedeQuads_appendPair _ _ _ _
        (statesPrecedeQuads_appendPair _ _ _ _ s.headItems_ordered))
  · exact s.headItems_ordered

/-- C3: on a bound sink, `CreateFrame` of either sink returns a frame with one
render pass in which every quad references a shared quad state that was
appended to that pass before the quad, whatever the bounds, the embedded child
and the context provider are. -/
theorem CreateFrame_states_precede_quads (g : Bool) (args : BeginFrameArgs) (ink : InkClient)
    (layer : LayerTreeFrameSink) (hi : ink.Bound = true) (hl : layer.Bound = true) :
    (∃ s1 frame effects, ink.CreateFrame g args = some (s1, frame, effects) ∧
      frame.render_pass_list.length = 1 ∧
      ∀ pass ∈ frame.render_pass_list, pass.quadsReferenceEarlierStates = true) ∧
    (∃ s1 frame effects, layer.CreateFrame g args = some (s1, frame, effects) ∧
      frame.render_pass_list.length = 1 ∧
      ∀ pass ∈ frame.render_pass_list, pass.quadsReferenceEarlierStates = true) := by
  constructor
  · obtain ⟨hr, ⟨b, hb⟩, p, hp, hwf⟩ := (InkClient.Bound_iff ink).1 hi
    obtain ⟨effects, -, h⟩ := ink.CreateFrame_bound g args p b hr hb hp hwf
    refine ⟨_, _, _, h, rfl, ?_⟩
    intro pass hpass
    simp only [InkClient.frameOf, List.mem_singleton] at hpass
    subst hpass
    simp [RenderPass.quadsReferenceEarlierStates, RenderPass.statesPrecedeQuads, InkClient.passOf]
  · obtain ⟨⟨sink, hr⟩, p, hp, hwf⟩ := (LayerTreeFrameSink.layer_Bound_iff layer).1 hl
    obtain ⟨effects, -, h⟩ := layer.layer_CreateFrame_bound g args p sink hr hp hwf
    refine ⟨_, _, _, h, rfl, ?_⟩
    intro pass hpass
    simp only [LayerTreeFrameSink.frameOf, List.mem_singleton] at hpass
    subst hpass
    exact layer.itemsOf_ordered p

theorem CreateFrame_states_precede_quads_witness :
    (inkBound.Bound = true ∧ layerFull.Bound = true) ∧
    (∃ s1 frame effects, inkBound.CreateFrame true args0 = some (s1, frame, effects) ∧
      frame.render_pass_list.length = 1 ∧
      ∀ pass ∈ frame.render_pass_list, pass.quadsReferenceEarlierStates = true) ∧
    (∃ s1 frame effects, layerFull.CreateFrame true args0 = some (s1, frame, effects) ∧
      frame.render_pass_list.length = 1 ∧
      ∀ pass ∈ frame.render_pass_list, pass.quadsReferenceEarlierStates = true) :=
  ⟨⟨by decide, by decide⟩,
   CreateFrame_states_precede_quads true args0 inkBound layerFull (by decide) (by decide)⟩

/-! ## The ledger stays well formed when resources come back -/

namespace ClientResourceProvider

theorem entriesBelow_receiveOne {entries : List (ResourceId × ImportedResource)} {next names : Nat}
    (h : entriesBelow entries next names) (r : ReturnedResource) :
    entriesBelow (receiveOne entries r) next names := by
  intro e he
  simp only [receiveOne, List.mem_map] at he
  obtain ⟨e0, he0, rfl⟩ := he
  have := h e0 he0
  split <;> exact this

theorem entriesBelow_receive {entries : List (ResourceId × ImportedResource)} {next names : Nat}
    (h : entriesBelow entries next names) (rs : List ReturnedResource) :
    entriesBelow (rs.foldl receiveOne entries) next names := by
  induction rs generalizing entries with
  | nil => exact h
  | cons r rest ih => exact ih (entriesBelow_receiveOne h r)

theorem RemoveImportedResource_below {p : ClientResourceProvider} {names : Nat}
    (h : entriesBelow p.imported_resources_ p.next_id_ names) (id : ResourceId) :
    entriesBelow (p.RemoveImportedResource id).1.imported_resources_
        (p.RemoveImportedResource id).1.next_id_ names ∧
      (p.RemoveImportedResource id).1.next_id_ = p.next_id_ := by
  unfold RemoveImportedResource
  cases p.find id with
  | none => exact ⟨h, rfl⟩
  | some e =>
    refine ⟨?_, rfl⟩
    intro x hx
    exact h x (List.mem_filter.1 hx).1

theorem removeReturned_below (rs : List ReturnedResource) (p : ClientResourceProvider)
    (names : Nat) (h : entriesBelow p.imported_resources_ p.next_id_ names) :
    entriesBelow (removeReturned p rs).1.imported_resources_ (removeReturned p rs).1.next_id_
        names ∧
      (removeReturned p rs).1.next_id_ = p.next_id_ := by
  induction rs generalizing p with
  | nil => exact ⟨h, rfl⟩
  | cons r rest ih =>
    obtain ⟨h1, h2⟩ := RemoveImportedResource_below h r.id
    obtain ⟨h3, h4⟩ := ih (p.RemoveImportedResource r.id).1 h1
    simp only [removeReturned]
    exact ⟨h3, h4.trans h2⟩

end ClientResourceProvider

theorem runReleases_no_response (runs : List ReleaseRun) :
    ∀ e ∈ runReleases runs, e.isResponse = false := by
  intro e he
  simp only [runReleases, List.mem_flatMap] at he
  obtain ⟨r, -, he⟩ := he
  rcases List.mem_cons.1 he with he | he
  · subst he; rfl
  · unfold DeleteSharedImage at he
    cases hc : r.callback with
    | DoNothing => simp [hc] at he
    | DeleteSharedImage cp mailbox =>
      simp only [hc, List.mem_singleton] at he
      subst he; rfl

/-- Handing returned resources to a well-formed ledger succeeds, sends no
response to the host and leaves the ledger well formed. -/
theorem receiveAndRemove_wellFormed (p : ClientResourceProvider) (names : Nat)
    (h : p.wellFormed names = true) (rs : List ReturnedResource) :
    ∃ p1 effects, receiveAndRemove (some p) rs = some (p1, effects) ∧
      p1.wellFormed names = true ∧ ∀ e ∈ effects, e.isResponse = false := by
  refine ⟨_, _, rfl, ?_, runReleases_no_response _⟩
  rw [ClientResourceProvider.wellFormed_iff] at h ⊢
  have h0 : ClientResourceProvider.entriesBelow
      (p.ReceiveReturnsFromParent rs).imported_resources_
      (p.ReceiveReturnsFromParent rs).next_id_ names :=
    ClientResourceProvider.entriesBelow_receive h rs
  exact (ClientResourceProvider.removeReturned_below rs _ names h0).1

/-! ## Every event keeps a bound sink bound -/

theorem tokensOf_append (a b : List Effect) : tokensOf (a ++ b) = tokensOf a ++ tokensOf b := by
  simp [tokensOf, submittedFrames, List.filterMap_append]

theorem tokensOf_no_response {effects : List Effect}
    (h : ∀ e ∈ effects, e.isResponse = false) : tokensOf effects = [] := by
  simp only [tokensOf, submittedFrames, List.map_eq_nil_iff, List.filterMap_eq_nil_iff]
  intro e he
  have := h e he
  cases e with
  | remote a call => cases call <;> simp_all [Effect.isResponse, Effect.frame]
  | _ => rfl

/-- What `InkClient::Draw` does on a bound sink. -/
theorem InkClient.Draw_bound (s : InkClient) (location : Point) (hs : s.Bound = true) :
    ∃ s1, s.Draw location = some (s1, [.remote false (.SetNeedsBeginFrame true)]) ∧
      s1.Bound = true ∧ s1.need_redraw_ = true ∧
      s1.frame_token_generator_ = s.frame_token_generator_ ∧ s1.thread_ = s.thread_ := by
  obtain ⟨hr, ⟨b, hb⟩, p, hp, hwf⟩ := (InkClient.Bound_iff s).1 hs
  refine ⟨{ s with
            bitmap_ := some ((b.clear SK_ColorWHITE).draw
              (.drawPath (s.path_ ++ [location]) s.paint_.color s.paint_.stroke_width))
            path_ := s.path_ ++ [location]
            need_redraw_ := true }, ?_, ?_, rfl, rfl, rfl⟩
  · simp only [InkClient.Draw, hb, hr, if_true]
  · simp only [InkClient.Bound, hr, hp, hwf, Option.isSome_some, Bool.and_self]

theorem InkClient.step_bound (g : Bool) (s : InkClient) (ev : InkEvent) (hs : s.Bound = true) :
    ∃ s1 effects, s.step g ev = some (s1, effects) ∧ s1.Bound = true ∧
      ((s1.frame_token_generator_ = s.frame_token_generator_ ∧ tokensOf effects = []) ∨
       ((∃ args, ev = .OnBeginFrame args) ∧
         s1.frame_token_generator_ = s.frame_token_generator_.incr ∧
         tokensOf effects = [s.frame_token_generator_.incr.value])) := by
  obtain ⟨hr, ⟨b, hb⟩, p, hp, hwf⟩ := (InkClient.Bound_iff s).1 hs
  cases ev with
  | RunTask =>
    unfold InkClient.step InkClient.runTask
    cases ht : s.thread_ with
    | nil => exact ⟨s, [], rfl, hs, Or.inl ⟨rfl, rfl⟩⟩
    | cons task rest =>
      cases task with
      | Bind =>
        refine ⟨_, _, rfl, InkClient.Bound_Bind _, Or.inl ⟨?_, ?_⟩⟩
        · simp [InkClient.Bind]
        · simp [InkClient.Bind, tokensOf, submittedFrames, Effect.frame]
      | SetContextProvider cp =>
        refine ⟨_, _, rfl, ?_, Or.inl ⟨?_, rfl⟩⟩
        · simpa [InkClient.SetContextProvider, InkClient.Bound] using hs
        · simp [InkClient.SetContextProvider]
      | Draw location =>
        have hs0 : ({ s with thread_ := rest } : InkClient).Bound = true := by
          simpa [InkClient.Bound] using hs
        obtain ⟨s1, h1, hb1, -, hg1, -⟩ := InkClient.Draw_bound _ location hs0
        exact ⟨s1, _, h1, hb1, Or.inl ⟨hg1, by simp [tokensOf, submittedFrames, Effect.frame]⟩⟩
  | OnBeginFrame args =>
    rcases InkClient.OnBeginFrame_bound s g args p hs hp with ⟨-, effects, heff, h⟩ | ⟨-, h⟩
    · refine ⟨_, _, h, ?_, Or.inr ⟨⟨args, rfl⟩, rfl, ?_⟩⟩
      · have := InkClient.afterFrame_Bound s g p hs hp
        simpa [InkClient.Bound] using this
      · rw [tokensOf_append, tokensOf_no_response heff]
        simp [tokensOf, submittedFrames, Effect.frame, InkClient.frameOf]
    · exact ⟨_, _, h, hs, Or.inl ⟨rfl, by simp [tokensOf, submittedFrames, Effect.frame]⟩⟩
  | DidReceiveCompositorFrameAck resources =>
    obtain ⟨p1, effects, h1, hwf1, heff⟩ := receiveAndRemove_wellFormed p _ hwf resources
    refine ⟨{ s with client_resource_provider_ := some p1 }, effects, ?_, ?_,
      Or.inl ⟨rfl, tokensOf_no_response heff⟩⟩
    · simp only [InkClient.step, InkClient.DidReceiveCompositorFrameAck, hp, h1]
    · simp only [InkClient.Bound, hr, hb, hwf1, Option.isSome_some, Bool.and_self]
  | ReclaimResources resources =>
    obtain ⟨p1, effects, h1, hwf1, heff⟩ := receiveAndRemove_wellFormed p _ hwf resources
    refine ⟨{ s with client_resource_provider_ := some p1 }, effects, ?_, ?_,
      Or.inl ⟨rfl, tokensOf_no_response heff⟩⟩
    · simp only [InkClient.step, InkClient.ReclaimResources, hp, h1]
    · simp only [InkClient.Bound, hr, hb, hwf1, Option.isSome_some, Bool.and_self]
  | OnBeginFramePausedChanged paused =>
    exact ⟨s, [], rfl, hs, Or.inl ⟨rfl, rfl⟩⟩
  | DidProcessEvent is_move location =>
    refine ⟨_, [], rfl, ?_, Or.inl ⟨?_, rfl⟩⟩
    · cases is_move <;> simpa [InkClient.DidProcessEvent, InkClient.Bound] using hs
    · cases is_move <;> simp [InkClient.DidProcessEvent]
  | SetContextProvider cp =>
    refine ⟨_, [], rfl, ?_, Or.inl ⟨?_, rfl⟩⟩
    · simpa [InkClient.SetContextProvider, InkClient.Bound] using hs
    · simp [InkClient.SetContextProvider]
  | Bind =>
    refine ⟨_, _, rfl, ?_, Or.inl ⟨?_, ?_⟩⟩
    · simpa [InkClient.Bind, InkClient.Bound] using hs
    · simp [InkClient.Bind]
    · simp [InkClient.Bind, tokensOf, submittedFrames, Effect.frame]

theorem LayerTreeFrameSink.afterFrame_generator (s : LayerTreeFrameSink) (g : Bool)
    (p : ClientResourceProvider) :
    (s.afterFrame g p).frame_token_generator_ = s.frame_token_generator_ := by
  unfold LayerTreeFrameSink.afterFrame
  split <;> rfl

theorem LayerTreeFrameSink.layer_step_bound (g : Bool) (s : LayerTreeFrameSink) (ev : LayerEvent)
    (hs : s.Bound = true) :
    ∃ s1 effects, s.step g ev = some (s1, effects) ∧ s1.Bound = true ∧
      ((s1.frame_token_generator_ = s.frame_token_generator_ ∧ tokensOf effects = []) ∨
       ((∃ args, ev = .OnBeginFrame args) ∧
         s1.frame_token_generator_ = s.frame_token_generator_.incr ∧
         (tokensOf effects = [] ∨
          tokensOf effects = [s.frame_token_generator_.incr.value]))) := by
  obtain ⟨⟨sink, hr⟩, p, hp, hwf⟩ := (LayerTreeFrameSink.layer_Bound_iff s).1 hs
  cases ev with
  | RunTask =>
    unfold LayerTreeFrameSink.step LayerTreeFrameSink.runTask
    cases ht : s.thread_ with
    | nil => exact ⟨s, [], rfl, hs, Or.inl ⟨rfl, rfl⟩⟩
    | cons task rest =>
      cases task with
      | BindOnThread associated =>
        refine ⟨_, _, rfl, LayerTreeFrameSink.Bound_BindOnThread _ _, Or.inl ⟨?_, ?_⟩⟩
        · cases associated <;> simp [LayerTreeFrameSink.BindOnThread]
        · simp [LayerTreeFrameSink.BindOnThread, tokensOf, submittedFrames, Effect.frame]
      | SetContextProvider cp =>
        refine ⟨_, _, rfl, ?_, Or.inl ⟨?_, rfl⟩⟩
        · simpa [LayerTreeFrameSink.SetContextProvider, LayerTreeFrameSink.Bound,
            LayerTreeFrameSink.GetCompositorFrameSinkPtr] using hs
        · simp [LayerTreeFrameSink.SetContextProvider]
  | OnBeginFrame args =>
    rcases LayerTreeFrameSink.layer_OnBeginFrame_bound s g args p sink hr hp hwf with
      ⟨-, effects, heff, h⟩ | ⟨-, h⟩
    · refine ⟨_, _, h, ?_, Or.inr ⟨⟨args, rfl⟩, ?_, Or.inr ?_⟩⟩
      · exact LayerTreeFrameSink.layer_afterFrame_Bound s.tick g p hs hp
      · rw [LayerTreeFrameSink.afterFrame_generator]
        rfl
      · rw [tokensOf_append, tokensOf_no_response heff]
        simp [tokensOf, submittedFrames, Effect.frame, LayerTreeFrameSink.frameOf,
          LayerTreeFrameSink.tick]
    · exact ⟨_, _, h, hs, Or.inr ⟨⟨args, rfl⟩, rfl,
        Or.inl (by simp [tokensOf, submittedFrames, Effect.frame])⟩⟩
  | DidReceiveCompositorFrameAck resources =>
    obtain ⟨p1, effects, h1, hwf1, heff⟩ := receiveAndRemove_wellFormed p _ hwf resources
    refine ⟨{ s with client_resource_provider_ := some p1 }, effects, ?_, ?_,
      Or.inl ⟨rfl, tokensOf_no_response heff⟩⟩
    · simp only [LayerTreeFrameSink.step, LayerTreeFrameSink.DidReceiveCompositorFrameAck, hp, h1]
    · rw [LayerTreeFrameSink.layer_Bound_iff]
      exact ⟨⟨sink, hr⟩, p1, rfl, hwf1⟩
  | ReclaimResources resources =>
    obtain ⟨p1, effects, h1, hwf1, heff⟩ := receiveAndRemove_wellFormed p _ hwf resources
    refine ⟨{ s with client_resource_provider_ := some p1 }, effects, ?_, ?_,
      Or.inl ⟨rfl, tokensOf_no_response heff⟩⟩
    · simp only [LayerTreeFrameSink.step, LayerTreeFrameSink.ReclaimResources, hp, h1]
    · rw [LayerTreeFrameSink.layer_Bound_iff]
      exact ⟨⟨sink, hr⟩, p1, rfl, hwf1⟩
  | OnBeginFramePausedChanged paused =>
    exact ⟨s, [], rfl, hs, Or.inl ⟨rfl, rfl⟩⟩
  | SetContextProvider cp =>
    refine ⟨_, [], rfl, ?_, Or.inl ⟨?_, rfl⟩⟩
    · simpa [LayerTreeFrameSink.SetContextProvider, LayerTreeFrameSink.Bound,
        LayerTreeFrameSink.GetCompositorFrameSinkPtr] using hs
    · simp [LayerTreeFrameSink.SetContextProvider]
  | Bind associated =>
    refine ⟨_, [], rfl, ?_, Or.inl ⟨rfl, rfl⟩⟩
    simpa [LayerTreeFrameSink.Bind, LayerTreeFrameSink.Bound,
      LayerTreeFrameSink.GetCompositorFrameSinkPtr] using hs
  | EmbedChild child now =>
    refine ⟨_, [], rfl, ?_, Or.inl ⟨rfl, rfl⟩⟩
    simpa [LayerTreeFrameSink.EmbedChild, LayerTreeFrameSink.Bound,
      LayerTreeFrameSink.GetCompositorFrameSinkPtr] using hs

/-! ## Frame tokens along a run -/

theorem FrameTokenGenerator.incr_value_of_lt (g : FrameTokenGenerator)
    (h : g.value + 1 < 2 ^ 32) : g.incr.value = g.value + 1 := by
  unfold FrameTokenGenerator.incr FrameTokenGenerator.value at *
  have h1 : (g.frame_token_ + 1) % 2 ^ 32 = g.frame_token_ + 1 := Nat.mod_eq_of_lt h
  simp only [h1]
  rw [if_neg (Nat.succ_ne_zero _)]

theorem InkEvent.ticks_cons (ev : InkEvent) (rest : List InkEvent) :
    InkEvent.ticks (ev :: rest) =
      InkEvent.ticks rest + (match ev with | .OnBeginFrame _ => 1 | _ => 0) := by
  cases ev <;> simp [InkEvent.ticks, List.countP_cons]

theorem LayerEvent.layer_ticks_cons (ev : LayerEvent) (rest : List LayerEvent) :
    LayerEvent.ticks (ev :: rest) =
      LayerEvent.ticks rest + (match ev with | .OnBeginFrame _ => 1 | _ => 0) := by
  cases ev <;> simp [LayerEvent.ticks, List.countP_cons]

theorem InkClient.run_tokens (g : Bool) (evs : List InkEvent) :
    ∀ s : InkClient, s.Bound = true →
      s.frame_token_generator_.value + InkEvent.ticks evs < 2 ^ 32 →
      ∃ s1 effects, InkClient.run g s evs = some (s1, effects) ∧ s1.Bound = true ∧
        s.frame_token_generator_.value ≤ s1.frame_token_generator_.value ∧
        (tokensOf effects).Pairwise (· < ·) ∧
        ∀ t ∈ tokensOf effects, s.frame_token_generator_.value < t := by
  induction evs with
  | nil =>
    intro s hs _
    exact ⟨s, [], rfl, hs, le_refl _, List.Pairwise.nil, by simp [tokensOf, submittedFrames]⟩
  | cons ev rest ih =>
    intro s hs hw
    rw [InkEvent.ticks_cons] at hw
    obtain ⟨s1, e1, h1, hb1, hstep⟩ := InkClient.step_bound g s ev hs
    rcases hstep with ⟨hg, ht⟩ | ⟨⟨args, hev⟩, hg, ht⟩
    · have hw1 : s1.frame_token_generator_.value + InkEvent.ticks rest < 2 ^ 32 := by
        rw [hg]; omega
      obtain ⟨s2, e2, h2, hb2, hle, hpw, hgt⟩ := ih s1 hb1 hw1
      refine ⟨s2, e1 ++ e2, ?_, hb2, ?_, ?_, ?_⟩
      · simp only [InkClient.run, h1, h2]
      · rw [← hg]; exact hle
      · rw [tokensOf_append, ht]; exact hpw
      · rw [tokensOf_append, ht, ← hg]; exact hgt
    · subst hev
      have hv : s.frame_token_generator_.incr.value = s.frame_token_generator_.value + 1 :=
        FrameTokenGenerator.incr_value_of_lt _ (by simp only at hw; omega)
      have hw1 : s1.frame_token_generator_.value + InkEvent.ticks rest < 2 ^ 32 := by
        rw [hg, hv]; simp only at hw; omega
      obtain ⟨s2, e2, h2, hb2, hle, hpw, hgt⟩ := ih s1 hb1 hw1
      rw [hg, hv] at hle hgt
      refine ⟨s2, e1 ++ e2, ?_, hb2, by omega, ?_, ?_⟩
      · simp only [InkClient.run, h1, h2]
      · rw [tokensOf_append, ht, hv]
        simp only [List.singleton_append, List.pairwise_cons]
        exact ⟨fun t ht2 => hgt t ht2, hpw⟩
      · rw [tokensOf_append, ht, hv]
        intro t ht2
        simp only [List.singleton_append, List.mem_cons] at ht2
        rcases ht2 with rfl | ht2
        · omega
        · have := hgt t ht2; omega

theorem LayerTreeFrameSink.layer_run_tokens (g : Bool) (evs : List LayerEvent) :
    ∀ s : LayerTreeFrameSink, s.Bound = true →
      s.frame_token_generator_.value + LayerEvent.ticks evs < 2 ^ 32 →
      ∃ s1 effects, LayerTreeFrameSink.run g s evs = some (s1, effects) ∧ s1.Bound = true ∧
        s.frame_token_generator_.value ≤ s1.frame_token_generator_.value ∧
        (tokensOf effects).Pairwise (· < ·) ∧
        ∀ t ∈ tokensOf effects, s.frame_token_generator_.value < t := by
  induction evs with
  | nil =>
    intro s hs _
    exact ⟨s, [], rfl, hs, le_refl _, List.Pairwise.nil, by simp [tokensOf, submittedFrames]⟩
  | cons ev rest ih =>
    intro s hs hw
    rw [LayerEvent.layer_ticks_cons] at hw
    obtain ⟨s1, e1, h1, hb1, hstep⟩ := LayerTreeFrameSink.layer_step_bound g s ev hs
    rcases hstep with ⟨hg, ht⟩ | ⟨⟨args, hev⟩, hg, ht⟩
    · have hw1 : s1.frame_token_generator_.value + LayerEvent.ticks rest < 2 ^ 32 := by
        rw [hg]; omega
      obtain ⟨s2, e2, h2, hb2, hle, hpw, hgt⟩ := ih s1 hb1 hw1
      refine ⟨s2, e1 ++ e2, ?_, hb2, ?_, ?_, ?_⟩
      · simp only [LayerTreeFrameSink.run, h1, h2]
      · rw [← hg]; exact hle
      · rw [tokensOf_append, ht]; exact hpw
      · rw [tokensOf_append, ht, ← hg]; exact hgt
    · subst hev
      have hv : s.frame_token_generator_.incr.value = s.frame_token_generator_.value + 1 :=
        FrameTokenGenerator.incr_value_of_lt _ (by simp only at hw; omega)
      have hw1 : s1.frame_token_generator_.value + LayerEvent.ticks rest < 2 ^ 32 := by
        rw [hg, hv]; simp only at hw; omega
      obtain ⟨s2, e2, h2, hb2, hle, hpw, hgt⟩ := ih s1 hb1 hw1
      rw [hg, hv] at hle hgt
      rcases ht with ht | ht
      · refine ⟨s2, e1 ++ e2, ?_, hb2, by omega, ?_, ?_⟩
        · simp only [LayerTreeFrameSink.run, h1, h2]
        · rw [tokensOf_append, ht]; exact hpw
        · rw [tokensOf_append, ht]
          intro t ht2
          have := hgt t ht2; simp only [List.nil_append] at ht2; omega
      · refine ⟨s2, e1 ++ e2, ?_, hb2, by omega, ?_, ?_⟩
        · simp only [LayerTreeFrameSink.run, h1, h2]
        · rw [tokensOf_append, ht, hv]
          simp only [List.singleton_append, List.pairwise_cons]
          exact ⟨fun t ht2 => hgt t ht2, hpw⟩
        · rw [tokensOf_append, ht, hv]
          intro t ht2
          simp only [List.singleton_append, List.mem_cons] at ht2
          rcases ht2 with rfl | ht2
          · omega
          · have := hgt t ht2; omega

theorem InkClient.run_append (g : Bool) (a b : List InkEvent) :
    ∀ s : InkClient, InkClient.run g s (a ++ b) =
      match InkClient.run g s a with
      | none => none
      | some (s1, e1) =>
        match InkClient.run g s1 b with
        | none => none
        | some (s2, e2) => some (s2, e1 ++ e2) := by
  induction a with
  | nil =>
    intro s
    simp only [List.nil_append, InkClient.run]
    cases InkClient.run g s b with
    | none => rfl
    | some r => simp
  | cons ev rest ih =>
    intro s
    have hl : InkClient.run g s (ev :: (rest ++ b)) =
        match s.step g ev with
        | none => none
        | some (s1, e1) =>
          match InkClient.run g s1 (rest ++ b) with
          | none => none
          | some (s2, e2) => some (s2, e1 ++ e2) := rfl
    have hr : InkClient.run g s (ev :: rest) =
        match s.step g ev with
        | none => none
        | some (s1, e1) =>
          match InkClient.run g s1 rest with
          | none => none
          | some (s2, e2) => some (s2, e1 ++ e2) := rfl
    rw [List.cons_append, hl, hr]
    cases h1 : s.step g ev with
    | none => rfl
    | some r1 =>
      obtain ⟨s1, e1⟩ := r1
      simp only [ih s1]
      cases h2 : InkClient.run g s1 rest with
      | none => rfl
      | some r2 =>
        obtain ⟨s2, e2⟩ := r2
        simp only
        cases h3 : InkClient.run g s2 b with
        | none => rfl
        | some r3 => simp [List.append_assoc]

/-- One round on a bound sink with an empty task queue submits exactly one
frame, stamped with the incremented token. -/
theorem InkClient.run_inkRound (g : Bool) (s : InkClient) (hs : s.Bound = true)
    (ht : s.thread_ = []) :
    ∃ s1 effects, InkClient.run g s inkRound = some (s1, effects) ∧ s1.Bound = true ∧
      s1.thread_ = [] ∧ s1.frame_token_generator_ = s.frame_token_generator_.incr ∧
      tokensOf effects = [s.frame_token_generator_.incr.value] := by
  have hs0 : ({ s with thread_ := [] } : InkClient).Bound = true := by
    simpa [InkClient.Bound] using hs
  obtain ⟨s1, h1, hb1, hn1, hg1, ht1⟩ := InkClient.Draw_bound _ ⟨1, 1⟩ hs0
  obtain ⟨-, -, p, hp, -⟩ := (InkClient.Bound_iff s1).1 hb1
  rcases InkClient.OnBeginFrame_bound s1 g args0 p hb1 hp with ⟨-, effects, heff, h2⟩ | ⟨hn, -⟩
  · refine ⟨{ s1.afterFrame g p with need_redraw_ := false },
      [Effect.remote false (SinkCall.SetNeedsBeginFrame true)] ++
        (effects ++ [Effect.remote false (SinkCall.SubmitCompositorFrame
          s1.local_surface_id_.local_surface_id (s1.frameOf g p args0))]),
      ?_, ?_, ?_, ?_, ?_⟩
    · simp only [inkRound, InkClient.run, InkClient.step, InkClient.DidProcessEvent, if_true,
        InkClient.runTask, ht, List.nil_append, h1, h2, List.append_nil]
    · have := InkClient.afterFrame_Bound s1 g p hb1 hp
      simpa [InkClient.Bound] using this
    · simpa [InkClient.afterFrame] using ht1
    · simp only [InkClient.afterFrame, hg1]
    · rw [tokensOf_append, tokensOf_append, tokensOf_no_response heff]
      simp [tokensOf, submittedFrames, Effect.frame, InkClient.frameOf, hg1]
  · rw [hn1] at hn
    cases hn

theorem InkClient.run_inkRounds (g : Bool) (k : Nat) :
    ∀ s : InkClient, s.Bound = true → s.thread_ = [] →
      s.frame_token_generator_.value + k < 2 ^ 32 →
      ∃ s1 effects, InkClient.run g s (inkRounds k) = some (s1, effects) ∧ s1.Bound = true ∧
        s1.thread_ = [] ∧ s1.frame_token_generator_.value = s.frame_token_generator_.value + k ∧
        (0 < k → s.frame_token_generator_.value + 1 ∈ tokensOf effects) := by
  induction k with
  | zero =>
    intro s hs ht _
    exact ⟨s, [], rfl, hs, ht, rfl, fun h => absurd h (lt_irrefl 0)⟩
  | succ k ih =>
    intro s hs ht hw
    obtain ⟨s1, e1, h1, hb1, ht1, hg1, htok1⟩ := InkClient.run_inkRound g s hs ht
    have hv : s.frame_token_generator_.incr.value = s.frame_token_generator_.value + 1 :=
      FrameTokenGenerator.incr_value_of_lt _ (by omega)
    have hw1 : s1.frame_token_generator_.value + k < 2 ^ 32 := by
      rw [hg1, hv]; omega
    obtain ⟨s2, e2, h2, hb2, ht2, hg2, -⟩ := ih s1 hb1 ht1 hw1
    refine ⟨s2, e1 ++ e2, ?_, hb2, ht2, ?_, ?_⟩
    · show InkClient.run g s (inkRound ++ inkRounds k) = _
      rw [InkClient.run_append, h1]
      simp only [h2]
    · rw [hg2, hg1, hv]; omega
    · intro _
      rw [tokensOf_append, htok1, hv]
      simp

theorem FrameTokenGenerator.incr_value_wrap (g : FrameTokenGenerator)
    (h : g.value = 2 ^ 32 - 1) : g.incr.value = 1 := by
  unfold FrameTokenGenerator.incr FrameTokenGenerator.value at *
  rw [h]
  rfl

/-- C4, as stated, fails: the token generator is a 32-bit counter. The ink sink
of the demo, drawing once before every tick, submits the tokens
1, 2, ..., 4294967295 on its first 2^32 - 1 ticks and the token 1 again on the
next one, so its tokens are not strictly increasing. -/
theorem frame_tokens_wrap_after_2_pow_32 :
    ∃ s1 effects,
      InkClient.run true inkBound (inkRounds (2 ^ 32 - 1) ++ inkRound) = some (s1, effects) ∧
      ¬ (tokensOf effects).Pairwise (· < ·) := by
  obtain ⟨s1, e1, h1, hb1, ht1, hg1, hmem⟩ :=
    InkClient.run_inkRounds true (2 ^ 32 - 1) inkBound (by decide) (by decide) (by decide)
  obtain ⟨s2, e2, h2, -, -, -, htok2⟩ := InkClient.run_inkRound true s1 hb1 ht1
  have hv0 : inkBound.frame_token_generator_.value = 0 := by decide
  rw [hv0] at hg1 hmem
  have hwrap : s1.frame_token_generator_.incr.value = 1 :=
    FrameTokenGenerator.incr_value_wrap _ (by rw [hg1]; rfl)
  refine ⟨s2, e1 ++ e2, ?_, ?_⟩
  · rw [InkClient.run_append, h1]
    simp only [h2]
  · rw [tokensOf_append, htok2, hwrap, List.pairwise_append]
    rintro ⟨-, -, hlt⟩
    exact absurd (hlt 1 (hmem (by decide)) 1 (List.mem_singleton.2 rfl)) (lt_irrefl 1)

/-- C4, amended: along every run of a bound sink in which the 32-bit token
generator does not wrap (its value plus the number of ticks of the run stays
below 2^32), the run goes through and the frame tokens of the frames the sink
submits are strictly increasing in submission order. -/
theorem frame_tokens_increase_before_wrap (g : Bool) (ink : InkClient)
    (layer : LayerTreeFrameSink) (ievs : List InkEvent) (levs : List LayerEvent)
    (hi : ink.Bound = true) (hl : layer.Bound = true)
    (hiw : ink.frame_token_generator_.value + InkEvent.ticks ievs < 2 ^ 32)
    (hlw : layer.frame_token_generator_.value + LayerEvent.ticks levs < 2 ^ 32) :
    (∃ s1 effects, InkClient.run g ink ievs = some (s1, effects) ∧
      (tokensOf effects).Pairwise (· < ·)) ∧
    (∃ s1 effects, LayerTreeFrameSink.run g layer levs = some (s1, effects) ∧
      (tokensOf effects).Pairwise (· < ·)) := by
  obtain ⟨s1, e1, h1, -, -, hp1, -⟩ := InkClient.run_tokens g ievs ink hi hiw
  obtain ⟨s2, e2, h2, -, -, hp2, -⟩ := LayerTreeFrameSink.layer_run_tokens g levs layer hl hlw
  exact ⟨⟨s1, e1, h1, hp1⟩, ⟨s2, e2, h2, hp2⟩⟩

theorem frame_tokens_increase_before_wrap_witness :
    (inkBound.Bound = true ∧ layerFull.Bound = true ∧
      inkBound.frame_token_generator_.value + InkEvent.ticks (inkRounds 2) < 2 ^ 32 ∧
      layerFull.frame_token_generator_.value +
        LayerEvent.ticks (List.replicate 61 (LayerEvent.OnBeginFrame args0)) < 2 ^ 32) ∧
    (∃ s1 effects, InkClient.run true inkBound (inkRounds 2) = some (s1, effects) ∧
      (tokensOf effects).Pairwise (· < ·)) ∧
    (∃ s1 effects, LayerTreeFrameSink.run true layerFull
        (List.replicate 61 (LayerEvent.OnBeginFrame args0)) = some (s1, effects) ∧
      (tokensOf effects).Pairwise (· < ·)) :=
  ⟨⟨by decide, by decide, by decide, by decide⟩,
   frame_tokens_increase_before_wrap true inkBound layerFull (inkRounds 2)
     (List.replicate 61 (LayerEvent.OnBeginFrame args0)) (by decide) (by decide) (by decide)
     (by decide)⟩

/-! ## Resources of a frame -/

namespace ClientResourceProvider

theorem not_mem_ids_of_wellFormed {p : ClientResourceProvider} {names : Nat}
    (h : p.wellFormed names = true) {id : ResourceId} (hid : p.next_id_ ≤ id) : id ∉ p.ids := by
  rw [wellFormed_iff] at h
  intro hmem
  simp only [ids, List.mem_map] at hmem
  obtain ⟨e, he, rfl⟩ := hmem
  exact absurd (h e he).1 (Nat.not_lt.2 hid)

theorem find_importedAndSent_new {p : ClientResourceProvider} {names : Nat}
    (h : p.wellFormed names = true) (r : TransferableResource) (cb : ReleaseCallback) :
    (p.importedAndSent r cb).find p.next_id_ = some (entryOf p.next_id_ r cb 1).2 := by
  rw [wellFormed_iff] at h
  exact find_append_new (fun e he => (h e he).1) _ _

theorem find_importedAndSent_old (p : ClientResourceProvider) (r : TransferableResource)
    (cb : ReleaseCallback) {id : ResourceId} (hid : id ≠ p.next_id_) :
    (p.importedAndSent r cb).find id = p.find id := by
  have hne : (p.next_id_ == id) = false := by
    simpa using fun h => hid h.symm
  simp only [find, importedAndSent, entryOf, List.find?_append, List.find?_cons, hne,
    List.find?_nil, Option.or_none]

end ClientResourceProvider

theorem LayerTreeFrameSink.headItems_no_resource (s : LayerTreeFrameSink) :
    ∀ q ∈ quadsOf s.headItems, q.resource = none := by
  intro q hq
  unfold LayerTreeFrameSink.headItems at hq
  have hnil : quadsOf [] = [] := rfl
  split at hq
  · rw [quadsOf_appendPair, quadsOf_appendPair, hnil] at hq
    simp only [List.nil_append, List.cons_append, List.mem_cons, List.not_mem_nil,
      or_false] at hq
    rcases hq with rfl | rfl <;> rfl
  · rw [quadsOf_appendPair, hnil] at hq
    simp only [List.nil_append, List.mem_singleton] at hq
    subst hq
    rfl

theorem LayerTreeFrameSink.frameOf_quads (s : LayerTreeFrameSink) (g : Bool)
    (p : ClientResourceProvider) (args : BeginFrameArgs) :
    (s.frameOf g p args).quads = quadsOf (s.itemsOf p) := by
  simp [CompositorFrame.quads, LayerTreeFrameSink.frameOf, RenderPass.quad_list, quadsOf]

/-- The quads of a layer frame that carry a resource. -/
theorem LayerTreeFrameSink.itemsOf_resources (s : LayerTreeFrameSink)
    (p : ClientResourceProvider) (q : DrawQuad) (r : ResourceId)
    (hq : q ∈ quadsOf (s.itemsOf p)) (hr : q.resource = some r) :
    s.context_provider_.isSome = true ∧ (r = p.next_id_ ∨ r = p.next_id_ + 1) := by
  unfold LayerTreeFrameSink.itemsOf at hq
  rw [quadsOf_appendPair, List.mem_append, List.mem_singleton] at hq
  rcases hq with hq | rfl
  · cases hcp : s.context_provider_.isSome with
    | false =>
      simp only [hcp, Bool.false_eq_true, if_false] at hq
      rw [s.headItems_no_resource q hq] at hr
      cases hr
    | true =>
      refine ⟨rfl, ?_⟩
      simp only [hcp, if_true, LayerTreeFrameSink.resourceItems, quadsOf_appendPair,
        List.mem_append, List.mem_singleton] at hq
      rcases hq with ((hq | rfl) | rfl) | rfl
      · rw [s.headItems_no_resource q hq] at hr
        cases hr
      · left
        simpa [DrawQuad.resource] using hr.symm
      · right
        simpa [DrawQuad.resource] using hr.symm
      · cases hr
  · cases hr

theorem LayerTreeFrameSink.itemsOf_has_tile (s : LayerTreeFrameSink) (p : ClientResourceProvider)
    (hcp : s.context_provider_.isSome = true) :
    ∃ q ∈ quadsOf (s.itemsOf p), q.resource = some p.next_id_ := by
  simp only [LayerTreeFrameSink.itemsOf, hcp, if_true, LayerTreeFrameSink.resourceItems,
    quadsOf_appendPair, List.mem_append, List.mem_singleton]
  exact ⟨_, Or.inl (Or.inl (Or.inl (Or.inr rfl))), rfl⟩

theorem LayerTreeFrameSink.itemsOf_has_texture (s : LayerTreeFrameSink)
    (p : ClientResourceProvider) (hcp : s.context_provider_.isSome = true) :
    ∃ q ∈ quadsOf (s.itemsOf p), q.resource = some (p.next_id_ + 1) := by
  simp only [LayerTreeFrameSink.itemsOf, hcp, if_true, LayerTreeFrameSink.resourceItems,
    quadsOf_appendPair, List.mem_append, List.mem_singleton]
  exact ⟨_, Or.inl (Or.inl (Or.inr rfl)), rfl⟩

theorem InkClient.frameOf_accounted (s : InkClient) (g : Bool) (args : BeginFrameArgs)
    (p : ClientResourceProvider) (hwf : p.wellFormed s.generated_names_ = true) :
    resourcesAccounted p
      (p.importedAndSent
        (newResource s.context_provider_ g s.generated_names_ ⟨s.bounds_.width, s.bounds_.height⟩).1
        (newResource s.context_provider_ g s.generated_names_
          ⟨s.bounds_.width, s.bounds_.height⟩).2)
      (s.frameOf g p args) := by
  have hquads : (s.frameOf g p args).quads =
      [{ shared_quad_state := 0, rect := s.bounds_, visible_rect := s.bounds_,
         needs_blending := false, material := .Texture p.next_id_ true SK_ColorGRAY },
       { shared_quad_state := 1, rect := s.bounds_, visible_rect := s.bounds_,
         needs_blending := false,
         material := .SolidColor (colorAt (s.frame_token_generator_.incr.value / 60 + 1)) false }] := by
    simp [CompositorFrame.quads, InkClient.frameOf, InkClient.passOf, RenderPass.quad_list]
  constructor
  · intro q hq r hr
    rw [hquads] at hq
    simp only [List.mem_cons, List.not_mem_nil, or_false] at hq
    rcases hq with rfl | rfl
    · have hrid : r = p.next_id_ := by simpa [DrawQuad.resource] using hr.symm
      subst hrid
      refine ⟨ClientResourceProvider.not_mem_ids_of_wellFormed hwf (le_refl _), _,
        ClientResourceProvider.find_importedAndSent_new hwf _ _, rfl, rfl, ?_⟩
      simp [InkClient.frameOf, ClientResourceProvider.entryOf]
    · cases hr
  · intro tr htr
    simp only [InkClient.frameOf, List.mem_singleton] at htr
    subst htr
    rw [hquads]
    exact ⟨_, List.mem_cons_self _ _, rfl⟩

theorem LayerTreeFrameSink.layer_frameOf_accounted (s : LayerTreeFrameSink) (g : Bool)
    (args : BeginFrameArgs) (p : ClientResourceProvider)
    (hwf : p.wellFormed s.generated_names_ = true) :
    resourcesAccounted p (if s.context_provider_.isSome then s.ledgerAfterFrame g p else p)
      (s.frameOf g p args) := by
  have hwf1 := ClientResourceProvider.importedAndSent_wellFormed p _ hwf
    (newResource s.context_provider_ g s.generated_names_ ⟨200, 200⟩).1
    (newResource_mailbox _ _ _ _)
    (newResource s.context_provider_ g s.generated_names_ ⟨200, 200⟩).2
  constructor
  · intro q hq r hr
    rw [LayerTreeFrameSink.frameOf_quads] at hq
    obtain ⟨hcp, hrid⟩ := s.itemsOf_resources p q r hq hr
    simp only [hcp, if_true]
    rcases hrid with rfl | rfl
    · refine ⟨ClientResourceProvider.not_mem_ids_of_wellFormed hwf (le_refl _),
        (ClientResourceProvider.entryOf p.next_id_
          (newResource s.context_provider_ g s.generated_names_ ⟨200, 200⟩).1
          (newResource s.context_provider_ g s.generated_names_ ⟨200, 200⟩).2 1).2,
        ?_, rfl, rfl, ?_⟩
      · unfold LayerTreeFrameSink.ledgerAfterFrame
        rw [ClientResourceProvider.find_importedAndSent_old _ _ _
          (show p.next_id_ ≠ (p.importedAndSent _ _).next_id_ from Nat.ne_of_lt (Nat.lt_succ_self _))]
        exact ClientResourceProvider.find_importedAndSent_new hwf _ _
      · simp [LayerTreeFrameSink.frameOf, LayerTreeFrameSink.resourcesOf, hcp,
          ClientResourceProvider.entryOf]
    · refine ⟨ClientResourceProvider.not_mem_ids_of_wellFormed hwf (Nat.le_succ _),
        (ClientResourceProvider.entryOf (p.next_id_ + 1)
          (newResource s.context_provider_ g (s.generated_names_ + 1) ⟨200, 200⟩).1
          (newResource s.context_provider_ g (s.generated_names_ + 1) ⟨200, 200⟩).2 1).2,
        ?_, rfl, rfl, ?_⟩
      · unfold LayerTreeFrameSink.ledgerAfterFrame
        exact ClientResourceProvider.find_importedAndSent_new hwf1 _ _
      · simp [LayerTreeFrameSink.frameOf, LayerTreeFrameSink.resourcesOf, hcp,
          ClientResourceProvider.entryOf, ClientResourceProvider.importedAndSent]
  · intro tr htr
    rw [LayerTreeFrameSink.frameOf_quads]
    cases hcp : s.context_provider_.isSome with
    | false => simp [LayerTreeFrameSink.frameOf, LayerTreeFrameSink.resourcesOf, hcp] at htr
    | true =>
      simp only [LayerTreeFrameSink.frameOf, LayerTreeFrameSink.resourcesOf, hcp, if_true,
        List.mem_cons, List.not_mem_nil, or_false] at htr
      rcases htr with rfl | rfl
      · exact s.itemsOf_has_tile p hcp
      · exact s.itemsOf_has_texture p hcp

/-- C5: on a bound sink, `CreateFrame` of either sink returns a frame whose
resources are accounted for by the sink's ledger: every resource id a Texture or
Tile quad references was not in the ledger before the call, is in the ledger
after it with one outstanding send (it was imported and prepared for sending),
and its descriptor is in the frame's `resource_list`; and `resource_list` holds
no descriptor that no quad of the frame references. -/
theorem CreateFrame_resources_accounted (g : Bool) (args : BeginFrameArgs) (ink : InkClient)
    (layer : LayerTreeFrameSink) (hi : ink.Bound = true) (hl : layer.Bound = true) :
    (∃ p s1 frame effects p1, ink.client_resource_provider_ = some p ∧
      ink.CreateFrame g args = some (s1, frame, effects) ∧
      s1.client_resource_provider_ = some p1 ∧ resourcesAccounted p p1 frame) ∧
    (∃ p s1 frame effects p1, layer.client_resource_provider_ = some p ∧
      layer.CreateFrame g args = some (s1, frame, effects) ∧
      s1.client_resource_provider_ = some p1 ∧ resourcesAccounted p p1 frame) := by
  constructor
  · obtain ⟨hr, ⟨b, hb⟩, p, hp, hwf⟩ := (InkClient.Bound_iff ink).1 hi
    obtain ⟨effects, -, h⟩ := ink.CreateFrame_bound g args p b hr hb hp hwf
    exact ⟨p, _, _, effects, _, hp, h, rfl, ink.frameOf_accounted g args p hwf⟩
  · obtain ⟨⟨sink, hr⟩, p, hp, hwf⟩ := (LayerTreeFrameSink.layer_Bound_iff layer).1 hl
    obtain ⟨effects, -, h⟩ := layer.layer_CreateFrame_bound g args p sink hr hp hwf
    refine ⟨p, _, _, effects, _, hp, h, ?_, layer.layer_frameOf_accounted g args p hwf⟩
    unfold LayerTreeFrameSink.afterFrame
    split
    · rfl
    · exact hp

theorem CreateFrame_resources_accounted_witness :
    (inkBound.Bound = true ∧ layerFull.Bound = true) ∧
    (∃ p s1 frame effects p1, inkBound.client_resource_provider_ = some p ∧
      inkBound.CreateFrame true args0 = some (s1, frame, effects) ∧
      s1.client_resource_provider_ = some p1 ∧ resourcesAccounted p p1 frame) ∧
    (∃ p s1 frame effects p1, layerFull.client_resource_provider_ = some p ∧
      layerFull.CreateFrame true args0 = some (s1, frame, effects) ∧
      s1.client_resource_provider_ = some p1 ∧ resourcesAccounted p p1 frame) :=
  ⟨⟨by decide, by decide⟩,
   CreateFrame_resources_accounted true args0 inkBound layerFull (by decide) (by decide)⟩

/-! ## Returning a resource -/

namespace ClientResourceProvider

theorem receiveOne_eq_map (entries : List (ResourceId × ImportedResource)) (r : ReturnedResource) :
    receiveOne entries r = entries.map (received r) := rfl

theorem received_fst (r : ReturnedResource) (e : ResourceId × ImportedResource) :
    (received r e).1 = e.1 := by
  unfold received
  split <;> rfl

theorem find_receiveOne (entries : List (ResourceId × ImportedResource)) (r : ReturnedResource)
    (next : ResourceId) (e : ImportedResource) (h : find ⟨entries, next⟩ r.id = some e) :
    find ⟨receiveOne entries r, next⟩ r.id =
      some { e with exported_count := e.exported_count - 1
                    returned_sync_token := r.sync_token
                    returned_lost := e.returned_lost || r.lost } := by
  have hcomp : ((fun x : ResourceId × ImportedResource => x.1 == r.id) ∘ received r) =
      (fun x : ResourceId × ImportedResource => x.1 == r.id) := by
    funext x
    simp only [Function.comp, received_fst]
  unfold find at h ⊢
  simp only at h ⊢
  rw [receiveOne_eq_map, List.find?_map, hcomp]
  cases hf : List.find? (fun x : ResourceId × ImportedResource => x.1 == r.id) entries with
  | none => rw [hf] at h; cases h
  | some y =>
    rw [hf] at h
    simp only [Option.map_some', Option.some.injEq] at h
    subst h
    have hy : (y.1 == r.id) = true :=
      @List.find?_some _ (fun x : ResourceId × ImportedResource => x.1 == r.id) y entries hf
    simp only [Option.map_some', received, hy, if_true]

theorem filter_receiveOne (entries : List (ResourceId × ImportedResource)) (r : ReturnedResource) :
    (receiveOne entries r).filter (fun x => !(x.1 == r.id)) =
      entries.filter (fun x => !(x.1 == r.id)) := by
  have hcomp : ((fun x : ResourceId × ImportedResource => !(x.1 == r.id)) ∘ received r) =
      (fun x : ResourceId × ImportedResource => !(x.1 == r.id)) := by
    funext x
    simp only [Function.comp, received_fst]
  rw [receiveOne_eq_map, List.filter_map, hcomp]
  conv => rhs; rw [← List.map_id (List.filter (fun x => !(x.1 == r.id)) entries)]
  apply List.map_congr_left
  intro x hx
  have hne : (x.1 == r.id) = false := by
    simpa using (List.mem_filter.1 hx).2
  simp [received, hne]

theorem find_filter_other (entries : List (ResourceId × ImportedResource)) (id other : ResourceId)
    (next : ResourceId) (h : other ≠ id) :
    find ⟨entries.filter (fun x => !(x.1 == id)), next⟩ other = find ⟨entries, next⟩ other := by
  induction entries with
  | nil => rfl
  | cons x rest ih =>
    simp only [find] at ih ⊢
    by_cases hx : x.1 = id
    · have hx2 : (x.1 == id) = true := by simpa using hx
      have hx3 : (x.1 == other) = false := by
        simpa [hx] using fun h2 : id = other => h h2.symm
      simp only [List.filter_cons, hx2, Bool.not_true, Bool.false_eq_true, if_false,
        List.find?_cons, hx3]
      exact ih
    · have hx2 : (x.1 == id) = false := by simpa using hx
      simp only [List.filter_cons, hx2, Bool.not_false, if_true, List.find?_cons]
      cases (x.1 == other)
      · exact ih
      · rfl

/-- Returning one resource the ledger holds and then removing it: the release
callback runs once and the entry is erased. -/
theorem receiveAndRemove_one (q : ClientResourceProvider) (r : ReturnedResource)
    (e : ImportedResource) (h : q.find r.id = some e) :
    receiveAndRemove (some q) [r] =
      some ({ q with imported_resources_ := q.imported_resources_.filter (fun x => !(x.1 == r.id)) },
            runReleases [⟨r.id, e.release_callback, r.sync_token, e.returned_lost || r.lost⟩]) := by
  have hf := find_receiveOne q.imported_resources_ r q.next_id_ e h
  have hfilter := filter_receiveOne q.imported_resources_ r
  simp only [receiveAndRemove, ReceiveReturnsFromParent, List.foldl_cons, List.foldl_nil,
    removeReturned, RemoveImportedResource, hf, List.append_nil, hfilter]

end ClientResourceProvider

theorem releaseRuns_runReleases_single (run : ReleaseRun) :
    releaseRuns (runReleases [run]) = [run] := by
  unfold runReleases DeleteSharedImage releaseRuns
  cases h : run.callback <;> simp [h]

/-- The round trip at the ledger: a held resource that was never reported lost
comes back with `lost = false`. -/
theorem roundTrip_of_find (q : ClientResourceProvider) (id : ResourceId) (token : SyncToken)
    (e : ImportedResource) (h : q.find id = some e) (hl : e.returned_lost = false) :
    ∃ left effects, receiveAndRemove (some q) [⟨id, token, false⟩] = some (left, effects) ∧
      left.imported_resources_ = q.imported_resources_.filter (fun x => !(x.1 == id)) ∧
      roundTrip q left id token false effects := by
  refine ⟨_, _, ClientResourceProvider.receiveAndRemove_one q ⟨id, token, false⟩ e h, rfl, ?_, ?_, ?_⟩
  · exact ⟨e.release_callback, by rw [releaseRuns_runReleases_single, hl]; rfl⟩
  · simp [ClientResourceProvider.ids]
  · intro other hother
    exact ClientResourceProvider.find_filter_other _ _ _ _ hother

theorem ClientResourceProvider.filter_importedAndSent {p : ClientResourceProvider} {names : Nat}
    (h : p.wellFormed names = true) (r : TransferableResource) (cb : ReleaseCallback) :
    (p.importedAndSent r cb).imported_resources_.filter (fun x => !(x.1 == p.next_id_)) =
      p.imported_resources_ := by
  rw [ClientResourceProvider.wellFormed_iff] at h
  simp only [ClientResourceProvider.importedAndSent, ClientResourceProvider.entryOf,
    List.filter_append, List.filter_cons, beq_self_eq_true, Bool.not_true, Bool.false_eq_true,
    if_false, List.filter_nil, List.append_nil]
  rw [List.filter_eq_self]
  intro e he
  have hne : ¬ e.1 = p.next_id_ := Nat.ne_of_lt (h e he).1
  simpa using hne

theorem InkClient.frameOf_held (s : InkClient) (g : Bool) (args : BeginFrameArgs)
    (p : ClientResourceProvider) (hwf : p.wellFormed s.generated_names_ = true) :
    ∀ tr ∈ (s.frameOf g p args).resource_list, tr.id = p.next_id_ ∧
      ∃ r cb, (p.importedAndSent
        (newResource s.context_provider_ g s.generated_names_ ⟨s.bounds_.width, s.bounds_.height⟩).1
        (newResource s.context_provider_ g s.generated_names_
          ⟨s.bounds_.width, s.bounds_.height⟩).2).find tr.id =
        some (ClientResourceProvider.entryOf tr.id r cb 1).2 := by
  intro tr htr
  simp only [InkClient.frameOf, List.mem_singleton] at htr
  subst htr
  exact ⟨rfl, _, _, ClientResourceProvider.find_importedAndSent_new hwf _ _⟩

theorem LayerTreeFrameSink.layer_frameOf_held (s : LayerTreeFrameSink) (g : Bool)
    (args : BeginFrameArgs) (p : ClientResourceProvider)
    (hwf : p.wellFormed s.generated_names_ = true) :
    ∀ tr ∈ (s.frameOf g p args).resource_list, s.context_provider_.isSome = true ∧
      ∃ r cb, (s.ledgerAfterFrame g p).find tr.id =
        some (ClientResourceProvider.entryOf tr.id r cb 1).2 := by
  have hwf1 := ClientResourceProvider.importedAndSent_wellFormed p _ hwf
    (newResource s.context_provider_ g s.generated_names_ ⟨200, 200⟩).1
    (newResource_mailbox _ _ _ _)
    (newResource s.context_provider_ g s.generated_names_ ⟨200, 200⟩).2
  intro tr htr
  cases hcp : s.context_provider_.isSome with
  | false => simp [LayerTreeFrameSink.frameOf, LayerTreeFrameSink.resourcesOf, hcp] at htr
  | true =>
    refine ⟨rfl, ?_⟩
    simp only [LayerTreeFrameSink.frameOf, LayerTreeFrameSink.resourcesOf, hcp, if_true,
      List.mem_cons, List.not_mem_nil, or_false] at htr
    rcases htr with rfl | rfl
    · refine ⟨(newResource s.context_provider_ g s.generated_names_ ⟨200, 200⟩).1,
        (newResource s.context_provider_ g s.generated_names_ ⟨200, 200⟩).2, ?_⟩
      unfold LayerTreeFrameSink.ledgerAfterFrame
      rw [ClientResourceProvider.find_importedAndSent_old _ _ _
        (show p.next_id_ ≠ (p.importedAndSent _ _).next_id_ from Nat.ne_of_lt (Nat.lt_succ_self _))]
      exact ClientResourceProvider.find_importedAndSent_new hwf _ _
    · refine ⟨(newResource s.context_provider_ g (s.generated_names_ + 1) ⟨200, 200⟩).1,
        (newResource s.context_provider_ g (s.generated_names_ + 1) ⟨200, 200⟩).2, ?_⟩
      unfold LayerTreeFrameSink.ledgerAfterFrame
      exact ClientResourceProvider.find_importedAndSent_new hwf1 _ _

/-- C6: the round trip of one resource. On a bound sink, `CreateFrame` imports
the frame's resources and sends them; when the host then returns one of them
with `lost = false`, through `DidReceiveCompositorFrameAck` or through
`ReclaimResources`, the release callback of that resource runs exactly once
(with the returned sync token) and the ledger no longer holds the id, while
every other id stays as it was. For `InkClient`, whose frame carries one
resource, the ledger is back to what it held before the frame, hence empty if
it was empty. -/
theorem resource_round_trip (g : Bool) (args : BeginFrameArgs) (token : SyncToken)
    (ink : InkClient) (layer : LayerTreeFrameSink)
    (hi : ink.Bound = true) (hl : layer.Bound = true) :
    (∃ before s1 frame effects held, ink.client_resource_provider_ = some before ∧
      ink.CreateFrame g args = some (s1, frame, effects) ∧
      s1.client_resource_provider_ = some held ∧ frame.resource_list.length = 1 ∧
      ∀ tr ∈ frame.resource_list, ∃ s2 effects2 left,
        s1.DidReceiveCompositorFrameAck [⟨tr.id, token, false⟩] = some (s2, effects2) ∧
        s1.ReclaimResources [⟨tr.id, token, false⟩] = some (s2, effects2) ∧
        s2.client_resource_provider_ = some left ∧
        roundTrip held left tr.id token false effects2 ∧
        left.imported_resources_ = before.imported_resources_) ∧
    (∃ s1 frame effects held, layer.CreateFrame g args = some (s1, frame, effects) ∧
      s1.client_resource_provider_ = some held ∧
      ∀ tr ∈ frame.resource_list, ∃ s2 effects2 left,
        s1.DidReceiveCompositorFrameAck [⟨tr.id, token, false⟩] = some (s2, effects2) ∧
        s1.ReclaimResources [⟨tr.id, token, false⟩] = some (s2, effects2) ∧
        s2.client_resource_provider_ = some left ∧
        roundTrip held left tr.id token false effects2) := by
  constructor
  · obtain ⟨hr, ⟨b, hb⟩, p, hp, hwf⟩ := (InkClient.Bound_iff ink).1 hi
    obtain ⟨effects, -, h⟩ := ink.CreateFrame_bound g args p b hr hb hp hwf
    refine ⟨p, _, _, effects, _, hp, h, rfl, rfl, ?_⟩
    intro tr htr
    obtain ⟨hid, r, cb, hfind⟩ := ink.frameOf_held g args p hwf tr htr
    obtain ⟨left, effects2, hrr, hleft, hrt⟩ := roundTrip_of_find _ tr.id token _ hfind rfl
    refine ⟨{ ink.afterFrame g p with client_resource_provider_ := some left }, effects2, left,
      ?_, ?_, rfl, hrt, ?_⟩
    · simp only [InkClient.DidReceiveCompositorFrameAck, InkClient.afterFrame, hrr]
    · simp only [InkClient.ReclaimResources, InkClient.afterFrame, hrr]
    · rw [hleft, hid]
      exact ClientResourceProvider.filter_importedAndSent hwf _ _
  · obtain ⟨⟨sink, hr⟩, p, hp, hwf⟩ := (LayerTreeFrameSink.layer_Bound_iff layer).1 hl
    obtain ⟨effects, -, h⟩ := layer.layer_CreateFrame_bound g args p sink hr hp hwf
    refine ⟨_, _, effects, (if layer.context_provider_.isSome then layer.ledgerAfterFrame g p else p),
      h, ?_, ?_⟩
    · unfold LayerTreeFrameSink.afterFrame
      split
      · rfl
      · exact hp
    · intro tr htr
      obtain ⟨hcp, r, cb, hfind⟩ := layer.layer_frameOf_held g args p hwf tr htr
      obtain ⟨left, effects2, hrr, -, hrt⟩ := roundTrip_of_find _ tr.id token _ hfind rfl
      simp only [hcp, if_true]
      refine ⟨{ layer.afterFrame g p with client_resource_provider_ := some left }, effects2, left,
        ?_, ?_, rfl, hrt⟩
      · simp only [LayerTreeFrameSink.DidReceiveCompositorFrameAck, LayerTreeFrameSink.afterFrame,
          hcp, if_true, hrr]
      · simp only [LayerTreeFrameSink.ReclaimResources, LayerTreeFrameSink.afterFrame,
          hcp, if_true, hrr]

/-! ## What no frame changes, whatever the state of the sink -/

theorem LayerTreeFrameSink.sameEmbedding_trans {a b c : LayerTreeFrameSink}
    (h1 : a.sameEmbedding b) (h2 : b.sameEmbedding c) : a.sameEmbedding c := by
  obtain ⟨a1, a2, a3, a4, a5⟩ := h1
  obtain ⟨b1, b2, b3, b4, b5⟩ := h2
  exact ⟨a1.trans b1, a2.trans b2, a3.trans b3, a4.trans b4, a5.trans b5⟩

theorem LayerTreeFrameSink.headItems_congr {a b : LayerTreeFrameSink} (h : a.sameEmbedding b) :
    a.headItems = b.headItems := by
  obtain ⟨-, -, h3, h4, h5⟩ := h
  simp only [LayerTreeFrameSink.headItems, h3, h4, h5]

theorem LayerTreeFrameSink.layer_CreateSoftwareResource_same (s s1 : LayerTreeFrameSink) (size : Size)
    (src : SkBitmap) (id : ResourceId) (e : List Effect)
    (h : s.CreateSoftwareResource size src = some (s1, id, e)) :
    s.sameEmbedding s1 ∧ ∀ x ∈ e, x.isResponse = false := by
  unfold LayerTreeFrameSink.CreateSoftwareResource at h
  simp only at h
  cases hptr : s.GetCompositorFrameSinkPtr with
  | none => rw [hptr] at h; cases h
  | some sink =>
    cases hp : s.client_resource_provider_ with
    | none => rw [hptr, hp] at h; cases h
    | some p =>
      rw [hptr, hp] at h
      simp only at h
      cases hi : p.ImportResource (TransferableResource.MakeSoftware s.generated_names_ size)
          ReleaseCallback.DoNothing with
      | error err => rw [hi] at h; cases h
      | ok v =>
        rw [hi] at h
        simp only [Option.some.injEq, Prod.mk.injEq] at h
        obtain ⟨rfl, -, rfl⟩ := h
        exact ⟨⟨rfl, rfl, rfl, rfl, rfl⟩, by simp [Effect.isResponse]⟩

theorem LayerTreeFrameSink.layer_CreateGpuResource_same (s s1 : LayerTreeFrameSink) (size : Size)
    (src : SkBitmap) (id : ResourceId) (e : List Effect)
    (h : s.CreateGpuResource size src = some (s1, id, e)) :
    s.sameEmbedding s1 ∧ ∀ x ∈ e, x.isResponse = false := by
  unfold LayerTreeFrameSink.CreateGpuResource at h
  cases hcp : s.context_provider_ with
  | none => rw [hcp] at h; cases h
  | some cp =>
    cases hp : s.client_resource_provider_ with
    | none => rw [hcp, hp] at h; cases h
    | some p =>
      rw [hcp, hp] at h
      simp only at h
      cases hi : p.ImportResource
          (TransferableResource.MakeGL s.generated_names_ ⟨s.generated_names_ + 1⟩ size)
          (ReleaseCallback.DeleteSharedImage cp.id s.generated_names_) with
      | error err => rw [hi] at h; cases h
      | ok v =>
        rw [hi] at h
        simp only [Option.some.injEq, Prod.mk.injEq] at h
        obtain ⟨rfl, -, rfl⟩ := h
        exact ⟨⟨rfl, rfl, rfl, rfl, rfl⟩, by simp [Effect.isResponse]⟩

theorem LayerTreeFrameSink.layer_CreateResource_same (s s1 : LayerTreeFrameSink) (g : Bool) (size : Size)
    (src : SkBitmap) (id : ResourceId) (e : List Effect)
    (h : s.CreateResource g size src = some (s1, id, e)) :
    s.sameEmbedding s1 ∧ ∀ x ∈ e, x.isResponse = false := by
  unfold LayerTreeFrameSink.CreateResource at h
  split at h
  · exact LayerTreeFrameSink.layer_CreateGpuResource_same _ _ _ _ _ _ h
  · exact LayerTreeFrameSink.layer_CreateSoftwareResource_same _ _ _ _ _ _ h

theorem LayerTreeFrameSink.AppendTileDrawQuad_same (s s1 : LayerTreeFrameSink) (g : Bool)
    (frame frame1 : CompositorFrame) (pass pass1 : RenderPass) (e : List Effect)
    (h : s.AppendTileDrawQuad g frame pass = some (s1, frame1, pass1, e)) :
    s.sameEmbedding s1 ∧ (∀ x ∈ e, x.isResponse = false) ∧
      frame1.render_pass_list = frame.render_pass_list ∧
      surfacesOf pass1.items = surfacesOf pass.items := by
  unfold LayerTreeFrameSink.AppendTileDrawQuad at h
  simp only at h
  cases hcr : s.CreateResource g ⟨200, 200⟩ (s.circles 1 2 3) with
  | none => rw [hcr] at h; cases h
  | some r =>
    obtain ⟨s0, resource, effects⟩ := r
    obtain ⟨h0, he0⟩ := LayerTreeFrameSink.layer_CreateResource_same _ _ _ _ _ _ _ hcr
    rw [hcr] at h
    simp only at h
    cases hps : prepareSendToParent s0.client_resource_provider_ [resource] frame.resource_list with
    | none => rw [hps] at h; cases h
    | some v =>
      rw [hps] at h
      simp only [Option.some.injEq, Prod.mk.injEq] at h
      obtain ⟨rfl, rfl, rfl, rfl⟩ := h
      refine ⟨?_, he0, rfl, ?_⟩
      · obtain ⟨a, b, c, d, e⟩ := h0
        exact ⟨a, b, c, d, e⟩
      · simp [RenderPass.CreateAndAppendSharedQuadState, RenderPass.CreateAndAppendDrawQuad,
          surfacesOf, List.filterMap_append]

theorem LayerTreeFrameSink.layer_AppendTextureDrawQuad_same (s s1 : LayerTreeFrameSink) (g : Bool)
    (frame frame1 : CompositorFrame) (pass pass1 : RenderPass) (e : List Effect)
    (h : s.AppendTextureDrawQuad g frame pass = some (s1, frame1, pass1, e)) :
    s.sameEmbedding s1 ∧ (∀ x ∈ e, x.isResponse = false) ∧
      frame1.render_pass_list = frame.render_pass_list ∧
      surfacesOf pass1.items = surfacesOf pass.items := by
  unfold LayerTreeFrameSink.AppendTextureDrawQuad at h
  simp only at h
  cases hcr : s.CreateResource g ⟨200, 200⟩ (s.circles 2 3 1) with
  | none => rw [hcr] at h; cases h
  | some r =>
    obtain ⟨s0, resource, effects⟩ := r
    obtain ⟨h0, he0⟩ := LayerTreeFrameSink.layer_CreateResource_same _ _ _ _ _ _ _ hcr
    rw [hcr] at h
    simp only at h
    cases hps : prepareSendToParent s0.client_resource_provider_ [resource] frame.resource_list with
    | none => rw [hps] at h; cases h
    | some v =>
      rw [hps] at h
      simp only [Option.some.injEq, Prod.mk.injEq] at h
      obtain ⟨rfl, rfl, rfl, rfl⟩ := h
      refine ⟨?_, he0, rfl, ?_⟩
      · obtain ⟨a, b, c, d, e⟩ := h0
        exact ⟨a, b, c, d, e⟩
      · simp [RenderPass.CreateAndAppendSharedQuadState, RenderPass.CreateAndAppendDrawQuad,
          surfacesOf, List.filterMap_append]

theorem LayerTreeFrameSink.appendResourceQuads_same (s s1 : LayerTreeFrameSink) (g : Bool)
    (frame frame1 : CompositorFrame) (pass pass1 : RenderPass) (e : List Effect)
    (h : s.appendResourceQuads g frame pass = some (s1, frame1, pass1, e)) :
    s.sameEmbedding s1 ∧ (∀ x ∈ e, x.isResponse = false) ∧
      frame1.render_pass_list = frame.render_pass_list ∧
      surfacesOf pass1.items = surfacesOf pass.items := by
  unfold LayerTreeFrameSink.appendResourceQuads at h
  split at h
  · cases h1 : s.AppendTileDrawQuad g frame pass with
    | none => rw [h1] at h; cases h
    | some r1 =>
      obtain ⟨sa, fa, pa, ea⟩ := r1
      obtain ⟨hs1, he1, hf1, hx1⟩ :=
        LayerTreeFrameSink.AppendTileDrawQuad_same _ _ _ _ _ _ _ _ h1
      rw [h1] at h
      simp only at h
      cases h2 : sa.AppendTextureDrawQuad g fa pa with
      | none => rw [h2] at h; cases h
      | some r2 =>
        obtain ⟨sb, fb, pb, eb⟩ := r2
        obtain ⟨hs2, he2, hf2, hx2⟩ :=
          LayerTreeFrameSink.layer_AppendTextureDrawQuad_same _ _ _ _ _ _ _ _ h2
        rw [h2] at h
        simp only [Option.some.injEq, Prod.mk.injEq] at h
        obtain ⟨rfl, rfl, rfl, rfl⟩ := h
        refine ⟨LayerTreeFrameSink.sameEmbedding_trans hs1 hs2, ?_, hf2.trans hf1, ?_⟩
        · intro x hx
          rcases List.mem_append.1 hx with hx | hx
          · exact he1 x hx
          · exact he2 x hx
        · rw [LayerTreeFrameSink.AppendVideoHoleDrawQuad_eq, ← hx1, ← hx2]
          simp [LayerTreeFrameSink.AppendPictureDrawQuad, appendPair, surfacesOf,
            List.filterMap_append]
  · simp only [Option.some.injEq, Prod.mk.injEq] at h
    obtain ⟨rfl, rfl, rfl, rfl⟩ := h
    exact ⟨⟨rfl, rfl, rfl, rfl, rfl⟩, by simp, rfl, rfl⟩

/-- Whatever the state of the sink, a frame `CreateFrame` returns has one render
pass, and the surface quads of that pass are those of `headItems`: the surface
quad of the embedded child when the child id is valid, none otherwise. -/
theorem LayerTreeFrameSink.layer_CreateFrame_same (s s1 : LayerTreeFrameSink) (g : Bool)
    (args : BeginFrameArgs) (frame : CompositorFrame) (e : List Effect)
    (h : s.CreateFrame g args = some (s1, frame, e)) :
    s.sameEmbedding s1 ∧ (∀ x ∈ e, x.isResponse = false) ∧
      ∃ pass, frame.render_pass_list = [pass] ∧
        surfacesOf pass.items = surfacesOf s.headItems := by
  unfold LayerTreeFrameSink.CreateFrame at h
  simp only at h
  generalize hpass2 : (if s.child_frame_sink_id_.is_valid = true then
      s.AppendSurfaceDrawQuad
        (s.AppendDebugBorderDrawQuad (RenderPass.SetNew 1 s.bounds_ s.bounds_ Transform.identity))
    else s.AppendDebugBorderDrawQuad
      (RenderPass.SetNew 1 s.bounds_ s.bounds_ Transform.identity)) = pass2 at h
  have hitems : pass2.items = s.headItems := by
    rw [← hpass2]
    unfold LayerTreeFrameSink.headItems
    split <;>
      simp [LayerTreeFrameSink.AppendDebugBorderDrawQuad_eq,
        LayerTreeFrameSink.AppendSurfaceDrawQuad_eq, RenderPass.SetNew]
  split at h
  · cases h
  · rename_i sa fa pa ea hrq
    obtain ⟨hs1, he1, hf1, hx1⟩ :=
      LayerTreeFrameSink.appendResourceQuads_same _ _ _ _ _ _ _ _ hrq
    simp only [Option.some.injEq, Prod.mk.injEq] at h
    obtain ⟨rfl, rfl, rfl⟩ := h
    simp only at hf1
    refine ⟨hs1, he1, _, by rw [hf1]; rfl, ?_⟩
    rw [← hitems, ← hx1, LayerTreeFrameSink.AppendSolidColorDrawQuad_eq]
    split <;> simp [appendPair, surfacesOf, List.filterMap_append]

theorem submittedFrames_no_response {effects : List Effect}
    (h : ∀ e ∈ effects, e.isResponse = false) : submittedFrames effects = [] := by
  simp only [submittedFrames, List.filterMap_eq_nil_iff]
  intro e he
  have := h e he
  cases e with
  | remote a call => cases call <;> simp_all [Effect.isResponse, Effect.frame]
  | _ => rfl

theorem submittedFrames_append (a b : List Effect) :
    submittedFrames (a ++ b) = submittedFrames a ++ submittedFrames b := by
  simp [submittedFrames, List.filterMap_append]

theorem LayerTreeFrameSink.layer_OnBeginFrame_same (s s1 : LayerTreeFrameSink) (g : Bool)
    (args : BeginFrameArgs) (e : List Effect) (h : s.OnBeginFrame g args = some (s1, e)) :
    s.sameEmbedding s1 ∧
      ∀ f ∈ submittedFrames e, f.surfaceRanges = surfacesOf s.headItems := by
  unfold LayerTreeFrameSink.OnBeginFrame at h
  simp only at h
  have hs0 : s.sameEmbedding { s with frame_token_generator_ := s.frame_token_generator_.incr } :=
    ⟨rfl, rfl, rfl, rfl, rfl⟩
  split at h
  · cases hcf : LayerTreeFrameSink.CreateFrame
        { s with frame_token_generator_ := s.frame_token_generator_.incr } g args with
    | none => rw [hcf] at h; cases h
    | some r =>
      obtain ⟨sa, frame, ea⟩ := r
      obtain ⟨hsame, hea, pass, hpass, hprefix⟩ :=
        LayerTreeFrameSink.layer_CreateFrame_same _ _ _ _ _ _ hcf
      rw [hcf] at h
      simp only at h
      cases hptr : sa.GetCompositorFrameSinkPtr with
      | none => rw [hptr] at h; cases h
      | some sink =>
        rw [hptr] at h
        simp only [Option.some.injEq, Prod.mk.injEq] at h
        obtain ⟨rfl, rfl⟩ := h
        refine ⟨LayerTreeFrameSink.sameEmbedding_trans hs0 hsame, ?_⟩
        intro f hf
        rw [submittedFrames_append, submittedFrames_no_response hea] at hf
        simp only [submittedFrames, List.filterMap_cons, Effect.frame, List.filterMap_nil,
          List.nil_append, List.mem_singleton] at hf
        subst hf
        rw [LayerTreeFrameSink.headItems_congr hs0, ← hprefix]
        simp [CompositorFrame.surfaceRanges, hpass]
  · cases hptr : LayerTreeFrameSink.GetCompositorFrameSinkPtr
        { s with frame_token_generator_ := s.frame_token_generator_.incr } with
    | none => rw [hptr] at h; cases h
    | some sink =>
      rw [hptr] at h
      simp only [Option.some.injEq, Prod.mk.injEq] at h
      obtain ⟨rfl, rfl⟩ := h
      exact ⟨hs0, by simp [submittedFrames, Effect.frame]⟩

theorem receiveAndRemove_effects (provider : Option ClientResourceProvider)
    (rs : List ReturnedResource) (p : ClientResourceProvider) (e : List Effect)
    (h : receiveAndRemove provider rs = some (p, e)) : ∀ x ∈ e, x.isResponse = false := by
  cases provider with
  | none => simp [receiveAndRemove] at h
  | some q =>
    simp only [receiveAndRemove, Option.some.injEq, Prod.mk.injEq] at h
    obtain ⟨-, rfl⟩ := h
    exact runReleases_no_response _

/-- An event other than `EmbedChild` leaves what the sink embeds as it was, and
the surface quads of every frame it submits are those of `headItems`. -/
theorem LayerTreeFrameSink.layer_step_same (g : Bool) (s s1 : LayerTreeFrameSink) (ev : LayerEvent)
    (e : List Effect) (h : s.step g ev = some (s1, e)) (hev : ev.isEmbedChild = false) :
    s.sameEmbedding s1 ∧
      ∀ f ∈ submittedFrames e, f.surfaceRanges = surfacesOf s.headItems := by
  cases ev with
  | RunTask =>
    simp only [LayerTreeFrameSink.step, LayerTreeFrameSink.runTask, Option.some.injEq] at h
    cases ht : s.thread_ with
    | nil =>
      rw [ht] at h
      simp only [Prod.mk.injEq] at h
      obtain ⟨rfl, rfl⟩ := h
      exact ⟨⟨rfl, rfl, rfl, rfl, rfl⟩, by simp [submittedFrames]⟩
    | cons task rest =>
      rw [ht] at h
      cases task with
      | BindOnThread associated =>
        simp only [LayerTreeFrameSink.BindOnThread, Prod.mk.injEq] at h
        obtain ⟨rfl, rfl⟩ := h
        refine ⟨?_, by simp [submittedFrames, Effect.frame]⟩
        cases associated <;> exact ⟨rfl, rfl, rfl, rfl, rfl⟩
      | SetContextProvider cp =>
        simp only [LayerTreeFrameSink.SetContextProvider, if_true, Prod.mk.injEq] at h
        obtain ⟨rfl, rfl⟩ := h
        exact ⟨⟨rfl, rfl, rfl, rfl, rfl⟩, by simp [submittedFrames]⟩
  | OnBeginFrame args => exact LayerTreeFrameSink.layer_OnBeginFrame_same s s1 g args e h
  | DidReceiveCompositorFrameAck resources =>
    simp only [LayerTreeFrameSink.step, LayerTreeFrameSink.DidReceiveCompositorFrameAck] at h
    cases hr : receiveAndRemove s.client_resource_provider_ resources with
    | none => rw [hr] at h; cases h
    | some v =>
      obtain ⟨p1, e1⟩ := v
      have he := receiveAndRemove_effects _ _ _ _ hr
      rw [hr] at h
      simp only [Option.some.injEq, Prod.mk.injEq] at h
      obtain ⟨rfl, rfl⟩ := h
      exact ⟨⟨rfl, rfl, rfl, rfl, rfl⟩, by rw [submittedFrames_no_response he]; simp⟩
  | ReclaimResources resources =>
    simp only [LayerTreeFrameSink.step, LayerTreeFrameSink.ReclaimResources] at h
    cases hr : receiveAndRemove s.client_resource_provider_ resources with
    | none => rw [hr] at h; cases h
    | some v =>
      obtain ⟨p1, e1⟩ := v
      have he := receiveAndRemove_effects _ _ _ _ hr
      rw [hr] at h
      simp only [Option.some.injEq, Prod.mk.injEq] at h
      obtain ⟨rfl, rfl⟩ := h
      exact ⟨⟨rfl, rfl, rfl, rfl, rfl⟩, by rw [submittedFrames_no_response he]; simp⟩
  | OnBeginFramePausedChanged paused =>
    simp only [LayerTreeFrameSink.step, LayerTreeFrameSink.OnBeginFramePausedChanged,
      Option.some.injEq, Prod.mk.injEq] at h
    obtain ⟨rfl, rfl⟩ := h
    exact ⟨⟨rfl, rfl, rfl, rfl, rfl⟩, by simp [submittedFrames]⟩
  | SetContextProvider cp =>
    simp only [LayerTreeFrameSink.step, LayerTreeFrameSink.SetContextProvider,
      Option.some.injEq, Prod.mk.injEq] at h
    obtain ⟨rfl, rfl⟩ := h
    exact ⟨⟨rfl, rfl, rfl, rfl, rfl⟩, by simp [submittedFrames]⟩
  | Bind associated =>
    simp only [LayerTreeFrameSink.step, LayerTreeFrameSink.Bind,
      Option.some.injEq, Prod.mk.injEq] at h
    obtain ⟨rfl, rfl⟩ := h
    exact ⟨⟨rfl, rfl, rfl, rfl, rfl⟩, by simp [submittedFrames]⟩
  | EmbedChild child now => cases hev

/-- Along a run without `EmbedChild`, what the sink embeds stays as it was and
the surface quads of every submitted frame are those of `headItems`. -/
theorem LayerTreeFrameSink.layer_run_same (g : Bool) (evs : List LayerEvent) :
    ∀ (s s1 : LayerTreeFrameSink) (e : List Effect),
      LayerTreeFrameSink.run g s evs = some (s1, e) →
      (∀ ev ∈ evs, ev.isEmbedChild = false) →
      s.sameEmbedding s1 ∧
        ∀ f ∈ submittedFrames e, f.surfaceRanges = surfacesOf s.headItems := by
  induction evs with
  | nil =>
    intro s s1 e h _
    simp only [LayerTreeFrameSink.run, Option.some.injEq, Prod.mk.injEq] at h
    obtain ⟨rfl, rfl⟩ := h
    exact ⟨⟨rfl, rfl, rfl, rfl, rfl⟩, by simp [submittedFrames]⟩
  | cons ev rest ih =>
    intro s s1 e h hevs
    simp only [LayerTreeFrameSink.run] at h
    cases hstep : s.step g ev with
    | none => rw [hstep] at h; cases h
    | some r =>
      obtain ⟨sa, ea⟩ := r
      rw [hstep] at h
      simp only at h
      cases hrun : LayerTreeFrameSink.run g sa rest with
      | none => rw [hrun] at h; cases h
      | some r2 =>
        obtain ⟨sb, eb⟩ := r2
        rw [hrun] at h
        simp only [Option.some.injEq, Prod.mk.injEq] at h
        obtain ⟨rfl, rfl⟩ := h
        obtain ⟨h1, hf1⟩ := LayerTreeFrameSink.layer_step_same g s sa ev ea hstep
          (hevs ev (List.mem_cons_self _ _))
        obtain ⟨h2, hf2⟩ := ih sa sb eb hrun (fun x hx => hevs x (List.mem_cons_of_mem _ hx))
        refine ⟨LayerTreeFrameSink.sameEmbedding_trans h1 h2, ?_⟩
        intro f hf
        rw [submittedFrames_append] at hf
        rcases List.mem_append.1 hf with hf | hf
        · exact hf1 f hf
        · rw [LayerTreeFrameSink.headItems_congr h1]
          exact hf2 f hf

/-! ## Claims, continued -/

theorem resource_round_trip_witness :
    (inkBound.Bound = true ∧ layerFull.Bound = true) ∧
    (∃ before s1 frame effects held, inkBound.client_resource_provider_ = some before ∧
      inkBound.CreateFrame true args0 = some (s1, frame, effects) ∧
      s1.client_resource_provider_ = some held ∧ frame.resource_list.length = 1 ∧
      ∀ tr ∈ frame.resource_list, ∃ s2 effects2 left,
        s1.DidReceiveCompositorFrameAck [⟨tr.id, ⟨9⟩, false⟩] = some (s2, effects2) ∧
        s1.ReclaimResources [⟨tr.id, ⟨9⟩, false⟩] = some (s2, effects2) ∧
        s2.client_resource_provider_ = some left ∧
        roundTrip held left tr.id ⟨9⟩ false effects2 ∧
        left.imported_resources_ = before.imported_resources_) ∧
    (∃ s1 frame effects held, layerFull.CreateFrame true args0 = some (s1, frame, effects) ∧
      s1.client_resource_provider_ = some held ∧
      ∀ tr ∈ frame.resource_list, ∃ s2 effects2 left,
        s1.DidReceiveCompositorFrameAck [⟨tr.id, ⟨9⟩, false⟩] = some (s2, effects2) ∧
        s1.ReclaimResources [⟨tr.id, ⟨9⟩, false⟩] = some (s2, effects2) ∧
        s2.client_resource_provider_ = some left ∧
        roundTrip held left tr.id ⟨9⟩ false effects2) :=
  ⟨⟨by decide, by decide⟩,
   resource_round_trip true args0 ⟨9⟩ inkBound layerFull (by decide) (by decide)⟩

theorem InkClient.draws_bound (pts : List Point) :
    ∀ s : InkClient, s.Bound = true →
      ∃ s1, s.draws pts =
          some (s1, List.replicate pts.length (.remote false (.SetNeedsBeginFrame true))) ∧
        s1.Bound = true ∧ (0 < pts.length → s1.need_redraw_ = true) := by
  induction pts with
  | nil =>
    intro s hs
    exact ⟨s, rfl, hs, fun h => absurd h (lt_irrefl 0)⟩
  | cons pt rest ih =>
    intro s hs
    obtain ⟨s1, h1, hb1, hn1, -, -⟩ := InkClient.Draw_bound s pt hs
    obtain ⟨s2, h2, hb2, hn2⟩ := ih s1 hb1
    refine ⟨s2, ?_, hb2, ?_⟩
    · simp only [InkClient.draws, h1, h2, List.length_cons, List.replicate_succ,
        List.singleton_append]
    · intro _
      cases rest with
      | nil =>
        simp only [InkClient.draws, Option.some.injEq, Prod.mk.injEq] at h2
        rw [← h2.1]
        exact hn1
      | cons pt2 rest2 => exact hn2 (Nat.succ_pos _)

/-- C7: the begin-frame request is idempotent. After N >= 1 consecutive
`InkClient::Draw` calls on a bound sink, each of which calls
`SetNeedsBeginFrame(true)`, the next tick submits exactly one frame (and no
"did not produce"), and the tick after it, with no `Draw` in between, submits
none: the N requests yield one frame. -/
theorem draws_yield_one_frame (g : Bool) (args args2 : BeginFrameArgs) (ink : InkClient)
    (pts : List Point) (hi : ink.Bound = true) (hN : 0 < pts.length) :
    ∃ s1 s2 effects s3 effects3,
      ink.draws pts =
        some (s1, List.replicate pts.length (.remote false (.SetNeedsBeginFrame true))) ∧
      s1.OnBeginFrame g args = some (s2, effects) ∧
      effects.countP Effect.isSubmit = 1 ∧ effects.countP Effect.isDidNotProduce = 0 ∧
      s2.OnBeginFrame g args2 = some (s3, effects3) ∧
      effects3.countP Effect.isSubmit = 0 ∧ effects3.countP Effect.isDidNotProduce = 1 := by
  obtain ⟨s1, h1, hb1, hn1⟩ := InkClient.draws_bound pts ink hi
  have hn := hn1 hN
  obtain ⟨-, -, p, hp, -⟩ := (InkClient.Bound_iff s1).1 hb1
  rcases InkClient.OnBeginFrame_bound s1 g args p hb1 hp with ⟨-, effects, heff, h2⟩ | ⟨hno, -⟩
  · have hb2 : ({ s1.afterFrame g p with need_redraw_ := false } : InkClient).Bound = true := by
      have := InkClient.afterFrame_Bound s1 g p hb1 hp
      simpa [InkClient.Bound] using this
    obtain ⟨-, -, p2, hp2, -⟩ := (InkClient.Bound_iff _).1 hb2
    rcases InkClient.OnBeginFrame_bound _ g args2 p2 hb2 hp2 with ⟨hyes, -⟩ | ⟨-, h3⟩
    · cases hyes
    · refine ⟨s1, _, _, _, _, h1, h2, ?_, ?_, h3, ?_, ?_⟩
      · obtain ⟨c1, -⟩ := countP_eq_zero_of_no_response heff
        simp [List.countP_append, c1, Effect.isSubmit]
      · obtain ⟨-, c2⟩ := countP_eq_zero_of_no_response heff
        simp [List.countP_append, c2, Effect.isDidNotProduce]
      · simp [Effect.isSubmit]
      · simp [Effect.isDidNotProduce]
  · rw [hn] at hno
    cases hno

theorem draws_yield_one_frame_witness :
    (inkBound.Bound = true ∧ 0 < [(⟨3, 4⟩ : Point), ⟨5, 6⟩, ⟨7, 8⟩].length) ∧
    ∃ s1 s2 effects s3 effects3,
      inkBound.draws [⟨3, 4⟩, ⟨5, 6⟩, ⟨7, 8⟩] =
        some (s1, List.replicate [(⟨3, 4⟩ : Point), ⟨5, 6⟩, ⟨7, 8⟩].length
          (.remote false (.SetNeedsBeginFrame true))) ∧
      s1.OnBeginFrame false args0 = some (s2, effects) ∧
      effects.countP Effect.isSubmit = 1 ∧ effects.countP Effect.isDidNotProduce = 0 ∧
      s2.OnBeginFrame false args0 = some (s3, effects3) ∧
      effects3.countP Effect.isSubmit = 0 ∧ effects3.countP Effect.isDidNotProduce = 1 :=
  ⟨⟨by decide, by decide⟩,
   draws_yield_one_frame false args0 args0 inkBound [⟨3, 4⟩, ⟨5, 6⟩, ⟨7, 8⟩] (by decide)
     (by decide)⟩

theorem LayerTreeFrameSink.run_generation (g : Bool) (evs : List LayerEvent) :
    ∀ (s s1 : LayerTreeFrameSink) (e : List Effect),
      LayerTreeFrameSink.run g s evs = some (s1, e) → s.generation ≤ s1.generation := by
  induction evs with
  | nil =>
    intro s s1 e h
    simp only [LayerTreeFrameSink.run, Option.some.injEq, Prod.mk.injEq] at h
    rw [h.1]
  | cons ev rest ih =>
    intro s s1 e h
    simp only [LayerTreeFrameSink.run] at h
    cases hstep : s.step g ev with
    | none => rw [hstep] at h; cases h
    | some r =>
      obtain ⟨sa, ea⟩ := r
      rw [hstep] at h
      simp only at h
      cases hrun : LayerTreeFrameSink.run g sa rest with
      | none => rw [hrun] at h; cases h
      | some r2 =>
        obtain ⟨sb, eb⟩ := r2
        rw [hrun] at h
        simp only [Option.some.injEq, Prod.mk.injEq] at h
        obtain ⟨rfl, rfl⟩ := h
        have h2 := ih sa sb eb hrun
        have h1 : s.generation ≤ sa.generation := by
          cases hev : ev.isEmbedChild with
          | false =>
            obtain ⟨⟨-, -, -, -, ha⟩, -⟩ := LayerTreeFrameSink.layer_step_same g s sa ev ea hstep hev
            simp only [LayerTreeFrameSink.generation, ha, le_refl]
          | true =>
            cases ev with
            | EmbedChild child now =>
              simp only [LayerTreeFrameSink.step, Option.some.injEq, Prod.mk.injEq] at hstep
              rw [← hstep.1]
              simp [LayerTreeFrameSink.generation, LayerTreeFrameSink.EmbedChild,
                ParentLocalSurfaceIdAllocator.GenerateId,
                ParentLocalSurfaceIdAllocator.GetCurrentLocalSurfaceIdAllocation,
                LocalSurfaceIdAllocation.local_surface_id]
            | _ => cases hev
        exact le_trans h1 h2

/-- C8: every call of `EmbedChild(child)` advances the generation of the sink's
allocator by one and returns the allocation of the new `LocalSurfaceId`; that
allocation differs from the one any earlier `EmbedChild` call on the same sink
returned, whatever happened to the sink in between; and the call records
`child` as the embedded child. -/
theorem EmbedChild_new_allocation (g : Bool) (s : LayerTreeFrameSink) (c1 c2 : FrameSinkId)
    (t1 t2 : Nat) (evs : List LayerEvent) (s2 : LayerTreeFrameSink) (effects : List Effect)
    (hrun : LayerTreeFrameSink.run g (s.EmbedChild c1 t1).1 evs = some (s2, effects)) :
    (s2.EmbedChild c2 t2).1.generation = s2.generation + 1 ∧
    (s2.EmbedChild c2 t2).2 =
      (s2.EmbedChild c2 t2).1.local_surface_id_allocator_.GetCurrentLocalSurfaceIdAllocation ∧
    (s.EmbedChild c1 t1).2.local_surface_id.parent_sequence_number <
      (s2.EmbedChild c2 t2).2.local_surface_id.parent_sequence_number ∧
    (s2.EmbedChild c2 t2).2.local_surface_id ≠ (s.EmbedChild c1 t1).2.local_surface_id ∧
    (s2.EmbedChild c2 t2).2 ≠ (s.EmbedChild c1 t1).2 ∧
    (s2.EmbedChild c2 t2).1.child_frame_sink_id_ = c2 := by
  have hgen := LayerTreeFrameSink.run_generation g evs _ _ _ hrun
  have hlt : (s.EmbedChild c1 t1).2.local_surface_id.parent_sequence_number <
      (s2.EmbedChild c2 t2).2.local_surface_id.parent_sequence_number := by
    simp only [LayerTreeFrameSink.generation, LayerTreeFrameSink.EmbedChild,
      ParentLocalSurfaceIdAllocator.GenerateId,
      ParentLocalSurfaceIdAllocator.GetCurrentLocalSurfaceIdAllocation,
      LocalSurfaceIdAllocation.local_surface_id] at hgen ⊢
    omega
  refine ⟨rfl, rfl, hlt, ?_, ?_, rfl⟩
  · intro heq
    rw [heq] at hlt
    exact lt_irrefl _ hlt
  · intro heq
    rw [heq] at hlt
    exact lt_irrefl _ hlt

theorem EmbedChild_new_allocation_witness :
    LayerTreeFrameSink.run true (layerBound.EmbedChild ⟨0, 2⟩ 40).1
        [.EmbedChild ⟨0, 3⟩ 50, .SetContextProvider none] =
      some (((layerBound.EmbedChild ⟨0, 2⟩ 40).1.EmbedChild ⟨0, 3⟩ 50).1.SetContextProvider
              false none, []) ∧
    let s2 := ((layerBound.EmbedChild ⟨0, 2⟩ 40).1.EmbedChild ⟨0, 3⟩ 50).1.SetContextProvider
      false none
    ((s2.EmbedChild ⟨0, 4⟩ 60).1.generation = s2.generation + 1 ∧
    (s2.EmbedChild ⟨0, 4⟩ 60).2 =
      (s2.EmbedChild ⟨0, 4⟩ 60).1.local_surface_id_allocator_.GetCurrentLocalSurfaceIdAllocation ∧
    (layerBound.EmbedChild ⟨0, 2⟩ 40).2.local_surface_id.parent_sequence_number <
      (s2.EmbedChild ⟨0, 4⟩ 60).2.local_surface_id.parent_sequence_number ∧
    (s2.EmbedChild ⟨0, 4⟩ 60).2.local_surface_id ≠
      (layerBound.EmbedChild ⟨0, 2⟩ 40).2.local_surface_id ∧
    (s2.EmbedChild ⟨0, 4⟩ 60).2 ≠ (layerBound.EmbedChild ⟨0, 2⟩ 40).2 ∧
    (s2.EmbedChild ⟨0, 4⟩ 60).1.child_frame_sink_id_ = ⟨0, 4⟩) :=
  ⟨by decide,
   EmbedChild_new_allocation true layerBound ⟨0, 2⟩ ⟨0, 4⟩ 40 60
     [.EmbedChild ⟨0, 3⟩ 50, .SetContextProvider none] _ [] (by decide)⟩

theorem submittedUnder_no_response {effects : List Effect}
    (h : ∀ e ∈ effects, e.isResponse = false) : submittedUnder effects = [] := by
  simp only [submittedUnder, List.filterMap_eq_nil_iff]
  intro e he
  have := h e he
  cases e with
  | remote a call => cases call <;> simp_all [Effect.isResponse, Effect.submittedUnder]
  | _ => rfl

theorem submittedUnder_append (a b : List Effect) :
    submittedUnder (a ++ b) = submittedUnder a ++ submittedUnder b := by
  simp [submittedUnder, List.filterMap_append]

theorem InkClient.sameIdentity_trans {a b c : InkClient}
    (h1 : a.sameIdentity b) (h2 : b.sameIdentity c) : a.sameIdentity c := by
  obtain ⟨a1, a2, a3⟩ := h1
  obtain ⟨b1, b2, b3⟩ := h2
  exact ⟨a1.trans b1, a2.trans b2, a3.trans b3⟩

theorem InkClient.CreateSoftwareResource_same (s s1 : InkClient) (size : Size)
    (src : SkBitmap) (id : ResourceId) (e : List Effect)
    (h : s.CreateSoftwareResource size src = some (s1, id, e)) :
    s.sameIdentity s1 ∧ ∀ x ∈ e, x.isResponse = false := by
  unfold InkClient.CreateSoftwareResource at h
  simp only at h
  split at h
  · cases hp : s.client_resource_provider_ with
    | none => rw [hp] at h; cases h
    | some p =>
      rw [hp] at h
      simp only at h
      cases hi : p.ImportResource (TransferableResource.MakeSoftware s.generated_names_ size)
          ReleaseCallback.DoNothing with
      | error err => rw [hi] at h; cases h
      | ok v =>
        rw [hi] at h
        simp only [Option.some.injEq, Prod.mk.injEq] at h
        obtain ⟨rfl, -, rfl⟩ := h
        exact ⟨⟨rfl, rfl, rfl⟩, by simp [Effect.isResponse]⟩
  · cases h

theorem InkClient.CreateGpuResource_same (s s1 : InkClient) (size : Size)
    (src : SkBitmap) (id : ResourceId) (e : List Effect)
    (h : s.CreateGpuResource size src = some (s1, id, e)) :
    s.sameIdentity s1 ∧ ∀ x ∈ e, x.isResponse = false := by
  unfold InkClient.CreateGpuResource at h
  cases hcp : s.context_provider_ with
  | none => rw [hcp] at h; cases h
  | some cp =>
    cases hp : s.client_resource_provider_ with
    | none => rw [hcp, hp] at h; cases h
    | some p =>
      rw [hcp, hp] at h
      simp only at h
      cases hi : p.ImportResource
          (TransferableResource.MakeGL s.generated_names_ ⟨s.generated_names_ + 1⟩ size)
          (ReleaseCallback.DeleteSharedImage cp.id s.generated_names_) with
      | error err => rw [hi] at h; cases h
      | ok v =>
        rw [hi] at h
        simp only [Option.some.injEq, Prod.mk.injEq] at h
        obtain ⟨rfl, -, rfl⟩ := h
        exact ⟨⟨rfl, rfl, rfl⟩, by simp [Effect.isResponse]⟩

theorem InkClient.CreateResource_same (s s1 : InkClient) (g : Bool) (size : Size)
    (src : SkBitmap) (id : ResourceId) (e : List Effect)
    (h : s.CreateResource g size src = some (s1, id, e)) :
    s.sameIdentity s1 ∧ ∀ x ∈ e, x.isResponse = false := by
  unfold InkClient.CreateResource at h
  split at h
  · exact InkClient.CreateGpuResource_same _ _ _ _ _ _ h
  · exact InkClient.CreateSoftwareResource_same _ _ _ _ _ _ h

theorem InkClient.AppendTextureDrawQuad_same (s s1 : InkClient) (g : Bool)
    (frame frame1 : CompositorFrame) (pass pass1 : RenderPass) (e : List Effect)
    (h : s.AppendTextureDrawQuad g frame pass = some (s1, frame1, pass1, e)) :
    s.sameIdentity s1 ∧ ∀ x ∈ e, x.isResponse = false := by
  unfold InkClient.AppendTextureDrawQuad at h
  simp only at h
  cases hb : s.bitmap_ with
  | none => rw [hb] at h; cases h
  | some b =>
    rw [hb] at h
    simp only at h
    cases hcr : s.CreateResource g ⟨s.bounds_.width, s.bounds_.height⟩ b with
    | none => rw [hcr] at h; cases h
    | some r =>
      obtain ⟨s0, resource, effects⟩ := r
      obtain ⟨h0, he0⟩ := InkClient.CreateResource_same _ _ _ _ _ _ _ hcr
      rw [hcr] at h
      simp only at h
      cases hps : prepareSendToParent s0.client_resource_provider_ [resource]
          frame.resource_list with
      | none => rw [hps] at h; cases h
      | some v =>
        rw [hps] at h
        simp only [Option.some.injEq, Prod.mk.injEq] at h
        obtain ⟨rfl, -, -, rfl⟩ := h
        refine ⟨?_, he0⟩
        obtain ⟨a, b, c⟩ := h0
        exact ⟨a, b, c⟩

theorem InkClient.CreateFrame_same (s s1 : InkClient) (g : Bool) (args : BeginFrameArgs)
    (frame : CompositorFrame) (e : List Effect)
    (h : s.CreateFrame g args = some (s1, frame, e)) :
    s.sameIdentity s1 ∧ ∀ x ∈ e, x.isResponse = false := by
  unfold InkClient.CreateFrame at h
  simp only at h
  split at h
  · cases h
  · rename_i sa fa pa ea hap
    obtain ⟨h0, he0⟩ := InkClient.AppendTextureDrawQuad_same _ _ _ _ _ _ _ _ hap
    simp only [Option.some.injEq, Prod.mk.injEq] at h
    obtain ⟨rfl, -, rfl⟩ := h
    refine ⟨?_, he0⟩
    obtain ⟨a, b, c⟩ := h0
    exact ⟨a, b, c⟩

theorem InkClient.OnBeginFrame_same (s s1 : InkClient) (g : Bool) (args : BeginFrameArgs)
    (e : List Effect) (h : s.OnBeginFrame g args = some (s1, e)) :
    s.sameIdentity s1 ∧ ∀ l ∈ submittedUnder e, l = s.local_surface_id_.local_surface_id := by
  unfold InkClient.OnBeginFrame at h
  split at h
  · cases hcf : s.CreateFrame g args with
    | none => rw [hcf] at h; cases h
    | some r =>
      obtain ⟨sa, frame, ea⟩ := r
      obtain ⟨h0, he0⟩ := InkClient.CreateFrame_same _ _ _ _ _ _ hcf
      rw [hcf] at h
      simp only at h
      split at h
      · simp only [Option.some.injEq, Prod.mk.injEq] at h
        obtain ⟨rfl, rfl⟩ := h
        refine ⟨?_, ?_⟩
        · obtain ⟨a, b, c⟩ := h0
          exact ⟨a, b, c⟩
        · intro l hl
          rw [submittedUnder_append, submittedUnder_no_response he0] at hl
          simpa [submittedUnder, Effect.submittedUnder] using hl
      · cases h
  · split at h
    · simp only [Option.some.injEq, Prod.mk.injEq] at h
      obtain ⟨rfl, rfl⟩ := h
      exact ⟨⟨rfl, rfl, rfl⟩, by simp [submittedUnder, Effect.submittedUnder]⟩
    · cases h

/-- No event changes the identity of an ink sink, and every frame it submits is
submitted under the `LocalSurfaceId` the sink was constructed with. -/
theorem InkClient.step_same (g : Bool) (s s1 : InkClient) (ev : InkEvent) (e : List Effect)
    (h : s.step g ev = some (s1, e)) :
    s.sameIdentity s1 ∧ ∀ l ∈ submittedUnder e, l = s.local_surface_id_.local_surface_id := by
  cases ev with
  | RunTask =>
    simp only [InkClient.step, InkClient.runTask] at h
    cases ht : s.thread_ with
    | nil =>
      rw [ht] at h
      simp only [Option.some.injEq, Prod.mk.injEq] at h
      obtain ⟨rfl, rfl⟩ := h
      exact ⟨⟨rfl, rfl, rfl⟩, by simp [submittedUnder]⟩
    | cons task rest =>
      rw [ht] at h
      cases task with
      | Bind =>
        simp only [InkClient.Bind, if_true, Option.some.injEq, Prod.mk.injEq] at h
        obtain ⟨rfl, rfl⟩ := h
        exact ⟨⟨rfl, rfl, rfl⟩, by simp [submittedUnder, Effect.submittedUnder]⟩
      | SetContextProvider cp =>
        simp only [InkClient.SetContextProvider, if_true, Option.some.injEq,
          Prod.mk.injEq] at h
        obtain ⟨rfl, rfl⟩ := h
        exact ⟨⟨rfl, rfl, rfl⟩, by simp [submittedUnder]⟩
      | Draw location =>
        simp only [InkClient.Draw] at h
        split at h
        · cases h
        · split at h
          · simp only [Option.some.injEq, Prod.mk.injEq] at h
            obtain ⟨rfl, rfl⟩ := h
            exact ⟨⟨rfl, rfl, rfl⟩, by simp [submittedUnder, Effect.submittedUnder]⟩
          · cases h
  | OnBeginFrame args => exact InkClient.OnBeginFrame_same s s1 g args e h
  | DidReceiveCompositorFrameAck resources =>
    simp only [InkClient.step, InkClient.DidReceiveCompositorFrameAck] at h
    cases hr : receiveAndRemove s.client_resource_provider_ resources with
    | none => rw [hr] at h; cases h
    | some v =>
      obtain ⟨p1, e1⟩ := v
      have he := receiveAndRemove_effects _ _ _ _ hr
      rw [hr] at h
      simp only [Option.some.injEq, Prod.mk.injEq] at h
      obtain ⟨rfl, rfl⟩ := h
      exact ⟨⟨rfl, rfl, rfl⟩, by rw [submittedUnder_no_response he]; simp⟩
  | ReclaimResources resources =>
    simp only [InkClient.step, InkClient.ReclaimResources] at h
    cases hr : receiveAndRemove s.client_resource_provider_ resources with
    | none => rw [hr] at h; cases h
    | some v =>
      obtain ⟨p1, e1⟩ := v
      have he := receiveAndRemove_effects _ _ _ _ hr
      rw [hr] at h
      simp only [Option.some.injEq, Prod.mk.injEq] at h
      obtain ⟨rfl, rfl⟩ := h
      exact ⟨⟨rfl, rfl, rfl⟩, by rw [submittedUnder_no_response he]; simp⟩
  | OnBeginFramePausedChanged paused =>
    simp only [InkClient.step, InkClient.OnBeginFramePausedChanged, Option.some.injEq,
      Prod.mk.injEq] at h
    obtain ⟨rfl, rfl⟩ := h
    exact ⟨⟨rfl, rfl, rfl⟩, by simp [submittedUnder]⟩
  | DidProcessEvent is_move location =>
    simp only [InkClient.step, InkClient.DidProcessEvent, Option.some.injEq,
      Prod.mk.injEq] at h
    obtain ⟨rfl, rfl⟩ := h
    refine ⟨?_, by simp [submittedUnder]⟩
    cases is_move <;> exact ⟨rfl, rfl, rfl⟩
  | SetContextProvider cp =>
    simp only [InkClient.step, InkClient.SetContextProvider, Option.some.injEq,
      Prod.mk.injEq] at h
    obtain ⟨rfl, rfl⟩ := h
    exact ⟨⟨rfl, rfl, rfl⟩, by simp [submittedUnder]⟩
  | Bind =>
    simp only [InkClient.step, InkClient.Bind, Option.some.injEq, Prod.mk.injEq] at h
    obtain ⟨rfl, rfl⟩ := h
    exact ⟨⟨rfl, rfl, rfl⟩, by simp [submittedUnder, Effect.submittedUnder]⟩

theorem InkClient.run_same (g : Bool) (evs : List InkEvent) :
    ∀ (s s1 : InkClient) (e : List Effect), InkClient.run g s evs = some (s1, e) →
      s.sameIdentity s1 ∧
        ∀ l ∈ submittedUnder e, l = s.local_surface_id_.local_surface_id := by
  induction evs with
  | nil =>
    intro s s1 e h
    simp only [InkClient.run, Option.some.injEq, Prod.mk.injEq] at h
    obtain ⟨rfl, rfl⟩ := h
    exact ⟨⟨rfl, rfl, rfl⟩, by simp [submittedUnder]⟩
  | cons ev rest ih =>
    intro s s1 e h
    simp only [InkClient.run] at h
    cases hstep : s.step g ev with
    | none => rw [hstep] at h; cases h
    | some r =>
      obtain ⟨sa, ea⟩ := r
      rw [hstep] at h
      simp only at h
      cases hrun : InkClient.run g sa rest with
      | none => rw [hrun] at h; cases h
      | some r2 =>
        obtain ⟨sb, eb⟩ := r2
        rw [hrun] at h
        simp only [Option.some.injEq, Prod.mk.injEq] at h
        obtain ⟨rfl, rfl⟩ := h
        obtain ⟨h1, hf1⟩ := InkClient.step_same g s sa ev ea hstep
        obtain ⟨h2, hf2⟩ := ih sa sb eb hrun
        refine ⟨InkClient.sameIdentity_trans h1 h2, ?_⟩
        intro l hl
        rw [submittedUnder_append] at hl
        rcases List.mem_append.1 hl with hl | hl
        · exact hf1 l hl
        · rw [h1.2.1]
          exact hf2 l hl

/-! ## The host -/

theorem Compositor.new_eq (widget : Nat) (size : Size) (g : Bool) (env : HostEnv) :
    ∃ c calls effects, Compositor.new widget size g env = some (c, calls, effects) ∧
      c.root_client_ = some ((rootBeforeEmbed size env).EmbedChild ⟨0, 2⟩ env.embed_time).1 ∧
      c.child_client_ = some (childAfterEmbed size env) ∧
      c.host_frame_sink_manager_.hierarchy_ = [(⟨0, 1⟩, ⟨0, 2⟩)] ∧
      calls = [.RegisterFrameSinkId ⟨0, 1⟩,
               .CreateRootCompositorFrameSink ⟨widget, ⟨0, 1⟩, env.disable_frame_rate_limit, g⟩,
               .Resize size, .SetDisplayVisible true, .BindRoot,
               .RegisterFrameSinkId ⟨0, 2⟩, .RegisterFrameSinkHierarchy ⟨0, 1⟩ ⟨0, 2⟩,
               .CreateCompositorFrameSink ⟨0, 2⟩, .EmbedChild ⟨0, 2⟩, .BindChild] :=
  ⟨_, _, _, rfl, rfl, rfl, rfl, rfl⟩

theorem LayerTreeFrameSink.surfacesOf_headItems (s : LayerTreeFrameSink) :
    surfacesOf s.headItems =
      if s.child_frame_sink_id_.is_valid then
        [embedRange s.child_frame_sink_id_
          s.local_surface_id_allocator_.GetCurrentLocalSurfaceIdAllocation.local_surface_id]
      else [] := by
  unfold LayerTreeFrameSink.headItems
  split <;> simp [appendPair, surfacesOf, embedRange]

/-- C9: after the host's constructor, the parent (root sink) holds the state
`EmbedChild(c)` left, `EmbedChild` returned the allocation `L`, and the child
sink was constructed with `c` and `L`. Then every frame the parent submits, in
any run of its events, has exactly one Surface quad, whose range has no start
and ends at `SurfaceId(c, L.local_surface_id)`; and every frame the child
submits, in any run of its events, is submitted under `L.local_surface_id`. -/
theorem embed_keyed_by_child_surface_id (widget : Nat) (size : Size) (g : Bool) (env : HostEnv) :
    ∃ (c : Compositor) (calls : List HostCall) (effects : List Effect)
      (root : LayerTreeFrameSink) (child : InkClient) (before : LayerTreeFrameSink)
      (L : LocalSurfaceIdAllocation),
      Compositor.new widget size g env = some (c, calls, effects) ∧
      c.root_client_ = some root ∧ c.child_client_ = some child ∧
      before.EmbedChild child.frame_sink_id_ env.embed_time = (root, L) ∧
      child.local_surface_id_ = L ∧
      (∀ levs root1 e, LayerTreeFrameSink.run g root levs = some (root1, e) →
        (∀ ev ∈ levs, ev.isEmbedChild = false) →
        ∀ f ∈ submittedFrames e,
          f.surfaceRanges = [embedRange child.frame_sink_id_ L.local_surface_id]) ∧
      (∀ ievs child1 e, InkClient.run g child ievs = some (child1, e) →
        ∀ l ∈ submittedUnder e, l = L.local_surface_id) := by
  refine ⟨_, _, _, ((rootBeforeEmbed size env).EmbedChild ⟨0, 2⟩ env.embed_time).1,
    childAfterEmbed size env, rootBeforeEmbed size env,
    ((rootBeforeEmbed size env).EmbedChild ⟨0, 2⟩ env.embed_time).2, rfl, rfl, rfl, rfl, rfl, ?_, ?_⟩
  · intro levs root1 e hrun hno f hf
    obtain ⟨-, hframes⟩ := LayerTreeFrameSink.layer_run_same g levs _ _ _ hrun hno
    rw [hframes f hf, LayerTreeFrameSink.surfacesOf_headItems]
    rfl
  · intro ievs child1 e hrun l hl
    obtain ⟨-, hsub⟩ := InkClient.run_same g ievs _ _ _ hrun
    exact hsub l hl

theorem embed_keyed_by_child_surface_id_witness :
    ∃ root1 e,
      LayerTreeFrameSink.run true demoRoot [.RunTask, .OnBeginFrame args0] = some (root1, e) ∧
      (∀ ev ∈ [LayerEvent.RunTask, .OnBeginFrame args0], ev.isEmbedChild = false) ∧
      (submittedFrames e).length = 1 ∧
      ∀ f ∈ submittedFrames e, f.surfaceRanges = [embedRange ⟨0, 2⟩ ⟨1, 1, 4⟩] := by
  obtain ⟨c, calls, effects, root, child, before, L, hnew, hroot, hchild, hembed, hL, hframes, -⟩ :=
    embed_keyed_by_child_surface_id 1 ⟨800, 600⟩ true env0
  have hr : (Compositor.new 1 ⟨800, 600⟩ true env0).bind (fun r => r.1.root_client_) =
      some demoRoot := rfl
  have hc : (Compositor.new 1 ⟨800, 600⟩ true env0).bind (fun r => r.1.child_client_) =
      some (childAfterEmbed ⟨800, 600⟩ env0) := rfl
  rw [hnew] at hr hc
  simp only [Option.some_bind] at hr hc
  rw [hroot] at hr
  rw [hchild] at hc
  cases hr
  cases hc
  have hcount : (LayerTreeFrameSink.run true demoRoot [.RunTask, .OnBeginFrame args0]).map
      (fun r => (submittedFrames r.2).length) = some 1 := by decide
  cases hrun : LayerTreeFrameSink.run true demoRoot [.RunTask, .OnBeginFrame args0] with
  | none => rw [hrun] at hcount; cases hcount
  | some r =>
  obtain ⟨root1, e⟩ := r
  rw [hrun] at hcount
  have hlen : (submittedFrames e).length = 1 := by simpa using hcount
  have hno : ∀ ev ∈ [LayerEvent.RunTask, .OnBeginFrame args0], ev.isEmbedChild = false := by
    decide
  refine ⟨root1, e, rfl, hno, hlen, ?_⟩
  intro f hf
  rw [hframes _ _ _ hrun hno f hf, ← hL]
  rfl

/-- C10: in the host's constructor the hierarchy edge (root id -> child id) is
registered with the frame sink manager, and accepted, before `EmbedChild(child)`
is called on the root sink. Until that call no frame the root sink submits has a
Surface quad; after it, in any run of the root sink's events, the child of
every Surface quad of every submitted frame has its edge from the root
registered with the manager. -/
theorem surface_quad_edge_registered (widget : Nat) (size : Size) (g : Bool) (env : HostEnv) :
    ∃ (c : Compositor) (calls : List HostCall) (effects : List Effect)
      (root before : LayerTreeFrameSink) (child_id : FrameSinkId),
      Compositor.new widget size g env = some (c, calls, effects) ∧
      c.root_client_ = some root ∧
      (before.EmbedChild child_id env.embed_time).1 = root ∧
      (∃ pre mid post, calls =
        pre ++ [.RegisterFrameSinkHierarchy root.frame_sink_id_ child_id] ++ mid ++
          [.EmbedChild child_id] ++ post) ∧
      (root.frame_sink_id_, child_id) ∈ c.host_frame_sink_manager_.hierarchy_ ∧
      (∀ levs r1 e, LayerTreeFrameSink.run g before levs = some (r1, e) →
        (∀ ev ∈ levs, ev.isEmbedChild = false) →
        ∀ f ∈ submittedFrames e, f.surfaceRanges = []) ∧
      (∀ levs r1 e, LayerTreeFrameSink.run g root levs = some (r1, e) →
        (∀ ev ∈ levs, ev.isEmbedChild = false) →
        ∀ f ∈ submittedFrames e, ∀ range ∈ f.surfaceRanges,
          (root.frame_sink_id_, range.end_.frame_sink_id) ∈
            c.host_frame_sink_manager_.hierarchy_) := by
  refine ⟨_, _, _, ((rootBeforeEmbed size env).EmbedChild ⟨0, 2⟩ env.embed_time).1,
    rootBeforeEmbed size env, ⟨0, 2⟩, rfl, rfl, rfl, ?_, ?_, ?_, ?_⟩
  · exact ⟨[.RegisterFrameSinkId ⟨0, 1⟩,
        .CreateRootCompositorFrameSink ⟨widget, ⟨0, 1⟩, env.disable_frame_rate_limit, g⟩,
        .Resize size, .SetDisplayVisible true, .BindRoot, .RegisterFrameSinkId ⟨0, 2⟩],
      [.CreateCompositorFrameSink ⟨0, 2⟩], [.BindChild], rfl⟩
  · exact List.mem_singleton.2 rfl
  · intro levs r1 e hrun hno f hf
    obtain ⟨-, hframes⟩ := LayerTreeFrameSink.layer_run_same g levs _ _ _ hrun hno
    rw [hframes f hf, LayerTreeFrameSink.surfacesOf_headItems]
    rfl
  · intro levs r1 e hrun hno f hf range hrange
    obtain ⟨-, hframes⟩ := LayerTreeFrameSink.layer_run_same g levs _ _ _ hrun hno
    rw [hframes f hf, LayerTreeFrameSink.surfacesOf_headItems] at hrange
    have hvalid : (((rootBeforeEmbed size env).EmbedChild ⟨0, 2⟩
        env.embed_time).1.child_frame_sink_id_.is_valid) = true := rfl
    rw [if_pos hvalid, List.mem_singleton] at hrange
    subst hrange
    exact List.mem_singleton.2 rfl

theorem surface_quad_edge_registered_witness :
    ∃ r1 e r2 e2,
      LayerTreeFrameSink.run false (rootBeforeEmbed ⟨800, 600⟩ env0)
        [.RunTask, .OnBeginFrame args0] = some (r1, e) ∧
      (submittedFrames e).length = 1 ∧
      (∀ f ∈ submittedFrames e, f.surfaceRanges = []) ∧
      LayerTreeFrameSink.run false demoRoot
        [.RunTask, .SetContextProvider (some ⟨11⟩), .RunTask, .OnBeginFrame args0] =
          some (r2, e2) ∧
      (submittedFrames e2).length = 1 ∧
      ∀ f ∈ submittedFrames e2, ∀ range ∈ f.surfaceRanges,
        range.end_.frame_sink_id = ⟨0, 2⟩ := by
  obtain ⟨c, calls, effects, root, before, child_id, hnew, hroot, hbefore, -, -, hpre, hpost⟩ :=
    surface_quad_edge_registered 1 ⟨800, 600⟩ false env0
  have hr : (Compositor.new 1 ⟨800, 600⟩ false env0).bind (fun r => r.1.root_client_) =
      some demoRoot := rfl
  have hh : (Compositor.new 1 ⟨800, 600⟩ false env0).map
      (fun r => r.1.host_frame_sink_manager_.hierarchy_) = some [(⟨0, 1⟩, ⟨0, 2⟩)] := rfl
  rw [hnew] at hr hh
  simp only [Option.some_bind, Option.map_some', Option.some.injEq] at hr hh
  rw [hroot] at hr
  cases hr
  have hc1 : (LayerTreeFrameSink.run false (rootBeforeEmbed ⟨800, 600⟩ env0)
      [.RunTask, .OnBeginFrame args0]).map
      (fun r => ((submittedFrames r.2).length,
        (submittedFrames r.2).map CompositorFrame.surfaceRanges)) = some (1, [[]]) := by
    decide
  have hc2 : (LayerTreeFrameSink.run false demoRoot
      [.RunTask, .SetContextProvider (some ⟨11⟩), .RunTask, .OnBeginFrame args0]).map
      (fun r => (submittedFrames r.2).length) = some 1 := by decide
  cases hrun1 : LayerTreeFrameSink.run false (rootBeforeEmbed ⟨800, 600⟩ env0)
      [.RunTask, .OnBeginFrame args0] with
  | none => rw [hrun1] at hc1; cases hc1
  | some v1 =>
  obtain ⟨r1, e⟩ := v1
  cases hrun2 : LayerTreeFrameSink.run false demoRoot
      [.RunTask, .SetContextProvider (some ⟨11⟩), .RunTask, .OnBeginFrame args0] with
  | none => rw [hrun2] at hc2; cases hc2
  | some v2 =>
  obtain ⟨r2, e2⟩ := v2
  rw [hrun1] at hc1
  rw [hrun2] at hc2
  simp only [Option.map_some', Option.some.injEq, Prod.mk.injEq] at hc1 hc2
  refine ⟨r1, e, r2, e2, rfl, hc1.1, ?_, rfl, hc2, ?_⟩
  · intro f hf
    have hmem : f.surfaceRanges ∈ (submittedFrames e).map CompositorFrame.surfaceRanges :=
      List.mem_map_of_mem _ hf
    rw [hc1.2] at hmem
    exact List.mem_singleton.1 hmem
  · intro f hf range hrange
    have hedge := hpost _ _ _ hrun2 (by decide) f hf range hrange
    rw [hh] at hedge
    have := List.mem_singleton.1 hedge
    exact (Prod.mk.injEq _ _ _ _ ▸ this).2

/-! ## Where the quads are placed -/

theorem LayerTreeFrameSink.layer_frameOf_placed (s : LayerTreeFrameSink) (g : Bool)
    (p : ClientResourceProvider) (args : BeginFrameArgs) :
    ∀ pass ∈ (s.frameOf g p args).render_pass_list, pass.output_rect = s.bounds_ ∧
      ∀ qs ∈ pass.quadsWithStates, placedAsIs pass.output_rect qs := by
  intro pass hpass
  simp only [LayerTreeFrameSink.frameOf, List.mem_singleton] at hpass
  subst hpass
  refine ⟨rfl, ?_⟩
  cases h1 : s.child_frame_sink_id_.is_valid <;> cases h2 : s.context_provider_.isSome <;>
    simp [RenderPass.quadsWithStates, RenderPass.quad_list, RenderPass.shared_quad_state_list,
      LayerTreeFrameSink.itemsOf, LayerTreeFrameSink.headItems, LayerTreeFrameSink.resourceItems,
      appendPair, stateCount, h1, h2, placedAsIs, LayerTreeFrameSink.boundsState,
      LayerTreeFrameSink.squareState, LayerTreeFrameSink.squarePlaces, Transform.identity,
      Transform.Translate, LayerTreeFrameSink.square]

theorem quadWithin_of_placed (output : Rect) (qs : DrawQuad × Option SharedQuadState)
    (h : placedAsIs output qs) (hc : output.Contains ⟨50, 50, 500, 500⟩ = true) :
    quadWithin output qs = true := by
  obtain ⟨st, hst, -, hplace⟩ := h
  have hq : quadWithin output qs = output.Contains (st.quad_to_target_transform.MapRect qs.1.rect) := by
    unfold quadWithin
    rw [hst]
  rw [hq]
  simp only [Rect.Contains, Bool.and_eq_true, decide_eq_true_eq] at hc
  cases hm : qs.1.material <;> rw [hm] at hplace <;> simp only at hplace
  all_goals
    obtain ⟨hrect, ht⟩ := hplace
    rw [hrect, ht]
    simp only [Transform.MapRect, Transform.identity, LayerTreeFrameSink.square, Rect.Contains,
      Bool.and_eq_true, decide_eq_true_eq]
    omega

theorem InkClient.frameOf_placed (s : InkClient) (g : Bool) (p : ClientResourceProvider)
    (args : BeginFrameArgs) :
    ∀ pass ∈ (s.frameOf g p args).render_pass_list, pass.output_rect = s.bounds_ ∧
      ∀ qs ∈ pass.quadsWithStates, ∃ st, qs.2 = some st ∧ st.is_clipped = false ∧
        qs.1.rect = pass.output_rect ∧ st.quad_to_target_transform = Transform.identity := by
  intro pass hpass
  simp only [InkClient.frameOf, List.mem_singleton] at hpass
  subst hpass
  refine ⟨rfl, ?_⟩
  simp [RenderPass.quadsWithStates, RenderPass.quad_list, RenderPass.shared_quad_state_list,
    InkClient.passOf]

/-- C11, as stated, fails: the sinks do not clip. The root sink of the demo in a
100x100 window, with a child and a context provider, builds a frame whose pass
has the output rect (0,0,100,100) and quads of 200x200 that reach outside it,
both as they are and moved by the transform of their shared quad state. -/
theorem quad_outside_output_rect :
    ∃ s1 frame effects, layerSmall.CreateFrame true args0 = some (s1, frame, effects) ∧
      ¬ (∀ pass ∈ frame.render_pass_list, pass.quadsWithinOutput = true) ∧
      ¬ (∀ pass ∈ frame.render_pass_list, pass.rectsWithinOutput = true) := by
  have h : (layerSmall.CreateFrame true args0).map (fun r =>
      (r.2.1.render_pass_list.map RenderPass.quadsWithinOutput,
       r.2.1.render_pass_list.map RenderPass.rectsWithinOutput)) = some ([false], [false]) := by
    decide
  cases hc : layerSmall.CreateFrame true args0 with
  | none => rw [hc] at h; cases h
  | some v =>
    obtain ⟨s1, frame, effects⟩ := v
    rw [hc] at h
    simp only [Option.map_some', Option.some.injEq, Prod.mk.injEq] at h
    refine ⟨s1, frame, effects, rfl, ?_, ?_⟩
    · intro hall
      have hm : ∀ b ∈ frame.render_pass_list.map RenderPass.quadsWithinOutput, b = true := by
        intro b hb
        obtain ⟨pass, hp, rfl⟩ := List.mem_map.1 hb
        exact hall pass hp
      rw [h.1] at hm
      exact absurd (hm false (List.mem_singleton.2 rfl)) (by decide)
    · intro hall
      have hm : ∀ b ∈ frame.render_pass_list.map RenderPass.rectsWithinOutput, b = true := by
        intro b hb
        obtain ⟨pass, hp, rfl⟩ := List.mem_map.1 hb
        exact hall pass hp
      rw [h.2] at hm
      exact absurd (hm false (List.mem_singleton.2 rfl)) (by decide)

/-- C11, amended: on a bound sink, `CreateFrame` places every quad as is, with
no clipping (`is_clipped` is false on every shared quad state). The pass of
`InkClient` has two quads and both cover the output rect of the pass,
untransformed, so they lie within it. In the pass of `LayerTreeFrameSink` the
DebugBorder and the SolidColor quad cover the output rect, untransformed, and
the Tile, Texture, Surface and VideoHole quads are the 200x200 square moved to
(50,50), (350,50), (350,350) and (50,350); all of them lie within the output
rect when the sink's bounds contain the rectangle from (50,50) to (550,550)
that the squares span. -/
theorem quads_placed_as_is (g : Bool) (args : BeginFrameArgs) (ink : InkClient)
    (layer : LayerTreeFrameSink) (hi : ink.Bound = true) (hl : layer.Bound = true) :
    (∃ s1 frame effects, ink.CreateFrame g args = some (s1, frame, effects) ∧
      frame.render_pass_list.length = 1 ∧
      ∀ pass ∈ frame.render_pass_list, pass.output_rect = ink.bounds_ ∧
        pass.quadsWithStates.length = 2 ∧
        (∀ qs ∈ pass.quadsWithStates, ∃ st, qs.2 = some st ∧ st.is_clipped = false ∧
          qs.1.rect = pass.output_rect ∧ st.quad_to_target_transform = Transform.identity) ∧
        pass.quadsWithinOutput = true) ∧
    (∃ s1 frame effects, layer.CreateFrame g args = some (s1, frame, effects) ∧
      frame.render_pass_list.length = 1 ∧
      ∀ pass ∈ frame.render_pass_list, pass.output_rect = layer.bounds_ ∧
        pass.quadsWithStates.map (fun qs => qs.1.material.kind) =
          [QuadKind.DebugBorder] ++
          (if layer.child_frame_sink_id_.is_valid then [QuadKind.Surface] else []) ++
          (if layer.context_provider_.isSome then
            [QuadKind.Tile, QuadKind.Texture, QuadKind.VideoHole] else []) ++
          [QuadKind.SolidColor] ∧
        (∀ qs ∈ pass.quadsWithStates, placedAsIs pass.output_rect qs) ∧
        (layer.bounds_.Contains ⟨50, 50, 500, 500⟩ = true → pass.quadsWithinOutput = true)) := by
  constructor
  · obtain ⟨hr, ⟨b, hb⟩, p, hp, hwf⟩ := (InkClient.Bound_iff ink).1 hi
    obtain ⟨effects, -, h⟩ := ink.CreateFrame_bound g args p b hr hb hp hwf
    refine ⟨_, _, effects, h, rfl, ?_⟩
    intro pass hpass
    obtain ⟨hout, hq⟩ := ink.frameOf_placed g p args pass hpass
    have hlen : pass.quadsWithStates.length = 2 := by
      simp only [InkClient.frameOf, List.mem_singleton] at hpass
      rw [hpass]
      simp [RenderPass.quadsWithStates, RenderPass.quad_list, InkClient.passOf]
    refine ⟨hout, hlen, hq, ?_⟩
    unfold RenderPass.quadsWithinOutput
    rw [List.all_eq_true]
    intro qs hqs
    obtain ⟨st, hst, -, hrect, hid⟩ := hq qs hqs
    have hw : quadWithin pass.output_rect qs =
        pass.output_rect.Contains (st.quad_to_target_transform.MapRect qs.1.rect) := by
      unfold quadWithin
      rw [hst]
    rw [hw, hrect, hid]
    simp [Transform.MapRect, Transform.identity, Rect.Contains]
  · obtain ⟨⟨sink, hr⟩, p, hp, hwf⟩ := (LayerTreeFrameSink.layer_Bound_iff layer).1 hl
    obtain ⟨effects, -, h⟩ := layer.layer_CreateFrame_bound g args p sink hr hp hwf
    refine ⟨_, _, effects, h, rfl, ?_⟩
    intro pass hpass
    obtain ⟨hout, hq⟩ := layer.layer_frameOf_placed g p args pass hpass
    have hkinds : pass.quadsWithStates.map (fun qs => qs.1.material.kind) =
        [QuadKind.DebugBorder] ++
        (if layer.child_frame_sink_id_.is_valid then [QuadKind.Surface] else []) ++
        (if layer.context_provider_.isSome then
          [QuadKind.Tile, QuadKind.Texture, QuadKind.VideoHole] else []) ++
        [QuadKind.SolidColor] := by
      simp only [LayerTreeFrameSink.frameOf, List.mem_singleton] at hpass
      rw [hpass]
      cases hv : layer.child_frame_sink_id_.is_valid <;>
        cases hcp : layer.context_provider_.isSome <;>
        simp [RenderPass.quadsWithStates, RenderPass.quad_list,
          LayerTreeFrameSink.itemsOf, LayerTreeFrameSink.headItems,
          LayerTreeFrameSink.resourceItems, appendPair, Material.kind, hv, hcp]
    refine ⟨hout, hkinds, hq, ?_⟩
    intro hc
    unfold RenderPass.quadsWithinOutput
    rw [List.all_eq_true]
    intro qs hqs
    exact quadWithin_of_placed _ qs (hq qs hqs) (hout ▸ hc)

theorem quads_placed_as_is_witness :
    (inkBound.Bound = true ∧ layerFull.Bound = true) ∧
    (∃ s1 frame effects, inkBound.CreateFrame true args0 = some (s1, frame, effects) ∧
      frame.render_pass_list.length = 1 ∧
      ∀ pass ∈ frame.render_pass_list, pass.output_rect = inkBound.bounds_ ∧
        pass.quadsWithStates.length = 2 ∧
        (∀ qs ∈ pass.quadsWithStates, ∃ st, qs.2 = some st ∧ st.is_clipped = false ∧
          qs.1.rect = pass.output_rect ∧ st.quad_to_target_transform = Transform.identity) ∧
        pass.quadsWithinOutput = true) ∧
    (∃ s1 frame effects, layerFull.CreateFrame true args0 = some (s1, frame, effects) ∧
      frame.render_pass_list.length = 1 ∧
      ∀ pass ∈ frame.render_pass_list, pass.output_rect = layerFull.bounds_ ∧
        pass.quadsWithStates.map (fun qs => qs.1.material.kind) =
          [QuadKind.DebugBorder] ++
          (if layerFull.child_frame_sink_id_.is_valid then [QuadKind.Surface] else []) ++
          (if layerFull.context_provider_.isSome then
            [QuadKind.Tile, QuadKind.Texture, QuadKind.VideoHole] else []) ++
          [QuadKind.SolidColor] ∧
        (∀ qs ∈ pass.quadsWithStates, placedAsIs pass.output_rect qs) ∧
        (layerFull.bounds_.Contains ⟨50, 50, 500, 500⟩ = true →
          pass.quadsWithinOutput = true)) :=
  ⟨⟨by decide, by decide⟩,
   quads_placed_as_is true args0 inkBound layerFull (by decide) (by decide)⟩

/-! ## Frame sink ids -/

theorem Compositor.EmbedChildClient_allocated (c : Compositor) (parent : FrameSinkId)
    (env : HostEnv) (root : LayerTreeFrameSink) (hroot : c.root_client_ = some root)
    (hlt : c.frame_sink_id_allocator_.next_sink_id_ + 1 < 2 ^ 32) :
    ∃ r root1, c.EmbedChildClient parent env = some r ∧
      HostCall.allocated r.2.1 =
        [⟨c.frame_sink_id_allocator_.client_id_, c.frame_sink_id_allocator_.next_sink_id_⟩] ∧
      r.1.frame_sink_id_allocator_ =
        ⟨c.frame_sink_id_allocator_.client_id_, c.frame_sink_id_allocator_.next_sink_id_ + 1⟩ ∧
      r.1.root_client_ = some root1 := by
  simp only [Compositor.EmbedChildClient, FrameSinkIdAllocator.NextFrameSinkId,
    LayerTreeFrameSink.EmbedChild, InkClient.Bind, hroot, Nat.mod_eq_of_lt hlt]
  exact ⟨_, _, rfl, rfl, rfl, rfl⟩

theorem Compositor.embedMore_allocated (parent : FrameSinkId) (env : HostEnv) (n : Nat) :
    ∀ (c : Compositor) (root : LayerTreeFrameSink), c.root_client_ = some root →
      c.frame_sink_id_allocator_.next_sink_id_ + n < 2 ^ 32 →
      ∃ c2 calls, c.embedMore parent env n = some (c2, calls) ∧
        HostCall.allocated calls = (List.range n).map (fun i =>
          ⟨c.frame_sink_id_allocator_.client_id_,
           c.frame_sink_id_allocator_.next_sink_id_ + i⟩) := by
  induction n with
  | zero => intro c root _ _; exact ⟨c, [], rfl, rfl⟩
  | succ n ih =>
    intro c root hroot hlt
    obtain ⟨⟨c1, calls1, effects⟩, root1, h1, ha1, halloc, hroot1⟩ :=
      c.EmbedChildClient_allocated parent env root hroot (by omega)
    simp only at ha1 halloc hroot1
    obtain ⟨c2, calls2, h2, ha2⟩ := ih c1 root1 hroot1 (by rw [halloc]; simp only; omega)
    refine ⟨c2, calls1 ++ calls2, ?_, ?_⟩
    · simp only [Compositor.embedMore, h1, h2]
    · simp only [HostCall.allocated, List.filterMap_append] at ha1 ha2 ⊢
      rw [ha1, ha2, halloc, List.range_succ_eq_map]
      simp only [List.map_cons, List.map_map, List.singleton_append, Nat.add_zero,
        List.cons.injEq, true_and]
      apply List.map_congr_left
      intro i _
      simp only [Function.comp, FrameSinkId.mk.injEq, true_and]
      omega

theorem Compositor.new_allocator (widget : Nat) (size : Size) (g : Bool) (env : HostEnv) :
    ∃ c calls effects, Compositor.new widget size g env = some (c, calls, effects) ∧
      c.root_client_ = some ((rootBeforeEmbed size env).EmbedChild ⟨0, 2⟩ env.embed_time).1 ∧
      c.child_client_ = some (childAfterEmbed size env) ∧
      c.frame_sink_id_allocator_ = ⟨0, 3⟩ ∧
      HostCall.allocated calls = [⟨0, 1⟩, ⟨0, 2⟩] :=
  ⟨_, _, _, rfl, rfl, rfl, rfl, rfl⟩

/-- C12: the host allocates the root's frame sink id `(0, 1)` in
`InitializeOnThread` and the child's `(0, 2)` in `EmbedChildClient`; were it to
embed `n` more children, the ids would go on with the sink ids 3, 4, ..., so
that, as long as the 32-bit sink id does not wrap, every id has a strictly
greater sink id than all ids allocated before it, and no id is allocated
twice. -/
theorem frame_sink_ids_increase (widget : Nat) (size : Size) (g : Bool) (env : HostEnv)
    (n : Nat) (h : n + 3 < 2 ^ 32) :
    ∃ c calls effects root child c2 calls2,
      Compositor.new widget size g env = some (c, calls, effects) ∧
      c.root_client_ = some root ∧ c.child_client_ = some child ∧
      HostCall.allocated calls = [root.frame_sink_id_, child.frame_sink_id_] ∧
      root.frame_sink_id_.sink_id < child.frame_sink_id_.sink_id ∧
      c.embedMore root.frame_sink_id_ env n = some (c2, calls2) ∧
      HostCall.allocated (calls ++ calls2) = (List.range (n + 2)).map (fun i => ⟨0, i + 1⟩) ∧
      ((HostCall.allocated (calls ++ calls2)).map FrameSinkId.sink_id).Pairwise (· < ·) ∧
      (HostCall.allocated (calls ++ calls2)).Nodup := by
  obtain ⟨c, calls, effects, hnew, hroot, hchild, halloc, hids⟩ :=
    Compositor.new_allocator widget size g env
  obtain ⟨c2, calls2, h2, ha2⟩ := Compositor.embedMore_allocated ⟨0, 1⟩ env n c _ hroot
    (by rw [halloc]; simp only; omega)
  have hall : HostCall.allocated (calls ++ calls2) =
      (List.range (n + 2)).map (fun i => ⟨0, i + 1⟩) := by
    have happ : HostCall.allocated (calls ++ calls2) =
        HostCall.allocated calls ++ HostCall.allocated calls2 := by
      simp only [HostCall.allocated, List.filterMap_append]
    rw [happ, hids, ha2, halloc, List.range_succ_eq_map, List.range_succ_eq_map]
    simp only [List.map_cons, List.map_map, List.cons_append, List.nil_append, Nat.zero_add,
      List.cons.injEq, true_and]
    apply List.map_congr_left
    intro i _
    simp only [Function.comp, FrameSinkId.mk.injEq, true_and]
    omega
  have hpw : ((HostCall.allocated (calls ++ calls2)).map FrameSinkId.sink_id).Pairwise
      (· < ·) := by
    rw [hall, List.map_map, List.pairwise_map]
    exact (List.pairwise_lt_range (n + 2)).imp (fun hab => Nat.succ_lt_succ hab)
  refine ⟨c, calls, effects, _, _, c2, calls2, hnew, hroot, hchild, hids,
    (by decide : (1 : Nat) < 2), h2, hall,
    hpw, ?_⟩
  rw [hall]
  exact (List.nodup_range (n + 2)).map (fun a b hab => by
    simp only [FrameSinkId.mk.injEq, true_and] at hab
    omega)

theorem frame_sink_ids_increase_witness :
    3 + 3 < 2 ^ 32 ∧
    ∃ c calls effects root child c2 calls2,
      Compositor.new 1 ⟨800, 600⟩ true env0 = some (c, calls, effects) ∧
      c.root_client_ = some root ∧ c.child_client_ = some child ∧
      HostCall.allocated calls = [root.frame_sink_id_, child.frame_sink_id_] ∧
      root.frame_sink_id_.sink_id < child.frame_sink_id_.sink_id ∧
      c.embedMore root.frame_sink_id_ env0 3 = some (c2, calls2) ∧
      HostCall.allocated (calls ++ calls2) = (List.range (3 + 2)).map (fun i => ⟨0, i + 1⟩) ∧
      ((HostCall.allocated (calls ++ calls2)).map FrameSinkId.sink_id).Pairwise (· < ·) ∧
      (HostCall.allocated (calls ++ calls2)).Nodup :=
  ⟨by decide, frame_sink_ids_increase 1 ⟨800, 600⟩ true env0 3 (by decide)⟩

/-! ## Resource ids are not handed out twice -/

theorem removeReturned_next_id (rs : List ReturnedResource) :
    ∀ p : ClientResourceProvider, (removeReturned p rs).1.next_id_ = p.next_id_ := by
  induction rs with
  | nil => intro p; rfl
  | cons r rest ih =>
    intro p
    have h1 : (p.RemoveImportedResource r.id).1.next_id_ = p.next_id_ := by
      unfold ClientResourceProvider.RemoveImportedResource
      split <;> rfl
    have h2 : (removeReturned p (r :: rest)).1 =
        (removeReturned (p.RemoveImportedResource r.id).1 rest).1 := rfl
    rw [h2, ih, h1]

theorem receiveAndRemove_next_id (p p1 : ClientResourceProvider) (rs : List ReturnedResource)
    (e : List Effect) (h : receiveAndRemove (some p) rs = some (p1, e)) :
    p1.next_id_ = p.next_id_ := by
  have h0 : receiveAndRemove (some p) rs =
      some ((removeReturned (p.ReceiveReturnsFromParent rs) rs).1,
            runReleases (removeReturned (p.ReceiveReturnsFromParent rs) rs).2) := rfl
  rw [h0] at h
  simp only [Option.some.injEq, Prod.mk.injEq] at h
  rw [← h.1, removeReturned_next_id]
  rfl

theorem LayerTreeFrameSink.frameOf_resourceIds (s : LayerTreeFrameSink) (g : Bool)
    (p : ClientResourceProvider) (args : BeginFrameArgs) :
    ∀ r ∈ (s.frameOf g p args).resourceIds, p.next_id_ ≤ r := by
  intro r hr
  simp only [CompositorFrame.resourceIds, List.mem_filterMap] at hr
  obtain ⟨q, hq, hres⟩ := hr
  rw [LayerTreeFrameSink.frameOf_quads] at hq
  rcases (s.itemsOf_resources p q r hq hres).2 with h | h
  · exact h ▸ Nat.le_refl _
  · exact h ▸ Nat.le_succ _

theorem LayerTreeFrameSink.layer_step_fresh (g : Bool) (s : LayerTreeFrameSink) (ev : LayerEvent)
    (hs : s.Bound = true) (ht : ∀ t ∈ s.thread_, t.isBind = false) (hev : ev.isBind = false) :
    ∃ s1 e, s.step g ev = some (s1, e) ∧ s1.Bound = true ∧
      (∀ t ∈ s1.thread_, t.isBind = false) ∧ s.nextId ≤ s1.nextId ∧
      ∀ f ∈ submittedFrames e, ∀ r ∈ f.resourceIds, s.nextId ≤ r := by
  obtain ⟨s1, e, h, hb, -⟩ := LayerTreeFrameSink.layer_step_bound g s ev hs
  refine ⟨s1, e, h, hb, ?_⟩
  obtain ⟨⟨sink, hr⟩, p, hp, hwf⟩ := (LayerTreeFrameSink.layer_Bound_iff s).1 hs
  have hn : s.nextId = p.next_id_ := by simp only [LayerTreeFrameSink.nextId, hp]
  cases ev with
  | RunTask =>
    unfold LayerTreeFrameSink.step LayerTreeFrameSink.runTask at h
    cases hth : s.thread_ with
    | nil =>
      rw [hth] at h
      simp only [Option.some.injEq, Prod.mk.injEq] at h
      obtain ⟨rfl, rfl⟩ := h
      exact ⟨ht, le_refl _, by simp [submittedFrames]⟩
    | cons task rest =>
      rw [hth] at h ht
      cases task with
      | BindOnThread associated =>
        exact absurd (ht _ (List.mem_cons_self _ _)) (by simp [LayerTask.isBind])
      | SetContextProvider cp =>
        simp only [Option.some.injEq, Prod.mk.injEq] at h
        obtain ⟨rfl, rfl⟩ := h
        refine ⟨?_, ?_, by simp [submittedFrames]⟩
        · intro t hmem
          exact ht t (List.mem_cons_of_mem _ hmem)
        · simp [LayerTreeFrameSink.nextId, LayerTreeFrameSink.SetContextProvider]
  | OnBeginFrame args =>
    rcases LayerTreeFrameSink.layer_OnBeginFrame_bound s g args p sink hr hp hwf with
      ⟨-, effects, heff, h2⟩ | ⟨-, h2⟩
    · have heq : some (s1, e) = some (_, _) := h.symm.trans h2
      simp only [Option.some.injEq, Prod.mk.injEq] at heq
      obtain ⟨rfl, rfl⟩ := heq
      refine ⟨?_, ?_, ?_⟩
      · unfold LayerTreeFrameSink.afterFrame
        split <;> exact ht
      · rw [hn]
        cases hc : s.context_provider_.isSome
        · simp [LayerTreeFrameSink.afterFrame, LayerTreeFrameSink.nextId,
            LayerTreeFrameSink.tick, hc, hp]
        · simp only [LayerTreeFrameSink.afterFrame, LayerTreeFrameSink.nextId,
            LayerTreeFrameSink.tick, hc, if_true, LayerTreeFrameSink.ledgerAfterFrame,
            ClientResourceProvider.importedAndSent]
          exact Nat.le_succ_of_le (Nat.le_succ _)
      · intro f hf
        rw [submittedFrames_append, submittedFrames_no_response heff] at hf
        simp only [submittedFrames, List.filterMap_cons, Effect.frame, List.filterMap_nil,
          List.nil_append, List.mem_singleton] at hf
        subst hf
        rw [hn]
        exact LayerTreeFrameSink.frameOf_resourceIds _ g p args
    · have heq : some (s1, e) = some (_, _) := h.symm.trans h2
      simp only [Option.some.injEq, Prod.mk.injEq] at heq
      obtain ⟨rfl, rfl⟩ := heq
      exact ⟨ht, by simp [LayerTreeFrameSink.nextId, LayerTreeFrameSink.tick],
        by simp [submittedFrames, Effect.frame]⟩
  | DidReceiveCompositorFrameAck resources =>
    simp only [LayerTreeFrameSink.step, LayerTreeFrameSink.DidReceiveCompositorFrameAck, hp] at h
    cases hra : receiveAndRemove (some p) resources with
    | none => rw [hra] at h; cases h
    | some v =>
      obtain ⟨p1, e1⟩ := v
      rw [hra] at h
      simp only [Option.some.injEq, Prod.mk.injEq] at h
      obtain ⟨rfl, rfl⟩ := h
      refine ⟨ht, ?_, ?_⟩
      · rw [hn]
        simp only [LayerTreeFrameSink.nextId, receiveAndRemove_next_id p p1 resources _ hra,
          le_refl]
      · rw [submittedFrames_no_response (receiveAndRemove_effects _ _ _ _ hra)]
        simp
  | ReclaimResources resources =>
    simp only [LayerTreeFrameSink.step, LayerTreeFrameSink.ReclaimResources, hp] at h
    cases hra : receiveAndRemove (some p) resources with
    | none => rw [hra] at h; cases h
    | some v =>
      obtain ⟨p1, e1⟩ := v
      rw [hra] at h
      simp only [Option.some.injEq, Prod.mk.injEq] at h
      obtain ⟨rfl, rfl⟩ := h
      refine ⟨ht, ?_, ?_⟩
      · rw [hn]
        simp only [LayerTreeFrameSink.nextId, receiveAndRemove_next_id p p1 resources _ hra,
          le_refl]
      · rw [submittedFrames_no_response (receiveAndRemove_effects _ _ _ _ hra)]
        simp
  | OnBeginFramePausedChanged paused =>
    simp only [LayerTreeFrameSink.step, LayerTreeFrameSink.OnBeginFramePausedChanged,
      Option.some.injEq, Prod.mk.injEq] at h
    obtain ⟨rfl, rfl⟩ := h
    exact ⟨ht, le_refl _, by simp [submittedFrames]⟩
  | SetContextProvider cp =>
    simp only [LayerTreeFrameSink.step, LayerTreeFrameSink.SetContextProvider,
      Option.some.injEq, Prod.mk.injEq] at h
    obtain ⟨rfl, rfl⟩ := h
    refine ⟨?_, by simp [LayerTreeFrameSink.nextId], by simp [submittedFrames]⟩
    intro t hmem
    simp only [Bool.false_eq_true, if_false, List.mem_append, List.mem_singleton] at hmem
    rcases hmem with hmem | rfl
    · exact ht t hmem
    · rfl
  | Bind associated => simp [LayerEvent.isBind] at hev
  | EmbedChild child now =>
    simp only [LayerTreeFrameSink.step, LayerTreeFrameSink.EmbedChild,
      Option.some.injEq, Prod.mk.injEq] at h
    obtain ⟨rfl, rfl⟩ := h
    exact ⟨ht, by simp [LayerTreeFrameSink.nextId], by simp [submittedFrames]⟩

theorem LayerTreeFrameSink.layer_run_fresh (g : Bool) (evs : List LayerEvent) :
    ∀ s : LayerTreeFrameSink, s.Bound = true → (∀ t ∈ s.thread_, t.isBind = false) →
      (∀ ev ∈ evs, ev.isBind = false) →
      ∃ s1 e, LayerTreeFrameSink.run g s evs = some (s1, e) ∧ s1.Bound = true ∧
        s.nextId ≤ s1.nextId ∧
        ∀ f ∈ submittedFrames e, ∀ r ∈ f.resourceIds, s.nextId ≤ r := by
  induction evs with
  | nil =>
    intro s hs _ _
    exact ⟨s, [], rfl, hs, le_refl _, by simp [submittedFrames]⟩
  | cons ev rest ih =>
    intro s hs ht hevs
    obtain ⟨s1, e1, h1, hb1, ht1, hn1, hf1⟩ :=
      LayerTreeFrameSink.layer_step_fresh g s ev hs ht (hevs ev (List.mem_cons_self _ _))
    obtain ⟨s2, e2, h2, hb2, hn2, hf2⟩ :=
      ih s1 hb1 ht1 (fun x hx => hevs x (List.mem_cons_of_mem _ hx))
    refine ⟨s2, e1 ++ e2, ?_, hb2, le_trans hn1 hn2, ?_⟩
    · simp only [LayerTreeFrameSink.run, h1, h2]
    · intro f hf r hr
      rw [submittedFrames_append, List.mem_append] at hf
      rcases hf with hf | hf
      · exact hf1 f hf r hr
      · exact le_trans hn1 (hf2 f hf r hr)

theorem LayerTreeFrameSink.frameOf_gpu_held (s : LayerTreeFrameSink) (args : BeginFrameArgs)
    (p : ClientResourceProvider) (cp : ContextProvider) (hcp : s.context_provider_ = some cp)
    (hwf : p.wellFormed s.generated_names_ = true) :
    (s.frameOf true p args).resource_list.length = 2 ∧
    ∀ tr ∈ (s.frameOf true p args).resource_list,
      tr.is_software = false ∧ tr.id < p.next_id_ + 2 ∧
      tr.id ∈ (s.frameOf true p args).resourceIds ∧
      ∃ r, (s.ledgerAfterFrame true p).find tr.id =
        some (ClientResourceProvider.entryOf tr.id r (.DeleteSharedImage cp.id tr.mailbox) 1).2 := by
  have hwf1 := ClientResourceProvider.importedAndSent_wellFormed p _ hwf
    (newResource s.context_provider_ true s.generated_names_ ⟨200, 200⟩).1
    (newResource_mailbox _ _ _ _)
    (newResource s.context_provider_ true s.generated_names_ ⟨200, 200⟩).2
  have hsome : s.context_provider_.isSome = true := by rw [hcp]; rfl
  have hids : ∀ r, (∃ q ∈ quadsOf (s.itemsOf p), q.resource = some r) →
      r ∈ (s.frameOf true p args).resourceIds := by
    intro r hq
    obtain ⟨q, hq, hres⟩ := hq
    simp only [CompositorFrame.resourceIds, List.mem_filterMap]
    exact ⟨q, by rw [LayerTreeFrameSink.frameOf_quads]; exact hq, hres⟩
  refine ⟨by simp [LayerTreeFrameSink.frameOf, LayerTreeFrameSink.resourcesOf, hsome], ?_⟩
  intro tr htr
  simp only [LayerTreeFrameSink.frameOf, LayerTreeFrameSink.resourcesOf, hsome, if_true,
    List.mem_cons, List.not_mem_nil, or_false] at htr
  rcases htr with rfl | rfl
  · refine ⟨by simp [newResource, hcp, TransferableResource.MakeGL],
      Nat.lt_succ_of_lt (Nat.lt_succ_self _), hids _ (s.itemsOf_has_tile p hsome),
      (newResource s.context_provider_ true s.generated_names_ ⟨200, 200⟩).1, ?_⟩
    unfold LayerTreeFrameSink.ledgerAfterFrame
    rw [ClientResourceProvider.find_importedAndSent_old _ _ _
      (show p.next_id_ ≠ (p.importedAndSent _ _).next_id_ from Nat.ne_of_lt (Nat.lt_succ_self _))]
    rw [ClientResourceProvider.find_importedAndSent_new hwf _ _]
    simp [newResource, hcp, TransferableResource.MakeGL]
  · refine ⟨by simp [newResource, hcp, TransferableResource.MakeGL],
      Nat.lt_succ_self _, hids _ (s.itemsOf_has_texture p hsome),
      (newResource s.context_provider_ true (s.generated_names_ + 1) ⟨200, 200⟩).1, ?_⟩
    unfold LayerTreeFrameSink.ledgerAfterFrame
    rw [show (p.next_id_ + 1) = (p.importedAndSent
      (newResource s.context_provider_ true s.generated_names_ ⟨200, 200⟩).1
      (newResource s.context_provider_ true s.generated_names_ ⟨200, 200⟩).2).next_id_ from rfl]
    rw [ClientResourceProvider.find_importedAndSent_new hwf1 _ _]
    simp [newResource, hcp, TransferableResource.MakeGL, ClientResourceProvider.importedAndSent]

/-- C13: on a bound `LayerTreeFrameSink` with a context provider and GPU
compositing, `CreateFrame` imports two GPU resources and sends them in the
frame. When the host returns one of them with `lost = true`, through
`ReclaimResources` or `DidReceiveCompositorFrameAck`, the sink does exactly two
things: the ledger runs the resource's release callback (`DeleteSharedImage`,
with the returned sync token and the lost flag), and that callback calls
`DestroySharedImage(sync_token, mailbox)` with the returned sync token. The
ledger no longer holds the id afterwards, and in every later run of the sink
(with no second `Bind`) no submitted frame has a quad that references the id. -/
theorem lost_gpu_resource_released (args : BeginFrameArgs) (token : SyncToken)
    (layer : LayerTreeFrameSink) (cp : ContextProvider) (hl : layer.Bound = true)
    (hcp : layer.context_provider_ = some cp)
    (ht : ∀ t ∈ layer.thread_, t.isBind = false) :
    ∃ s1 frame effects, layer.CreateFrame true args = some (s1, frame, effects) ∧
      frame.resource_list.length = 2 ∧
      ∀ tr ∈ frame.resource_list, tr.is_software = false ∧ tr.id ∈ frame.resourceIds ∧
        ∃ s2 effects2 left,
          s1.ReclaimResources [⟨tr.id, token, true⟩] = some (s2, effects2) ∧
          s1.DidReceiveCompositorFrameAck [⟨tr.id, token, true⟩] = some (s2, effects2) ∧
          effects2 =
            [.ReleaseCallbackRun ⟨tr.id, .DeleteSharedImage cp.id tr.mailbox, token, true⟩,
             .DestroySharedImage cp.id token tr.mailbox] ∧
          s2.client_resource_provider_ = some left ∧ tr.id ∉ left.ids ∧
          ∀ evs : List LayerEvent, (∀ ev ∈ evs, ev.isBind = false) →
            ∃ s3 e3, LayerTreeFrameSink.run true s2 evs = some (s3, e3) ∧
              ∀ f ∈ submittedFrames e3, tr.id ∉ f.resourceIds := by
  obtain ⟨⟨sink, hr⟩, p, hp, hwf⟩ := (LayerTreeFrameSink.layer_Bound_iff layer).1 hl
  obtain ⟨effects, -, h⟩ := layer.layer_CreateFrame_bound true args p sink hr hp hwf
  obtain ⟨hlen, hall⟩ := layer.frameOf_gpu_held args p cp hcp hwf
  have hsome : layer.context_provider_.isSome = true := by rw [hcp]; rfl
  have hledger : (layer.afterFrame true p).client_resource_provider_ =
      some (layer.ledgerAfterFrame true p) := by
    simp [LayerTreeFrameSink.afterFrame, hsome]
  have hthread : (layer.afterFrame true p).thread_ = layer.thread_ := by
    simp [LayerTreeFrameSink.afterFrame, hsome]
  have hsink : (layer.afterFrame true p).GetCompositorFrameSinkPtr = some sink := by
    rw [LayerTreeFrameSink.afterFrame_sink]; exact hr
  have hnames : (layer.afterFrame true p).generated_names_ = layer.generated_names_ + 2 := by
    simp [LayerTreeFrameSink.afterFrame, hsome]
  refine ⟨_, _, effects, h, hlen, ?_⟩
  intro tr htr
  obtain ⟨hsoft, hlt, hmem, r, hfind⟩ := hall tr htr
  have hone := ClientResourceProvider.receiveAndRemove_one (layer.ledgerAfterFrame true p)
    ⟨tr.id, token, true⟩ _ hfind
  obtain ⟨p1, e1, hra, hwf1, -⟩ := receiveAndRemove_wellFormed (layer.ledgerAfterFrame true p)
    _ (LayerTreeFrameSink.ledgerAfterFrame_wellFormed layer true p hwf) [⟨tr.id, token, true⟩]
  have hnext := receiveAndRemove_next_id _ _ _ _ hra
  rw [hone] at hra
  simp only [Option.some.injEq, Prod.mk.injEq] at hra
  obtain ⟨hp1, -⟩ := hra
  have hs2 : ({ layer.afterFrame true p with client_resource_provider_ := some p1 } :
      LayerTreeFrameSink).Bound = true := by
    rw [LayerTreeFrameSink.layer_Bound_iff]
    refine ⟨⟨sink, ?_⟩, p1, rfl, ?_⟩
    · simpa [LayerTreeFrameSink.GetCompositorFrameSinkPtr] using hsink
    · simpa [hnames] using hwf1
  have hruns : runReleases [⟨tr.id,
      (ClientResourceProvider.entryOf tr.id r (.DeleteSharedImage cp.id tr.mailbox)
        1).2.release_callback, token,
      (ClientResourceProvider.entryOf tr.id r (.DeleteSharedImage cp.id tr.mailbox)
        1).2.returned_lost || true⟩] =
      [.ReleaseCallbackRun ⟨tr.id, .DeleteSharedImage cp.id tr.mailbox, token, true⟩,
       .DestroySharedImage cp.id token tr.mailbox] := by
    simp [runReleases, DeleteSharedImage, ClientResourceProvider.entryOf]
  refine ⟨hsoft, hmem, { layer.afterFrame true p with client_resource_provider_ := some p1 },
    [.ReleaseCallbackRun ⟨tr.id, .DeleteSharedImage cp.id tr.mailbox, token, true⟩,
     .DestroySharedImage cp.id token tr.mailbox],
    p1, ?_, ?_, rfl, rfl, ?_, ?_⟩
  · simp only [LayerTreeFrameSink.ReclaimResources, hledger, hone, ← hp1, hruns]
  · simp only [LayerTreeFrameSink.DidReceiveCompositorFrameAck, hledger, hone, ← hp1, hruns]
  · rw [← hp1]
    simp [ClientResourceProvider.ids]
  · intro evs hevs
    obtain ⟨s3, e3, hrun, -, -, hfresh⟩ := LayerTreeFrameSink.layer_run_fresh true evs _ hs2
      (by simpa [hthread] using ht) hevs
    refine ⟨s3, e3, hrun, ?_⟩
    intro f hf hin
    have hge := hfresh f hf tr.id hin
    have hnid : ({ layer.afterFrame true p with client_resource_provider_ := some p1 } :
        LayerTreeFrameSink).nextId = p.next_id_ + 2 := by
      simp only [LayerTreeFrameSink.nextId, hnext]
      simp [LayerTreeFrameSink.ledgerAfterFrame, ClientResourceProvider.importedAndSent]
    rw [hnid] at hge
    exact absurd hlt (Nat.not_lt.2 hge)

theorem lost_gpu_resource_released_witness :
    (layerFull.Bound = true ∧ layerFull.context_provider_ = some ⟨11⟩ ∧
      ∀ t ∈ layerFull.thread_, t.isBind = false) ∧
    ∃ s1 frame effects, layerFull.CreateFrame true args0 = some (s1, frame, effects) ∧
      frame.resource_list.length = 2 ∧
      ∀ tr ∈ frame.resource_list, tr.is_software = false ∧ tr.id ∈ frame.resourceIds ∧
        ∃ s2 effects2 left,
          s1.ReclaimResources [⟨tr.id, ⟨9⟩, true⟩] = some (s2, effects2) ∧
          s1.DidReceiveCompositorFrameAck [⟨tr.id, ⟨9⟩, true⟩] = some (s2, effects2) ∧
          effects2 =
            [.ReleaseCallbackRun ⟨tr.id, .DeleteSharedImage 11 tr.mailbox, ⟨9⟩, true⟩,
             .DestroySharedImage 11 ⟨9⟩ tr.mailbox] ∧
          s2.client_resource_provider_ = some left ∧ tr.id ∉ left.ids ∧
          ∀ evs : List LayerEvent, (∀ ev ∈ evs, ev.isBind = false) →
            ∃ s3 e3, LayerTreeFrameSink.run true s2 evs = some (s3, e3) ∧
              ∀ f ∈ submittedFrames e3, tr.id ∉ f.resourceIds :=
  ⟨⟨by decide, by decide, by decide⟩,
   lost_gpu_resource_released args0 ⟨9⟩ layerFull ⟨11⟩ (by decide) (by decide) (by decide)⟩

/-! ## Duplicate and unknown returns -/

namespace ClientResourceProvider

theorem find_eq_none_iff (p : ClientResourceProvider) (id : ResourceId) :
    p.find id = none ↔ id ∉ p.ids := by
  simp only [find, ids, Option.map_eq_none', List.find?_eq_none, List.mem_map, not_exists,
    not_and, beq_iff_eq, Bool.not_eq_true]

theorem RemoveImportedResource_find_other (p : ClientResourceProvider) (id other : ResourceId)
    (h : other ≠ id) : (p.RemoveImportedResource id).1.find other = p.find other := by
  unfold RemoveImportedResource
  split
  · rfl
  · exact find_filter_other p.imported_resources_ id other p.next_id_ h

theorem RemoveImportedResource_not_mem (p : ClientResourceProvider) (id : ResourceId) :
    id ∉ (p.RemoveImportedResource id).1.ids := by
  unfold RemoveImportedResource
  split
  · rename_i hnone
    exact (find_eq_none_iff p id).1 hnone
  · simp [ids]

theorem RemoveImportedResource_ids (p : ClientResourceProvider) (id x : ResourceId)
    (hx : x ∈ (p.RemoveImportedResource id).1.ids) : x ∈ p.ids := by
  unfold RemoveImportedResource at hx
  split at hx
  · exact hx
  · simp only [ids, List.mem_map] at hx ⊢
    obtain ⟨e, he, rfl⟩ := hx
    exact ⟨e, (List.mem_filter.1 he).1, rfl⟩

theorem RemoveImportedResource_runs (p : ClientResourceProvider) (id : ResourceId) :
    (p.RemoveImportedResource id).2.length ≤ 1 ∧
      ∀ run ∈ (p.RemoveImportedResource id).2, run.id = id ∧ id ∈ p.ids := by
  unfold RemoveImportedResource
  split
  · simp
  · rename_i e hsome
    refine ⟨by simp, ?_⟩
    intro run hrun
    simp only [List.mem_singleton] at hrun
    subst hrun
    refine ⟨rfl, ?_⟩
    by_contra hnot
    rw [(find_eq_none_iff p id).2 hnot] at hsome
    cases hsome

theorem RemoveImportedResource_unknown (p : ClientResourceProvider) (id : ResourceId)
    (h : p.find id = none) : p.RemoveImportedResource id = (p, []) := by
  unfold RemoveImportedResource
  rw [h]

theorem receiveOne_other (entries : List (ResourceId × ImportedResource)) (r : ReturnedResource)
    (next other : ResourceId) (h : r.id ≠ other) :
    find ⟨receiveOne entries r, next⟩ other = find ⟨entries, next⟩ other := by
  induction entries with
  | nil => rfl
  | cons x rest ih =>
    simp only [find, receiveOne_eq_map, List.map_cons, List.find?_cons, received_fst] at ih ⊢
    cases hx : (x.1 == other) with
    | false => simpa using ih
    | true =>
      have hxo : x.1 = other := by simpa using hx
      have hne : (x.1 == r.id) = false := by
        simpa [hxo] using fun h2 : other = r.id => h h2.symm
      simp [received, hne]

theorem receiveOne_ids (entries : List (ResourceId × ImportedResource)) (r : ReturnedResource) :
    (receiveOne entries r).map Prod.fst = entries.map Prod.fst := by
  rw [receiveOne_eq_map, List.map_map]
  apply List.map_congr_left
  intro x _
  exact received_fst r x

theorem receiveOne_unknown (entries : List (ResourceId × ImportedResource)) (r : ReturnedResource)
    (h : r.id ∉ entries.map Prod.fst) : receiveOne entries r = entries := by
  rw [receiveOne_eq_map]
  conv => rhs; rw [← List.map_id entries]
  apply List.map_congr_left
  intro x hx
  have hne : (x.1 == r.id) = false := by
    simpa using fun hid : x.1 = r.id => h (hid ▸ List.mem_map_of_mem Prod.fst hx)
  simp [received, hne]

theorem ReceiveReturnsFromParent_facts (rs : List ReturnedResource) :
    ∀ p : ClientResourceProvider,
      (p.ReceiveReturnsFromParent rs).ids = p.ids ∧
      (∀ other, (∀ r ∈ rs, r.id ≠ other) →
        (p.ReceiveReturnsFromParent rs).find other = p.find other) ∧
      ((∀ r ∈ rs, r.id ∉ p.ids) → p.ReceiveReturnsFromParent rs = p) := by
  induction rs with
  | nil => intro p; exact ⟨rfl, fun _ _ => rfl, fun _ => rfl⟩
  | cons r rest ih =>
    intro p
    have hstep : p.ReceiveReturnsFromParent (r :: rest) =
        (⟨receiveOne p.imported_resources_ r, p.next_id_⟩ :
          ClientResourceProvider).ReceiveReturnsFromParent rest := rfl
    obtain ⟨h1, h2, h3⟩ := ih ⟨receiveOne p.imported_resources_ r, p.next_id_⟩
    rw [hstep]
    refine ⟨?_, ?_, ?_⟩
    · rw [h1]
      exact receiveOne_ids _ r
    · intro other hother
      rw [h2 other (fun x hx => hother x (List.mem_cons_of_mem _ hx))]
      exact receiveOne_other _ r _ other (hother r (List.mem_cons_self _ _))
    · intro hnone
      have hr : receiveOne p.imported_resources_ r = p.imported_resources_ :=
        receiveOne_unknown _ r (hnone r (List.mem_cons_self _ _))
      rw [hr] at h3 ⊢
      exact h3 (fun x hx => hnone x (List.mem_cons_of_mem _ hx))

end ClientResourceProvider

theorem removeReturned_facts (rs : List ReturnedResource) :
    ∀ q : ClientResourceProvider,
      (∀ other, (∀ r ∈ rs, r.id ≠ other) → (removeReturned q rs).1.find other = q.find other) ∧
      (∀ x ∈ (removeReturned q rs).1.ids, x ∈ q.ids) ∧
      (∀ r ∈ rs, r.id ∉ (removeReturned q rs).1.ids) ∧
      (∀ run ∈ (removeReturned q rs).2, run.id ∈ q.ids ∧ ∃ r ∈ rs, r.id = run.id) ∧
      (∀ id, (removeReturned q rs).2.countP (fun run => run.id == id) ≤ 1) ∧
      ((∀ r ∈ rs, r.id ∉ q.ids) → removeReturned q rs = (q, [])) := by
  induction rs with
  | nil =>
    intro q
    exact ⟨fun _ _ => rfl, fun _ hx => hx, by simp, by simp [removeReturned],
      by simp [removeReturned], fun _ => rfl⟩
  | cons r rest ih =>
    intro q
    have hstep : removeReturned q (r :: rest) =
        ((removeReturned (q.RemoveImportedResource r.id).1 rest).1,
         (q.RemoveImportedResource r.id).2 ++
           (removeReturned (q.RemoveImportedResource r.id).1 rest).2) := rfl
    obtain ⟨i1, i2, i3, i4, i5, i6⟩ := ih (q.RemoveImportedResource r.id).1
    obtain ⟨hlen, hruns⟩ := ClientResourceProvider.RemoveImportedResource_runs q r.id
    rw [hstep]
    refine ⟨?_, ?_, ?_, ?_, ?_, ?_⟩
    · intro other hother
      simp only
      rw [i1 other (fun x hx => hother x (List.mem_cons_of_mem _ hx))]
      exact ClientResourceProvider.RemoveImportedResource_find_other q r.id other
        (fun h => hother r (List.mem_cons_self _ _) h.symm)
    · intro x hx
      exact ClientResourceProvider.RemoveImportedResource_ids q r.id x (i2 x hx)
    · intro x hx hmem
      rcases List.mem_cons.1 hx with rfl | hx
      · exact ClientResourceProvider.RemoveImportedResource_not_mem q x.id (i2 _ hmem)
      · exact i3 x hx hmem
    · intro run hrun
      rcases List.mem_append.1 hrun with hrun | hrun
      · obtain ⟨hid, hq⟩ := hruns run hrun
        exact ⟨hid ▸ hq, r, List.mem_cons_self _ _, hid.symm⟩
      · obtain ⟨hq, x, hx, hid⟩ := i4 run hrun
        exact ⟨ClientResourceProvider.RemoveImportedResource_ids q r.id _ hq, x,
          List.mem_cons_of_mem _ hx, hid⟩
    · intro id
      simp only [List.countP_append]
      by_cases hid : id = r.id
      · have hzero : (removeReturned (q.RemoveImportedResource r.id).1 rest).2.countP
            (fun run => run.id == id) = 0 := by
          rw [List.countP_eq_zero]
          intro run hrun hrid
          have hrid2 : run.id = id := by simpa using hrid
          have := (i4 run hrun).1
          rw [hrid2, hid] at this
          exact ClientResourceProvider.RemoveImportedResource_not_mem q r.id this
        rw [hzero, Nat.add_zero]
        exact le_trans (List.countP_le_length _) hlen
      · have hzero : (q.RemoveImportedResource r.id).2.countP (fun run => run.id == id) = 0 := by
          rw [List.countP_eq_zero]
          intro run hrun hrid
          have hrid2 : run.id = id := by simpa using hrid
          exact hid (hrid2 ▸ (hruns run hrun).1)
        rw [hzero, Nat.zero_add]
        exact i5 id
    · intro hnone
      have h1 : q.RemoveImportedResource r.id = (q, []) :=
        ClientResourceProvider.RemoveImportedResource_unknown q r.id
          ((ClientResourceProvider.find_eq_none_iff q r.id).2 (hnone r (List.mem_cons_self _ _)))
      rw [h1] at i6 ⊢
      simp only [List.nil_append]
      rw [i6 (fun x hx => hnone x (List.mem_cons_of_mem _ hx))]

theorem releaseRuns_runReleases (runs : List ReleaseRun) :
    releaseRuns (runReleases runs) = runs := by
  induction runs with
  | nil => rfl
  | cons run rest ih =>
    have hstep : runReleases (run :: rest) =
        (.ReleaseCallbackRun run :: DeleteSharedImage run) ++ runReleases rest := by
      simp [runReleases]
    have hdel : releaseRuns (DeleteSharedImage run) = [] := by
      unfold DeleteSharedImage
      cases h : run.callback <;> simp [releaseRuns]
    have happ : ∀ a b : List Effect, releaseRuns (a ++ b) = releaseRuns a ++ releaseRuns b := by
      intro a b
      simp [releaseRuns]
    have hcons : releaseRuns (.ReleaseCallbackRun run :: DeleteSharedImage run) = [run] := by
      have : releaseRuns (.ReleaseCallbackRun run :: DeleteSharedImage run) =
          run :: releaseRuns (DeleteSharedImage run) := by simp [releaseRuns]
      rw [this, hdel]
    rw [hstep, happ, hcons, ih]
    rfl

/-- Whatever list the host returns, the ledger takes it. -/
theorem receiveAndRemove_tolerant (p : ClientResourceProvider) (rs : List ReturnedResource) :
    ∃ left effects, receiveAndRemove (some p) rs = some (left, effects) ∧
      returnsTolerated p left rs effects := by
  obtain ⟨r1, r2, r3⟩ := ClientResourceProvider.ReceiveReturnsFromParent_facts rs p
  obtain ⟨q1, q2, q3, q4, q5, q6⟩ := removeReturned_facts rs (p.ReceiveReturnsFromParent rs)
  refine ⟨_, _, rfl, ?_, q3, ?_, ?_, ?_⟩
  · intro other hother
    rw [q1 other hother, r2 other hother]
  · intro run hrun
    rw [releaseRuns_runReleases] at hrun
    obtain ⟨hq, hr⟩ := q4 run hrun
    exact ⟨r1 ▸ hq, hr⟩
  · intro id
    rw [releaseRuns_runReleases]
    exact q5 id
  · intro hnone
    have hn : ∀ r ∈ rs, r.id ∉ p.ids :=
      fun r hr => (ClientResourceProvider.find_eq_none_iff p r.id).1 (hnone r hr)
    have hp := r3 hn
    rw [hp] at q6
    have hq := q6 hn
    simp [hp, hq, runReleases]

/-- C14: whatever list of returned resources the host hands to
`DidReceiveCompositorFrameAck` or `ReclaimResources` of a sink that has its
ledger, be it with an id named twice or with ids the ledger does not hold, the
call goes through without an error and does the same in both methods: the ids
the list does not name are held as before, no named id is held afterwards, a
release callback runs only for an id that was held and named, no id has its
release callback run twice, and a list of unknown ids only changes nothing and
runs nothing. -/
theorem duplicate_returns_tolerated (rs : List ReturnedResource) (ink : InkClient)
    (layer : LayerTreeFrameSink) (pi pl : ClientResourceProvider)
    (hi : ink.client_resource_provider_ = some pi)
    (hl : layer.client_resource_provider_ = some pl) :
    (∃ s2 effects left, ink.DidReceiveCompositorFrameAck rs = some (s2, effects) ∧
      ink.ReclaimResources rs = some (s2, effects) ∧
      s2.client_resource_provider_ = some left ∧ returnsTolerated pi left rs effects) ∧
    (∃ s2 effects left, layer.DidReceiveCompositorFrameAck rs = some (s2, effects) ∧
      layer.ReclaimResources rs = some (s2, effects) ∧
      s2.client_resource_provider_ = some left ∧ returnsTolerated pl left rs effects) := by
  constructor
  · obtain ⟨left, effects, h, htol⟩ := receiveAndRemove_tolerant pi rs
    refine ⟨{ ink with client_resource_provider_ := some left }, effects, left, ?_, ?_, rfl, htol⟩
    · simp only [InkClient.DidReceiveCompositorFrameAck, hi, h]
    · simp only [InkClient.ReclaimResources, hi, h]
  · obtain ⟨left, effects, h, htol⟩ := receiveAndRemove_tolerant pl rs
    refine ⟨{ layer with client_resource_provider_ := some left }, effects, left, ?_, ?_, rfl,
      htol⟩
    · simp only [LayerTreeFrameSink.DidReceiveCompositorFrameAck, hl, h]
    · simp only [LayerTreeFrameSink.ReclaimResources, hl, h]

theorem duplicate_returns_tolerated_witness :
    (inkSent.client_resource_provider_ = some ⟨[ClientResourceProvider.entryOf 1
        (TransferableResource.MakeSoftware 0 ⟨800, 600⟩) .DoNothing 1], 2⟩ ∧
      (layerSent.client_resource_provider_.map ClientResourceProvider.ids = some [1, 2] ∧
        layerSent.client_resource_provider_ =
          some (layerSent.client_resource_provider_.getD ClientResourceProvider.new))) ∧
    (∃ s2 effects left,
      inkSent.DidReceiveCompositorFrameAck [⟨1, ⟨9⟩, false⟩, ⟨1, ⟨9⟩, false⟩, ⟨7, ⟨9⟩, false⟩] =
        some (s2, effects) ∧
      inkSent.ReclaimResources [⟨1, ⟨9⟩, false⟩, ⟨1, ⟨9⟩, false⟩, ⟨7, ⟨9⟩, false⟩] =
        some (s2, effects) ∧
      s2.client_resource_provider_ = some left ∧
      returnsTolerated ⟨[ClientResourceProvider.entryOf 1
          (TransferableResource.MakeSoftware 0 ⟨800, 600⟩) .DoNothing 1], 2⟩ left
        [⟨1, ⟨9⟩, false⟩, ⟨1, ⟨9⟩, false⟩, ⟨7, ⟨9⟩, false⟩] effects) ∧
    (∃ s2 effects left,
      layerSent.DidReceiveCompositorFrameAck
          [⟨1, ⟨9⟩, false⟩, ⟨1, ⟨9⟩, false⟩, ⟨7, ⟨9⟩, false⟩] = some (s2, effects) ∧
      layerSent.ReclaimResources [⟨1, ⟨9⟩, false⟩, ⟨1, ⟨9⟩, false⟩, ⟨7, ⟨9⟩, false⟩] =
        some (s2, effects) ∧
      s2.client_resource_provider_ = some left ∧
      returnsTolerated (layerSent.client_resource_provider_.getD ClientResourceProvider.new) left
        [⟨1, ⟨9⟩, false⟩, ⟨1, ⟨9⟩, false⟩, ⟨7, ⟨9⟩, false⟩] effects) :=
  ⟨⟨by decide, by decide, by decide⟩,
   duplicate_returns_tolerated [⟨1, ⟨9⟩, false⟩, ⟨1, ⟨9⟩, false⟩, ⟨7, ⟨9⟩, false⟩] inkSent
     layerSent _ _ (by decide) (by decide)⟩

/-! ## Binding a second time -/

/-- C15, as stated, fails: `Bind` has no "already bound" check. The child sink
of the demo, bound and holding a resource it sent, takes a second `Bind` from
the host's thread: it registers itself as event observer again and posts the
bind task, and when that task runs it sends `SetNeedsBeginFrame(true)` again
and replaces its ledger by a new one, so the resource it held is forgotten.
The root sink does the same with its two resources. Neither sink is left
unchanged. -/
theorem second_bind_replaces_ledger :
    (inkSent.receiver_ = true ∧ inkSent.frame_sink_remote_ = true ∧
      inkSent.client_resource_provider_.map ClientResourceProvider.ids = some [1]) ∧
    (∃ s2, InkClient.run false inkSent [.Bind, .RunTask] =
        some (s2, [.AddPlatformEventObserver, .remote false (.SetNeedsBeginFrame true)]) ∧
      s2 ≠ inkSent ∧ s2.client_resource_provider_.map ClientResourceProvider.ids = some []) ∧
    (layerSent.receiver_ = true ∧ layerSent.frame_sink_associated_remote_ = true ∧
      layerSent.client_resource_provider_.map ClientResourceProvider.ids = some [1, 2]) ∧
    (∃ l2, LayerTreeFrameSink.run true layerSent [.Bind true, .RunTask] =
        some (l2, [.remote true (.SetNeedsBeginFrame true)]) ∧
      l2 ≠ layerSent ∧ l2.client_resource_provider_.map ClientResourceProvider.ids = some []) := by
  refine ⟨by decide, ⟨_, rfl, by decide, by decide⟩, by decide, ⟨_, rfl, by decide, by decide⟩⟩

/-- C15, amended: a second `Bind` is accepted like the first. On a sink with an
empty task queue, bound or not, `Bind` from another thread posts the bind task
(`InkClient` also registers itself as platform event observer), and when the
sink's thread runs the task the sink is bound, has sent
`SetNeedsBeginFrame(true)`, and has a new, empty ledger in place of whatever
ledger it had (`InkClient` also has `need_redraw_` set). -/
theorem second_bind_rebinds (g : Bool) (ink : InkClient) (layer : LayerTreeFrameSink)
    (associated : Bool) (hi : ink.thread_ = []) (hl : layer.thread_ = []) :
    (∃ s2, InkClient.run g ink [.Bind, .RunTask] =
        some (s2, [.AddPlatformEventObserver, .remote false (.SetNeedsBeginFrame true)]) ∧
      s2.receiver_ = true ∧ s2.frame_sink_remote_ = true ∧
      s2.client_resource_provider_ = some ClientResourceProvider.new ∧
      s2.need_redraw_ = true ∧ s2.Bound = true) ∧
    (∃ l2, LayerTreeFrameSink.run g layer [.Bind associated, .RunTask] =
        some (l2, [.remote (layer.frame_sink_associated_remote_ || associated)
          (.SetNeedsBeginFrame true)]) ∧
      l2.receiver_ = true ∧ l2.GetCompositorFrameSinkPtr.isSome = true ∧
      l2.client_resource_provider_ = some ClientResourceProvider.new ∧ l2.Bound = true) := by
  constructor
  · refine ⟨(({ ink with thread_ := [] } : InkClient).Bind true).1, ?_, rfl, rfl, rfl, rfl,
      InkClient.Bound_Bind _⟩
    simp [InkClient.run, InkClient.step, InkClient.Bind, InkClient.runTask, hi]
  · refine ⟨(({ layer with thread_ := [] } : LayerTreeFrameSink).BindOnThread associated).1, ?_,
      ?_, ?_, rfl, LayerTreeFrameSink.Bound_BindOnThread _ _⟩
    · cases associated <;>
        simp [LayerTreeFrameSink.run, LayerTreeFrameSink.step, LayerTreeFrameSink.Bind,
          LayerTreeFrameSink.runTask, LayerTreeFrameSink.BindOnThread, hl]
    · cases associated <;> simp [LayerTreeFrameSink.BindOnThread]
    · cases associated <;> cases h : layer.frame_sink_associated_remote_ <;>
        simp [LayerTreeFrameSink.BindOnThread, LayerTreeFrameSink.GetCompositorFrameSinkPtr, h]

theorem second_bind_rebinds_witness :
    (inkSent.thread_ = [] ∧ layerSent.thread_ = []) ∧
    (∃ s2, InkClient.run false inkSent [.Bind, .RunTask] =
        some (s2, [.AddPlatformEventObserver, .remote false (.SetNeedsBeginFrame true)]) ∧
      s2.receiver_ = true ∧ s2.frame_sink_remote_ = true ∧
      s2.client_resource_provider_ = some ClientResourceProvider.new ∧
      s2.need_redraw_ = true ∧ s2.Bound = true) ∧
    (∃ l2, LayerTreeFrameSink.run false layerSent [.Bind true, .RunTask] =
        some (l2, [.remote (layerSent.frame_sink_associated_remote_ || true)
          (.SetNeedsBeginFrame true)]) ∧
      l2.receiver_ = true ∧ l2.GetCompositorFrameSinkPtr.isSome = true ∧
      l2.client_resource_provider_ = some ClientResourceProvider.new ∧ l2.Bound = true) :=
  ⟨⟨by decide, by decide⟩,
   second_bind_rebinds false inkSent layerSent true (by decide) (by decide)⟩

/-! ## The platform window -/

/-- C16, checked on the code: a resize does not reach the root sink.
`Compositor::Resize` has an empty body, so `OnBoundsChanged` leaves the window,
its host and the host's sinks exactly as they were. For the demo's window,
created with 800x600 and then resized to 1024x768, the root sink still has the
`LocalSurfaceId` it was constructed with and still has the bounds 800x600. -/
theorem Resize_changes_nothing (s : DemoVizWindow) (new_bounds : Rect) (c : Compositor)
    (size : Size) :
    c.Resize size = c ∧
    s.OnBoundsChanged new_bounds = s.host_.map (fun _ => s) ∧
    ∃ s1 e1, DemoVizWindow.run true env0 (DemoVizWindow.new 0)
        [.Create ⟨0, 0, 800, 600⟩ (some 5)] = some (s1, e1) ∧
      DemoVizWindow.run true env0 s1 [.OnBoundsChanged ⟨0, 0, 1024, 768⟩] = some (s1, []) ∧
      s1.rootLocalSurfaceId = some ⟨1, 1, 3⟩ ∧
      s1.rootBounds = some ⟨0, 0, 800, 600⟩ := by
  refine ⟨rfl, ?_, _, _, rfl, by decide, by decide, by decide⟩
  unfold DemoVizWindow.OnBoundsChanged
  cases h : s.host_ with
  | none => rfl
  | some host =>
    have hs : ({ s with host_ := some (host.Resize new_bounds.size) } : DemoVizWindow) = s := by
      cases s
      simp_all [Compositor.Resize]
    simp only [Option.map_some', hs]

/-- C17, checked on the code: `InitializeDemo` runs once when the platform
reports the widget while the window is being created, whatever `widget_` held
before. When the widget is reported after `Create` has returned, it runs once
only if the uninitialised `widget_` happened to hold the null widget; if it held
anything else, `Create` already runs `InitializeDemo` for that value and
`OnAcceleratedWidgetAvailable` runs it again: two `Compositor`s are built and
`CreateRootCompositorFrameSink` is called twice. -/
theorem InitializeDemo_runs (g : Bool) (env : HostEnv) (bounds : Rect) (w junk : Nat) :
    (∃ s e, DemoVizWindow.run g env (DemoVizWindow.new junk) [.Create bounds (some (w + 1))] =
        some (s, e) ∧
      compositorsBuilt e = [w + 1] ∧ rootSinksCreated e = [w + 1]) ∧
    (∃ s e, DemoVizWindow.run g env (DemoVizWindow.new kNullAcceleratedWidget)
        [.Create bounds none, .OnAcceleratedWidgetAvailable (w + 1)] = some (s, e) ∧
      compositorsBuilt e = [w + 1] ∧ rootSinksCreated e = [w + 1]) ∧
    (∃ s e, DemoVizWindow.run g env (DemoVizWindow.new (junk + 1))
        [.Create bounds none, .OnAcceleratedWidgetAvailable (w + 1)] = some (s, e) ∧
      compositorsBuilt e = [junk + 1, w + 1] ∧ rootSinksCreated e = [junk + 1, w + 1]) := by
  refine ⟨⟨_, _, rfl, rfl, rfl⟩, ⟨_, _, rfl, rfl, rfl⟩, ⟨_, _, rfl, rfl, rfl⟩⟩

/-! ## The cadence of the root sink -/

theorem producing_shift (n : Nat) : ∀ v, producing (v + 60) n = producing v n := by
  induction n with
  | zero => intro v; rfl
  | succ n ih =>
    intro v
    have h1 : (v + 60 + 1) % 60 = (v + 1) % 60 := by omega
    have h2 : v + 60 + 1 = v + 1 + 60 := by omega
    simp only [producing, h1]
    rw [h2, ih]

theorem producing_mod (n k : Nat) : ∀ v, producing (v + 60 * k) n = producing v n := by
  induction k with
  | zero => intro v; rfl
  | succ k ih =>
    intro v
    have h : v + 60 * (k + 1) = v + 60 * k + 60 := by omega
    rw [h, producing_shift, ih]

theorem producing_sixty (v : Nat) : producing v 60 = 1 := by
  have h : v = v % 60 + 60 * (v / 60) := (Nat.mod_add_div v 60).symm
  rw [h, producing_mod]
  have hall : ∀ r, r < 60 → producing r 60 = 1 := by decide
  exact hall _ (Nat.mod_lt _ (by decide))

theorem LayerTreeFrameSink.layer_step_cadence (g : Bool) (s : LayerTreeFrameSink)
    (ev : LayerEvent) (hs : s.Bound = true) :
    ∃ s1 e, s.step g ev = some (s1, e) ∧ s1.Bound = true ∧
      (((∃ args, ev = .OnBeginFrame args) ∧
          s1.frame_token_generator_ = s.frame_token_generator_.incr ∧
          ((s.frame_token_generator_.incr.value % 60 = 1 ∧
              e.countP Effect.isSubmit = 1 ∧ e.countP Effect.isDidNotProduce = 0) ∨
           (s.frame_token_generator_.incr.value % 60 ≠ 1 ∧
              e.countP Effect.isSubmit = 0 ∧ e.countP Effect.isDidNotProduce = 1))) ∨
       ((∀ args, ev ≠ .OnBeginFrame args) ∧
          s1.frame_token_generator_ = s.frame_token_generator_ ∧
          e.countP Effect.isSubmit = 0 ∧ e.countP Effect.isDidNotProduce = 0)) := by
  obtain ⟨s1, e, h, hb, hgen⟩ := LayerTreeFrameSink.layer_step_bound g s ev hs
  refine ⟨s1, e, h, hb, ?_⟩
  obtain ⟨⟨sink, hr⟩, p, hp, hwf⟩ := (LayerTreeFrameSink.layer_Bound_iff s).1 hs
  have hquiet : ∀ e : List Effect, (∀ x ∈ e, x.isResponse = false) →
      e.countP Effect.isSubmit = 0 ∧ e.countP Effect.isDidNotProduce = 0 :=
    fun e he => countP_eq_zero_of_no_response he
  cases ev with
  | OnBeginFrame args =>
    left
    rcases LayerTreeFrameSink.layer_OnBeginFrame_bound s g args p sink hr hp hwf with
      ⟨hmod, effects, heff, h2⟩ | ⟨hmod, h2⟩
    · have heq : some (s1, e) = some (_, _) := h.symm.trans h2
      simp only [Option.some.injEq, Prod.mk.injEq] at heq
      obtain ⟨rfl, rfl⟩ := heq
      refine ⟨⟨args, rfl⟩, ?_, Or.inl ⟨hmod, ?_, ?_⟩⟩
      · rw [LayerTreeFrameSink.afterFrame_generator]; rfl
      · simp [List.countP_append, (hquiet effects heff).1, Effect.isSubmit]
      · simp [List.countP_append, (hquiet effects heff).2, Effect.isDidNotProduce]
    · have heq : some (s1, e) = some (_, _) := h.symm.trans h2
      simp only [Option.some.injEq, Prod.mk.injEq] at heq
      obtain ⟨rfl, rfl⟩ := heq
      exact ⟨⟨args, rfl⟩, rfl, Or.inr ⟨hmod, by simp [Effect.isSubmit],
        by simp [Effect.isDidNotProduce]⟩⟩
  | RunTask =>
    right
    refine ⟨(fun _ hne => by cases hne), ?_⟩
    unfold LayerTreeFrameSink.step LayerTreeFrameSink.runTask at h
    cases hth : s.thread_ with
    | nil =>
      rw [hth] at h
      simp only [Option.some.injEq, Prod.mk.injEq] at h
      obtain ⟨rfl, rfl⟩ := h
      exact ⟨rfl, rfl, rfl⟩
    | cons task rest =>
      rw [hth] at h
      cases task with
      | BindOnThread associated =>
        simp only [Option.some.injEq] at h
        have h1 : s1 = (LayerTreeFrameSink.BindOnThread { s with thread_ := rest } associated).1 := by
          rw [h]
        have h2 : e = (LayerTreeFrameSink.BindOnThread { s with thread_ := rest } associated).2 := by
          rw [h]
        subst h1 h2
        refine ⟨?_, ?_, ?_⟩
        · cases associated <;> simp [LayerTreeFrameSink.BindOnThread]
        · simp [LayerTreeFrameSink.BindOnThread, Effect.isSubmit]
        · simp [LayerTreeFrameSink.BindOnThread, Effect.isDidNotProduce]
      | SetContextProvider cp =>
        simp only [Option.some.injEq, Prod.mk.injEq] at h
        obtain ⟨rfl, rfl⟩ := h
        exact ⟨by simp [LayerTreeFrameSink.SetContextProvider], rfl, rfl⟩
  | DidReceiveCompositorFrameAck resources =>
    right
    refine ⟨(fun _ hne => by cases hne), ?_⟩
    simp only [LayerTreeFrameSink.step, LayerTreeFrameSink.DidReceiveCompositorFrameAck, hp] at h
    cases hra : receiveAndRemove (some p) resources with
    | none => rw [hra] at h; cases h
    | some v =>
      obtain ⟨p1, e1⟩ := v
      rw [hra] at h
      simp only [Option.some.injEq, Prod.mk.injEq] at h
      obtain ⟨rfl, rfl⟩ := h
      exact ⟨rfl, hquiet _ (receiveAndRemove_effects _ _ _ _ hra)⟩
  | ReclaimResources resources =>
    right
    refine ⟨(fun _ hne => by cases hne), ?_⟩
    simp only [LayerTreeFrameSink.step, LayerTreeFrameSink.ReclaimResources, hp] at h
    cases hra : receiveAndRemove (some p) resources with
    | none => rw [hra] at h; cases h
    | some v =>
      obtain ⟨p1, e1⟩ := v
      rw [hra] at h
      simp only [Option.some.injEq, Prod.mk.injEq] at h
      obtain ⟨rfl, rfl⟩ := h
      exact ⟨rfl, hquiet _ (receiveAndRemove_effects _ _ _ _ hra)⟩
  | OnBeginFramePausedChanged paused =>
    right
    simp only [LayerTreeFrameSink.step, LayerTreeFrameSink.OnBeginFramePausedChanged,
      Option.some.injEq, Prod.mk.injEq] at h
    obtain ⟨rfl, rfl⟩ := h
    exact ⟨(fun _ hne => by cases hne), rfl, rfl, rfl⟩
  | SetContextProvider cp =>
    right
    simp only [LayerTreeFrameSink.step, LayerTreeFrameSink.SetContextProvider,
      Option.some.injEq, Prod.mk.injEq] at h
    obtain ⟨rfl, rfl⟩ := h
    exact ⟨(fun _ hne => by cases hne), rfl, rfl, rfl⟩
  | Bind associated =>
    right
    simp only [LayerTreeFrameSink.step, LayerTreeFrameSink.Bind,
      Option.some.injEq, Prod.mk.injEq] at h
    obtain ⟨rfl, rfl⟩ := h
    exact ⟨(fun _ hne => by cases hne), rfl, rfl, rfl⟩
  | EmbedChild child now =>
    right
    simp only [LayerTreeFrameSink.step, LayerTreeFrameSink.EmbedChild,
      Option.some.injEq, Prod.mk.injEq] at h
    obtain ⟨rfl, rfl⟩ := h
    exact ⟨(fun _ hne => by cases hne), rfl, rfl, rfl⟩

theorem LayerTreeFrameSink.layer_run_cadence (g : Bool) (evs : List LayerEvent) :
    ∀ s : LayerTreeFrameSink, s.Bound = true →
      s.frame_token_generator_.value + LayerEvent.ticks evs < 2 ^ 32 →
      ∃ s1 e, LayerTreeFrameSink.run g s evs = some (s1, e) ∧ s1.Bound = true ∧
        s1.frame_token_generator_.value =
          s.frame_token_generator_.value + LayerEvent.ticks evs ∧
        e.countP Effect.isSubmit =
          producing s.frame_token_generator_.value (LayerEvent.ticks evs) ∧
        e.countP Effect.isSubmit + e.countP Effect.isDidNotProduce = LayerEvent.ticks evs := by
  induction evs with
  | nil =>
    intro s hs _
    exact ⟨s, [], rfl, hs, rfl, rfl, rfl⟩
  | cons ev rest ih =>
    intro s hs hlt
    rw [LayerEvent.layer_ticks_cons] at hlt ⊢
    obtain ⟨s1, e1, h1, hb1, hcase⟩ := LayerTreeFrameSink.layer_step_cadence g s ev hs
    rcases hcase with ⟨⟨args, rfl⟩, hg, hmod⟩ | ⟨hne, hg, hsub, hdnp⟩
    · simp only at hlt ⊢
      have hv : s.frame_token_generator_.incr.value = s.frame_token_generator_.value + 1 :=
        FrameTokenGenerator.incr_value_of_lt _ (by omega)
      obtain ⟨s2, e2, h2, hb2, hv2, hs2, hsum2⟩ := ih s1 hb1 (by rw [hg, hv]; omega)
      refine ⟨s2, e1 ++ e2, ?_, hb2, ?_, ?_, ?_⟩
      · simp only [LayerTreeFrameSink.run, h1, h2]
      · rw [hv2, hg, hv]; omega
      · rw [List.countP_append, hs2, hg, hv]
        simp only [producing]
        rw [hv] at hmod
        rcases hmod with ⟨hm, hc, -⟩ | ⟨hm, hc, -⟩
        · rw [hc, if_pos hm]
        · rw [hc, if_neg hm]
      · rw [List.countP_append, List.countP_append]
        rcases hmod with ⟨-, hc, hd⟩ | ⟨-, hc, hd⟩ <;> rw [hc, hd] <;> omega
    · have hz : (match ev with | .OnBeginFrame _ => 1 | _ => 0) = 0 := by
        cases ev <;> first | rfl | exact absurd rfl (hne _)
      rw [hz] at hlt ⊢
      obtain ⟨s2, e2, h2, hb2, hv2, hs2, hsum2⟩ := ih s1 hb1 (by rw [hg]; omega)
      refine ⟨s2, e1 ++ e2, ?_, hb2, ?_, ?_, ?_⟩
      · simp only [LayerTreeFrameSink.run, h1, h2]
      · rw [hv2, hg]; rfl
      · rw [List.countP_append, hs2, hg, hsub]; simp
      · rw [List.countP_append, List.countP_append, hsub, hdnp]; omega

/-- C18: `LayerTreeFrameSink` produces on every 60th tick. Take a bound sink
whose token generator still stands at 0, as it does after the bind, and let any
events `evs` happen to it; the next tick is then the n-th, with
`n = ticks evs + 1`. For `n < 2^32` that tick is answered with one submitted
frame when `n mod 60 = 1` and with one `DidNotProduceFrame` otherwise. And any
events `win` after `evs` that hold 60 ticks (all before the 2^32-th) get exactly
one submitted frame and 59 `DidNotProduceFrame`. -/
theorem layer_produces_every_60th_tick (g : Bool) (layer : LayerTreeFrameSink)
    (evs win : List LayerEvent) (args : BeginFrameArgs) (hl : layer.Bound = true)
    (h0 : layer.frame_token_generator_.value = 0)
    (hn : LayerEvent.ticks evs + 1 < 2 ^ 32) :
    ∃ s1 e1, LayerTreeFrameSink.run g layer evs = some (s1, e1) ∧
      (∃ s2 e2, s1.OnBeginFrame g args = some (s2, e2) ∧
        ((LayerEvent.ticks evs + 1) % 60 = 1 →
          e2.countP Effect.isSubmit = 1 ∧ e2.countP Effect.isDidNotProduce = 0) ∧
        ((LayerEvent.ticks evs + 1) % 60 ≠ 1 →
          e2.countP Effect.isSubmit = 0 ∧ e2.countP Effect.isDidNotProduce = 1)) ∧
      (LayerEvent.ticks win = 60 → LayerEvent.ticks evs + 60 < 2 ^ 32 →
        ∃ s3 e3, LayerTreeFrameSink.run g s1 win = some (s3, e3) ∧
          e3.countP Effect.isSubmit = 1 ∧ e3.countP Effect.isDidNotProduce = 59) := by
  obtain ⟨s1, e1, h1, hb1, hv1, -, -⟩ :=
    LayerTreeFrameSink.layer_run_cadence g evs layer hl (by rw [h0]; omega)
  rw [h0, Nat.zero_add] at hv1
  refine ⟨s1, e1, h1, ?_, ?_⟩
  · obtain ⟨s2, e2, h2, -, hcase⟩ :=
      LayerTreeFrameSink.layer_step_cadence g s1 (.OnBeginFrame args) hb1
    have hv : s1.frame_token_generator_.incr.value = LayerEvent.ticks evs + 1 := by
      rw [FrameTokenGenerator.incr_value_of_lt _ (by rw [hv1]; exact hn), hv1]
    refine ⟨s2, e2, h2, ?_, ?_⟩
    · intro hm
      rcases hcase with ⟨-, -, hmod⟩ | ⟨hne, -⟩
      · rcases hmod with ⟨-, hc, hd⟩ | ⟨hm2, -⟩
        · exact ⟨hc, hd⟩
        · exact absurd (hv ▸ hm) hm2
      · exact absurd rfl (hne args)
    · intro hm
      rcases hcase with ⟨-, -, hmod⟩ | ⟨hne, -⟩
      · rcases hmod with ⟨hm2, -⟩ | ⟨-, hc, hd⟩
        · exact absurd (hv ▸ hm2) hm
        · exact ⟨hc, hd⟩
      · exact absurd rfl (hne args)
  · intro hwin hlt
    obtain ⟨s3, e3, h3, -, -, hsub, hsum⟩ :=
      LayerTreeFrameSink.layer_run_cadence g win s1 hb1 (by rw [hv1, hwin]; exact hlt)
    rw [hwin, producing_sixty] at hsub
    rw [hwin, hsub] at hsum
    exact ⟨s3, e3, h3, hsub, by omega⟩

theorem layer_produces_every_60th_tick_witness :
    (layerBound.Bound = true ∧ layerBound.frame_token_generator_.value = 0 ∧
      LayerEvent.ticks (List.replicate 60 (LayerEvent.OnBeginFrame args0)) + 1 < 2 ^ 32) ∧
    ∃ s1 e1, LayerTreeFrameSink.run false layerBound
        (List.replicate 60 (LayerEvent.OnBeginFrame args0)) = some (s1, e1) ∧
      (∃ s2 e2, s1.OnBeginFrame false args0 = some (s2, e2) ∧
        ((LayerEvent.ticks (List.replicate 60 (LayerEvent.OnBeginFrame args0)) + 1) % 60 = 1 →
          e2.countP Effect.isSubmit = 1 ∧ e2.countP Effect.isDidNotProduce = 0) ∧
        ((LayerEvent.ticks (List.replicate 60 (LayerEvent.OnBeginFrame args0)) + 1) % 60 ≠ 1 →
          e2.countP Effect.isSubmit = 0 ∧ e2.countP Effect.isDidNotProduce = 1)) ∧
      (LayerEvent.ticks (List.replicate 60 (LayerEvent.OnBeginFrame args0)) = 60 →
        LayerEvent.ticks (List.replicate 60 (LayerEvent.OnBeginFrame args0)) + 60 < 2 ^ 32 →
        ∃ s3 e3, LayerTreeFrameSink.run false s1
            (List.replicate 60 (LayerEvent.OnBeginFrame args0)) = some (s3, e3) ∧
          e3.countP Effect.isSubmit = 1 ∧ e3.countP Effect.isDidNotProduce = 59) :=
  ⟨⟨by decide, by decide, by decide⟩,
   layer_produces_every_60th_tick false layerBound
     (List.replicate 60 (LayerEvent.OnBeginFrame args0))
     (List.replicate 60 (LayerEvent.OnBeginFrame args0)) args0 (by decide) (by decide)
     (by decide)⟩

/-! ## The cadence of the ink sink -/

theorem InkClient.OnBeginFrame_counts (s : InkClient) (g : Bool) (args : BeginFrameArgs)
    (hs : s.Bound = true) :
    ∃ s1 e, s.OnBeginFrame g args = some (s1, e) ∧ s1.Bound = true ∧
      s1.need_redraw_ = false ∧ s1.thread_ = s.thread_ ∧
      ((s.need_redraw_ = true ∧ e.countP Effect.isSubmit = 1 ∧
          e.countP Effect.isDidNotProduce = 0) ∨
       (s.need_redraw_ = false ∧ e.countP Effect.isSubmit = 0 ∧
          e.countP Effect.isDidNotProduce = 1)) := by
  obtain ⟨-, -, p, hp, -⟩ := (InkClient.Bound_iff s).1 hs
  rcases InkClient.OnBeginFrame_bound s g args p hs hp with ⟨hn, effects, heff, h⟩ | ⟨hn, h⟩
  · refine ⟨_, _, h, ?_, rfl, rfl, Or.inl ⟨hn, ?_, ?_⟩⟩
    · have := InkClient.afterFrame_Bound s g p hs hp
      simpa [InkClient.Bound] using this
    · simp [List.countP_append, (countP_eq_zero_of_no_response heff).1, Effect.isSubmit]
    · simp [List.countP_append, (countP_eq_zero_of_no_response heff).2, Effect.isDidNotProduce]
  · exact ⟨_, _, h, hs, hn, rfl, Or.inr ⟨hn, by simp [Effect.isSubmit],
      by simp [Effect.isDidNotProduce]⟩⟩

theorem InkClient.run_inkRound_counts (g : Bool) (s : InkClient) (hs : s.Bound = true)
    (ht : s.thread_ = []) :
    ∃ s1 e, InkClient.run g s inkRound = some (s1, e) ∧ s1.Bound = true ∧
      s1.thread_ = [] ∧ s1.need_redraw_ = false ∧
      e.countP Effect.isSubmit = 1 ∧ e.countP Effect.isDidNotProduce = 0 := by
  have hs0 : ({ s with thread_ := [] } : InkClient).Bound = true := by
    simpa [InkClient.Bound] using hs
  obtain ⟨s1, h1, hb1, hn1, -, ht1⟩ := InkClient.Draw_bound _ ⟨1, 1⟩ hs0
  obtain ⟨s2, e2, h2, hb2, hn2, ht2, hcase⟩ := InkClient.OnBeginFrame_counts s1 g args0 hb1
  rcases hcase with ⟨-, hc, hd⟩ | ⟨hn, -⟩
  · refine ⟨s2, [Effect.remote false (SinkCall.SetNeedsBeginFrame true)] ++ e2,
      ?_, hb2, ?_, hn2, ?_, ?_⟩
    · simp only [inkRound, InkClient.run, InkClient.step, InkClient.DidProcessEvent, if_true,
        InkClient.runTask, ht, List.nil_append, h1, h2, List.append_nil]
    · rw [ht2, ht1]
    · rw [List.countP_append, hc]; simp [Effect.isSubmit]
    · rw [List.countP_append, hd]; simp [Effect.isDidNotProduce]
  · rw [hn1] at hn
    cases hn

theorem InkClient.run_inkRounds_counts (g : Bool) (k : Nat) :
    ∀ s : InkClient, s.Bound = true → s.thread_ = [] →
      ∃ s1 e, InkClient.run g s (inkRounds k) = some (s1, e) ∧ s1.Bound = true ∧
        s1.thread_ = [] ∧ (0 < k → s1.need_redraw_ = false) ∧
        e.countP Effect.isSubmit = k ∧ e.countP Effect.isDidNotProduce = 0 := by
  induction k with
  | zero =>
    intro s hs ht
    exact ⟨s, [], rfl, hs, ht, fun h => absurd h (lt_irrefl 0), rfl, rfl⟩
  | succ k ih =>
    intro s hs ht
    obtain ⟨s1, e1, h1, hb1, ht1, hn1, hc1, hd1⟩ := InkClient.run_inkRound_counts g s hs ht
    obtain ⟨s2, e2, h2, hb2, ht2, hn2, hc2, hd2⟩ := ih s1 hb1 ht1
    refine ⟨s2, e1 ++ e2, ?_, hb2, ht2, ?_, ?_, ?_⟩
    · show InkClient.run g s (inkRound ++ inkRounds k) = _
      rw [InkClient.run_append, h1]
      simp only [h2]
    · intro _
      cases k with
      | zero =>
        simp only [inkRounds, InkClient.run, Option.some.injEq, Prod.mk.injEq] at h2
        rw [← h2.1]
        exact hn1
      | succ k => exact hn2 (Nat.succ_pos _)
    · rw [List.countP_append, hc1, hc2]; omega
    · rw [List.countP_append, hd1, hd2]

/-- C19, as stated, fails: the ink sink does not produce on every tick. The
child sink of the demo, right after its bind, answers the first tick with a
frame and the next tick, with nothing drawn in between, with
`DidNotProduceFrame`. -/
theorem ink_second_tick_not_produced :
    ∃ s1 e1 s2, inkBound.OnBeginFrame true args0 = some (s1, e1) ∧
      e1.countP Effect.isSubmit = 1 ∧
      s1.OnBeginFrame true args0 =
        some (s2, [.remote false (.DidNotProduceFrame ⟨1, 7, false⟩)]) := by
  have h : (inkBound.OnBeginFrame true args0).bind (fun r =>
      (r.1.OnBeginFrame true args0).map (fun r2 => (r.2.countP Effect.isSubmit, r2.2))) =
      some (1, [.remote false (.DidNotProduceFrame ⟨1, 7, false⟩)]) := by decide
  cases h1 : inkBound.OnBeginFrame true args0 with
  | none => rw [h1] at h; cases h
  | some v1 =>
    obtain ⟨s1, e1⟩ := v1
    rw [h1] at h
    simp only [Option.some_bind] at h
    cases h2 : s1.OnBeginFrame true args0 with
    | none => rw [h2] at h; cases h
    | some v2 =>
      obtain ⟨s2, e2⟩ := v2
      rw [h2] at h
      simp only [Option.map_some', Option.some.injEq, Prod.mk.injEq] at h
      exact ⟨s1, e1, s2, rfl, h.1, by rw [h2, h.2]⟩

/-- C19, amended: the ink sink produces on every tick as long as something is
drawn before each tick. On a bound sink with an empty task queue, `k` rounds of
"a mouse move posts `Draw`, the sink's thread runs it, a tick arrives" get `k`
submitted frames and no `DidNotProduceFrame`; a further tick with nothing drawn
since the last one is answered with `DidNotProduceFrame`. -/
theorem ink_produces_on_drawn_ticks (g : Bool) (k : Nat) (args : BeginFrameArgs)
    (ink : InkClient) (hb : ink.Bound = true) (ht : ink.thread_ = []) :
    ∃ s1 e, InkClient.run g ink (inkRounds k) = some (s1, e) ∧
      InkEvent.ticks (inkRounds k) = k ∧
      e.countP Effect.isSubmit = k ∧ e.countP Effect.isDidNotProduce = 0 ∧
      (0 < k → ∃ s2 e2, s1.OnBeginFrame g args = some (s2, e2) ∧
        e2.countP Effect.isSubmit = 0 ∧ e2.countP Effect.isDidNotProduce = 1) := by
  obtain ⟨s1, e, h, hb1, -, hn1, hc, hd⟩ := InkClient.run_inkRounds_counts g k ink hb ht
  have hticks : ∀ n, InkEvent.ticks (inkRounds n) = n := by
    intro n
    induction n with
    | zero => rfl
    | succ n ih =>
      have : InkEvent.ticks (inkRounds (n + 1)) = InkEvent.ticks (inkRounds n) + 1 := by
        simp [inkRounds, inkRound, InkEvent.ticks, List.countP_cons]
      rw [this, ih]
  refine ⟨s1, e, h, hticks k, hc, hd, ?_⟩
  intro hk
  obtain ⟨s2, e2, h2, -, -, -, hcase⟩ := InkClient.OnBeginFrame_counts s1 g args hb1
  rcases hcase with ⟨hn, -⟩ | ⟨-, hc2, hd2⟩
  · rw [hn1 hk] at hn
    cases hn
  · exact ⟨s2, e2, h2, hc2, hd2⟩

theorem ink_produces_on_drawn_ticks_witness :
    (inkBound.Bound = true ∧ inkBound.thread_ = []) ∧
    ∃ s1 e, InkClient.run true inkBound (inkRounds 3) = some (s1, e) ∧
      InkEvent.ticks (inkRounds 3) = 3 ∧
      e.countP Effect.isSubmit = 3 ∧ e.countP Effect.isDidNotProduce = 0 ∧
      (0 < 3 → ∃ s2 e2, s1.OnBeginFrame true args0 = some (s2, e2) ∧
        e2.countP Effect.isSubmit = 0 ∧ e2.countP Effect.isDidNotProduce = 1) :=
  ⟨⟨by decide, by decide⟩,
   ink_produces_on_drawn_ticks true 3 args0 inkBound (by decide) (by decide)⟩

theorem InkClient.step_redraw (g : Bool) (s : InkClient) (ev : InkEvent) (hs : s.Bound = true) :
    ∃ s1 e, s.step g ev = some (s1, e) ∧ s1.Bound = true ∧
      s1.need_redraw_ =
        (match ev with
         | .OnBeginFrame _ => false
         | .RunTask => s.need_redraw_ || s.nextTaskRedraws
         | _ => s.need_redraw_) := by
  obtain ⟨s1, e, h, hb, -⟩ := InkClient.step_bound g s ev hs
  refine ⟨s1, e, h, hb, ?_⟩
  obtain ⟨hr, ⟨b, hbm⟩, p, hp, hwf⟩ := (InkClient.Bound_iff s).1 hs
  cases ev with
  | RunTask =>
    unfold InkClient.step InkClient.runTask at h
    cases hth : s.thread_ with
    | nil =>
      rw [hth] at h
      simp only [Option.some.injEq, Prod.mk.injEq] at h
      obtain ⟨rfl, rfl⟩ := h
      simp [InkClient.nextTaskRedraws, hth]
    | cons task rest =>
      rw [hth] at h
      cases task with
      | Bind =>
        simp only [Option.some.injEq] at h
        have h1 : s1 = (InkClient.Bind { s with thread_ := rest } true).1 := by rw [h]
        subst h1
        simp [InkClient.Bind, InkClient.nextTaskRedraws, hth]
      | SetContextProvider cp =>
        simp only [Option.some.injEq, Prod.mk.injEq] at h
        obtain ⟨rfl, rfl⟩ := h
        simp [InkClient.SetContextProvider, InkClient.nextTaskRedraws, hth]
      | Draw location =>
        have hs0 : ({ s with thread_ := rest } : InkClient).Bound = true := by
          simpa [InkClient.Bound] using hs
        obtain ⟨s2, h2, -, hn2, -, -⟩ := InkClient.Draw_bound _ location hs0
        simp only at h
        have heq : some (s1, e) = some (s2, _) := h.symm.trans h2
        simp only [Option.some.injEq, Prod.mk.injEq] at heq
        obtain ⟨rfl, rfl⟩ := heq
        simp [hn2, InkClient.nextTaskRedraws, hth]
  | OnBeginFrame args =>
    obtain ⟨s2, e2, h2, -, hn2, -, -⟩ := InkClient.OnBeginFrame_counts s g args hs
    have heq : some (s1, e) = some (s2, e2) := h.symm.trans h2
    simp only [Option.some.injEq, Prod.mk.injEq] at heq
    obtain ⟨rfl, rfl⟩ := heq
    exact hn2
  | DidReceiveCompositorFrameAck resources =>
    simp only [InkClient.step, InkClient.DidReceiveCompositorFrameAck, hp] at h
    cases hra : receiveAndRemove (some p) resources with
    | none => rw [hra] at h; cases h
    | some v =>
      obtain ⟨p1, e1⟩ := v
      rw [hra] at h
      simp only [Option.some.injEq, Prod.mk.injEq] at h
      obtain ⟨rfl, rfl⟩ := h
      rfl
  | ReclaimResources resources =>
    simp only [InkClient.step, InkClient.ReclaimResources, hp] at h
    cases hra : receiveAndRemove (some p) resources with
    | none => rw [hra] at h; cases h
    | some v =>
      obtain ⟨p1, e1⟩ := v
      rw [hra] at h
      simp only [Option.some.injEq, Prod.mk.injEq] at h
      obtain ⟨rfl, rfl⟩ := h
      rfl
  | OnBeginFramePausedChanged paused =>
    simp only [InkClient.step, InkClient.OnBeginFramePausedChanged, Option.some.injEq,
      Prod.mk.injEq] at h
    obtain ⟨rfl, rfl⟩ := h
    rfl
  | DidProcessEvent is_move location =>
    simp only [InkClient.step, Option.some.injEq, Prod.mk.injEq] at h
    obtain ⟨rfl, rfl⟩ := h
    cases is_move <;> rfl
  | SetContextProvider cp =>
    simp only [InkClient.step, Option.some.injEq, Prod.mk.injEq] at h
    obtain ⟨rfl, rfl⟩ := h
    rfl
  | Bind =>
    simp only [InkClient.step, Option.some.injEq] at h
    have h1 : s1 = (s.Bind false).1 := by rw [h]
    subst h1
    rfl

theorem InkClient.run_redraw (g : Bool) (evs : List InkEvent) :
    ∀ (s : InkClient) (before : Bool), s.Bound = true → s.need_redraw_ = before →
      ∃ s1 e, InkClient.run g s evs = some (s1, e) ∧ s1.Bound = true ∧
        s1.need_redraw_ = InkClient.changedSince g s before evs := by
  induction evs with
  | nil =>
    intro s before hs hn
    exact ⟨s, [], rfl, hs, hn⟩
  | cons ev rest ih =>
    intro s before hs hn
    obtain ⟨s1, e1, h1, hb1, hn1⟩ := InkClient.step_redraw g s ev hs
    rw [hn] at hn1
    obtain ⟨s2, e2, h2, hb2, hn2⟩ := ih s1 _ hb1 hn1
    refine ⟨s2, e1 ++ e2, ?_, hb2, ?_⟩
    · simp only [InkClient.run, h1, h2]
    · rw [hn2]
      simp only [InkClient.changedSince, h1]

/-- C20: the ink sink produces only when its content changed. Start from a
sink whose on-thread `Bind` has just run and let any events `evs` happen to it.
The next tick is answered with one submitted frame if the on-thread `Bind` or
a `Draw` has run since the last tick before it, and with one
`DidNotProduceFrame` if not; either way the tick after it, with nothing in
between, is answered with `DidNotProduceFrame`. In particular the first tick
after the bind is answered with a frame. -/
theorem ink_produces_when_changed (g : Bool) (ink0 : InkClient) (evs : List InkEvent)
    (args args2 : BeginFrameArgs) :
    (∃ s e, (ink0.Bind true).1.OnBeginFrame g args = some (s, e) ∧
      e.countP Effect.isSubmit = 1 ∧ e.countP Effect.isDidNotProduce = 0) ∧
    ∃ s1 e1, InkClient.run g (ink0.Bind true).1 evs = some (s1, e1) ∧
      ∃ s2 e2, s1.OnBeginFrame g args = some (s2, e2) ∧
        (InkClient.changedSince g (ink0.Bind true).1 true evs = true →
          e2.countP Effect.isSubmit = 1 ∧ e2.countP Effect.isDidNotProduce = 0) ∧
        (InkClient.changedSince g (ink0.Bind true).1 true evs = false →
          e2.countP Effect.isSubmit = 0 ∧ e2.countP Effect.isDidNotProduce = 1) ∧
        ∃ s3 e3, s2.OnBeginFrame g args2 = some (s3, e3) ∧
          e3.countP Effect.isSubmit = 0 ∧ e3.countP Effect.isDidNotProduce = 1 := by
  have hb : (ink0.Bind true).1.Bound = true := InkClient.Bound_Bind ink0
  have hn : (ink0.Bind true).1.need_redraw_ = true := rfl
  constructor
  · obtain ⟨s, e, h, -, -, -, hcase⟩ := InkClient.OnBeginFrame_counts _ g args hb
    rcases hcase with ⟨-, hc, hd⟩ | ⟨hf, -⟩
    · exact ⟨s, e, h, hc, hd⟩
    · rw [hn] at hf
      cases hf
  · obtain ⟨s1, e1, h1, hb1, hn1⟩ := InkClient.run_redraw g evs _ true hb hn
    obtain ⟨s2, e2, h2, hb2, hn2, -, hcase⟩ := InkClient.OnBeginFrame_counts s1 g args hb1
    obtain ⟨s3, e3, h3, -, -, -, hcase3⟩ := InkClient.OnBeginFrame_counts s2 g args2 hb2
    refine ⟨s1, e1, h1, s2, e2, h2, ?_, ?_, s3, e3, h3, ?_⟩
    · intro hch
      rcases hcase with ⟨-, hc, hd⟩ | ⟨hf, -⟩
      · exact ⟨hc, hd⟩
      · rw [hn1, hch] at hf
        cases hf
    · intro hch
      rcases hcase with ⟨ht, -⟩ | ⟨-, hc, hd⟩
      · rw [hn1, hch] at ht
        cases ht
      · exact ⟨hc, hd⟩
    · rcases hcase3 with ⟨ht, -⟩ | ⟨-, hc, hd⟩
      · rw [hn2] at ht
        cases ht
      · exact ⟨hc, hd⟩

theorem ink_produces_when_changed_witness :
    InkClient.changedSince true inkBound true
      [.OnBeginFrame args0, .DidProcessEvent true ⟨3, 4⟩, .RunTask] = true ∧
    InkClient.changedSince true inkBound true
      [.OnBeginFrame args0, .DidProcessEvent true ⟨3, 4⟩] = false ∧
    (∃ s1 e1, InkClient.run true inkBound
        [.OnBeginFrame args0, .DidProcessEvent true ⟨3, 4⟩, .RunTask] = some (s1, e1) ∧
      ∃ s2 e2, s1.OnBeginFrame true args0 = some (s2, e2) ∧
        e2.countP Effect.isSubmit = 1 ∧ e2.countP Effect.isDidNotProduce = 0) ∧
    (∃ s1 e1, InkClient.run true inkBound
        [.OnBeginFrame args0, .DidProcessEvent true ⟨3, 4⟩] = some (s1, e1) ∧
      ∃ s2 e2, s1.OnBeginFrame true args0 = some (s2, e2) ∧
        e2.countP Effect.isSubmit = 0 ∧ e2.countP Effect.isDidNotProduce = 1) := by
  have hyes : InkClient.changedSince true inkBound true
      [.OnBeginFrame args0, .DidProcessEvent true ⟨3, 4⟩, .RunTask] = true := by decide
  have hno : InkClient.changedSince true inkBound true
      [.OnBeginFrame args0, .DidProcessEvent true ⟨3, 4⟩] = false := by decide
  obtain ⟨-, s1, e1, h1, s2, e2, h2, hsub, -, -⟩ :=
    ink_produces_when_changed true (InkClient.new ⟨0, 2⟩ ⟨⟨1, 1, 5⟩, 40⟩ ⟨0, 0, 800, 600⟩ 6 false)
      [.OnBeginFrame args0, .DidProcessEvent true ⟨3, 4⟩, .RunTask] args0 args0
  obtain ⟨-, t1, f1, g1, t2, f2, g2, -, hdnp, -⟩ :=
    ink_produces_when_changed true (InkClient.new ⟨0, 2⟩ ⟨⟨1, 1, 5⟩, 40⟩ ⟨0, 0, 800, 600⟩ 6 false)
      [.OnBeginFrame args0, .DidProcessEvent true ⟨3, 4⟩] args0 args0
  exact ⟨hyes, hno, ⟨s1, e1, h1, s2, e2, h2, hsub hyes⟩, ⟨t1, f1, g1, t2, f2, g2, hdnp hno⟩⟩

/-! ## Calls from another thread -/

/-- C21, as stated, fails for `EmbedChild`: it is not marshalled onto the
sink's thread. Called by the host on the root sink of the demo, it posts
nothing to the sink's task queue and writes `child_frame_sink_id_` and
`local_surface_id_allocator_` itself (under `lock_`). -/
theorem EmbedChild_writes_fields :
    (layerBound.EmbedChild ⟨0, 2⟩ 40).1.thread_ = layerBound.thread_ ∧
    (layerBound.EmbedChild ⟨0, 2⟩ 40).1.child_frame_sink_id_ ≠ layerBound.child_frame_sink_id_ ∧
    (layerBound.EmbedChild ⟨0, 2⟩ 40).1.local_surface_id_allocator_ ≠
      layerBound.local_surface_id_allocator_ := by
  decide

/-- C21, amended: `Bind` and `SetContextProvider` of both sinks, called from a
thread other than the sink's own, write no field of the sink: they only append
a task to the sink's task queue (`InkClient::Bind` also registers the sink as
platform event observer), and the field is written when the sink's thread runs
that task. `EmbedChild` posts nothing: it writes the child id and advances the
surface id allocator on the caller's thread. -/
theorem cross_thread_calls_post_tasks (ink : InkClient) (layer : LayerTreeFrameSink)
    (cp : Option ContextProvider) (associated : Bool) (child : FrameSinkId) (now : Nat)
    (irest : List InkTask) (lrest : List LayerTask) :
    ink.Bind false = ({ ink with thread_ := ink.thread_ ++ [.Bind] }, [.AddPlatformEventObserver]) ∧
    ink.SetContextProvider false cp =
      { ink with thread_ := ink.thread_ ++ [.SetContextProvider cp] } ∧
    layer.Bind associated = { layer with thread_ := layer.thread_ ++ [.BindOnThread associated] } ∧
    layer.SetContextProvider false cp =
      { layer with thread_ := layer.thread_ ++ [.SetContextProvider cp] } ∧
    ({ ink with thread_ := .SetContextProvider cp :: irest } : InkClient).runTask =
      some ({ ink with thread_ := irest, context_provider_ := cp }, []) ∧
    ({ ink with thread_ := .Bind :: irest } : InkClient).runTask =
      some (({ ink with thread_ := irest } : InkClient).Bind true) ∧
    ({ layer with thread_ := .SetContextProvider cp :: lrest } : LayerTreeFrameSink).runTask =
      ({ layer with thread_ := lrest, context_provider_ := cp }, []) ∧
    ({ layer with thread_ := .BindOnThread associated :: lrest } : LayerTreeFrameSink).runTask =
      ({ layer with thread_ := lrest } : LayerTreeFrameSink).BindOnThread associated ∧
    (layer.EmbedChild child now).1 =
      { layer with
        child_frame_sink_id_ := child
        local_surface_id_allocator_ := layer.local_surface_id_allocator_.GenerateId now } ∧
    (layer.EmbedChild child now).1.thread_ = layer.thread_ :=
  ⟨rfl, rfl, rfl, rfl, rfl, rfl, rfl, rfl, rfl, rfl⟩

/-! ## Registration order and the embedding graph -/

theorem HostFrameSinkManager.reaches_source (edges : List (FrameSinkId × FrameSinkId))
    (fuel : Nat) (a b : FrameSinkId) (h : HostFrameSinkManager.reaches edges fuel a b = true) :
    a = b ∨ ∃ e ∈ edges, e.1 = a := by
  cases fuel with
  | zero =>
    left
    simpa [HostFrameSinkManager.reaches] using h
  | succ fuel =>
    simp only [HostFrameSinkManager.reaches, Bool.or_eq_true, beq_iff_eq, List.any_eq_true,
      Bool.and_eq_true] at h
    rcases h with h | ⟨e, he, h1, -⟩
    · exact Or.inl h
    · exact Or.inr ⟨e, he, h1⟩

theorem HostFrameSinkManager.reaches_le (edges : List (FrameSinkId × FrameSinkId))
    (hedges : ∀ e ∈ edges, e.1.sink_id < e.2.sink_id) (fuel : Nat) :
    ∀ a b, HostFrameSinkManager.reaches edges fuel a b = true → a.sink_id ≤ b.sink_id := by
  induction fuel with
  | zero =>
    intro a b h
    have hab : a = b := by simpa [HostFrameSinkManager.reaches] using h
    rw [hab]
  | succ fuel ih =>
    intro a b h
    simp only [HostFrameSinkManager.reaches, Bool.or_eq_true, beq_iff_eq, List.any_eq_true,
      Bool.and_eq_true] at h
    rcases h with h | ⟨e, he, h1, h2⟩
    · rw [h]
    · have := ih e.2 b h2
      have := hedges e he
      rw [← h1]
      omega

theorem acyclic_of_increasing (edges : List (FrameSinkId × FrameSinkId))
    (hedges : ∀ e ∈ edges, e.1.sink_id < e.2.sink_id) : acyclic edges := by
  intro fuel e he
  cases hr : HostFrameSinkManager.reaches edges fuel e.2 e.1 with
  | false => rfl
  | true =>
    have := HostFrameSinkManager.reaches_le edges hedges _ _ _ hr
    have := hedges e he
    omega

theorem callsInOrder_append (a b : List HostCall) :
    ∀ reg, callsInOrder reg (a ++ b) =
      (callsInOrder reg a && callsInOrder (reg ++ HostCall.allocated a) b) := by
  induction a with
  | nil => intro reg; simp [callsInOrder, HostCall.allocated]
  | cons call rest ih =>
    intro reg
    cases call <;>
      simp [callsInOrder, HostCall.allocated, ih, Bool.and_assoc, List.append_assoc]

theorem HostCall.allocated_append (a b : List HostCall) :
    HostCall.allocated (a ++ b) = HostCall.allocated a ++ HostCall.allocated b := by
  simp only [HostCall.allocated, List.filterMap_append]

theorem HostCall.edges_append (a b : List HostCall) :
    HostCall.edges (a ++ b) = HostCall.edges a ++ HostCall.edges b := by
  simp only [HostCall.edges, List.filterMap_append]

theorem mem_ids_of_allocatedBefore (cid j : Nat) (parent : FrameSinkId)
    (h : FrameSinkIdAllocator.allocatedBefore ⟨cid, j + 1⟩ parent = true) :
    parent ∈ (List.range j).map (fun i => (⟨cid, i + 1⟩ : FrameSinkId)) ∧
      parent.sink_id < j + 1 := by
  simp only [FrameSinkIdAllocator.allocatedBefore, Bool.and_eq_true, beq_iff_eq,
    decide_eq_true_eq] at h
  obtain ⟨⟨h1, h2⟩, h3⟩ := h
  refine ⟨?_, h3⟩
  rw [List.mem_map]
  refine ⟨parent.sink_id - 1, List.mem_range.2 (by omega), ?_⟩
  cases parent with
  | mk c s =>
    simp only at h1 h2 h3
    simp only [FrameSinkId.mk.injEq]
    exact ⟨h1.symm, by omega⟩

theorem not_mem_ids (cid j : Nat) :
    (⟨cid, j + 1⟩ : FrameSinkId) ∉ (List.range j).map (fun i => (⟨cid, i + 1⟩ : FrameSinkId)) := by
  intro h
  rw [List.mem_map] at h
  obtain ⟨i, hi, heq⟩ := h
  simp only [FrameSinkId.mk.injEq, true_and] at heq
  have := List.mem_range.1 hi
  omega

theorem ids_succ (cid j : Nat) :
    (List.range (j + 1)).map (fun i => (⟨cid, i + 1⟩ : FrameSinkId)) =
      (List.range j).map (fun i => (⟨cid, i + 1⟩ : FrameSinkId)) ++ [⟨cid, j + 1⟩] := by
  rw [List.range_succ, List.map_append]
  rfl

/-- One call of `EmbedChildClient` on a host whose allocator stands at `j + 1`,
whose manager holds the ids 1 to `j` and whose edges all go from a smaller to a
larger sink id, for a parent allocated before. -/
theorem Compositor.EmbedChildClient_step (c : Compositor) (parent : FrameSinkId) (env : HostEnv)
    (root : LayerTreeFrameSink) (cid j : Nat) (hroot : c.root_client_ = some root)
    (halloc : c.frame_sink_id_allocator_ = ⟨cid, j + 1⟩) (hlt : j + 2 < 2 ^ 32)
    (hreg : c.host_frame_sink_manager_.registered_ =
      (List.range j).map (fun i => (⟨cid, i + 1⟩ : FrameSinkId)))
    (hedges : ∀ e ∈ c.host_frame_sink_manager_.hierarchy_,
      e.1.sink_id < e.2.sink_id ∧ e.2.sink_id < j + 1)
    (hparent : FrameSinkIdAllocator.allocatedBefore ⟨cid, j + 1⟩ parent = true) :
    ∃ c1 effects root1,
      c.EmbedChildClient parent env =
        some (c1, [.RegisterFrameSinkId ⟨cid, j + 1⟩,
                   .RegisterFrameSinkHierarchy parent ⟨cid, j + 1⟩,
                   .CreateCompositorFrameSink ⟨cid, j + 1⟩,
                   .EmbedChild ⟨cid, j + 1⟩, .BindChild], effects) ∧
      c1.root_client_ = some root1 ∧
      c1.frame_sink_id_allocator_ = ⟨cid, j + 2⟩ ∧
      c1.host_frame_sink_manager_.registered_ =
        (List.range (j + 1)).map (fun i => (⟨cid, i + 1⟩ : FrameSinkId)) ∧
      c1.host_frame_sink_manager_.hierarchy_ =
        c.host_frame_sink_manager_.hierarchy_ ++ [(parent, ⟨cid, j + 1⟩)] := by
  obtain ⟨-, hps⟩ := mem_ids_of_allocatedBefore cid j parent hparent
  have hfresh : (⟨cid, j + 1⟩ : FrameSinkId) ∉ c.host_frame_sink_manager_.registered_ := by
    rw [hreg]
    exact not_mem_ids cid j
  have hno : HostFrameSinkManager.reaches c.host_frame_sink_manager_.hierarchy_
      c.host_frame_sink_manager_.hierarchy_.length ⟨cid, j + 1⟩ parent = false := by
    cases hr : HostFrameSinkManager.reaches c.host_frame_sink_manager_.hierarchy_
        c.host_frame_sink_manager_.hierarchy_.length ⟨cid, j + 1⟩ parent with
    | false => rfl
    | true =>
      rcases HostFrameSinkManager.reaches_source _ _ _ _ hr with h | ⟨e, he, h⟩
      · rw [← h] at hps
        exact absurd hps (lt_irrefl _)
      · have := hedges e he
        rw [h] at this
        simp only at this
        omega
  have hmod : (j + 1 + 1) % 2 ^ 32 = j + 2 := Nat.mod_eq_of_lt hlt
  have hm1 : c.host_frame_sink_manager_.kept
      (c.host_frame_sink_manager_.RegisterFrameSinkId ⟨cid, j + 1⟩) =
      { c.host_frame_sink_manager_ with
        registered_ := c.host_frame_sink_manager_.registered_ ++ [⟨cid, j + 1⟩] } := by
    simp [HostFrameSinkManager.RegisterFrameSinkId, hfresh, HostFrameSinkManager.kept]
  have hm2 : ({ c.host_frame_sink_manager_ with
        registered_ := c.host_frame_sink_manager_.registered_ ++ [⟨cid, j + 1⟩] } :
        HostFrameSinkManager).kept
      (({ c.host_frame_sink_manager_ with
        registered_ := c.host_frame_sink_manager_.registered_ ++ [⟨cid, j + 1⟩] } :
        HostFrameSinkManager).RegisterFrameSinkHierarchy parent ⟨cid, j + 1⟩) =
      { c.host_frame_sink_manager_ with
        registered_ := c.host_frame_sink_manager_.registered_ ++ [⟨cid, j + 1⟩]
        hierarchy_ := c.host_frame_sink_manager_.hierarchy_ ++ [(parent, ⟨cid, j + 1⟩)] } := by
    simp [HostFrameSinkManager.RegisterFrameSinkHierarchy, hno, HostFrameSinkManager.kept]
  have hcall : c.EmbedChildClient parent env =
      some ({ c with
              frame_sink_id_allocator_ := ⟨cid, j + 2⟩
              host_frame_sink_manager_ :=
                ({ c.host_frame_sink_manager_ with
                  registered_ := c.host_frame_sink_manager_.registered_ ++ [⟨cid, j + 1⟩]
                  hierarchy_ := c.host_frame_sink_manager_.hierarchy_ ++
                    [(parent, ⟨cid, j + 1⟩)] } :
                  HostFrameSinkManager).CreateCompositorFrameSink ⟨cid, j + 1⟩
              root_client_ := some (root.EmbedChild ⟨cid, j + 1⟩ env.embed_time).1
              child_client_ := some ((InkClient.new ⟨cid, j + 1⟩
                (root.EmbedChild ⟨cid, j + 1⟩ env.embed_time).2 (Rect.ofSize c.size_)
                env.child_token env.indeterminate).Bind false).1 },
            [.RegisterFrameSinkId ⟨cid, j + 1⟩,
             .RegisterFrameSinkHierarchy parent ⟨cid, j + 1⟩,
             .CreateCompositorFrameSink ⟨cid, j + 1⟩,
             .EmbedChild ⟨cid, j + 1⟩, .BindChild],
            ((InkClient.new ⟨cid, j + 1⟩
                (root.EmbedChild ⟨cid, j + 1⟩ env.embed_time).2 (Rect.ofSize c.size_)
                env.child_token env.indeterminate).Bind false).2) := by
    simp only [Compositor.EmbedChildClient, FrameSinkIdAllocator.NextFrameSinkId, hroot, halloc,
      hmod, hm1, hm2]
  refine ⟨_, _, _, hcall, rfl, rfl, ?_, rfl⟩
  simp only [HostFrameSinkManager.CreateCompositorFrameSink, hreg, ids_succ]


theorem Compositor.embedChildren_facts (env : HostEnv) (parents : List FrameSinkId) :
    ∀ (c : Compositor) (root : LayerTreeFrameSink) (cid j : Nat),
      c.root_client_ = some root → c.frame_sink_id_allocator_ = ⟨cid, j + 1⟩ →
      j + 1 + parents.length < 2 ^ 32 →
      c.host_frame_sink_manager_.registered_ =
        (List.range j).map (fun i => (⟨cid, i + 1⟩ : FrameSinkId)) →
      (∀ e ∈ c.host_frame_sink_manager_.hierarchy_,
        e.1.sink_id < e.2.sink_id ∧ e.2.sink_id < j + 1) →
      parentsAllocated cid (j + 1) parents = true →
      ∃ c2 calls, c.embedChildren env parents = some (c2, calls) ∧
        HostCall.allocated calls =
          (List.range parents.length).map (fun i => (⟨cid, j + 1 + i⟩ : FrameSinkId)) ∧
        callsInOrder c.host_frame_sink_manager_.registered_ calls = true ∧
        c2.host_frame_sink_manager_.registered_ =
          c.host_frame_sink_manager_.registered_ ++ HostCall.allocated calls ∧
        c2.host_frame_sink_manager_.hierarchy_ =
          c.host_frame_sink_manager_.hierarchy_ ++ HostCall.edges calls ∧
        (HostCall.edges calls).map (fun e => e.2) = HostCall.allocated calls ∧
        (HostCall.edges calls).map (fun e => e.1) = parents ∧
        ∀ e ∈ HostCall.edges calls, e.1.sink_id < e.2.sink_id := by
  induction parents with
  | nil =>
    intro c root cid j _ _ _ _ _ _
    exact ⟨c, [], rfl, rfl, rfl, by simp [HostCall.allocated], by simp [HostCall.edges],
      rfl, rfl, by simp [HostCall.edges]⟩
  | cons parent rest ih =>
    intro c root cid j hroot halloc hlt hreg hedges hpar
    simp only [parentsAllocated, Bool.and_eq_true] at hpar
    simp only [List.length_cons] at hlt
    obtain ⟨hp1, hp2⟩ := hpar
    obtain ⟨hpmem, hplt⟩ := mem_ids_of_allocatedBefore cid j parent hp1
    obtain ⟨c1, effects, root1, h1, hroot1, halloc1, hreg1, hedges1⟩ :=
      c.EmbedChildClient_step parent env root cid j hroot halloc (by omega) hreg hedges hp1
    have hinv1 : ∀ e ∈ c1.host_frame_sink_manager_.hierarchy_,
        e.1.sink_id < e.2.sink_id ∧ e.2.sink_id < j + 1 + 1 := by
      intro e he
      rw [hedges1, List.mem_append, List.mem_singleton] at he
      rcases he with he | rfl
      · have := hedges e he
        omega
      · exact ⟨hplt, Nat.lt_succ_self _⟩
    obtain ⟨c2, calls2, h2, ha2, ho2, hr2, hh2, hc2, hs2, he2⟩ :=
      ih c1 root1 cid (j + 1) hroot1 halloc1 (by omega) hreg1 hinv1 hp2
    refine ⟨c2, [HostCall.RegisterFrameSinkId ⟨cid, j + 1⟩,
        .RegisterFrameSinkHierarchy parent ⟨cid, j + 1⟩,
        .CreateCompositorFrameSink ⟨cid, j + 1⟩, .EmbedChild ⟨cid, j + 1⟩, .BindChild] ++ calls2,
      ?_, ?_, ?_, ?_, ?_, ?_, ?_, ?_⟩
    · simp only [Compositor.embedChildren, h1, h2]
    · rw [HostCall.allocated_append, ha2, List.length_cons, List.range_succ_eq_map]
      simp only [HostCall.allocated, List.filterMap_cons, List.filterMap_nil, List.map_cons,
        List.map_map, List.singleton_append, Nat.add_zero, List.cons.injEq, true_and]
      apply List.map_congr_left
      intro i _
      simp only [Function.comp, FrameSinkId.mk.injEq, true_and]
      omega
    · rw [callsInOrder_append, Bool.and_eq_true]
      constructor
      · have hnm : (⟨cid, j + 1⟩ : FrameSinkId) ∉ c.host_frame_sink_manager_.registered_ := by
          rw [hreg]; exact not_mem_ids cid j
        have hpm : parent ∈ c.host_frame_sink_manager_.registered_ := by
          rw [hreg]; exact hpmem
        simp [callsInOrder, hnm, hpm]
      · have : c.host_frame_sink_manager_.registered_ ++
            HostCall.allocated [HostCall.RegisterFrameSinkId ⟨cid, j + 1⟩,
              .RegisterFrameSinkHierarchy parent ⟨cid, j + 1⟩,
              .CreateCompositorFrameSink ⟨cid, j + 1⟩, .EmbedChild ⟨cid, j + 1⟩, .BindChild] =
            c1.host_frame_sink_manager_.registered_ := by
          rw [hreg1, hreg, ids_succ]
          rfl
        rw [this]
        exact ho2
    · rw [hr2, hreg1, hreg, ids_succ, HostCall.allocated_append, List.append_assoc]
      rfl
    · rw [hh2, hedges1, HostCall.edges_append, List.append_assoc]
      rfl
    · rw [HostCall.edges_append, HostCall.allocated_append, List.map_append, hc2]
      rfl
    · rw [HostCall.edges_append, List.map_append, hs2]
      rfl
    · intro e he
      rw [HostCall.edges_append, List.mem_append] at he
      rcases he with he | he
      · simp only [HostCall.edges, List.filterMap_cons, List.filterMap_nil,
          List.mem_singleton] at he
        rw [he]
        exact hplt
      · exact he2 e he

theorem Compositor.new_manager (widget : Nat) (size : Size) (g : Bool) (env : HostEnv) :
    ∃ c calls effects root, Compositor.new widget size g env = some (c, calls, effects) ∧
      c.root_client_ = some root ∧
      c.frame_sink_id_allocator_ = ⟨0, 3⟩ ∧
      c.host_frame_sink_manager_.registered_ = [⟨0, 1⟩, ⟨0, 2⟩] ∧
      c.host_frame_sink_manager_.hierarchy_ = [(⟨0, 1⟩, ⟨0, 2⟩)] ∧
      HostCall.allocated calls = [⟨0, 1⟩, ⟨0, 2⟩] ∧
      HostCall.edges calls = [(⟨0, 1⟩, ⟨0, 2⟩)] ∧
      callsInOrder [] calls = true :=
  ⟨_, _, _, _, rfl, rfl, rfl, rfl, rfl, rfl, rfl, rfl⟩

/-- C22: in the calls the host makes on the frame sink manager, in its
constructor and in any further `EmbedChildClient` calls for parents allocated
before (as long as the 32-bit sink id does not wrap), no frame sink id is
registered twice, every id passed to `CreateRootCompositorFrameSink`,
`CreateCompositorFrameSink` or `RegisterFrameSinkHierarchy` was registered by
an earlier `RegisterFrameSinkId` call, and the manager accepted every
registration: the ids it holds are the ids registered, in order. -/
theorem host_registers_before_use (widget : Nat) (size : Size) (g : Bool) (env : HostEnv)
    (parents : List FrameSinkId) (hp : parentsAllocated 0 3 parents = true)
    (hlt : parents.length + 3 < 2 ^ 32) :
    ∃ c calls effects c2 calls2,
      Compositor.new widget size g env = some (c, calls, effects) ∧
      c.embedChildren env parents = some (c2, calls2) ∧
      (HostCall.allocated (calls ++ calls2)).length = parents.length + 2 ∧
      (HostCall.allocated (calls ++ calls2)).Nodup ∧
      callsInOrder [] (calls ++ calls2) = true ∧
      c2.host_frame_sink_manager_.registered_ = HostCall.allocated (calls ++ calls2) := by
  obtain ⟨c, calls, effects, root, hnew, hroot, halloc, hreg, hedges, hids, -, hord⟩ :=
    Compositor.new_manager widget size g env
  obtain ⟨c2, calls2, h2, ha2, ho2, hr2, -, -, -, -⟩ :=
    Compositor.embedChildren_facts env parents c root 0 2 hroot halloc (by omega)
      (by rw [hreg]; rfl) (by rw [hedges]; simp) hp
  have hall : HostCall.allocated (calls ++ calls2) =
      (List.range (parents.length + 2)).map (fun i => (⟨0, i + 1⟩ : FrameSinkId)) := by
    rw [HostCall.allocated_append, hids, ha2, List.range_succ_eq_map, List.range_succ_eq_map]
    simp only [List.map_cons, List.map_map, List.cons_append, List.nil_append, Nat.zero_add,
      List.cons.injEq, true_and]
    apply List.map_congr_left
    intro i _
    simp only [Function.comp, FrameSinkId.mk.injEq, true_and]
    omega
  refine ⟨c, calls, effects, c2, calls2, hnew, h2, ?_, ?_, ?_, ?_⟩
  · rw [hall]; simp
  · rw [hall]
    exact (List.nodup_range _).map (fun a b hab => by
      simp only [FrameSinkId.mk.injEq, true_and] at hab
      omega)
  · rw [callsInOrder_append, hord, Bool.true_and, List.nil_append, hids, ← hreg]
    exact ho2
  · rw [hr2, hreg, HostCall.allocated_append, hids]

theorem host_registers_before_use_witness :
    (parentsAllocated 0 3 [⟨0, 1⟩, ⟨0, 3⟩, ⟨0, 2⟩] = true ∧
      [(⟨0, 1⟩ : FrameSinkId), ⟨0, 3⟩, ⟨0, 2⟩].length + 3 < 2 ^ 32) ∧
    ∃ c calls effects c2 calls2,
      Compositor.new 1 ⟨800, 600⟩ true env0 = some (c, calls, effects) ∧
      c.embedChildren env0 [⟨0, 1⟩, ⟨0, 3⟩, ⟨0, 2⟩] = some (c2, calls2) ∧
      (HostCall.allocated (calls ++ calls2)).length =
        [(⟨0, 1⟩ : FrameSinkId), ⟨0, 3⟩, ⟨0, 2⟩].length + 2 ∧
      (HostCall.allocated (calls ++ calls2)).Nodup ∧
      callsInOrder [] (calls ++ calls2) = true ∧
      c2.host_frame_sink_manager_.registered_ = HostCall.allocated (calls ++ calls2) :=
  ⟨⟨by decide, by decide⟩,
   host_registers_before_use 1 ⟨800, 600⟩ true env0 [⟨0, 1⟩, ⟨0, 3⟩, ⟨0, 2⟩] (by decide)
     (by decide)⟩

/-- C23: the hierarchy edges the host registers, in its constructor and in any
further `EmbedChildClient` calls for parents allocated before (as long as the
32-bit sink id does not wrap), go each from its parent to the id allocated in
that call, whose sink id is greater than the parent's and than every sink id
allocated before. The edges therefore form no cycle, and the manager accepted
every one of them: the edges it holds are the edges registered, in order. -/
theorem host_edges_acyclic (widget : Nat) (size : Size) (g : Bool) (env : HostEnv)
    (parents : List FrameSinkId) (hp : parentsAllocated 0 3 parents = true)
    (hlt : parents.length + 3 < 2 ^ 32) :
    ∃ c calls effects c2 calls2,
      Compositor.new widget size g env = some (c, calls, effects) ∧
      c.embedChildren env parents = some (c2, calls2) ∧
      (HostCall.edges (calls ++ calls2)).map (fun e => e.1) = ⟨0, 1⟩ :: parents ∧
      (HostCall.edges (calls ++ calls2)).map (fun e => e.2) =
        (List.range (parents.length + 1)).map (fun i => (⟨0, i + 2⟩ : FrameSinkId)) ∧
      (∀ e ∈ HostCall.edges (calls ++ calls2), e.1.sink_id < e.2.sink_id) ∧
      acyclic (HostCall.edges (calls ++ calls2)) ∧
      c2.host_frame_sink_manager_.hierarchy_ = HostCall.edges (calls ++ calls2) := by
  obtain ⟨c, calls, effects, root, hnew, hroot, halloc, hreg, hedges, -, hce, -⟩ :=
    Compositor.new_manager widget size g env
  obtain ⟨c2, calls2, h2, ha2, -, -, hh2, hc2, hs2, he2⟩ :=
    Compositor.embedChildren_facts env parents c root 0 2 hroot halloc (by omega)
      (by rw [hreg]; rfl) (by rw [hedges]; simp) hp
  have hinc : ∀ e ∈ HostCall.edges (calls ++ calls2), e.1.sink_id < e.2.sink_id := by
    intro e he
    rw [HostCall.edges_append, hce, List.mem_append, List.mem_singleton] at he
    rcases he with rfl | he
    · exact Nat.lt_succ_self 1
    · exact he2 e he
  refine ⟨c, calls, effects, c2, calls2, hnew, h2, ?_, ?_, hinc, acyclic_of_increasing _ hinc, ?_⟩
  · rw [HostCall.edges_append, List.map_append, hs2, hce]
    rfl
  · rw [HostCall.edges_append, List.map_append, hc2, ha2, hce, List.range_succ_eq_map]
    simp only [List.map_cons, List.map_nil, List.map_map, List.singleton_append, Nat.zero_add,
      List.cons.injEq, true_and]
    apply List.map_congr_left
    intro i _
    simp only [Function.comp, FrameSinkId.mk.injEq, true_and]
    omega
  · rw [hh2, hedges, HostCall.edges_append, hce]

theorem host_edges_acyclic_witness :
    (parentsAllocated 0 3 [⟨0, 2⟩, ⟨0, 1⟩, ⟨0, 4⟩] = true ∧
      [(⟨0, 2⟩ : FrameSinkId), ⟨0, 1⟩, ⟨0, 4⟩].length + 3 < 2 ^ 32) ∧
    ∃ c calls effects c2 calls2,
      Compositor.new 1 ⟨800, 600⟩ false env0 = some (c, calls, effects) ∧
      c.embedChildren env0 [⟨0, 2⟩, ⟨0, 1⟩, ⟨0, 4⟩] = some (c2, calls2) ∧
      (HostCall.edges (calls ++ calls2)).map (fun e => e.1) = ⟨0, 1⟩ :: [⟨0, 2⟩, ⟨0, 1⟩, ⟨0, 4⟩] ∧
      (HostCall.edges (calls ++ calls2)).map (fun e => e.2) =
        (List.range ([(⟨0, 2⟩ : FrameSinkId), ⟨0, 1⟩, ⟨0, 4⟩].length + 1)).map
          (fun i => (⟨0, i + 2⟩ : FrameSinkId)) ∧
      (∀ e ∈ HostCall.edges (calls ++ calls2), e.1.sink_id < e.2.sink_id) ∧
      acyclic (HostCall.edges (calls ++ calls2)) ∧
      c2.host_frame_sink_manager_.hierarchy_ = HostCall.edges (calls ++ calls2) :=
  ⟨⟨by decide, by decide⟩,
   host_edges_acyclic 1 ⟨800, 600⟩ false env0 [⟨0, 2⟩, ⟨0, 1⟩, ⟨0, 4⟩] (by decide) (by decide)⟩

/-! ## The kind of a resource -/

theorem newResource_is_software (cp : Option ContextProvider) (g : Bool) (names : Nat)
    (size : Size) : (newResource cp g names size).1.is_software = !(cp.isSome && g) := by
  cases cp <;> cases g <;> rfl

/-- C24, as stated, fails for frames built before `SetContextProvider` has
run: the child sink of the demo right after its bind has no context provider,
and with `g_use_gpu = true` (the value the global starts with) the frame it
builds carries one resource, which is software-backed. -/
theorem ink_resource_software_under_gpu :
    inkBound.Bound = true ∧ inkBound.context_provider_ = none ∧
    (inkBound.CreateFrame true args0).map
      (fun r => r.2.1.resource_list.map (fun tr => tr.is_software)) = some [true] := by
  decide

/-- C24, amended: on a bound sink, the resources of the frame `CreateFrame`
builds are GPU-backed exactly when `g_use_gpu` is true and the sink's context
provider is set at that moment. An `InkClient` frame carries one resource,
software-backed when there is no context provider or `g_use_gpu` is false; a
`LayerTreeFrameSink` frame carries two resources of the kind `g_use_gpu` names
when a context provider is set and no resource at all before that. -/
theorem resource_kind_follows_provider (g : Bool) (args : BeginFrameArgs) (ink : InkClient)
    (layer : LayerTreeFrameSink) (hink : ink.Bound = true) (hlayer : layer.Bound = true) :
    (∃ r, ink.CreateFrame g args = some r ∧ r.2.1.resource_list.length = 1 ∧
      ∀ tr ∈ r.2.1.resource_list, tr.is_software = !(ink.context_provider_.isSome && g)) ∧
    (∃ r, layer.CreateFrame g args = some r ∧
      r.2.1.resource_list.length = (if layer.context_provider_.isSome then 2 else 0) ∧
      ∀ tr ∈ r.2.1.resource_list, tr.is_software = !g) := by
  obtain ⟨hr, ⟨b, hb⟩, p, hp, hwf⟩ := (InkClient.Bound_iff ink).1 hink
  obtain ⟨⟨sink, hsink⟩, q, hq, hqwf⟩ := (LayerTreeFrameSink.layer_Bound_iff layer).1 hlayer
  obtain ⟨e1, -, h1⟩ := ink.CreateFrame_bound g args p b hr hb hp hwf
  obtain ⟨e2, -, h2⟩ := layer.layer_CreateFrame_bound g args q sink hsink hq hqwf
  refine ⟨⟨_, h1, rfl, ?_⟩, ⟨_, h2, ?_, ?_⟩⟩
  · intro tr htr
    simp only [InkClient.frameOf, List.mem_singleton] at htr
    rw [htr]
    exact newResource_is_software _ _ _ _
  · simp only [LayerTreeFrameSink.frameOf, LayerTreeFrameSink.resourcesOf]
    split <;> rfl
  · intro tr htr
    simp only [LayerTreeFrameSink.frameOf, LayerTreeFrameSink.resourcesOf] at htr
    cases hcp : layer.context_provider_.isSome with
    | false => simp [hcp] at htr
    | true =>
      simp only [hcp, if_true, List.mem_cons, List.mem_singleton, List.mem_nil_iff,
        or_false] at htr
      rcases htr with rfl | rfl
      · show (newResource _ _ _ _).1.is_software = _
        rw [newResource_is_software, hcp, Bool.true_and]
      · show (newResource _ _ _ _).1.is_software = _
        rw [newResource_is_software, hcp, Bool.true_and]

theorem resource_kind_follows_provider_witness :
    (inkBound.Bound = true ∧ layerFull.Bound = true) ∧
    (∃ r, inkBound.CreateFrame true args0 = some r ∧ r.2.1.resource_list.length = 1 ∧
      ∀ tr ∈ r.2.1.resource_list,
        tr.is_software = !(inkBound.context_provider_.isSome && true)) ∧
    (∃ r, layerFull.CreateFrame true args0 = some r ∧
      r.2.1.resource_list.length = (if layerFull.context_provider_.isSome then 2 else 0) ∧
      ∀ tr ∈ r.2.1.resource_list, tr.is_software = !true) :=
  ⟨⟨by decide, by decide⟩,
   resource_kind_follows_provider true args0 inkBound layerFull (by decide) (by decide)⟩

/-! ## Ticks without a frame, and the tokens of the frames -/

theorem FrameTokenGenerator.incr_value_ne_zero (g : FrameTokenGenerator) : g.incr.value ≠ 0 := by
  unfold FrameTokenGenerator.incr FrameTokenGenerator.value
  show (if (g.frame_token_ + 1) % 2 ^ 32 = 0 then (⟨1⟩ : FrameTokenGenerator)
    else ⟨(g.frame_token_ + 1) % 2 ^ 32⟩).frame_token_ ≠ 0
  by_cases h : (g.frame_token_ + 1) % 2 ^ 32 = 0
  · rw [if_pos h]
    exact Nat.one_ne_zero
  · rw [if_neg h]
    exact h

/-- C25: on a bound sink, a tick answered with `DidNotProduceFrame` sends that
one message and submits no frame. The `InkClient` is left as it was: ledger,
bounds, `LocalSurfaceId` and frame token are unchanged. The
`LayerTreeFrameSink` is left as it was except for its token generator: ledger,
name source, bounds, embedded child id, `LocalSurfaceId` and its allocator are
unchanged. The token generator of the `LayerTreeFrameSink` is incremented once
on every tick, produced or not, which adds one to its value below the 32-bit
wrap. -/
theorem tick_without_frame_keeps_state (g : Bool) (args : BeginFrameArgs) (ink : InkClient)
    (layer : LayerTreeFrameSink) (hink : ink.Bound = true) (hlayer : layer.Bound = true) :
    (∃ s1 e, ink.OnBeginFrame g args = some (s1, e) ∧
      (e.countP Effect.isDidNotProduce ≠ 0 →
        s1 = ink ∧
        e = [.remote false (.DidNotProduceFrame (BeginFrameAck.ofArgs args false))])) ∧
    (∃ s1 e, layer.OnBeginFrame g args = some (s1, e) ∧
      s1.frame_token_generator_ = layer.frame_token_generator_.incr ∧
      (layer.frame_token_generator_.value + 1 < 2 ^ 32 →
        s1.frame_token_generator_.value = layer.frame_token_generator_.value + 1) ∧
      (e.countP Effect.isDidNotProduce ≠ 0 →
        s1 = { layer with frame_token_generator_ := layer.frame_token_generator_.incr } ∧
        s1.client_resource_provider_ = layer.client_resource_provider_ ∧
        s1.generated_names_ = layer.generated_names_ ∧
        s1.bounds_ = layer.bounds_ ∧
        s1.child_frame_sink_id_ = layer.child_frame_sink_id_ ∧
        s1.local_surface_id_ = layer.local_surface_id_ ∧
        s1.local_surface_id_allocator_ = layer.local_surface_id_allocator_ ∧
        ∃ sink, e = [.remote sink (.DidNotProduceFrame (BeginFrameAck.ofArgs args false))])) := by
  obtain ⟨-, -, p, hp, -⟩ := (InkClient.Bound_iff ink).1 hink
  obtain ⟨⟨sink, hsink⟩, q, hq, hqwf⟩ := (LayerTreeFrameSink.layer_Bound_iff layer).1 hlayer
  constructor
  · rcases ink.OnBeginFrame_bound g args p hink hp with ⟨-, effects, hno, h⟩ | ⟨-, h⟩
    · refine ⟨_, _, h, ?_⟩
      intro hc
      exfalso
      apply hc
      rw [List.countP_append, (countP_eq_zero_of_no_response hno).2]
      rfl
    · exact ⟨_, _, h, fun _ => ⟨rfl, rfl⟩⟩
  · rcases layer.layer_OnBeginFrame_bound g args q sink hsink hq hqwf with
      ⟨-, effects, hno, h⟩ | ⟨-, h⟩
    · refine ⟨_, _, h, ?_, ?_, ?_⟩
      · rw [LayerTreeFrameSink.afterFrame_generator]
        rfl
      · intro hlt
        rw [LayerTreeFrameSink.afterFrame_generator]
        exact FrameTokenGenerator.incr_value_of_lt _ hlt
      · intro hc
        exfalso
        apply hc
        rw [List.countP_append, (countP_eq_zero_of_no_response hno).2]
        rfl
    · exact ⟨_, _, h, rfl, fun hlt => FrameTokenGenerator.incr_value_of_lt _ hlt,
        fun _ => ⟨rfl, rfl, rfl, rfl, rfl, rfl, rfl, sink, rfl⟩⟩

theorem tick_without_frame_keeps_state_witness :
    ({ inkBound with need_redraw_ := false }.Bound = true ∧ layerBound.tick.Bound = true) ∧
    (∃ s1 e, { inkBound with need_redraw_ := false }.OnBeginFrame true args0 = some (s1, e) ∧
      (e.countP Effect.isDidNotProduce ≠ 0 →
        s1 = { inkBound with need_redraw_ := false } ∧
        e = [.remote false (.DidNotProduceFrame (BeginFrameAck.ofArgs args0 false))])) ∧
    (∃ s1 e, layerBound.tick.OnBeginFrame true args0 = some (s1, e) ∧
      s1.frame_token_generator_ = layerBound.tick.frame_token_generator_.incr ∧
      (layerBound.tick.frame_token_generator_.value + 1 < 2 ^ 32 →
        s1.frame_token_generator_.value = layerBound.tick.frame_token_generator_.value + 1) ∧
      (e.countP Effect.isDidNotProduce ≠ 0 →
        s1 = { layerBound.tick with
               frame_token_generator_ := layerBound.tick.frame_token_generator_.incr } ∧
        s1.client_resource_provider_ = layerBound.tick.client_resource_provider_ ∧
        s1.generated_names_ = layerBound.tick.generated_names_ ∧
        s1.bounds_ = layerBound.tick.bounds_ ∧
        s1.child_frame_sink_id_ = layerBound.tick.child_frame_sink_id_ ∧
        s1.local_surface_id_ = layerBound.tick.local_surface_id_ ∧
        s1.local_surface_id_allocator_ = layerBound.tick.local_surface_id_allocator_ ∧
        ∃ sink, e = [.remote sink (.DidNotProduceFrame (BeginFrameAck.ofArgs args0 false))])) :=
  ⟨⟨by decide, by decide⟩,
   tick_without_frame_keeps_state true args0 { inkBound with need_redraw_ := false }
     layerBound.tick (by decide) (by decide)⟩

theorem LayerTreeFrameSink.layer_step_tokens (g : Bool) (s : LayerTreeFrameSink) (ev : LayerEvent)
    (hs : s.Bound = true) :
    ∃ s1 e, s.step g ev = some (s1, e) ∧ s1.Bound = true ∧
      ∀ t ∈ tokensOf e, t ≠ 0 ∧ t % 60 = 1 := by
  obtain ⟨s1, e, h, hb, hcase⟩ := LayerTreeFrameSink.layer_step_bound g s ev hs
  refine ⟨s1, e, h, hb, ?_⟩
  rcases hcase with ⟨-, ht⟩ | ⟨⟨args, rfl⟩, -, ht⟩
  · rw [ht]
    simp
  · obtain ⟨⟨sink, hsink⟩, p, hp, hwf⟩ := (LayerTreeFrameSink.layer_Bound_iff s).1 hs
    rcases s.layer_OnBeginFrame_bound g args p sink hsink hp hwf with
      ⟨hm, effects, hno, heq⟩ | ⟨hm, heq⟩
    · have hsame := h.symm.trans heq
      simp only [Option.some.injEq, Prod.mk.injEq] at hsame
      obtain ⟨-, rfl⟩ := hsame
      intro t ht1
      rw [tokensOf_append, tokensOf_no_response hno] at ht1
      simp only [tokensOf, submittedFrames, List.filterMap_cons, Effect.frame,
        List.filterMap_nil, List.map_cons, List.map_nil, List.nil_append,
        List.mem_singleton] at ht1
      have hv : t = s.frame_token_generator_.incr.value := ht1
      rw [hv]
      exact ⟨FrameTokenGenerator.incr_value_ne_zero _, hm⟩
    · have hsame := h.symm.trans heq
      simp only [Option.some.injEq, Prod.mk.injEq] at hsame
      obtain ⟨-, rfl⟩ := hsame
      intro t ht1
      simp [tokensOf, submittedFrames, Effect.frame] at ht1

theorem LayerTreeFrameSink.layer_run_nonzero (g : Bool) (evs : List LayerEvent) :
    ∀ s : LayerTreeFrameSink, s.Bound = true →
      ∃ s1 e, LayerTreeFrameSink.run g s evs = some (s1, e) ∧ s1.Bound = true ∧
        ∀ t ∈ tokensOf e, t ≠ 0 ∧ t % 60 = 1 := by
  induction evs with
  | nil =>
    intro s hs
    exact ⟨s, [], rfl, hs, by simp [tokensOf, submittedFrames]⟩
  | cons ev rest ih =>
    intro s hs
    obtain ⟨s1, e1, h1, hb1, ht1⟩ := LayerTreeFrameSink.layer_step_tokens g s ev hs
    obtain ⟨s2, e2, h2, hb2, ht2⟩ := ih s1 hb1
    refine ⟨s2, e1 ++ e2, ?_, hb2, ?_⟩
    · simp only [LayerTreeFrameSink.run, h1, h2]
    · intro t ht
      rw [tokensOf_append, List.mem_append] at ht
      rcases ht with ht | ht
      · exact ht1 t ht
      · exact ht2 t ht

theorem InkClient.run_nonzero (g : Bool) (evs : List InkEvent) :
    ∀ s : InkClient, s.Bound = true →
      ∃ s1 e, InkClient.run g s evs = some (s1, e) ∧ s1.Bound = true ∧
        ∀ t ∈ tokensOf e, t ≠ 0 := by
  induction evs with
  | nil =>
    intro s hs
    exact ⟨s, [], rfl, hs, by simp [tokensOf, submittedFrames]⟩
  | cons ev rest ih =>
    intro s hs
    obtain ⟨s1, e1, h1, hb1, hcase⟩ := InkClient.step_bound g s ev hs
    obtain ⟨s2, e2, h2, hb2, ht2⟩ := ih s1 hb1
    refine ⟨s2, e1 ++ e2, ?_, hb2, ?_⟩
    · simp only [InkClient.run, h1, h2]
    · intro t ht
      rw [tokensOf_append, List.mem_append] at ht
      rcases ht with ht | ht
      · rcases hcase with ⟨-, hnil⟩ | ⟨-, -, hone⟩
        · rw [hnil] at ht
          cases ht
        · rw [hone, List.mem_singleton] at ht
          rw [ht]
          exact FrameTokenGenerator.incr_value_ne_zero _
      · exact ht2 t ht

/-- C26: on a bound sink every run of events goes through, whatever the number
of ticks, and every frame submitted in it carries a non-zero frame token. An
`InkClient` frame is stamped with the value the generator has after its
pre-increment, which steps over 0; a `LayerTreeFrameSink` frame is submitted
only with a token congruent to 1 modulo 60. -/
theorem submitted_tokens_nonzero (g : Bool) (args : BeginFrameArgs) (ink : InkClient)
    (layer : LayerTreeFrameSink) (ievs : List InkEvent) (levs : List LayerEvent)
    (hink : ink.Bound = true) (hlayer : layer.Bound = true) :
    (∃ r, ink.CreateFrame g args = some r ∧
      r.2.1.metadata.frame_token = ink.frame_token_generator_.incr.value ∧
      r.2.1.metadata.frame_token ≠ 0) ∧
    (∃ s1 e, InkClient.run g ink ievs = some (s1, e) ∧
      ∀ f ∈ submittedFrames e, f.metadata.frame_token ≠ 0) ∧
    (∃ s1 e, LayerTreeFrameSink.run g layer levs = some (s1, e) ∧
      ∀ f ∈ submittedFrames e, f.metadata.frame_token ≠ 0 ∧ f.metadata.frame_token % 60 = 1) := by
  obtain ⟨hr, ⟨b, hb⟩, p, hp, hwf⟩ := (InkClient.Bound_iff ink).1 hink
  obtain ⟨e0, -, h0⟩ := ink.CreateFrame_bound g args p b hr hb hp hwf
  obtain ⟨s1, e1, h1, -, ht1⟩ := InkClient.run_nonzero g ievs ink hink
  obtain ⟨s2, e2, h2, -, ht2⟩ := LayerTreeFrameSink.layer_run_nonzero g levs layer hlayer
  refine ⟨⟨_, h0, rfl, FrameTokenGenerator.incr_value_ne_zero _⟩, ⟨s1, e1, h1, ?_⟩,
    ⟨s2, e2, h2, ?_⟩⟩
  · intro f hf
    exact ht1 _ (List.mem_map_of_mem _ hf)
  · intro f hf
    exact ht2 _ (List.mem_map_of_mem _ hf)

theorem submitted_tokens_nonzero_witness :
    (inkBound.Bound = true ∧ layerFull.Bound = true) ∧
    (∃ r, inkBound.CreateFrame true args0 = some r ∧
      r.2.1.metadata.frame_token = inkBound.frame_token_generator_.incr.value ∧
      r.2.1.metadata.frame_token ≠ 0) ∧
    (∃ s1 e, InkClient.run true inkBound (inkRound ++ inkRound) = some (s1, e) ∧
      ∀ f ∈ submittedFrames e, f.metadata.frame_token ≠ 0) ∧
    (∃ s1 e, LayerTreeFrameSink.run true layerFull
        [.OnBeginFrame args0, .OnBeginFrame args0] = some (s1, e) ∧
      ∀ f ∈ submittedFrames e, f.metadata.frame_token ≠ 0 ∧ f.metadata.frame_token % 60 = 1) :=
  ⟨⟨by decide, by decide⟩,
   submitted_tokens_nonzero true args0 inkBound layerFull (inkRound ++ inkRound)
     [.OnBeginFrame args0, .OnBeginFrame args0] (by decide) (by decide)⟩

/-! ## The quad list of a LayerTreeFrameSink frame -/

/-- C27: on a bound sink, the frame `LayerTreeFrameSink::CreateFrame` builds has
exactly one render pass. Its quad list is, in this order: one DebugBorder quad;
one Surface quad if and only if the embedded child id is valid; one Tile, one
Texture and one VideoHole quad if and only if a context provider is set; one
SolidColor quad last. It holds no Picture quad (`AppendPictureDrawQuad` returns
the pass as it got it), so the pass holds 2 + [child embedded] + 3 * [context
provider set] quads, and as many shared quad states. -/
theorem CreateFrame_quad_order (g : Bool) (args : BeginFrameArgs) (layer : LayerTreeFrameSink)
    (pass0 : RenderPass) (hlayer : layer.Bound = true) :
    layer.AppendPictureDrawQuad pass0 = pass0 ∧
    ∃ r pass, layer.CreateFrame g args = some r ∧ r.2.1.render_pass_list = [pass] ∧
      pass.kinds =
        [QuadKind.DebugBorder] ++
        (if layer.child_frame_sink_id_.is_valid then [QuadKind.Surface] else []) ++
        (if layer.context_provider_.isSome then
          [QuadKind.Tile, QuadKind.Texture, QuadKind.VideoHole] else []) ++
        [QuadKind.SolidColor] ∧
      QuadKind.Picture ∉ pass.kinds ∧
      pass.quad_list.length =
        2 + (if layer.child_frame_sink_id_.is_valid then 1 else 0) +
          3 * (if layer.context_provider_.isSome then 1 else 0) ∧
      pass.shared_quad_state_list.length = pass.quad_list.length := by
  obtain ⟨⟨sink, hsink⟩, p, hp, hwf⟩ := (LayerTreeFrameSink.layer_Bound_iff layer).1 hlayer
  obtain ⟨e, -, h⟩ := layer.layer_CreateFrame_bound g args p sink hsink hp hwf
  refine ⟨rfl, _, _, h, rfl, ?_, ?_, ?_, ?_⟩ <;>
    cases hv : layer.child_frame_sink_id_.is_valid <;>
    cases hcp : layer.context_provider_.isSome <;>
    simp [RenderPass.kinds, RenderPass.quad_list, RenderPass.shared_quad_state_list,
      LayerTreeFrameSink.frameOf, LayerTreeFrameSink.itemsOf, LayerTreeFrameSink.headItems,
      LayerTreeFrameSink.resourceItems, appendPair, Material.kind, hv, hcp]

theorem CreateFrame_quad_order_witness :
    layerFull.Bound = true ∧
    (layerFull.AppendPictureDrawQuad (RenderPass.SetNew 1 Rect.empty Rect.empty Transform.identity) =
        RenderPass.SetNew 1 Rect.empty Rect.empty Transform.identity ∧
    ∃ r pass, layerFull.CreateFrame true args0 = some r ∧ r.2.1.render_pass_list = [pass] ∧
      pass.kinds =
        [QuadKind.DebugBorder] ++
        (if layerFull.child_frame_sink_id_.is_valid then [QuadKind.Surface] else []) ++
        (if layerFull.context_provider_.isSome then
          [QuadKind.Tile, QuadKind.Texture, QuadKind.VideoHole] else []) ++
        [QuadKind.SolidColor] ∧
      QuadKind.Picture ∉ pass.kinds ∧
      pass.quad_list.length =
        2 + (if layerFull.child_frame_sink_id_.is_valid then 1 else 0) +
          3 * (if layerFull.context_provider_.isSome then 1 else 0) ∧
      pass.shared_quad_state_list.length = pass.quad_list.length) :=
  ⟨by decide,
   CreateFrame_quad_order true args0 layerFull
     (RenderPass.SetNew 1 Rect.empty Rect.empty Transform.identity) (by decide)⟩

/-! ## One embedded child at a time -/

/-- C28: a bound `LayerTreeFrameSink` embeds the child of its latest
`EmbedChild` call only. After `EmbedChild(c1)`, any events, and then
`EmbedChild(c2)` with a valid `c2` other than `c1`, every run of events without
a further `EmbedChild` goes through, and every frame submitted in it has exactly
one Surface quad: its range has no start and ends at `SurfaceId(c2, L2)`, with
`L2` the `LocalSurfaceId` the second call returned. No Surface quad of such a
frame references `c1`. -/
theorem second_embed_replaces_first (g : Bool) (s : LayerTreeFrameSink) (c1 c2 : FrameSinkId)
    (t1 t2 : Nat) (mid evs : List LayerEvent) (hs : s.Bound = true)
    (hvalid : c2.is_valid = true) (hne : c1 ≠ c2)
    (hno : ∀ ev ∈ evs, ev.isEmbedChild = false) :
    ∃ sm em s3 e,
      LayerTreeFrameSink.run g (s.EmbedChild c1 t1).1 mid = some (sm, em) ∧
      LayerTreeFrameSink.run g (sm.EmbedChild c2 t2).1 evs = some (s3, e) ∧
      ∀ f ∈ submittedFrames e,
        f.surfaceRanges = [embedRange c2 (sm.EmbedChild c2 t2).2.local_surface_id] ∧
        ∀ r ∈ f.surfaceRanges,
          r.end_.frame_sink_id ≠ c1 ∧ ∀ start, r.start = some start → start.frame_sink_id ≠ c1 := by
  have hb1 : (s.EmbedChild c1 t1).1.Bound = true := hs
  obtain ⟨sm, em, hm, hbm, -⟩ := LayerTreeFrameSink.layer_run_nonzero g mid _ hb1
  have hb2 : (sm.EmbedChild c2 t2).1.Bound = true := hbm
  obtain ⟨s3, e, h3, -, -⟩ := LayerTreeFrameSink.layer_run_nonzero g evs _ hb2
  obtain ⟨-, hsame⟩ := LayerTreeFrameSink.layer_run_same g evs _ _ _ h3 hno
  refine ⟨sm, em, s3, e, hm, h3, ?_⟩
  intro f hf
  have hf1 := hsame f hf
  rw [LayerTreeFrameSink.surfacesOf_headItems] at hf1
  have hv : (sm.EmbedChild c2 t2).1.child_frame_sink_id_.is_valid = true := hvalid
  rw [if_pos hv] at hf1
  have hf2 : f.surfaceRanges = [embedRange c2 (sm.EmbedChild c2 t2).2.local_surface_id] := hf1
  refine ⟨hf2, ?_⟩
  intro r hr
  rw [hf2, List.mem_singleton] at hr
  rw [hr]
  refine ⟨fun h => hne h.symm, ?_⟩
  intro start hstart
  cases hstart

theorem second_embed_replaces_first_witness :
    (layerBound.Bound = true ∧ FrameSinkId.is_valid ⟨0, 3⟩ = true ∧
      (⟨0, 2⟩ : FrameSinkId) ≠ ⟨0, 3⟩ ∧
      ∀ ev ∈ [LayerEvent.SetContextProvider (some ⟨11⟩), .OnBeginFrame args0],
        ev.isEmbedChild = false) ∧
    ∃ sm em s3 e,
      LayerTreeFrameSink.run true (layerBound.EmbedChild ⟨0, 2⟩ 40).1
        [.ReclaimResources []] = some (sm, em) ∧
      LayerTreeFrameSink.run true (sm.EmbedChild ⟨0, 3⟩ 50).1
        [.SetContextProvider (some ⟨11⟩), .OnBeginFrame args0] = some (s3, e) ∧
      ∀ f ∈ submittedFrames e,
        f.surfaceRanges = [embedRange ⟨0, 3⟩ (sm.EmbedChild ⟨0, 3⟩ 50).2.local_surface_id] ∧
        ∀ r ∈ f.surfaceRanges,
          r.end_.frame_sink_id ≠ ⟨0, 2⟩ ∧
            ∀ start, r.start = some start → start.frame_sink_id ≠ ⟨0, 2⟩ :=
  ⟨⟨by decide, by decide, by decide, by decide⟩,
   second_embed_replaces_first true layerBound ⟨0, 2⟩ ⟨0, 3⟩ 40 50 [.ReclaimResources []]
     [.SetContextProvider (some ⟨11⟩), .OnBeginFrame args0] (by decide) (by decide) (by decide)
     (by decide)⟩

/-! ## Which resource `CreateResource` creates -/

/-- C29: on a bound sink, `CreateResource` of either sink goes through
`CreateGpuResource` when a context provider is set and `g_use_gpu` is true and
through `CreateSoftwareResource` in every other case, and the resource it
registers in the ledger under the id it returns is GPU-backed in the first case
and a software shared-bitmap resource otherwise. The value `main` gives
`g_use_gpu` is false exactly when the `--use-gl` switch value is one of the two
SwiftShader implementation names. -/
theorem CreateResource_gpu_iff (g : Bool) (size : Size) (src : SkBitmap) (ink : InkClient)
    (layer : LayerTreeFrameSink) (webgl_name swiftshader_name use_gl : String)
    (hink : ink.Bound = true) (hlayer : layer.Bound = true) :
    (ink.CreateResource g size src =
      if ink.context_provider_.isSome = true ∧ g = true then ink.CreateGpuResource size src
      else ink.CreateSoftwareResource size src) ∧
    (∃ s1 id effects p1 entry, ink.CreateResource g size src = some (s1, id, effects) ∧
      s1.client_resource_provider_ = some p1 ∧ p1.find id = some entry ∧
      (entry.resource.is_software = false ↔ (ink.context_provider_.isSome = true ∧ g = true))) ∧
    (layer.CreateResource g size src =
      if layer.context_provider_.isSome = true ∧ g = true then layer.CreateGpuResource size src
      else layer.CreateSoftwareResource size src) ∧
    (∃ s1 id effects p1 entry, layer.CreateResource g size src = some (s1, id, effects) ∧
      s1.client_resource_provider_ = some p1 ∧ p1.find id = some entry ∧
      (entry.resource.is_software = false ↔
        (layer.context_provider_.isSome = true ∧ g = true))) ∧
    (main_g_use_gpu webgl_name swiftshader_name use_gl = false ↔
      (use_gl = webgl_name ∨ use_gl = swiftshader_name)) := by
  obtain ⟨hr, -, p, hp, hwf⟩ := (InkClient.Bound_iff ink).1 hink
  obtain ⟨⟨sink, hsink⟩, q, hq, hqwf⟩ := (LayerTreeFrameSink.layer_Bound_iff layer).1 hlayer
  obtain ⟨e1, -, h1⟩ := ink.CreateResource_bound g size src p hr hp hwf
  obtain ⟨e2, -, h2⟩ := layer.layer_CreateResource_bound g size src q sink hsink hq hqwf
  have hkind : ∀ (cp : Option ContextProvider) (names : Nat) (id : ResourceId),
      ((ClientResourceProvider.entryOf id (newResource cp g names size).1
          (newResource cp g names size).2 0).2.resource.is_software = false ↔
        (cp.isSome = true ∧ g = true)) := by
    intro cp names id
    cases cp <;> cases g <;> simp [ClientResourceProvider.entryOf, newResource,
      TransferableResource.MakeGL, TransferableResource.MakeSoftware]
  refine ⟨?_,
    ⟨_, _, _, _, (ClientResourceProvider.entryOf p.next_id_
        (newResource ink.context_provider_ g ink.generated_names_ size).1
        (newResource ink.context_provider_ g ink.generated_names_ size).2 0).2,
      h1, rfl, ?_, hkind _ _ _⟩, ?_,
    ⟨_, _, _, _, (ClientResourceProvider.entryOf q.next_id_
        (newResource layer.context_provider_ g layer.generated_names_ size).1
        (newResource layer.context_provider_ g layer.generated_names_ size).2 0).2,
      h2, rfl, ?_, hkind _ _ _⟩, ?_⟩
  · cases hcp : ink.context_provider_.isSome <;> cases g <;>
      simp [InkClient.CreateResource, hcp]
  · exact ClientResourceProvider.find_append_new
      (fun e he => ((ClientResourceProvider.wellFormed_iff p _).1 hwf e he).1) _ _
  · cases hcp : layer.context_provider_.isSome <;> cases g <;>
      simp [LayerTreeFrameSink.CreateResource, hcp]
  · exact ClientResourceProvider.find_append_new
      (fun e he => ((ClientResourceProvider.wellFormed_iff q _).1 hqwf e he).1) _ _
  · simp only [main_g_use_gpu, Bool.and_eq_false_iff, bne_eq_false_iff_eq]

theorem CreateResource_gpu_iff_witness :
    (inkBound.Bound = true ∧ layerFull.Bound = true) ∧
    (inkBound.CreateResource true ⟨800, 600⟩ (SkBitmap.allocPixels 800 600) =
      if inkBound.context_provider_.isSome = true ∧ true = true then
        inkBound.CreateGpuResource ⟨800, 600⟩ (SkBitmap.allocPixels 800 600)
      else inkBound.CreateSoftwareResource ⟨800, 600⟩ (SkBitmap.allocPixels 800 600)) ∧
    (∃ s1 id effects p1 entry,
      inkBound.CreateResource true ⟨800, 600⟩ (SkBitmap.allocPixels 800 600) =
        some (s1, id, effects) ∧
      s1.client_resource_provider_ = some p1 ∧ p1.find id = some entry ∧
      (entry.resource.is_software = false ↔
        (inkBound.context_provider_.isSome = true ∧ true = true))) ∧
    (layerFull.CreateResource true ⟨800, 600⟩ (SkBitmap.allocPixels 800 600) =
      if layerFull.context_provider_.isSome = true ∧ true = true then
        layerFull.CreateGpuResource ⟨800, 600⟩ (SkBitmap.allocPixels 800 600)
      else layerFull.CreateSoftwareResource ⟨800, 600⟩ (SkBitmap.allocPixels 800 600)) ∧
    (∃ s1 id effects p1 entry,
      layerFull.CreateResource true ⟨800, 600⟩ (SkBitmap.allocPixels 800 600) =
        some (s1, id, effects) ∧
      s1.client_resource_provider_ = some p1 ∧ p1.find id = some entry ∧
      (entry.resource.is_software = false ↔
        (layerFull.context_provider_.isSome = true ∧ true = true))) ∧
    (main_g_use_gpu "swiftshader-webgl" "swiftshader" "swiftshader" = false ↔
      ("swiftshader" = "swiftshader-webgl" ∨ "swiftshader" = "swiftshader")) :=
  ⟨⟨by decide, by decide⟩,
   CreateResource_gpu_iff true ⟨800, 600⟩ (SkBitmap.allocPixels 800 600) inkBound layerFull
     "swiftshader-webgl" "swiftshader" "swiftshader" (by decide) (by decide)⟩

/-! ## The colour cycle of a LayerTreeFrameSink -/

theorem submittedFrames_length (effects : List Effect) :
    (submittedFrames effects).length = effects.countP Effect.isSubmit := by
  induction effects with
  | nil => rfl
  | cons x rest ih =>
    cases x with
    | remote a call =>
      cases call <;>
        simp_all [submittedFrames, Effect.frame, Effect.isSubmit, List.countP_cons]
    | _ => simp_all [submittedFrames, Effect.frame, Effect.isSubmit, List.countP_cons]

theorem LayerTreeFrameSink.frameOf_solidColors (s : LayerTreeFrameSink) (g : Bool)
    (p : ClientResourceProvider) (args : BeginFrameArgs) :
    (s.frameOf g p args).solidColors = [colorAt (s.frame_token_generator_.value / 60)] := by
  cases hv : s.child_frame_sink_id_.is_valid <;>
    cases hcp : s.context_provider_.isSome <;>
    simp [CompositorFrame.solidColors, CompositorFrame.quads, RenderPass.quad_list,
      LayerTreeFrameSink.frameOf, LayerTreeFrameSink.itemsOf, LayerTreeFrameSink.headItems,
      LayerTreeFrameSink.resourceItems, appendPair, hv, hcp]

theorem LayerTreeFrameSink.layer_step_colors (g : Bool) (s : LayerTreeFrameSink)
    (ev : LayerEvent) (hs : s.Bound = true) :
    ∃ s1 e, s.step g ev = some (s1, e) ∧ s1.Bound = true ∧
      (((∃ args, ev = .OnBeginFrame args) ∧
          s1.frame_token_generator_ = s.frame_token_generator_.incr ∧
          ((s.frame_token_generator_.incr.value % 60 = 1 ∧
              tokenColors e = [(s.frame_token_generator_.incr.value,
                [colorAt (s.frame_token_generator_.incr.value / 60)])]) ∨
           (s.frame_token_generator_.incr.value % 60 ≠ 1 ∧ tokenColors e = []))) ∨
       ((∀ args, ev ≠ .OnBeginFrame args) ∧
          s1.frame_token_generator_ = s.frame_token_generator_ ∧ tokenColors e = [])) := by
  obtain ⟨s1, e, h, hb, hcase⟩ := LayerTreeFrameSink.layer_step_cadence g s ev hs
  refine ⟨s1, e, h, hb, ?_⟩
  have hnone : ∀ e : List Effect, e.countP Effect.isSubmit = 0 → tokenColors e = [] := by
    intro e he
    have hl := submittedFrames_length e
    rw [he, List.length_eq_zero] at hl
    simp only [tokenColors, hl, List.map_nil]
  rcases hcase with ⟨⟨args, rfl⟩, hg, hmod⟩ | ⟨hne, hg, hsub, -⟩
  · left
    refine ⟨⟨args, rfl⟩, hg, ?_⟩
    rcases hmod with ⟨hm, -, -⟩ | ⟨hm, hc, -⟩
    · left
      refine ⟨hm, ?_⟩
      obtain ⟨⟨sink, hr⟩, p, hp, hwf⟩ := (LayerTreeFrameSink.layer_Bound_iff s).1 hs
      rcases LayerTreeFrameSink.layer_OnBeginFrame_bound s g args p sink hr hp hwf with
        ⟨-, effects, heff, h2⟩ | ⟨hmod, -⟩
      · have heq : some (s1, e) = some (_, _) := h.symm.trans h2
        simp only [Option.some.injEq, Prod.mk.injEq] at heq
        obtain ⟨-, rfl⟩ := heq
        simp only [tokenColors, submittedFrames_append, submittedFrames_no_response heff,
          List.nil_append]
        simp only [submittedFrames, List.filterMap_cons, Effect.frame, List.filterMap_nil,
          List.map_cons, List.map_nil, LayerTreeFrameSink.frameOf_solidColors]
        rfl
      · exact absurd hm hmod
    · right
      exact ⟨hm, hnone e hc⟩
  · right
    exact ⟨hne, hg, hnone e hsub⟩

theorem producedFrom_succ (v n : Nat) :
    producedFrom v (n + 1) =
      (if (v + 1) % 60 = 1 then [(v + 1, [colorAt ((v + 1) / 60)])] else []) ++
        producedFrom (v + 1) n := by
  unfold producedFrom
  rw [List.range'_succ, List.filter_cons]
  by_cases h : (v + 1) % 60 = 1
  · simp [h]
  · simp [h]

theorem LayerTreeFrameSink.layer_run_colors (g : Bool) (evs : List LayerEvent) :
    ∀ s : LayerTreeFrameSink, s.Bound = true →
      s.frame_token_generator_.value + LayerEvent.ticks evs < 2 ^ 32 →
      ∃ s1 e, LayerTreeFrameSink.run g s evs = some (s1, e) ∧ s1.Bound = true ∧
        s1.frame_token_generator_.value =
          s.frame_token_generator_.value + LayerEvent.ticks evs ∧
        tokenColors e = producedFrom s.frame_token_generator_.value (LayerEvent.ticks evs) := by
  induction evs with
  | nil =>
    intro s hs _
    exact ⟨s, [], rfl, hs, rfl, rfl⟩
  | cons ev rest ih =>
    intro s hs hlt
    rw [LayerEvent.layer_ticks_cons] at hlt ⊢
    obtain ⟨s1, e1, h1, hb1, hcase⟩ := LayerTreeFrameSink.layer_step_colors g s ev hs
    have happ : ∀ a b : List Effect, tokenColors (a ++ b) = tokenColors a ++ tokenColors b := by
      intro a b
      simp only [tokenColors, submittedFrames_append, List.map_append]
    rcases hcase with ⟨⟨args, rfl⟩, hg, hmod⟩ | ⟨hne, hg, hnil⟩
    · simp only at hlt ⊢
      have hv : s.frame_token_generator_.incr.value = s.frame_token_generator_.value + 1 :=
        FrameTokenGenerator.incr_value_of_lt _ (by omega)
      obtain ⟨s2, e2, h2, hb2, hv2, hc2⟩ := ih s1 hb1 (by rw [hg, hv]; omega)
      refine ⟨s2, e1 ++ e2, ?_, hb2, ?_, ?_⟩
      · simp only [LayerTreeFrameSink.run, h1, h2]
      · rw [hv2, hg, hv]; omega
      · rw [happ, hc2, hg, hv, producedFrom_succ]
        rw [hv] at hmod
        rcases hmod with ⟨hm, hc⟩ | ⟨hm, hc⟩
        · rw [hc, if_pos hm]
        · rw [hc, if_neg hm]
    · have hz : (match ev with | .OnBeginFrame _ => 1 | _ => 0) = 0 := by
        cases ev <;> first | rfl | exact absurd rfl (hne _)
      rw [hz] at hlt ⊢
      obtain ⟨s2, e2, h2, hb2, hv2, hc2⟩ := ih s1 hb1 (by rw [hg]; omega)
      refine ⟨s2, e1 ++ e2, ?_, hb2, ?_, ?_⟩
      · simp only [LayerTreeFrameSink.run, h1, h2]
      · rw [hv2, hg]; rfl
      · rw [happ, hc2, hg, hnil]; rfl

theorem producedFrom_zero (n : Nat) :
    producedFrom 0 n = (List.range ((n + 59) / 60)).map (fun k => (60 * k + 1, [colorAt k])) := by
  induction n with
  | zero => rfl
  | succ n ih =>
    have hsplit : producedFrom 0 (n + 1) =
        producedFrom 0 n ++
          (if (n + 1) % 60 = 1 then [(n + 1, [colorAt ((n + 1) / 60)])] else []) := by
      unfold producedFrom
      rw [List.range'_concat, List.filter_append, List.map_append]
      have h3 : 0 + 1 + 1 * n = n + 1 := by omega
      rw [h3]
      by_cases h : (n + 1) % 60 = 1
      · simp [h]
      · simp [h]
    rw [hsplit, ih]
    by_cases h : (n + 1) % 60 = 1
    · have h1 : (n + 1 + 59) / 60 = (n + 59) / 60 + 1 := by omega
      have h2 : 60 * ((n + 59) / 60) + 1 = n + 1 := by omega
      have h3 : (n + 1) / 60 = (n + 59) / 60 := by omega
      rw [if_pos h, h1, List.range_succ, List.map_append, h3]
      simp only [List.map_cons, List.map_nil, h2]
    · have h1 : (n + 1 + 59) / 60 = (n + 59) / 60 := by omega
      rw [if_neg h, h1, List.append_nil]

/-- C30: take a bound `LayerTreeFrameSink` whose token generator still stands at
0, as it does after the bind, and any events with fewer than 2^32 ticks among
them. The run goes through and submits one frame for every 60 ticks begun; the
k-th submitted frame (counting from 0) has the frame token `60k + 1` and exactly
one SolidColor quad, of colour `colors[k mod 3]`: RED, GREEN, YELLOW in turn.
The index `k mod 3` is within the 3-element colour table, and the colours of
two consecutive submitted frames differ. -/
theorem solid_colour_cycles (g : Bool) (layer : LayerTreeFrameSink) (evs : List LayerEvent)
    (hl : layer.Bound = true) (h0 : layer.frame_token_generator_.value = 0)
    (hn : LayerEvent.ticks evs < 2 ^ 32) :
    (∃ s1 e, LayerTreeFrameSink.run g layer evs = some (s1, e) ∧
      (submittedFrames e).map (fun f => (f.metadata.frame_token, f.solidColors)) =
        (List.range ((LayerEvent.ticks evs + 59) / 60)).map
          (fun k => (60 * k + 1, [colors.getD (k % 3) 0]))) ∧
    colors = [SK_ColorRED, SK_ColorGREEN, SK_ColorYELLOW] ∧
    ∀ k : Nat, k % 3 < colors.length ∧
      colors.getD (k % 3) 0 ≠ colors.getD ((k + 1) % 3) 0 := by
  obtain ⟨s1, e, h, -, -, hc⟩ :=
    LayerTreeFrameSink.layer_run_colors g evs layer hl (by rw [h0]; omega)
  rw [h0, producedFrom_zero] at hc
  refine ⟨⟨s1, e, h, hc⟩, rfl, ?_⟩
  intro k
  have hk : k % 3 = 0 ∨ k % 3 = 1 ∨ k % 3 = 2 := by omega
  refine ⟨Nat.mod_lt _ (by decide), ?_⟩
  rcases hk with hk | hk | hk
  · have hk1 : (k + 1) % 3 = 1 := by omega
    rw [hk, hk1]; decide
  · have hk1 : (k + 1) % 3 = 2 := by omega
    rw [hk, hk1]; decide
  · have hk1 : (k + 1) % 3 = 0 := by omega
    rw [hk, hk1]; decide

theorem solid_colour_cycles_witness :
    (layerFull.Bound = true ∧ layerFull.frame_token_generator_.value = 0 ∧
      LayerEvent.ticks [LayerEvent.OnBeginFrame args0, .OnBeginFrame args0] < 2 ^ 32) ∧
    (∃ s1 e, LayerTreeFrameSink.run true layerFull
        [LayerEvent.OnBeginFrame args0, .OnBeginFrame args0] = some (s1, e) ∧
      (submittedFrames e).map (fun f => (f.metadata.frame_token, f.solidColors)) =
        (List.range ((LayerEvent.ticks [LayerEvent.OnBeginFrame args0, .OnBeginFrame args0] + 59)
            / 60)).map
          (fun k => (60 * k + 1, [colors.getD (k % 3) 0]))) ∧
    colors = [SK_ColorRED, SK_ColorGREEN, SK_ColorYELLOW] ∧
    ∀ k : Nat, k % 3 < colors.length ∧
      colors.getD (k % 3) 0 ≠ colors.getD ((k + 1) % 3) 0 :=
  ⟨⟨by decide, by decide, by decide⟩,
   solid_colour_cycles true layerFull [LayerEvent.OnBeginFrame args0, .OnBeginFrame args0]
     (by decide) (by decide) (by decide)⟩

end demo
